import Mathlib

/-!
# m8rscript: scanner, handle stores, parse engine and native functions

A shallow embedding of parts of the m8rscript runtime and the properties
proved about them.

* `Scanner` embeds `src/m8rscript/Scanner.cpp`: the byte source, the one-byte
  pushback slot, the token-string buffer and the token scanners.
* `IdStore` embeds the handle store template of `src/m8rscript/Global.h`.
* `ParseEngine` embeds the recursive-descent parser of
  `src/src/ParseEngine.cpp` as a function from a token list to the sequence
  of emitter calls it makes.
* `Duration` embeds the packed duration of `src/src/SystemTime.h`.
* `Global`, `IPAddr` and `IPAddrProto` embed the native functions of
  `src/src/Global.cpp` and `src/lib/m8rscript/src/IPAddr.cpp` over a VM stack
  and a log of the calls they make into the runtime.

Bytes are natural numbers below 256. A loop of the source is a function that
recurses on a step budget; when the budget is exhausted it returns `none`
(scanner) or `Outcome.outOfBudget` (handle stores and parse engine).
-/

namespace M8r

/-! ## Token codes (`enum yytokentype` of `parse.tab.cpp`) -/

abbrev K_FUNCTION : Nat := 1
abbrev K_NEW : Nat := 2
abbrev K_DELETE : Nat := 3
abbrev K_VAR : Nat := 4
abbrev K_DO : Nat := 10
abbrev K_WHILE : Nat := 11
abbrev K_FOR : Nat := 12
abbrev K_IF : Nat := 13
abbrev K_ELSE : Nat := 14
abbrev K_SWITCH : Nat := 15
abbrev K_CASE : Nat := 16
abbrev K_DEFAULT : Nat := 17
abbrev K_BREAK : Nat := 18
abbrev K_CONTINUE : Nat := 19
abbrev K_RETURN : Nat := 20
abbrev K_UNKNOWN : Nat := 21
abbrev K_COMMENT : Nat := 22
abbrev T_FLOAT : Nat := 48
abbrev T_IDENTIFIER : Nat := 49
abbrev T_STRING : Nat := 50
abbrev T_INTEGER : Nat := 51
abbrev O_RSHIFTEQ : Nat := 65
abbrev O_RSHIFTFILLEQ : Nat := 66
abbrev O_LSHIFTEQ : Nat := 67
abbrev O_ADDEQ : Nat := 68
abbrev O_SUBEQ : Nat := 69
abbrev O_MULEQ : Nat := 70
abbrev O_DIVEQ : Nat := 71
abbrev O_MODEQ : Nat := 72
abbrev O_ANDEQ : Nat := 73
abbrev O_XOREQ : Nat := 74
abbrev O_OREQ : Nat := 75
abbrev O_RSHIFT : Nat := 76
abbrev O_RSHIFTFILL : Nat := 77
abbrev O_LSHIFT : Nat := 78
abbrev O_INC : Nat := 79
abbrev O_DEC : Nat := 80
abbrev O_LAND : Nat := 81
abbrev O_LOR : Nat := 82
abbrev O_LE : Nat := 83
abbrev O_GE : Nat := 84
abbrev O_EQ : Nat := 85
abbrev O_NE : Nat := 86
abbrev E_ERROR : Nat := 191
abbrev C_EOF : Nat := 255

/-! ## C library helpers used by the scanner -/

/-- The bytes of a string literal, without the terminating NUL. -/
def bytes (s : String) : List Nat := s.toList.map Char.toNat

/-- C `strchr(s, c) != NULL` for a NUL-terminated string `s`: the terminator
itself is found when `c` is 0. -/
def strchr (s : List Nat) (c : Nat) : Bool := c == 0 || s.contains c

/-- C `strncmp(s1, s2, n)`: compares at most `n` bytes and stops at a NUL.
Reading past the end of a list reads the terminating NUL. -/
def strncmp : List Nat → List Nat → Nat → Int
  | _, _, 0 => 0
  | s1, s2, n + 1 =>
    let c1 := s1.headD 0
    let c2 := s2.headD 0
    if c1 ≠ c2 then (c1 : Int) - (c2 : Int)
    else if c1 = 0 then 0
    else strncmp s1.tail s2.tail n

/-! ## Scanner (`Scanner.cpp`) -/

/-- One row of the `keywords` table. -/
structure Keyword where
  word : List Nat
  token : Nat

def specialSingleChar : List Nat := bytes "(),.:;?[]{}~"
def specialFirstChar : List Nat := bytes "!%&*+-/<=>^|"

def keywords : List Keyword :=
  [ ⟨bytes "break", K_BREAK⟩,
    ⟨bytes "case", K_CASE⟩,
    ⟨bytes "continue", K_CONTINUE⟩,
    ⟨bytes "default", K_DEFAULT⟩,
    ⟨bytes "delete", K_DELETE⟩,
    ⟨bytes "do", K_DO⟩,
    ⟨bytes "else", K_ELSE⟩,
    ⟨bytes "for", K_FOR⟩,
    ⟨bytes "function", K_FUNCTION⟩,
    ⟨bytes "if", K_IF⟩,
    ⟨bytes "new", K_NEW⟩,
    ⟨bytes "return", K_RETURN⟩,
    ⟨bytes "switch", K_SWITCH⟩,
    ⟨bytes "var", K_VAR⟩,
    ⟨bytes "while", K_WHILE⟩ ]

def isDigit (c : Nat) : Bool := decide (48 ≤ c) && decide (c ≤ 57)
def isHex (c : Nat) : Bool :=
  (decide (65 ≤ c) && decide (c ≤ 70)) || (decide (97 ≤ c) && decide (c ≤ 102))
def isUpper (c : Nat) : Bool := decide (65 ≤ c) && decide (c ≤ 90)
def isLower (c : Nat) : Bool := decide (97 ≤ c) && decide (c ≤ 122)
def isLetter (c : Nat) : Bool := isUpper c || isLower c
def isIdFirst (c : Nat) : Bool := isLetter c || c == 36 || c == 95
def isIdOther (c : Nat) : Bool := isDigit c || isIdFirst c
def isWhitespace (c : Nat) : Bool :=
  c == 32 || c == 10 || c == 13 || c == 12 || c == 9 || c == 11

/-- The scanner object: the unread input (`_istream`), the pushback slot
(`_lastChar`, `C_EOF` when empty), the line counter, the token-string buffer
(`_ostring`), the start of the last token's text and the last token. -/
structure Scanner where
  _istream : List Nat
  _lastChar : Nat
  _lineno : Nat
  _ostring : List Nat
  _lastTokenValue : Nat
  _lastToken : Nat
deriving DecidableEq, Repr

namespace Scanner

/-- Modelled from the spec: the scanner as constructed on a byte source
(the constructor is declared in `Scanner.h`, which is not part of the
sources): nothing pushed back, line counter 1, empty token-string buffer. -/
def start (input : List Nat) : Scanner :=
  { _istream := input, _lastChar := C_EOF, _lineno := 1, _ostring := [],
    _lastTokenValue := 0, _lastToken := C_EOF }

/-- Modelled from the spec: `putback(c)` of `Scanner.h` (not part of the
sources) stores `c` in the single pushback slot that `get` empties. -/
def putback (c : Nat) : Scanner → Scanner
  | ⟨istream, _, lineno, ostring, lastTokenValue, lastToken⟩ =>
    ⟨istream, c, lineno, ostring, lastTokenValue, lastToken⟩

/-- `_ostring += c`. -/
def append (c : Nat) : Scanner → Scanner
  | ⟨istream, lastChar, lineno, ostring, lastTokenValue, lastToken⟩ =>
    ⟨istream, lastChar, lineno, ostring ++ [c], lastTokenValue, lastToken⟩

/-- `Scanner::get`: the pushed back byte if there is one, else the next byte
of the stream (as a `uint8_t`), else `C_EOF`; a newline read from the stream
increments the line counter. -/
def get : Scanner → Nat × Scanner
  | ⟨istream, lastChar, lineno, ostring, lastTokenValue, lastToken⟩ =>
    if lastChar ≠ C_EOF then (lastChar, ⟨istream, C_EOF, lineno, ostring, lastTokenValue, lastToken⟩)
    else
      match istream with
      | [] => (C_EOF, ⟨[], lastChar, lineno, ostring, lastTokenValue, lastToken⟩)
      | b :: rest =>
        let c := b % 256
        (c, ⟨rest, lastChar, if c = 10 then lineno + 1 else lineno, ostring, lastTokenValue,
          lastToken⟩)

/-- The step budget given to each loop of the scanner: every iteration of a
scanner loop removes a byte from the stream or the pushback slot. -/
def budget (s : Scanner) : Nat := s._istream.length + 2

/-- The `for` loop of `scanKeyword` over the rows of the table. -/
def scanKeywordLoop (buf : List Nat) (len : Nat) : List Keyword → Nat
  | [] => K_UNKNOWN
  | k :: ks => if strncmp k.word buf len = 0 then k.token else scanKeywordLoop buf len ks

/-- `Scanner::scanKeyword(current, len)`. -/
def scanKeyword (s : Scanner) (current len : Nat) : Nat :=
  scanKeywordLoop (s._ostring.drop current) len keywords

/-- The `while` loop of `scanString`. -/
def scanStringLoop (terminal : Nat) : Nat → Scanner → Option Scanner
  | 0, _ => none
  | fuel + 1, s =>
    let (c, s1) := get s
    if c = C_EOF then some s1
    else if c = terminal then some (append 0 s1)
    else scanStringLoop terminal fuel (append c s1)

/-- `Scanner::scanString(terminal)`. -/
def scanString (terminal : Nat) (s : Scanner) : Option (Nat × Scanner) :=
  (scanStringLoop terminal (budget s) s).map fun s1 => (T_STRING, s1)

/-- The `switch (c2)` at the end of `scanSpecial`: the two-byte operator
selected, or `none` when control reaches the code after the switch. -/
def scanSpecialSwitch (c2 : Nat) : Option Nat :=
  if c2 = 33 then (if c2 = 61 then some O_NE else none)
  else if c2 = 37 then (if c2 = 61 then some O_MODEQ else none)
  else if c2 = 38 then
    (if c2 = 38 then some O_LAND else if c2 = 61 then some O_ANDEQ else none)
  else if c2 = 42 then (if c2 = 61 then some O_MULEQ else none)
  else if c2 = 43 then
    (if c2 = 61 then some O_ADDEQ else if c2 = 43 then some O_INC else none)
  else if c2 = 45 then
    (if c2 = 61 then some O_SUBEQ else if c2 = 45 then some O_DEC else none)
  else if c2 = 47 then (if c2 = 61 then some O_DIVEQ else none)
  else if c2 = 61 then (if c2 = 61 then some O_EQ else none)
  else if c2 = 94 then (if c2 = 61 then some O_XOREQ else none)
  else if c2 = 124 then
    (if c2 = 61 then some O_OREQ else if c2 = 124 then some O_LOR else none)
  else none

/-- `Scanner::scanSpecial`. -/
def scanSpecial (s : Scanner) : Nat × Scanner :=
  let (c1, s1) := get s
  if c1 = C_EOF then (C_EOF, s1)
  else if c1 = 60 then
    let (c2, s2) := get s1
    if c2 = C_EOF then (C_EOF, s2)
    else if c2 = 60 then
      let (c3, s3) := get s2
      if c3 = C_EOF then (C_EOF, s3)
      else if c3 = 61 then (O_LSHIFTEQ, s3)
      else (O_LSHIFT, putback c3 s3)
    else if c2 = 61 then (O_LE, s2)
    else (c1, putback c2 s2)
  else if c1 = 62 then
    let (c2, s2) := get s1
    if c2 = C_EOF then (C_EOF, s2)
    else if c2 = 62 then
      let (c3, s3) := get s2
      if c3 = C_EOF then (C_EOF, s3)
      else if c3 = 61 then (O_RSHIFTEQ, s3)
      else if c3 = 62 then
        let (c4, s4) := get s3
        if c4 = C_EOF then (C_EOF, s4)
        else if c4 = 61 then (O_RSHIFTFILLEQ, s4)
        else (O_RSHIFTFILL, putback c4 s4)
      else (O_RSHIFT, putback c3 s3)
    else if c2 = 61 then (O_GE, s2)
    else (c1, putback c2 s2)
  else if strchr specialSingleChar c1 then (c1, s1)
  else if !strchr specialFirstChar c1 then (C_EOF, putback c1 s1)
  else
    let (c2, s2) := get s1
    if c2 = C_EOF then (C_EOF, s2)
    else
      match scanSpecialSwitch c2 with
      | some t => (t, s2)
      | none => (c1, putback c2 s2)

/-- The `while` loop of `scanIdentifier`. -/
def scanIdentifierLoop : Nat → Bool → Scanner → Option Scanner
  | 0, _, _ => none
  | fuel + 1, first, s =>
    let (c, s1) := get s
    if c = C_EOF then some s1
    else if !((first && isIdFirst c) || (!first && isIdOther c)) then some (putback c s1)
    else scanIdentifierLoop fuel false (append c s1)

/-- `Scanner::scanIdentifier`. -/
def scanIdentifier (s : Scanner) : Option (Nat × Scanner) :=
  let current := s._ostring.length
  match scanIdentifierLoop (budget s) true s with
  | none => none
  | some s1 =>
    let len := s1._ostring.length - current
    if len ≠ 0 then
      let s2 := append 0 s1
      let token := scanKeyword s2 current len
      some (if token = K_UNKNOWN then T_IDENTIFIER else token, s2)
    else some (C_EOF, s1)

/-- The `while` loop at the end of `scanNumber`. -/
def scanNumberLoop (hex : Bool) : Nat → Scanner → Option Scanner
  | 0, _ => none
  | fuel + 1, s =>
    let (c, s1) := get s
    if c = C_EOF then some s1
    else if !(isDigit c || (hex && isHex c)) then some (putback c (append 0 s1))
    else scanNumberLoop hex fuel (append c s1)

/-- `Scanner::scanNumber`. In `c == '0' && ((c = get()) == 'x' || c == 'X')`
the second byte is read only when the first is `'0'`. -/
def scanNumber (s : Scanner) : Option (Nat × Scanner) :=
  let (c, s1) := get s
  if !isDigit c then some (C_EOF, putback c s1)
  else
    let s2 := append c s1
    if c = 48 then
      let (c', s3) := get s2
      if c' = 120 ∨ c' = 88 then
        let s4 := append 120 s3
        let (c'', s5) := get s4
        if !isDigit c'' then some (K_UNKNOWN, putback c'' (append 0 s5))
        else (scanNumberLoop true (budget s5) s5).map fun s6 => (T_INTEGER, s6)
      else
        let s4 := putback c' s3
        (scanNumberLoop false (budget s4) s4).map fun s5 => (T_INTEGER, s5)
    else
      let s3 := putback c s2
      (scanNumberLoop false (budget s3) s3).map fun s4 => (T_INTEGER, s4)

/-- The loop of `scanComment` over the body of a block comment: `some
(true, _)` when the closing `*/` was found, `some (false, _)` at `C_EOF`. -/
def scanBlockCommentLoop : Nat → Scanner → Option (Bool × Scanner)
  | 0, _ => none
  | fuel + 1, s =>
    let (c, s1) := get s
    if c = C_EOF then some (false, s1)
    else if c = 42 then
      let (c', s2) := get s1
      if c' = 47 then some (true, s2)
      else scanBlockCommentLoop fuel (putback c' s2)
    else scanBlockCommentLoop fuel s1

/-- The loop of `scanComment` over the body of a line comment. -/
def scanLineCommentLoop : Nat → Scanner → Option (Bool × Scanner)
  | 0, _ => none
  | fuel + 1, s =>
    let (c, s1) := get s
    if c = C_EOF then some (false, s1)
    else if c = 10 then some (true, s1)
    else scanLineCommentLoop fuel s1

/-- `Scanner::scanComment`, called after a `'/'` was read. -/
def scanComment (s : Scanner) : Option (Nat × Scanner) :=
  let (c, s1) := get s
  if c = 42 then
    (scanBlockCommentLoop (budget s1) s1).map fun r =>
      (if r.1 then K_COMMENT else C_EOF, r.2)
  else if c = 47 then
    (scanLineCommentLoop (budget s1) s1).map fun r =>
      (if r.1 then K_COMMENT else C_EOF, r.2)
  else some (47, s1)

/-- The body of the `switch (c)` of `getToken` for a byte `c` that is not
white space. -/
def getTokenSwitch (c : Nat) (s : Scanner) : Option (Nat × Scanner) :=
  if c = 47 then
    (scanComment s).map fun r => (if r.1 = K_COMMENT then C_EOF else r.1, r.2)
  else if c = 34 then scanString 34 s
  else if c = 39 then scanString 39 s
  else
    match scanNumber (putback c s) with
    | none => none
    | some (t1, s1) =>
      if t1 ≠ C_EOF then some (t1, s1)
      else
        let (t2, s2) := scanSpecial s1
        if t2 ≠ C_EOF then some (t2, s2)
        else
          match scanIdentifier s2 with
          | none => none
          | some (t3, s3) =>
            if t3 ≠ C_EOF then some (t3, s3) else some (K_UNKNOWN, s3)

/-- The `while (token == C_EOF && (c = get()) != C_EOF)` loop of `getToken`. -/
def getTokenLoop : Nat → Scanner → Option (Nat × Scanner)
  | 0, _ => none
  | fuel + 1, s =>
    let (c, s1) := get s
    if c = C_EOF then some (C_EOF, s1)
    else if isWhitespace c then getTokenLoop fuel s1
    else
      match getTokenSwitch c s1 with
      | none => none
      | some (token, s2) =>
        if token = C_EOF then getTokenLoop fuel s2 else some (token, s2)

/-- `Scanner::getToken`: the token and the scanner afterwards. -/
def getToken : Scanner → Option (Nat × Scanner)
  | ⟨istream, lastChar, lineno, ostring, _, lastToken⟩ =>
    let s0 : Scanner := ⟨istream, lastChar, lineno, ostring, ostring.length, lastToken⟩
    match getTokenLoop (budget s0) s0 with
    | none => none
    | some (token, ⟨istream1, lastChar1, lineno1, ostring1, lastTokenValue1, _⟩) =>
      some (token, ⟨istream1, lastChar1, lineno1, ostring1, lastTokenValue1, token⟩)

/-- The text the last `getToken` call appended to the token-string buffer
(the buffer from `_lastTokenValue` on). -/
def tokenText (s : Scanner) : List Nat := s._ostring.drop s._lastTokenValue

/-- The input a scanner has not consumed: the byte in the pushback slot, if
any, followed by the bytes left in the stream. -/
def unread (s : Scanner) : List Nat :=
  (if s._lastChar ≠ C_EOF then [s._lastChar] else []) ++ s._istream

/-- The operators of the `<` and `>` families: the text, the token, and the
bytes that extend the text to a longer operator. -/
def angleOperators : List (List Nat × Nat × List Nat) :=
  [ (bytes "<", 60, bytes "<="),
    (bytes "<<", O_LSHIFT, bytes "="),
    (bytes "<<=", O_LSHIFTEQ, []),
    (bytes "<=", O_LE, []),
    (bytes ">", 62, bytes ">="),
    (bytes ">>", O_RSHIFT, bytes ">="),
    (bytes ">>=", O_RSHIFTEQ, []),
    (bytes ">>>", O_RSHIFTFILL, bytes "="),
    (bytes ">>>=", O_RSHIFTFILLEQ, []),
    (bytes ">=", O_GE, []) ]

/-- The scanner with its line counter set to 0: what is left of a state when
the line counter is disregarded. -/
def clearLine : Scanner → Scanner
  | ⟨istream, lastChar, _, ostring, lastTokenValue, lastToken⟩ =>
    ⟨istream, lastChar, 0, ostring, lastTokenValue, lastToken⟩

/-- The state `s` with the line counter disregarded, nothing pushed back and
`u` as the bytes left in the stream. -/
def atInput (u : List Nat) (s : Scanner) : Scanner :=
  ⟨u, C_EOF, 0, s._ostring, s._lastTokenValue, s._lastToken⟩

/-- Whether the bytes contain `*/`, the end of a block comment. -/
def containsCommentEnd : List Nat → Bool
  | [] => false
  | a :: t => (a == 42 && t.head? == some 47) || containsCommentEnd t

/-- The token a fresh scanner returns first on an input, and the input it
leaves unread. -/
def firstToken (input : List Nat) : Option (Nat × List Nat) :=
  (getToken (start input)).map fun r => (r.1, unread r.2)

end Scanner

/-! ## Handle stores (`Global::IdStore` of `Global.h`) -/

/-- How a loop of the source ends in the model. -/
inductive Outcome (α : Type) where
  /-- The loop ran to its end. -/
  | done (a : α)
  /-- An `assert` of the source failed. -/
  | assertFailed
  /-- The step budget ran out before the loop ended. -/
  | outOfBudget
  /-- The source reads the last element of an empty vector. -/
  | undefined
deriving DecidableEq, Repr

/-- `IdStore<IdType, ValueType>`: `_values` holds one pointer per slot (`none`
is the null pointer), `_valueMarked` one mark bit per slot. A handle is the
raw index of its slot. -/
structure IdStore (V : Type) where
  _values : List (Option V)
  _valueMarked : List Bool
  _freeValueIdCount : Nat
deriving DecidableEq, Repr

namespace IdStore

variable {V : Type}

/-- `std::vector<bool>::resize(n)`: cut to `n` bits or fill up with `false`. -/
def resize (l : List Bool) (n : Nat) : List Bool :=
  l.take n ++ List.replicate (n - l.length) false

/-- `_values[i]` (the null pointer outside the vector). -/
def slot (st : IdStore V) (i : Nat) : Option V := st._values.getD i none

/-- `_valueMarked[i]`. -/
def marked (st : IdStore V) (i : Nat) : Bool := st._valueMarked.getD i false

/-- `IdStore::isValid`. -/
def isValid (st : IdStore V) (id : Nat) : Bool := decide (id < st._values.length)

/-- `IdStore::empty`. -/
def empty (st : IdStore V) : Bool := st._values.isEmpty

/-- `IdStore::ptr`. -/
def ptr (st : IdStore V) (id : Nat) : Option V :=
  if isValid st id then slot st id else none

/-- `IdStore::gcClear`. -/
def gcClear (st : IdStore V) : IdStore V :=
  { st with _valueMarked := resize [] st._values.length }

/-- `IdStore::gcMark`. -/
def gcMark (st : IdStore V) (id : Nat) : IdStore V :=
  { st with _valueMarked := st._valueMarked.set id true }

/-- `IdStore::isGCMarked`. -/
def isGCMarked (st : IdStore V) (id : Nat) : Bool := marked st id

/-- The `for` loop of `add`: the index of the first null slot, counting the
head of the list as index `i`. -/
def addLoop : List (Option V) → Nat → Option Nat
  | [], _ => none
  | none :: _, i => some i
  | some _ :: rest, i => addLoop rest (i + 1)

/-- `IdStore::add(value)`: the handle and the store afterwards, or `none`
when `assert(false)` is reached. -/
def add (st : IdStore V) (value : Option V) : Option (Nat × IdStore V) :=
  if st._freeValueIdCount ≠ 0 then
    match addLoop st._values 0 with
    | some i =>
      some (i, { st with _values := st._values.set i value,
                         _freeValueIdCount := st._freeValueIdCount - 1 })
    | none => none
  else
    let id := st._values.length
    let values := st._values ++ [value]
    some (id, { st with _values := values,
                        _valueMarked := (resize st._valueMarked values.length).set id true })

/-- `IdStore::remove(id, del)`: the store afterwards, or `none` when the
`assert` fails. `idBool` is the conversion of a handle to `bool` used by the
assertion (the handle class is not part of the sources). `del` only decides
whether the object is deleted. The free counter is a `uint32_t`. -/
def remove (idBool : Nat → Bool) (st : IdStore V) (id : Nat) (_del : Bool) :
    Option (IdStore V) :=
  if idBool id && decide (id < st._values.length) && (slot st id).isSome then
    some { st with _values := st._values.set id none,
                   _freeValueIdCount := (st._freeValueIdCount + 1) % 4294967296 }
  else none

/-- The loop of `gcSweep`, from index `i` on; `i` is a `uint16_t`. A live
slot is removed when it is unmarked and `sweepable`. -/
def gcSweepLoop (idBool : Nat → Bool) (sweepable : V → Bool) :
    Nat → Nat → IdStore V → Outcome (IdStore V)
  | 0, _, _ => Outcome.outOfBudget
  | fuel + 1, i, st =>
    if i < st._values.length then
      match slot st i with
      | some v =>
        if !marked st i && sweepable v then
          match remove idBool st i true with
          | none => Outcome.assertFailed
          | some st1 => gcSweepLoop idBool sweepable fuel ((i + 1) % 65536) st1
        else gcSweepLoop idBool sweepable fuel ((i + 1) % 65536) st
      | none => gcSweepLoop idBool sweepable fuel ((i + 1) % 65536) st
    else Outcome.done st

/-- `IdStore<IdType, ValueType>::gcSweep` (the general template, used by the
string store), run with a step budget. -/
def gcSweep (idBool : Nat → Bool) (fuel : Nat) (st : IdStore V) : Outcome (IdStore V) :=
  gcSweepLoop idBool (fun _ => true) fuel 0 st

/-- `IdStore<ObjectId, Object>::gcSweep` (the specialisation for the object
store), run with a step budget; `collectable` is `Object::collectable`. -/
def gcSweepObject (idBool : Nat → Bool) (collectable : V → Bool) (fuel : Nat)
    (st : IdStore V) : Outcome (IdStore V) :=
  gcSweepLoop idBool collectable fuel 0 st

/-- Whether a sweep frees slot `j` of `st`: the slot is live, unmarked and
`sweepable`. -/
def swept (sweepable : V → Bool) (st : IdStore V) (j : Nat) : Bool :=
  match slot st j with
  | some v => !marked st j && sweepable v
  | none => false

end IdStore

/-! ## Parse engine (`ParseEngine.cpp`)

The parse engine reads tokens through its parser and calls the parser's
emitter. The parser class is not part of the sources: the model records
every call made on it in a trace, and takes the values that the parser
returns (labels, code addresses, the function built) from a `Parser` record
of functions of the trace so far. -/

/-- The tokens `ParseEngine.cpp` names (`enum class Token`); `AND` and
`Unknown` stand for tokens of the scanner that the file does not name. -/
inductive Token where
  | EndOfFile | Semicolon | Colon | Comma | Period | Question
  | LParen | RParen | LBrace | RBrace | LBracket | RBracket
  | Identifier | String | Integer | Float | True | False | Null | Undefined | This
  | Function | Class | Constructor | Var | Delete | New
  | If | Else | Switch | Case | Default | While | Do | For | Break | Continue | Return
  | INC | DEC | Minus | Twiddle | Bang | Plus | Star | Slash | Percent
  | STO | ADDSTO | SUBSTO | MULSTO | DIVSTO | MODSTO | SHLSTO | SHRSTO | SARSTO
  | ANDSTO | ORSTO | XORSTO
  | LOR | LAND | OR | XOR | EQ | NE | LT | GT | GE | LE | SHL | SHR | SAR
  | Expr | MissingVarDecl | OneVarDeclAllowed | DuplicateDefault
  | ConstantValueRequired | PropertyAssignment
  | AND | Unknown
deriving DecidableEq, Repr

/-- The opcodes `ParseEngine.cpp` names (`enum class Op`). -/
inductive Op where
  | MOVE | ADD | SUB | MUL | DIV | MOD | SHL | SHR | SAR | AND | OR | XOR
  | LOR | LAND | EQ | NE | LT | GT | GE | LE
  | JMP | JT | JF | CALL | NEW | RET
  | PREINC | PREDEC | POSTINC | POSTDEC | UMINUS | UNOT | UNEG | UNKNOWN
deriving DecidableEq, Repr

/-- `Scanner::TokenValue`: the value that comes with a token. -/
structure TokenValue where
  str : String
  number : Nat
  integer : Int
deriving DecidableEq, Repr

/-- A token with its value, as delivered by the parser's scanner. -/
structure Tok where
  token : Token
  value : TokenValue
deriving DecidableEq, Repr

/-- An atom: `none` is the default-constructed `Atom()`, which converts to
`false`; `some s` is the atom of the string `s`. -/
abbrev Atom := Option String

/-- A `Label`: the address taken by `label()` and the address of the jump
that `addMatchedJump` stores in it. -/
structure Label where
  label : Int
  matchedAddr : Int
deriving DecidableEq, Repr

/-- `Parser::IdType`. -/
inductive IdType where
  | MustBeLocal | MightBeLocal | NotLocal
deriving DecidableEq, Repr

/-- `Parser::DerefType`. -/
inductive DerefType where
  | Prop | Elt
deriving DecidableEq, Repr

/-- `OperatorInfo::Assoc`. -/
inductive Assoc where
  | LeftAssoc | RightAssoc
deriving DecidableEq, Repr

/-- The values the parse engine builds: `Value()`, `Value::NullValue()`,
`Value(bool)`, `Value(int)`, `Value(Float(number))`, the value of a string
literal and `Value(f)` for the function `f` returned by `functionEnd`. -/
inductive Value where
  | undefined
  | null
  | bool (b : Bool)
  | integer (i : Int)
  | float (number : Nat)
  | stringLiteral (s : String)
  | function (f : Option Nat)
deriving DecidableEq, Repr

/-- One call made on `_parser`, with its arguments. -/
inductive Emit where
  | expectedError (token : Token) (s : Option String)
  | label
  | addMatchedJump (op : Op) (label : Label)
  | matchJump (label : Label)
  | matchJumpToLabel (label : Label) (dst : Label)
  | matchJumpToAddr (label : Label) (addr : Int)
  | jumpToLabel (op : Op) (label : Label)
  | startDeferred | resumeDeferred | endDeferred | emitDeferred
  | emitId (atom : Atom) (idType : IdType)
  | emitMove | emitDup | emitPush | discardResult | pushTmp | pushThis
  | pushK (v : Value)
  | pushKStr (s : String)
  | emitUnOp (op : Op)
  | emitBinOp (op : Op)
  | emitDeref (type : DerefType)
  | emitCallRet (op : Op) (objectReg : Int) (argCount : Nat)
  | emitCaseTest
  | emitLoadLit (array : Bool)
  | emitAppendElt | emitAppendProp
  | functionStart (ctor : Bool)
  | functionAddParam (atom : Atom)
  | functionParamsEnd
  | functionEnd
  | classStart | classEnd
  | setProperty (name : Atom) (v : Value)
  | addVar (name : Atom)
  | addNamedFunction (f : Option Nat) (name : Atom)
  | addStringLiteral (s : String)
deriving DecidableEq, Repr

/-- Modelled from the spec: the values returned by the emitter (class
`Parser`, not part of the sources), each as a function of the calls made so
far: the address `label()` takes, the jump address `addMatchedJump` stores in
its label, the offsets returned by `startDeferred`, `resumeDeferred` and
`emitDeferred`, the object register returned by `emitDeref`, the function
returned by `functionEnd` (`none` when it is not valid) and
`functionIsCtor`. -/
structure Parser where
  label : List Emit → Int
  matchedAddr : List Emit → Int
  startDeferred : List Emit → Int
  resumeDeferred : List Emit → Int
  emitDeferred : List Emit → Int
  emitDeref : List Emit → Int
  functionEnd : List Emit → Option Nat
  functionIsCtor : List Emit → Bool

/-- The state of a parse: the tokens the scanner has still to deliver, the
calls made on `_parser` so far (oldest first), and the two label stacks of
the parse engine. -/
structure ParseEngine where
  tokens : List Tok
  trace : List Emit
  _breakStack : List (List Label)
  _continueStack : List (List Label)
deriving DecidableEq, Repr

/-- A member function of the parse engine: from the state before the call to
the returned value and the state after it. -/
def PE (α : Type) : Type := ParseEngine → Outcome (α × ParseEngine)

namespace PE

/-- Return `a` without touching the state. -/
def ret {α : Type} (a : α) : PE α := fun pe => Outcome.done (a, pe)

/-- Run `m`, then `f` on its value. -/
def andThen {α β : Type} (m : PE α) (f : α → PE β) : PE β := fun pe =>
  match m pe with
  | Outcome.done (a, pe1) => f a pe1
  | Outcome.assertFailed => Outcome.assertFailed
  | Outcome.outOfBudget => Outcome.outOfBudget
  | Outcome.undefined => Outcome.undefined

instance : Monad PE where
  pure := ret
  bind := andThen

/-- The step budget is exhausted. -/
def outOfBudget {α : Type} : PE α := fun _ => Outcome.outOfBudget

/-- The source has undefined behaviour here. -/
def undefined {α : Type} : PE α := fun _ => Outcome.undefined

end PE

namespace ParseEngine

/-- Record a call on `_parser`. -/
def emit (e : Emit) : PE Unit
  | ⟨tokens, trace, breaks, continues⟩ =>
    Outcome.done ((), ⟨tokens, trace ++ [e], breaks, continues⟩)

/-- The calls made on `_parser` so far. -/
def getTrace : PE (List Emit) := fun pe => Outcome.done (pe.trace, pe)

/-- Modelled from the spec: `getToken()` of `ParseEngine.h` (not part of the
sources) is the current token of the scanner, `EndOfFile` at the end. -/
def getToken : PE Token := fun pe =>
  Outcome.done ((pe.tokens.head?.map Tok.token).getD Token.EndOfFile, pe)

/-- Modelled from the spec: `getTokenValue()` of `ParseEngine.h` is the value
of the current token. -/
def getTokenValue : PE TokenValue := fun pe =>
  Outcome.done ((pe.tokens.head?.map Tok.value).getD ⟨"", 0, 0⟩, pe)

/-- Modelled from the spec: `retireToken()` of `ParseEngine.h` moves on to
the next token. -/
def retireToken : PE Unit
  | ⟨tokens, trace, breaks, continues⟩ =>
    Outcome.done ((), ⟨tokens.tail, trace, breaks, continues⟩)

/-- Modelled from the spec: `_parser->atomizeString(s)` is the atom of `s`. -/
def atomizeString (s : String) : Atom := some s

section Emitter

variable (P : Parser)

/-- `_parser->label()`. -/
def label : PE Label := do
  emit Emit.label
  let tr ← getTrace
  pure { label := P.label tr, matchedAddr := -1 }

/-- `_parser->addMatchedJump(op, label)`: the label is passed by reference
and comes back with the address of the jump. -/
def addMatchedJump (op : Op) (l : Label) : PE Label := do
  let tr ← getTrace
  let l1 : Label := { l with matchedAddr := P.matchedAddr tr }
  emit (Emit.addMatchedJump op l1)
  pure l1

/-- `_parser->startDeferred()`. -/
def startDeferred : PE Int := do
  emit Emit.startDeferred
  let tr ← getTrace
  pure (P.startDeferred tr)

/-- `_parser->resumeDeferred()`. -/
def resumeDeferred : PE Int := do
  emit Emit.resumeDeferred
  let tr ← getTrace
  pure (P.resumeDeferred tr)

/-- `_parser->emitDeferred()`. -/
def emitDeferred : PE Int := do
  emit Emit.emitDeferred
  let tr ← getTrace
  pure (P.emitDeferred tr)

/-- `_parser->emitDeref(type)`. -/
def emitDeref (type : DerefType) : PE Int := do
  emit (Emit.emitDeref type)
  let tr ← getTrace
  pure (P.emitDeref tr)

/-- `_parser->functionEnd()`. -/
def functionEnd : PE (Option Nat) := do
  emit Emit.functionEnd
  let tr ← getTrace
  pure (P.functionEnd tr)

/-- `_parser->functionIsCtor()`. -/
def functionIsCtor : PE Bool := do
  let tr ← getTrace
  pure (P.functionIsCtor tr)

end Emitter

/-- `ParseEngine::expect(Token token)`. -/
def expect (token : Token) : PE Bool := do
  let t ← getToken
  if t ≠ token then do
    emit (Emit.expectedError token none)
    pure false
  else do
    retireToken
    pure true

/-- `ParseEngine::expect(Token token, bool expected, const char* s)`. -/
def expectIf (token : Token) (expected : Bool) (s : Option String) : PE Bool := do
  if !expected then do
    emit (Emit.expectedError token s)
    pure expected
  else pure expected

/-- A loop `while (body()) { }`, with a step budget. -/
def whileTrue (body : PE Bool) : Nat → PE Unit
  | 0 => PE.outOfBudget
  | k + 1 => do
    let b ← body
    if b then whileTrue body k else pure ()

/-- One row of `_opInfos` (`ParseEngine::OperatorInfo`). -/
structure OperatorInfo where
  token : Token
  prec : Nat
  assoc : Assoc
  sto : Bool
  op : Op
deriving DecidableEq, Repr

/-- `ParseEngine::_opInfos`. -/
def _opInfos : List OperatorInfo :=
  [ ⟨Token.STO, 1, Assoc.RightAssoc, false, Op.MOVE⟩,
    ⟨Token.ADDSTO, 2, Assoc.RightAssoc, true, Op.ADD⟩,
    ⟨Token.SUBSTO, 2, Assoc.RightAssoc, true, Op.SUB⟩,
    ⟨Token.MULSTO, 3, Assoc.RightAssoc, true, Op.MUL⟩,
    ⟨Token.DIVSTO, 3, Assoc.RightAssoc, true, Op.DIV⟩,
    ⟨Token.MODSTO, 3, Assoc.RightAssoc, true, Op.MOD⟩,
    ⟨Token.SHLSTO, 4, Assoc.RightAssoc, true, Op.SHL⟩,
    ⟨Token.SHRSTO, 4, Assoc.RightAssoc, true, Op.SHR⟩,
    ⟨Token.SARSTO, 4, Assoc.RightAssoc, true, Op.SAR⟩,
    ⟨Token.ANDSTO, 5, Assoc.RightAssoc, true, Op.AND⟩,
    ⟨Token.ORSTO, 5, Assoc.RightAssoc, true, Op.OR⟩,
    ⟨Token.XORSTO, 5, Assoc.RightAssoc, true, Op.XOR⟩,
    ⟨Token.LOR, 6, Assoc.LeftAssoc, false, Op.LOR⟩,
    ⟨Token.LAND, 7, Assoc.LeftAssoc, false, Op.LAND⟩,
    ⟨Token.OR, 8, Assoc.LeftAssoc, false, Op.OR⟩,
    ⟨Token.XOR, 9, Assoc.LeftAssoc, false, Op.XOR⟩,
    ⟨Token.EQ, 11, Assoc.LeftAssoc, false, Op.EQ⟩,
    ⟨Token.NE, 11, Assoc.LeftAssoc, false, Op.NE⟩,
    ⟨Token.LT, 12, Assoc.LeftAssoc, false, Op.LT⟩,
    ⟨Token.GT, 12, Assoc.LeftAssoc, false, Op.GT⟩,
    ⟨Token.GE, 12, Assoc.LeftAssoc, false, Op.GE⟩,
    ⟨Token.LE, 12, Assoc.LeftAssoc, false, Op.LE⟩,
    ⟨Token.SHL, 13, Assoc.LeftAssoc, false, Op.SHL⟩,
    ⟨Token.SHR, 13, Assoc.LeftAssoc, false, Op.SHR⟩,
    ⟨Token.SAR, 13, Assoc.LeftAssoc, false, Op.SAR⟩,
    ⟨Token.Plus, 14, Assoc.LeftAssoc, false, Op.ADD⟩,
    ⟨Token.Minus, 14, Assoc.LeftAssoc, false, Op.SUB⟩,
    ⟨Token.Star, 15, Assoc.LeftAssoc, false, Op.MUL⟩,
    ⟨Token.Slash, 15, Assoc.LeftAssoc, false, Op.DIV⟩,
    ⟨Token.Percent, 15, Assoc.LeftAssoc, false, Op.MOD⟩ ]

/-- Modelled from the spec: the default argument of `expression(minPrec)`,
declared in `ParseEngine.h` (not part of the sources); 1 is the lowest
precedence of the operator table. -/
def defaultMinPrec : Nat := 1

/-- Modelled from the spec: a default-constructed `Label` (the struct is
declared in a header that is not part of the sources). -/
def noLabel : Label := { label := -1, matchedAddr := -1 }

/-- The members of the parse engine that call each other in a cycle, as a
caller sees them. A call of a member defined earlier in this file is made
directly; a call of a member defined later, or of the member itself, is made
through this record, with a budget that is one lower. -/
structure Callees where
  statement : PE Bool
  expression : Nat → PE Bool
  arithmeticPrimary : PE Bool
  memberExpression : PE Bool

/-- `for (auto it : labels) _parser->matchJump(it)`. -/
def matchJumps : List Label → PE Unit
  | [] => pure ()
  | l :: ls => do
    emit (Emit.matchJump l)
    matchJumps ls

/-- `_breakStack.back()`; the last pushed entry is the head of the list. -/
def breakBack : PE (List Label) := fun pe =>
  match pe._breakStack with
  | [] => Outcome.undefined
  | top :: _ => Outcome.done (top, pe)

/-- `_continueStack.back()`; the last pushed entry is the head of the list. -/
def continueBack : PE (List Label) := fun pe =>
  match pe._continueStack with
  | [] => Outcome.undefined
  | top :: _ => Outcome.done (top, pe)

/-- `_breakStack.back().push_back(label)`. -/
def breakPush (l : Label) : PE Unit
  | ⟨_, _, [], _⟩ => Outcome.undefined
  | ⟨tokens, trace, top :: rest, continues⟩ =>
    Outcome.done ((), ⟨tokens, trace, (top ++ [l]) :: rest, continues⟩)

/-- `_continueStack.back().push_back(label)`. -/
def continuePush (l : Label) : PE Unit
  | ⟨_, _, _, []⟩ => Outcome.undefined
  | ⟨tokens, trace, breaks, top :: rest⟩ =>
    Outcome.done ((), ⟨tokens, trace, breaks, (top ++ [l]) :: rest⟩)

/-- `_breakStack.emplace_back(); _continueStack.emplace_back();`. -/
def pushLoop : PE Unit
  | ⟨tokens, trace, breaks, continues⟩ =>
    Outcome.done ((), ⟨tokens, trace, [] :: breaks, [] :: continues⟩)

/-- `_breakStack.pop_back(); _continueStack.pop_back();`. -/
def popLoop : PE Unit
  | ⟨tokens, trace, _ :: breaks, _ :: continues⟩ =>
    Outcome.done ((), ⟨tokens, trace, breaks, continues⟩)
  | _ => Outcome.undefined

/-- `ParseEngine::propertyName`. -/
def propertyName : PE Bool := do
  let t ← getToken
  let v ← getTokenValue
  if t = Token.Identifier then do
    emit (Emit.emitId (atomizeString v.str) IdType.NotLocal)
    retireToken
    pure true
  else if t = Token.String then do
    emit (Emit.pushKStr v.str)
    retireToken
    pure true
  else if t = Token.Float then do
    emit (Emit.pushK (Value.float v.number))
    retireToken
    pure true
  else if t = Token.Integer then do
    emit (Emit.pushK (Value.integer v.integer))
    retireToken
    pure true
  else pure false

/-- `ParseEngine::propertyAssignment`. -/
def propertyAssignment (r : Callees) : PE Bool := do
  let b ← propertyName
  if !b then pure false
  else do
    let c ← expect Token.Colon
    if !c then pure false
    else do
      let e ← r.expression defaultMinPrec
      expectIf Token.Expr e none

/-- The `while (getToken() == Token::Comma)` loop of the array literal in
`primaryExpression`. -/
def arrayElementsLoop (r : Callees) : Nat → PE Unit
  | 0 => PE.outOfBudget
  | k + 1 => do
    let t ← getToken
    if t = Token.Comma then do
      retireToken
      let e ← r.expression defaultMinPrec
      let ok ← expectIf Token.Expr e (some "array element")
      if !ok then pure ()
      else do
        emit Emit.emitAppendElt
        arrayElementsLoop r k
    else pure ()

/-- The `while (getToken() == Token::Comma)` loop of the object literal in
`primaryExpression`. -/
def propertiesLoop (r : Callees) : Nat → PE Unit
  | 0 => PE.outOfBudget
  | k + 1 => do
    let t ← getToken
    if t = Token.Comma then do
      retireToken
      let e ← propertyAssignment r
      let ok ← expectIf Token.PropertyAssignment e none
      if !ok then pure ()
      else do
        emit Emit.emitAppendProp
        propertiesLoop r k
    else pure ()

/-- `ParseEngine::primaryExpression`. -/
def primaryExpression (r : Callees) (n : Nat) : PE Bool := do
  let t ← getToken
  let v ← getTokenValue
  if t = Token.Identifier then do
    emit (Emit.emitId (atomizeString v.str) IdType.MightBeLocal)
    retireToken
    pure true
  else if t = Token.This then do
    emit Emit.pushThis
    retireToken
    pure true
  else if t = Token.Float then do
    emit (Emit.pushK (Value.float v.number))
    retireToken
    pure true
  else if t = Token.Integer then do
    emit (Emit.pushK (Value.integer v.integer))
    retireToken
    pure true
  else if t = Token.String then do
    emit (Emit.pushKStr v.str)
    retireToken
    pure true
  else if t = Token.True then do
    emit (Emit.pushK (Value.bool true))
    retireToken
    pure true
  else if t = Token.False then do
    emit (Emit.pushK (Value.bool false))
    retireToken
    pure true
  else if t = Token.Null then do
    emit (Emit.pushK Value.null)
    retireToken
    pure true
  else if t = Token.Undefined then do
    emit (Emit.pushK Value.undefined)
    retireToken
    pure true
  else if t = Token.LBracket then do
    retireToken
    emit (Emit.emitLoadLit true)
    let e ← r.expression defaultMinPrec
    if e then do
      emit Emit.emitAppendElt
      arrayElementsLoop r n
      let _ ← expect Token.RBracket
      pure true
    else do
      let _ ← expect Token.RBracket
      pure true
  else if t = Token.LBrace then do
    retireToken
    emit (Emit.emitLoadLit false)
    let e ← propertyAssignment r
    if e then do
      emit Emit.emitAppendProp
      propertiesLoop r n
      let _ ← expect Token.RBrace
      pure true
    else do
      let _ ← expect Token.RBrace
      pure true
  else pure false

/-- The `while (getToken() == Token::Comma)` loop of `argumentList`; `i` is
the number of arguments so far. -/
def argumentListLoop (r : Callees) : Nat → Nat → PE Nat
  | 0, _ => PE.outOfBudget
  | k + 1, i => do
    let t ← getToken
    if t = Token.Comma then do
      retireToken
      let _ ← r.expression defaultMinPrec
      emit Emit.emitPush
      argumentListLoop r k (i + 1)
    else pure i

/-- `ParseEngine::argumentList`. -/
def argumentList (r : Callees) (n : Nat) : PE Nat := do
  let e ← r.expression defaultMinPrec
  if !e then pure 0
  else do
    emit Emit.emitPush
    argumentListLoop r n 1

/-- The `while (1)` loop of `formalParameterList`, entered with an
identifier as the current token. -/
def formalParameterLoop : Nat → PE Unit
  | 0 => PE.outOfBudget
  | k + 1 => do
    let v ← getTokenValue
    emit (Emit.functionAddParam (atomizeString v.str))
    retireToken
    let t ← getToken
    if t ≠ Token.Comma then pure ()
    else do
      retireToken
      let t2 ← getToken
      if t2 ≠ Token.Identifier then emit (Emit.expectedError Token.Identifier none)
      else formalParameterLoop k

/-- `ParseEngine::formalParameterList`. -/
def formalParameterList (n : Nat) : PE Unit := do
  let t ← getToken
  if t ≠ Token.Identifier then pure ()
  else formalParameterLoop n

/-- `ParseEngine::functionExpression(ctor)`. -/
def functionExpression (P : Parser) (r : Callees) (n : Nat) (ctor : Bool) :
    PE (Option Nat) := do
  let _ ← expect Token.LParen
  emit (Emit.functionStart ctor)
  formalParameterList n
  emit Emit.functionParamsEnd
  let _ ← expect Token.RParen
  let _ ← expect Token.LBrace
  whileTrue r.statement n
  let _ ← expect Token.RBrace
  functionEnd P

/-- `ParseEngine::classContentsStatement`. -/
def classContentsStatement (P : Parser) (r : Callees) (n : Nat) : PE Bool := do
  let t ← getToken
  if t = Token.EndOfFile then pure false
  else if t = Token.Function then do
    retireToken
    let v ← getTokenValue
    let name := atomizeString v.str
    let _ ← expect Token.Identifier
    let f ← functionExpression P r n false
    emit (Emit.setProperty name (Value.function f))
    pure true
  else if t = Token.Constructor then do
    retireToken
    let f ← functionExpression P r n true
    if f.isNone then pure false
    else do
      emit (Emit.setProperty (some "constructor") (Value.function f))
      pure true
  else if t = Token.Var then do
    retireToken
    let t1 ← getToken
    if t1 ≠ Token.Identifier then pure false
    else do
      let v1 ← getTokenValue
      let name := atomizeString v1.str
      retireToken
      let t2 ← getToken
      if t2 = Token.STO then do
        retireToken
        let t3 ← getToken
        let v3 ← getTokenValue
        if t3 = Token.Float then do
          retireToken
          emit (Emit.setProperty name (Value.float v3.number))
        else if t3 = Token.Integer then do
          retireToken
          emit (Emit.setProperty name (Value.integer v3.integer))
        else if t3 = Token.String then do
          emit (Emit.addStringLiteral v3.str)
          retireToken
          emit (Emit.setProperty name (Value.stringLiteral v3.str))
        else if t3 = Token.True then do
          retireToken
          emit (Emit.setProperty name (Value.bool true))
        else if t3 = Token.False then do
          retireToken
          emit (Emit.setProperty name (Value.bool false))
        else if t3 = Token.Null then do
          retireToken
          emit (Emit.setProperty name Value.null)
        else if t3 = Token.Undefined then do
          retireToken
          emit (Emit.setProperty name Value.undefined)
        else do
          let _ ← expect Token.ConstantValueRequired
          emit (Emit.setProperty name Value.null)
        let _ ← expect Token.Semicolon
        pure true
      else do
        emit (Emit.setProperty name Value.null)
        let _ ← expect Token.Semicolon
        pure true
  else pure false

/-- `ParseEngine::classExpression`. -/
def classExpression (P : Parser) (r : Callees) (n : Nat) : PE Bool := do
  emit Emit.classStart
  let _ ← expect Token.LBrace
  whileTrue (classContentsStatement P r n) n
  let _ ← expect Token.RBrace
  emit Emit.classEnd
  pure true

/-- `ParseEngine::memberExpression`. -/
def memberExpression (P : Parser) (r : Callees) (n : Nat) : PE Bool := do
  let t ← getToken
  if t = Token.New then do
    retireToken
    let _ ← r.memberExpression
    let t1 ← getToken
    if t1 = Token.LParen then do
      retireToken
      let argCount ← argumentList r n
      let _ ← expect Token.RParen
      emit (Emit.emitCallRet Op.NEW (-1) argCount)
      pure true
    else do
      emit (Emit.emitCallRet Op.NEW (-1) 0)
      pure true
  else if t = Token.Function then do
    retireToken
    let f ← functionExpression P r n false
    if f.isNone then pure false
    else do
      emit (Emit.pushK (Value.function f))
      pure true
  else if t = Token.Class then do
    retireToken
    let _ ← classExpression P r n
    pure true
  else primaryExpression r n

/-- The `while (1)` loop of `leftHandSideExpression`. -/
def leftHandSideLoop (P : Parser) (r : Callees) (n : Nat) : Nat → Int → PE Bool
  | 0, _ => PE.outOfBudget
  | k + 1, objectReg => do
    let t ← getToken
    if t = Token.LParen then do
      retireToken
      let argCount ← argumentList r n
      let _ ← expect Token.RParen
      emit (Emit.emitCallRet Op.CALL objectReg argCount)
      leftHandSideLoop P r n k (-1)
    else if t = Token.LBracket then do
      retireToken
      let _ ← r.expression defaultMinPrec
      let _ ← expect Token.RBracket
      let reg ← emitDeref P DerefType.Elt
      leftHandSideLoop P r n k reg
    else if t = Token.Period then do
      retireToken
      let v ← getTokenValue
      let name := atomizeString v.str
      let _ ← expect Token.Identifier
      emit (Emit.emitId name IdType.NotLocal)
      let reg ← emitDeref P DerefType.Prop
      leftHandSideLoop P r n k reg
    else pure true

/-- `ParseEngine::leftHandSideExpression`. -/
def leftHandSideExpression (P : Parser) (r : Callees) (n : Nat) : PE Bool := do
  let m ← memberExpression P r n
  if !m then pure false
  else leftHandSideLoop P r n n (-1)

/-- The first `switch` of `arithmeticPrimary`: the prefix operator of a token. -/
def prefixOp (t : Token) : Op :=
  if t = Token.INC then Op.PREINC
  else if t = Token.DEC then Op.PREDEC
  else if t = Token.Minus then Op.UMINUS
  else if t = Token.Twiddle then Op.UNOT
  else if t = Token.Bang then Op.UNEG
  else Op.UNKNOWN

/-- The second `switch` of `arithmeticPrimary`: the postfix operator of a
token. -/
def postfixOp (t : Token) : Op :=
  if t = Token.INC then Op.POSTINC
  else if t = Token.DEC then Op.POSTDEC
  else Op.UNKNOWN

/-- `ParseEngine::arithmeticPrimary`. -/
def arithmeticPrimary (P : Parser) (r : Callees) (n : Nat) : PE Bool := do
  let t ← getToken
  if t = Token.LParen then do
    retireToken
    let _ ← r.expression defaultMinPrec
    let _ ← expect Token.RParen
    pure true
  else if prefixOp t ≠ Op.UNKNOWN then do
    retireToken
    let _ ← r.arithmeticPrimary
    emit (Emit.emitUnOp (prefixOp t))
    pure true
  else do
    let l ← leftHandSideExpression P r n
    if !l then pure false
    else do
      let t1 ← getToken
      if postfixOp t1 ≠ Op.UNKNOWN then do
        retireToken
        emit (Emit.emitUnOp (postfixOp t1))
        pure true
      else pure true

/-- `std::find(_opInfos, endit, getToken())`. -/
def findOpInfo (t : Token) : Option OperatorInfo :=
  _opInfos.find? fun info => info.token == t

/-- The `while (1)` loop of `expression(minPrec)`. -/
def expressionLoop (P : Parser) (r : Callees) (minPrec : Nat) : Nat → PE Bool
  | 0 => PE.outOfBudget
  | k + 1 => do
    let t ← getToken
    match findOpInfo t with
    | none => pure true
    | some it =>
      if it.prec < minPrec then pure true
      else do
        let nextMinPrec := if it.assoc = Assoc.LeftAssoc then it.prec + 1 else it.prec
        retireToken
        if it.sto then emit Emit.emitDup else pure ()
        if it.op = Op.LAND ∨ it.op = Op.LOR then do
          emit Emit.emitDup
          let passLabel ← label P
          let skipLabel ← label P
          let skipResult : Bool := decide (it.op ≠ Op.LAND)
          let skipLabel ← addMatchedJump P (if skipResult then Op.JT else Op.JF) skipLabel
          let e ← r.expression nextMinPrec
          let ok ← expectIf Token.Expr e (some "right-hand side")
          if !ok then pure false
          else do
            emit (Emit.emitBinOp it.op)
            let passLabel ← addMatchedJump P Op.JMP passLabel
            emit (Emit.matchJump skipLabel)
            emit (Emit.pushK (Value.bool skipResult))
            emit Emit.emitMove
            emit (Emit.matchJump passLabel)
            if it.sto then emit Emit.emitMove else pure ()
            expressionLoop P r minPrec k
        else do
          let e ← r.expression nextMinPrec
          let ok ← expectIf Token.Expr e (some "right-hand side")
          if !ok then pure false
          else do
            emit (Emit.emitBinOp it.op)
            if it.sto then emit Emit.emitMove else pure ()
            expressionLoop P r minPrec k

/-- `ParseEngine::expression(minPrec)`. -/
def expression (P : Parser) (r : Callees) (n : Nat) (minPrec : Nat) : PE Bool := do
  let a ← arithmeticPrimary P r n
  if !a then pure false
  else do
    let t ← getToken
    if t = Token.Question then do
      retireToken
      let ifLabel ← label P
      let elseLabel ← label P
      let elseLabel ← addMatchedJump P Op.JF elseLabel
      emit Emit.pushTmp
      let _ ← r.expression defaultMinPrec
      emit Emit.emitMove
      let _ ← expect Token.Colon
      let ifLabel ← addMatchedJump P Op.JMP ifLabel
      emit (Emit.matchJump elseLabel)
      let _ ← r.expression defaultMinPrec
      emit Emit.emitMove
      emit (Emit.matchJump ifLabel)
      expressionLoop P r minPrec n
    else expressionLoop P r minPrec n

/-- `ParseEngine::variableDeclaration`. -/
def variableDeclaration (P : Parser) (r : Callees) (n : Nat) : PE Bool := do
  let t ← getToken
  if t ≠ Token.Identifier then pure false
  else do
    let v ← getTokenValue
    let name := atomizeString v.str
    emit (Emit.addVar name)
    retireToken
    let t1 ← getToken
    if t1 ≠ Token.STO then pure true
    else do
      retireToken
      emit (Emit.emitId name IdType.MustBeLocal)
      let e ← expression P r n defaultMinPrec
      let ok ← expectIf Token.Expr e (some "variable")
      if !ok then pure false
      else do
        emit Emit.emitMove
        emit Emit.discardResult
        pure true

/-- The `while (variableDeclaration())` loop of `variableDeclarationList`;
`count` is the number of declarations so far. -/
def variableDeclarationLoop (P : Parser) (r : Callees) (n : Nat) : Nat → Nat → PE Nat
  | 0, _ => PE.outOfBudget
  | k + 1, count => do
    let b ← variableDeclaration P r n
    if !b then pure count
    else do
      let t ← getToken
      if t ≠ Token.Comma then pure (count + 1)
      else do
        retireToken
        variableDeclarationLoop P r n k (count + 1)

/-- `ParseEngine::variableDeclarationList`. -/
def variableDeclarationList (P : Parser) (r : Callees) (n : Nat) : PE Nat :=
  variableDeclarationLoop P r n n 0

/-- `ParseEngine::jumpStatement`. -/
def jumpStatement (P : Parser) (r : Callees) (n : Nat) : PE Bool := do
  let t ← getToken
  if t = Token.Break ∨ t = Token.Continue then do
    let isBreak : Bool := decide (t = Token.Break)
    retireToken
    let _ ← expect Token.Semicolon
    let l ← label P
    let l ← addMatchedJump P Op.JMP l
    if isBreak then do
      breakPush l
      pure true
    else do
      continuePush l
      pure true
  else if t = Token.Return then do
    retireToken
    let e ← expression P r n defaultMinPrec
    if e then do
      emit (Emit.emitCallRet Op.RET (-1) 1)
      let _ ← expect Token.Semicolon
      pure true
    else do
      let isCtor ← functionIsCtor P
      if isCtor then do
        emit Emit.pushThis
        emit (Emit.emitCallRet Op.RET (-1) 1)
        let _ ← expect Token.Semicolon
        pure true
      else do
        emit (Emit.emitCallRet Op.RET (-1) 0)
        let _ ← expect Token.Semicolon
        pure true
  else pure false

/-- `ParseEngine::forLoopCondAndIt`. -/
def forLoopCondAndIt (P : Parser) (r : Callees) (n : Nat) : PE Unit := do
  let _ ← expect Token.Semicolon
  let l ← label P
  let _ ← expression P r n defaultMinPrec
  let l ← addMatchedJump P Op.JF l
  let _ ← startDeferred P
  let _ ← expect Token.Semicolon
  let _ ← expression P r n defaultMinPrec
  emit Emit.discardResult
  emit Emit.endDeferred
  let _ ← expect Token.RParen
  let _ ← r.statement
  let cs ← continueBack
  matchJumps cs
  let _ ← emitDeferred P
  emit (Emit.jumpToLabel Op.JMP l)
  emit (Emit.matchJump l)

/-- `ParseEngine::forIteration(iteratorName)`. -/
def forIteration (P : Parser) (r : Callees) (n : Nat) (iteratorName : Atom) : PE Unit := do
  if iteratorName.isSome then emit (Emit.emitId iteratorName IdType.MightBeLocal) else pure ()
  let _ ← leftHandSideExpression P r n
  let _ ← expect Token.RParen
  emit Emit.emitDup
  emit Emit.emitPush
  emit (Emit.emitId (some "iterator") IdType.NotLocal)
  let _ ← emitDeref P DerefType.Prop
  emit (Emit.emitCallRet Op.NEW (-1) 1)
  emit Emit.emitMove
  emit Emit.discardResult
  let l ← label P
  emit (Emit.emitId iteratorName IdType.MightBeLocal)
  emit (Emit.emitId (some "done") IdType.NotLocal)
  let _ ← emitDeref P DerefType.Prop
  emit (Emit.emitCallRet Op.CALL (-1) 0)
  let l ← addMatchedJump P Op.JT l
  let _ ← r.statement
  let cs ← continueBack
  matchJumps cs
  emit (Emit.emitId iteratorName IdType.MightBeLocal)
  emit (Emit.emitId (some "next") IdType.NotLocal)
  let _ ← emitDeref P DerefType.Prop
  emit (Emit.emitCallRet Op.CALL (-1) 0)
  emit Emit.discardResult
  emit (Emit.jumpToLabel Op.JMP l)
  emit (Emit.matchJump l)

/-- The three branches of `iterationStatement` between the pushes and the
pops of the label stacks. -/
def iterationBody (P : Parser) (r : Callees) (n : Nat) (type : Token) : PE Unit := do
  if type = Token.While then do
    let _ ← expect Token.LParen
    let l ← label P
    let _ ← expression P r n defaultMinPrec
    let l ← addMatchedJump P Op.JF l
    let _ ← expect Token.RParen
    let _ ← r.statement
    let cs ← continueBack
    matchJumps cs
    emit (Emit.jumpToLabel Op.JMP l)
    emit (Emit.matchJump l)
  else if type = Token.Do then do
    let l ← label P
    let _ ← r.statement
    let cs ← continueBack
    matchJumps cs
    let _ ← expect Token.While
    let _ ← expect Token.LParen
    let _ ← expression P r n defaultMinPrec
    emit (Emit.jumpToLabel Op.JT l)
    let _ ← expect Token.RParen
    let _ ← expect Token.Semicolon
  else if type = Token.For then do
    let _ ← expect Token.LParen
    let t ← getToken
    if t = Token.Var then do
      retireToken
      let t1 ← getToken
      let v1 ← getTokenValue
      let name : Atom := if t1 = Token.Identifier then atomizeString v1.str else none
      let count ← variableDeclarationList P r n
      let _ ← expectIf Token.MissingVarDecl (decide (count > 0)) none
      let t2 ← getToken
      if t2 = Token.Colon then do
        let _ ← expectIf Token.OneVarDeclAllowed (decide (count = 1)) none
        retireToken
        forIteration P r n name
      else do
        let _ ← expectIf Token.MissingVarDecl (decide (count > 0)) none
        forLoopCondAndIt P r n
    else do
      let e ← expression P r n defaultMinPrec
      if e then do
        let t2 ← getToken
        if t2 = Token.Colon then do
          retireToken
          forIteration P r n none
        else forLoopCondAndIt P r n
      else pure ()
  else pure ()

/-- `ParseEngine::iterationStatement`. -/
def iterationStatement (P : Parser) (r : Callees) (n : Nat) : PE Bool := do
  let type ← getToken
  if type ≠ Token.While ∧ type ≠ Token.Do ∧ type ≠ Token.For then pure false
  else do
    retireToken
    pushLoop
    iterationBody P r n type
    let bs ← breakBack
    matchJumps bs
    popLoop
    pure true

/-- `CaseEntry` of `switchStatement`. -/
structure CaseEntry where
  toStatement : Label
  fromStatement : Label
  statementAddr : Int
deriving DecidableEq, Repr

/-- The local variables of `switchStatement` that its `while (true)` loop
updates. -/
structure SwitchLocals where
  cases : List CaseEntry
  defaultStatement : Int
  defaultFromStatementLabel : Label
  haveDefault : Bool
deriving DecidableEq, Repr

/-- The first three calls for a `case` clause in `switchStatement`, after its
colon: the label and the `JT` to the body, and the start of the body in the
deferred code. -/
def switchCaseHead (P : Parser) : PE (Label × Int) := do
  let toStatement ← label P
  let toStatement ← addMatchedJump P Op.JT toStatement
  let statementAddr ← resumeDeferred P
  pure (toStatement, statementAddr)

/-- The body of a `case` clause in `switchStatement`, after its colon (the
`else` branch of `if (isDefault)`): the entry pushed on `cases`. -/
def switchCaseBody (P : Parser) (r : Callees) : PE CaseEntry := do
  let (toStatement, statementAddr) ← switchCaseHead P
  let b ← r.statement
  if b then do
    let fromStatement ← label P
    let fromStatement ← addMatchedJump P Op.JMP fromStatement
    emit Emit.endDeferred
    pure { toStatement := toStatement, fromStatement := fromStatement,
           statementAddr := statementAddr }
  else do
    emit Emit.endDeferred
    pure { toStatement := toStatement, fromStatement := { noLabel with label := -1 },
           statementAddr := statementAddr }

/-- The `while (true)` loop of `switchStatement` over the clauses. -/
def switchClausesLoop (P : Parser) (r : Callees) (n : Nat) :
    Nat → SwitchLocals → PE SwitchLocals
  | 0, _ => PE.outOfBudget
  | k + 1, st => do
    let t ← getToken
    if t = Token.Case ∨ t = Token.Default then do
      retireToken
      if t = Token.Default then do
        let _ ← expectIf Token.DuplicateDefault (!st.haveDefault) none
        let _ ← expect Token.Colon
        let defaultStatement ← resumeDeferred P
        let _ ← r.statement
        let l ← label P
        let l ← addMatchedJump P Op.JMP l
        emit Emit.endDeferred
        switchClausesLoop P r n k
          { st with defaultStatement := defaultStatement, defaultFromStatementLabel := l,
                    haveDefault := true }
      else do
        let _ ← expression P r n defaultMinPrec
        emit Emit.emitCaseTest
        let _ ← expect Token.Colon
        let entry ← switchCaseBody P r
        switchClausesLoop P r n k { st with cases := st.cases ++ [entry] }
    else pure st

/-- The `for (auto it : cases)` loop at the end of `switchStatement`. -/
def switchFixup (deferredStatementStart statementStart : Int) (afterStatementsLabel : Label) :
    List CaseEntry → PE Unit
  | [] => pure ()
  | it :: rest => do
    emit (Emit.matchJumpToAddr it.toStatement
      (it.statementAddr - deferredStatementStart + statementStart))
    if it.fromStatement.label ≥ 0 then
      emit (Emit.matchJumpToLabel
        { it.fromStatement with
          matchedAddr := it.fromStatement.matchedAddr
            + (statementStart - deferredStatementStart) }
        afterStatementsLabel)
    else pure ()
    switchFixup deferredStatementStart statementStart afterStatementsLabel rest

/-- `ParseEngine::switchStatement`. -/
def switchStatement (P : Parser) (r : Callees) (n : Nat) : PE Bool := do
  let t ← getToken
  if t ≠ Token.Switch then pure false
  else do
    retireToken
    let _ ← expect Token.LParen
    let _ ← expression P r n defaultMinPrec
    let _ ← expect Token.RParen
    let _ ← expect Token.LBrace
    let deferredStatementStart ← startDeferred P
    emit Emit.endDeferred
    let st ← switchClausesLoop P r n n
      { cases := [], defaultStatement := 0, defaultFromStatementLabel := noLabel,
        haveDefault := false }
    let _ ← expect Token.RBrace
    let endJumpLabel ← label P
    let endJumpLabel ← addMatchedJump P Op.JMP endJumpLabel
    let statementStart ← emitDeferred P
    let afterStatementsLabel ← label P
    if st.haveDefault then do
      emit (Emit.matchJumpToAddr endJumpLabel
        (st.defaultStatement - deferredStatementStart + statementStart))
      emit (Emit.matchJumpToLabel
        { st.defaultFromStatementLabel with
          matchedAddr := st.defaultFromStatementLabel.matchedAddr
            + (statementStart - deferredStatementStart) }
        afterStatementsLabel)
    else emit (Emit.matchJumpToLabel endJumpLabel afterStatementsLabel)
    switchFixup deferredStatementStart statementStart afterStatementsLabel st.cases
    emit Emit.discardResult
    pure true

/-- `ParseEngine::selectionStatement`. -/
def selectionStatement (P : Parser) (r : Callees) (n : Nat) : PE Bool := do
  let t ← getToken
  if t ≠ Token.If then pure false
  else do
    retireToken
    let _ ← expect Token.LParen
    let _ ← expression P r n defaultMinPrec
    let ifLabel ← label P
    let elseLabel ← label P
    let elseLabel ← addMatchedJump P Op.JF elseLabel
    let _ ← expect Token.RParen
    let _ ← r.statement
    let t1 ← getToken
    if t1 = Token.Else then do
      retireToken
      let ifLabel ← addMatchedJump P Op.JMP ifLabel
      emit (Emit.matchJump elseLabel)
      let _ ← r.statement
      emit (Emit.matchJump ifLabel)
      pure true
    else do
      emit (Emit.matchJump elseLabel)
      pure true

/-- `ParseEngine::compoundStatement`. -/
def compoundStatement (r : Callees) (n : Nat) : PE Bool := do
  let t ← getToken
  if t ≠ Token.LBrace then pure false
  else do
    retireToken
    whileTrue r.statement n
    let _ ← expect Token.RBrace
    pure true

/-- `ParseEngine::classStatement`. -/
def classStatement (P : Parser) (r : Callees) (n : Nat) : PE Bool := do
  let t ← getToken
  if t ≠ Token.Class then pure false
  else do
    retireToken
    let v ← getTokenValue
    let name := atomizeString v.str
    emit (Emit.addVar name)
    emit (Emit.emitId name IdType.MustBeLocal)
    let _ ← expect Token.Identifier
    let c ← classExpression P r n
    let ok ← expectIf Token.Expr c (some "class")
    if !ok then pure false
    else do
      emit Emit.emitMove
      emit Emit.discardResult
      pure true

/-- `ParseEngine::functionStatement`. -/
def functionStatement (P : Parser) (r : Callees) (n : Nat) : PE Bool := do
  let t ← getToken
  if t ≠ Token.Function then pure false
  else do
    retireToken
    let v ← getTokenValue
    let name := atomizeString v.str
    let _ ← expect Token.Identifier
    let f ← functionExpression P r n false
    emit (Emit.addNamedFunction f name)
    pure true

/-- The chain `compoundStatement() || selectionStatement() ||
switchStatement() || iterationStatement() || jumpStatement()` of
`statement`. -/
def structuredStatement (P : Parser) (r : Callees) (n : Nat) : PE Bool := do
  let b1 ← compoundStatement r n
  if b1 then pure true
  else do
    let b2 ← selectionStatement P r n
    if b2 then pure true
    else do
      let b3 ← switchStatement P r n
      if b3 then pure true
      else do
        let b4 ← iterationStatement P r n
        if b4 then pure true
        else jumpStatement P r n

/-- `ParseEngine::statement`; every path through the body of its `while (1)`
returns. -/
def statement (P : Parser) (r : Callees) (n : Nat) : PE Bool := do
  let t ← getToken
  if t = Token.EndOfFile then pure false
  else if t = Token.Semicolon then do
    retireToken
    pure true
  else do
    let f ← functionStatement P r n
    if f then pure true
    else do
      let c ← classStatement P r n
      if c then pure true
      else do
        let s ← structuredStatement P r n
        if s then pure true
        else do
          let t1 ← getToken
          if t1 = Token.Var then do
            retireToken
            let count ← variableDeclarationList P r n
            let _ ← expectIf Token.MissingVarDecl (decide (count > 0)) none
            let _ ← expect Token.Semicolon
            pure true
          else if t1 = Token.Delete then do
            retireToken
            let _ ← leftHandSideExpression P r n
            let _ ← expect Token.Semicolon
            pure true
          else do
            let e ← expression P r n defaultMinPrec
            if e then do
              emit Emit.discardResult
              let _ ← expect Token.Semicolon
              pure true
            else pure false

/-- The recursive members with budget `n`: at most `n` nested recursive
calls, and at most `n` iterations of each loop. -/
def callees (P : Parser) : Nat → Callees
  | 0 =>
    { statement := PE.outOfBudget, expression := fun _ => PE.outOfBudget,
      arithmeticPrimary := PE.outOfBudget, memberExpression := PE.outOfBudget }
  | n + 1 =>
    { statement := statement P (callees P n) n,
      expression := expression P (callees P n) n,
      arithmeticPrimary := arithmeticPrimary P (callees P n) n,
      memberExpression := memberExpression P (callees P n) n }

/-- The parse engine at the start of a parse of `tokens`. -/
def start (tokens : List Tok) : ParseEngine :=
  { tokens := tokens, trace := [], _breakStack := [], _continueStack := [] }

/-- A token without a value. -/
def tok (t : Token) : Tok := { token := t, value := ⟨"", 0, 0⟩ }

/-- An identifier token. -/
def ident (s : String) : Tok := { token := Token.Identifier, value := ⟨s, 0, 0⟩ }

/-- An integer token. -/
def intTok (i : Int) : Tok := { token := Token.Integer, value := ⟨"", 0, i⟩ }

/-- The current token of a state (what `getToken()` returns). -/
def current (pe : ParseEngine) : Token :=
  (pe.tokens.head?.map Tok.token).getD Token.EndOfFile

/-- The tokens at which `expression` can return `true`: the tokens that
`arithmeticPrimary`, `memberExpression` and `primaryExpression` test for. -/
def startsExpression (t : Token) : Bool :=
  t == Token.LParen || t == Token.INC || t == Token.DEC || t == Token.Minus ||
  t == Token.Twiddle || t == Token.Bang || t == Token.New || t == Token.Function ||
  t == Token.Class || t == Token.Identifier || t == Token.This || t == Token.Float ||
  t == Token.Integer || t == Token.String || t == Token.True || t == Token.False ||
  t == Token.Null || t == Token.Undefined || t == Token.LBracket || t == Token.LBrace

/-- The literal scalar tokens of the specification (section 4.3.5): string,
integer, float, true, false, null, undefined. -/
def isLiteralScalar (t : Token) : Bool :=
  t == Token.Float || t == Token.Integer || t == Token.String || t == Token.True ||
  t == Token.False || t == Token.Null || t == Token.Undefined

/-- The value of a literal scalar token (null for every other token). -/
def literalValue (t : Tok) : Value :=
  match t.token with
  | Token.Float => Value.float t.value.number
  | Token.Integer => Value.integer t.value.integer
  | Token.String => Value.stringLiteral t.value.str
  | Token.True => Value.bool true
  | Token.False => Value.bool false
  | Token.Undefined => Value.undefined
  | _ => Value.null

/-- The assignment operators of the specification's precedence list. -/
def specAssignments : List Token :=
  [Token.STO, Token.ADDSTO, Token.SUBSTO, Token.MULSTO, Token.DIVSTO, Token.MODSTO,
   Token.SHLSTO, Token.SHRSTO, Token.SARSTO, Token.ANDSTO, Token.ORSTO, Token.XORSTO]

/-- The left-associative operators of the specification's precedence list,
with their precedences: `||` 6, `&&` 7, `|` 8, `^` 9, `==` and `!=` 11,
relational 12, shifts 13, additive 14, multiplicative 15. -/
def specLeftOperators : List (Token × Nat) :=
  [(Token.LOR, 6), (Token.LAND, 7), (Token.OR, 8), (Token.XOR, 9), (Token.EQ, 11),
   (Token.NE, 11), (Token.LT, 12), (Token.GT, 12), (Token.LE, 12), (Token.GE, 12),
   (Token.SHL, 13), (Token.SHR, 13), (Token.SAR, 13), (Token.Plus, 14), (Token.Minus, 14),
   (Token.Star, 15), (Token.Slash, 15), (Token.Percent, 15)]

/-- The opcode of the arithmetic operator of each compound assignment. -/
def specCompoundOps : List (Token × Op) :=
  [(Token.ADDSTO, Op.ADD), (Token.SUBSTO, Op.SUB), (Token.MULSTO, Op.MUL),
   (Token.DIVSTO, Op.DIV), (Token.MODSTO, Op.MOD), (Token.SHLSTO, Op.SHL),
   (Token.SHRSTO, Op.SHR), (Token.SARSTO, Op.SAR), (Token.ANDSTO, Op.AND),
   (Token.ORSTO, Op.OR), (Token.XORSTO, Op.XOR)]

/-- The rows of `_opInfos` for a token. -/
def rowsOf (t : Token) : List OperatorInfo := _opInfos.filter fun info => info.token == t

/-- What `primaryExpression` emits for a primary of one token: an identifier,
`this`, or a literal scalar. -/
def primaryEmit (t : Tok) : Option Emit :=
  match t.token with
  | Token.Identifier => some (Emit.emitId (atomizeString t.value.str) IdType.MightBeLocal)
  | Token.This => some Emit.pushThis
  | Token.Float => some (Emit.pushK (Value.float t.value.number))
  | Token.Integer => some (Emit.pushK (Value.integer t.value.integer))
  | Token.String => some (Emit.pushKStr t.value.str)
  | Token.True => some (Emit.pushK (Value.bool true))
  | Token.False => some (Emit.pushK (Value.bool false))
  | Token.Null => some (Emit.pushK Value.null)
  | Token.Undefined => some (Emit.pushK Value.undefined)
  | _ => none

/-- The tokens at which `leftHandSideExpression`, `arithmeticPrimary` and
`expression` go on after a primary: call, index, member access, postfix
operator, conditional. -/
def continuesPrimary (t : Token) : Bool :=
  t == Token.LParen || t == Token.LBracket || t == Token.Period || t == Token.INC ||
  t == Token.DEC || t == Token.Question

/-- The tokens at which an expression ends after a primary: not a
continuation of the primary and not in the operator table. -/
def endsExpression (t : Token) : Bool :=
  !continuesPrimary t && (findOpInfo t).isNone

end ParseEngine

/-! ### An emitter for running the parse engine -/

/-- The code sizes of an emitter after a sequence of calls: the size of the
main code, the size of the deferred code, whether code goes to the deferred
buffer, and the starts of the open deferred blocks. -/
structure CodeSizes where
  main : Nat
  deferred : Nat
  deferring : Bool
  blocks : List Nat
deriving DecidableEq, Repr

namespace Parser

/-- Whether a call adds an instruction to the code. -/
def isCode : Emit → Bool
  | Emit.addMatchedJump _ _ | Emit.jumpToLabel _ _ | Emit.emitMove | Emit.emitDup
  | Emit.emitPush | Emit.discardResult | Emit.pushThis | Emit.pushK _ | Emit.pushKStr _
  | Emit.emitUnOp _ | Emit.emitBinOp _ | Emit.emitDeref _ | Emit.emitCallRet _ _ _
  | Emit.emitCaseTest | Emit.emitLoadLit _ | Emit.emitAppendElt | Emit.emitAppendProp
  | Emit.emitId _ _ => true
  | _ => false

/-- The effect of one call on the code sizes. -/
def sizeStep (c : CodeSizes) : Emit → CodeSizes
  | Emit.startDeferred => { c with deferring := true, blocks := c.deferred :: c.blocks }
  | Emit.resumeDeferred => { c with deferring := true }
  | Emit.endDeferred => { c with deferring := false }
  | Emit.emitDeferred =>
    match c.blocks with
    | b :: bs => { c with main := c.main + (c.deferred - b), deferred := b, blocks := bs }
    | [] => c
  | e =>
    if isCode e then
      (if c.deferring then { c with deferred := c.deferred + 1 } else { c with main := c.main + 1 })
    else c

/-- The code sizes after the calls of a trace. -/
def sizes (tr : List Emit) : CodeSizes :=
  tr.foldl sizeStep { main := 0, deferred := 0, deferring := false, blocks := [] }

/-- The size of the buffer that code currently goes to. -/
def here (tr : List Emit) : Nat :=
  if (sizes tr).deferring then (sizes tr).deferred else (sizes tr).main

/-- The constructor flags of the functions that are open after a trace,
innermost first. -/
def openFunctions : List Emit → List Bool → List Bool
  | [], stack => stack
  | Emit.functionStart ctor :: tr, stack => openFunctions tr (ctor :: stack)
  | Emit.functionEnd :: tr, stack => openFunctions tr stack.tail
  | _ :: tr, stack => openFunctions tr stack

/-- Modelled from the spec: an emitter in which every emitted instruction
occupies one address. A label is the current size of the buffer that code
goes to (the deferred side buffer between `startDeferred` or
`resumeDeferred` and `endDeferred`, the main code otherwise); `emitDeferred`
appends the last deferred block to the main code and returns where it
starts; `functionEnd` numbers the functions; `functionIsCtor` is the flag of
the innermost open `functionStart`. -/
def unitCode : Parser :=
  { label := fun tr => (here tr : Int)
    matchedAddr := fun tr => (here tr : Int)
    startDeferred := fun tr => ((sizes tr).deferred : Int)
    resumeDeferred := fun tr => ((sizes tr).deferred : Int)
    emitDeferred := fun tr => ((sizes tr.dropLast).main : Int)
    emitDeref := fun tr => (tr.filter fun e => e matches Emit.emitDeref _).length
    functionEnd := fun tr => some (tr.filter fun e => e matches Emit.functionEnd).length
    functionIsCtor := fun tr => (openFunctions tr []).headD false }

end Parser

/-! ## Durations (`SystemTime.h`) -/

/-- The value of `x` converted to `int32_t` (two's complement). -/
def toInt32 (x : Int) : Int := (x + 2147483648) % 4294967296 - 2147483648

/-- The value of `x` converted to `uint32_t`. -/
def toUInt32 (x : Int) : Nat := (x % 4294967296).toNat

/-- `Duration::Units`. -/
inductive Units where
  | us | ms | sec | none
deriving DecidableEq, Repr

/-- `static_cast<int32_t>(u)` for a unit. -/
def Units.raw : Units → Nat
  | Units.us => 0
  | Units.ms => 1
  | Units.sec => 2
  | Units.none => 3

/-- `static_cast<Units>(n)` for the two low bits of a value. -/
def Units.ofRaw (n : Nat) : Units :=
  if n = 0 then Units.us else if n = 1 then Units.ms else if n = 2 then Units.sec
  else Units.none

/-- A `Duration`: its 32-bit `_value`, as a signed integer. -/
structure Duration where
  _value : Int
deriving DecidableEq, Repr

namespace Duration

/-- `Duration::Shift`. -/
def Shift : Nat := 2

/-- `Duration::UnitsMask`, `(1 << Shift) - 1`. -/
def UnitsMask : Nat := (1 <<< Shift) - 1

/-- `sizeof(int32_t)`, in bytes. -/
def sizeofInt32 : Nat := 4

/-- `Duration::MaxValue`, `(1 << (sizeof(int32_t) - Shift)) - 1`. -/
def MaxValue : Nat := (1 <<< (sizeofInt32 - Shift)) - 1

/-- `Duration::units`. -/
def units (d : Duration) : Units := Units.ofRaw (toUInt32 d._value &&& UnitsMask)

/-- `Duration::setUnits`: `_value = (_value & ~UnitsMask) | static_cast<int32_t>(u)`. -/
def setUnits (d : Duration) (u : Units) : Duration :=
  { _value := toInt32 (((toUInt32 d._value &&& (4294967295 - UnitsMask)) ||| u.raw : Nat)) }

/-- The branch `if (units == Units::none)` of the constructor, "select the
best units", on the `uint64_t` value: the value and the units afterwards.
`value < 0` is `false` for an unsigned value. -/
def selectUnits (value : Nat) : Nat × Units :=
  let sign : Bool := decide (value < 0)
  let value := if sign then (18446744073709551616 - value) % 18446744073709551616 else value
  let r : Nat × Units :=
    if value < MaxValue then (value, Units.us)
    else if value / 1000 < MaxValue then (value / 1000, Units.ms)
    else (value / 1000 / 1000, Units.sec)
  if sign then ((18446744073709551616 - r.1) % 18446744073709551616, r.2) else r

/-- `Duration::Duration(uint64_t value, Units units)`. -/
def make (value : Nat) (units : Units) : Duration :=
  let value := value % 18446744073709551616
  let r : Nat × Units := if units = Units.none then selectUnits value else (value, units)
  let v : Int := if r.1 > MaxValue then (MaxValue : Int) else toInt32 (r.1 : Int)
  setUnits { _value := toInt32 (v * 2 ^ Shift) } r.2

/-- `Duration::us`: `_value >> Shift` as an `int64_t`, scaled by the units. -/
def us (d : Duration) : Int :=
  let v : Int := d._value >>> Shift
  match units d with
  | Units.ms => v * 1000
  | Units.sec => v * 1000000
  | _ => v

/-- `Duration::ms`: `_value >> Shift` as an `int32_t`, scaled by the units. -/
def ms (d : Duration) : Int :=
  let v : Int := d._value >>> Shift
  match units d with
  | Units.us => Int.tdiv v 1000
  | Units.sec => toInt32 (v * 1000)
  | _ => v

end Duration

/-! ## Native functions (`Global.cpp`, `IPAddr.cpp`) -/

/-- `CallReturnValue::Error`: the error codes the native functions below
return. -/
inductive CallError where
  | BadFormatString
  | CannotConvertStringToNumber
  | CannotCreateArgumentsArray
  | OutOfRange
  | WrongNumberOfParams
deriving DecidableEq, Repr

/-- `CallReturnValue`, as the native functions below build it:
`CallReturnValue(Type::ReturnCount, count)` or `CallReturnValue(error)`. -/
inductive CallReturnValue where
  | ReturnCount (count : Nat)
  | Error (error : CallError)
deriving DecidableEq, Repr

namespace VM

/-- `Value` as the native functions build and read it: `Value()`,
`Value(int32_t)`, `Value(Float)` (the raw value and exponent of the `Float`),
the value of a string object and the value of an object, by its handle.
(`M8r.Value` above is the part of the same class that the parse engine
builds.) -/
inductive Value where
  | none
  | integer (i : Int)
  | float (value : Int) (exp : Int)
  | string (s : String)
  | object (o : Nat)
deriving DecidableEq, Repr

/-- Modelled from the spec: `Value::asObject()` (declared in a header that is
not part of the sources) is the object of an object value; every other value
gives a handle that is not valid (`none`). -/
def Value.asObject : Value → Option Nat
  | Value.object o => some o
  | _ => Option.none

/-- `IPAddr`: the four bytes `_addr[0]` to `_addr[3]`. -/
structure IPAddr where
  _addr0 : Nat
  _addr1 : Nat
  _addr2 : Nat
  _addr3 : Nat
deriving DecidableEq, Repr

/-- `ipAddr[i] = v` for an `int32_t` `v` and `i` from 0 to 3: the store
converts to `uint8_t`. -/
def IPAddr.set (ip : IPAddr) (i : Nat) (v : Int) : IPAddr :=
  if i = 0 then { ip with _addr0 := (v % 256).toNat }
  else if i = 1 then { ip with _addr1 := (v % 256).toNat }
  else if i = 2 then { ip with _addr2 := (v % 256).toNat }
  else if i = 3 then { ip with _addr3 := (v % 256).toNat }
  else ip

/-- `ipAddr[i]` for `i` from 0 to 3. -/
def IPAddr.get (ip : IPAddr) (i : Nat) : Nat :=
  if i = 0 then ip._addr0 else if i = 1 then ip._addr1 else if i = 2 then ip._addr2
  else ip._addr3

/-- One row of `MemoryInfo::allocationsByType`. -/
structure AllocationInfo where
  count : Nat
  sizeInBlocks : Nat
deriving DecidableEq, Repr

/-- `MemoryInfo`, the fields `meminfo` reads. -/
structure MemoryInfo where
  freeSizeInBlocks : Nat
  heapSizeInBlocks : Nat
  blockSize : Nat
  numAllocations : Nat
  allocationsByType : List AllocationInfo
deriving DecidableEq, Repr

/-- A call a native function makes on the execution unit, on an object or on
the host, other than on the stack. -/
inductive Effect where
  | print (s : String)
  | create (o : Nat)
  | setArray (o : Nat)
  | setElement (o : Nat) (index : Value) (value : Value)
  | setProperty (o : Nat) (name : String) (value : Value)
  | addStaticObject (o : Nat)
  | startEventListening
  | lookupHostName (hostname : String) (func : Value) (thisValue : Value)
deriving DecidableEq, Repr

/-- The execution unit as a native function sees it: the VM stack (top
first) and the calls made so far (oldest first). -/
structure ExecutionUnit where
  stack : List Value
  log : List Effect
deriving DecidableEq, Repr

/-- What the classes that are not part of the sources return to a native
function: the conversions of `Value` and `String`, `Value::format`,
`Time::now()`, the handles of new objects (`none` when the handle is not
valid), the arguments of the running function, the memory information, the
elements of a value, and the parts of `IPAddr` and `String` that are declared
elsewhere. None of them changes the stack. -/
structure Host where
  toStringValue : ExecutionUnit → Value → String
  toIntValue : ExecutionUnit → Value → Int
  stringToInt : String → Bool → Option Int
  stringToUInt : String → Bool → Option Nat
  stringToFloat : String → Bool → Option (Int × Int)
  format : ExecutionUnit → Value → Nat → String
  now : Nat
  floatValueOf : Nat → Int
  objectFactoryCreate : ExecutionUnit → Option Nat
  materObjectCreate : ExecutionUnit → Nat
  argumentCount : Int
  argument : Int → Value
  memoryInfo : MemoryInfo
  stringFromMemoryType : Nat → String
  element : ExecutionUnit → Value → Value → Value
  defaultIPAddr : IPAddr
  toIPAddr : String → IPAddr
  stringOfByte : Nat → String

/-- Modelled from the spec: `eu->stack().push(v)` (the stack class is not
part of the sources) puts one value on top of the VM stack. -/
def push (v : Value) : ExecutionUnit → ExecutionUnit
  | ⟨stack, log⟩ => ⟨v :: stack, log⟩

/-- Modelled from the spec: `eu->stack().top(i)`; native functions read
their arguments "by negative offset from top": `top(0)` is the top of the
stack and `top(-k)` the value `k` places below it. -/
def top (eu : ExecutionUnit) (i : Int) : Value := eu.stack.getD (-i).toNat Value.none

/-- Record a call that is not on the stack. -/
def effect (e : Effect) : ExecutionUnit → ExecutionUnit
  | ⟨stack, log⟩ => ⟨stack, log ++ [e]⟩

/-- The stack offset `k - nparams` of an argument: the difference is taken in
`uint32_t` and passed as an `int32_t`. -/
def argOffset (k nparams : Nat) : Int := toInt32 ((k : Int) - (nparams : Int))

/-- `Mad<MaterObject>::create()`: the handle and the execution unit
afterwards. -/
def create (H : Host) (eu : ExecutionUnit) : Nat × ExecutionUnit :=
  (H.materObjectCreate eu, effect (Effect.create (H.materObjectCreate eu)) eu)

/-- The value of a string of decimal digits (`none` when a character is not
a digit). -/
def decimalValue : List Char → Nat → Option Nat
  | [], acc => some acc
  | c :: cs, acc =>
    if 48 ≤ c.toNat ∧ c.toNat ≤ 57 then decimalValue cs (acc * 10 + (c.toNat - 48)) else Option.none

/-- Modelled from the spec: a host for running the native functions, in which
a string value converts to its string and an integer value to its integer,
`String::toInt` and `String::toUInt` accept the non-empty strings of decimal
digits whose value fits the type, and everything else is empty or zero. -/
def Host.decimal : Host :=
  { toStringValue := fun _ v => match v with
      | Value.string s => s
      | _ => ""
    toIntValue := fun _ v => match v with
      | Value.integer i => i
      | _ => 0
    stringToInt := fun s _ =>
      if s.data = [] then Option.none
      else (decimalValue s.data 0).bind fun n =>
        if n < 2147483648 then some (n : Int) else Option.none
    stringToUInt := fun s _ =>
      if s.data = [] then Option.none
      else (decimalValue s.data 0).bind fun n => if n < 4294967296 then some n else Option.none
    stringToFloat := fun _ _ => Option.none
    format := fun _ _ _ => ""
    now := 0
    floatValueOf := fun t => (t : Int)
    objectFactoryCreate := fun eu => some eu.log.length
    materObjectCreate := fun eu => eu.log.length
    argumentCount := 0
    argument := fun _ => Value.none
    memoryInfo := ⟨0, 0, 0, 0, []⟩
    stringFromMemoryType := fun _ => ""
    element := fun _ _ _ => Value.none
    defaultIPAddr := ⟨0, 0, 0, 0⟩
    toIPAddr := fun _ => ⟨0, 0, 0, 0⟩
    stringOfByte := fun n => toString n }

end VM

namespace Global

open VM

/-- `Global::currentTime`. -/
def currentTime (H : Host) (eu : ExecutionUnit) (_thisValue : VM.Value) (_nparams : Nat) :
    CallReturnValue × ExecutionUnit :=
  let t := H.now % 18446744073709551616
  (CallReturnValue.ReturnCount 1, push (VM.Value.float (H.floatValueOf t) (-6)) eu)

/-- The loop `for (int32_t i = ...; i <= 0; ++i)` of `print` and `println`:
`count` iterations are left, starting at offset `i`. -/
def printLoop (H : Host) : Nat → Int → ExecutionUnit → ExecutionUnit
  | 0, _, eu => eu
  | count + 1, i, eu =>
    let s := H.toStringValue eu (top eu i)
    printLoop H count (toInt32 (i + 1)) (effect (Effect.print s) eu)

/-- `Global::print`. The loop runs from `i = 1 - nparams` while `i <= 0`. -/
def print (H : Host) (eu : ExecutionUnit) (_thisValue : VM.Value) (nparams : Nat) :
    CallReturnValue × ExecutionUnit :=
  let i := argOffset 1 nparams
  (CallReturnValue.ReturnCount 0, printLoop H (1 - i).toNat i eu)

/-- `Global::printf`. -/
def printf (H : Host) (eu : ExecutionUnit) (_thisValue : VM.Value) (nparams : Nat) :
    CallReturnValue × ExecutionUnit :=
  if nparams < 1 then (CallReturnValue.Error CallError.BadFormatString, eu)
  else
    let s := H.format eu (top eu (argOffset 1 nparams)) (nparams - 1)
    if s.isEmpty then (CallReturnValue.Error CallError.BadFormatString, eu)
    else (CallReturnValue.ReturnCount 0, effect (Effect.print s) eu)

/-- `Global::println`. -/
def println (H : Host) (eu : ExecutionUnit) (_thisValue : VM.Value) (nparams : Nat) :
    CallReturnValue × ExecutionUnit :=
  let i := argOffset 1 nparams
  (CallReturnValue.ReturnCount 0, effect (Effect.print "\n") (printLoop H (1 - i).toNat i eu))

/-- The `allowWhitespace` flag of `toFloat`, `toInt` and `toUInt`: true
unless there is a second argument whose integer value is 0. -/
def allowWhitespace (H : Host) (eu : ExecutionUnit) (nparams : Nat) : Bool :=
  if nparams > 1 then decide (H.toIntValue eu (top eu (argOffset 2 nparams)) ≠ 0) else true

/-- `Global::toFloat`. -/
def toFloat (H : Host) (eu : ExecutionUnit) (_thisValue : VM.Value) (nparams : Nat) :
    CallReturnValue × ExecutionUnit :=
  if nparams < 1 then (CallReturnValue.ReturnCount 0, eu)
  else
    let allowWs := allowWhitespace H eu nparams
    let s := H.toStringValue eu (top eu (argOffset 1 nparams))
    match H.stringToFloat s allowWs with
    | some f => (CallReturnValue.ReturnCount 1, push (VM.Value.float f.1 f.2) eu)
    | none => (CallReturnValue.Error CallError.CannotConvertStringToNumber, eu)

/-- `Global::toInt`. -/
def toInt (H : Host) (eu : ExecutionUnit) (_thisValue : VM.Value) (nparams : Nat) :
    CallReturnValue × ExecutionUnit :=
  if nparams < 1 then (CallReturnValue.ReturnCount 0, eu)
  else
    let allowWs := allowWhitespace H eu nparams
    let s := H.toStringValue eu (top eu (argOffset 1 nparams))
    match H.stringToInt s allowWs with
    | some i => (CallReturnValue.ReturnCount 1, push (VM.Value.integer i) eu)
    | none => (CallReturnValue.Error CallError.CannotConvertStringToNumber, eu)

/-- `Global::toUInt`: the `uint32_t` is pushed as
`Value(static_cast<int32_t>(u))`. -/
def toUInt (H : Host) (eu : ExecutionUnit) (_thisValue : VM.Value) (nparams : Nat) :
    CallReturnValue × ExecutionUnit :=
  if nparams < 1 then (CallReturnValue.ReturnCount 0, eu)
  else
    let allowWs := allowWhitespace H eu nparams
    let s := H.toStringValue eu (top eu (argOffset 1 nparams))
    match H.stringToUInt s allowWs with
    | some u => (CallReturnValue.ReturnCount 1, push (VM.Value.integer (toInt32 (u : Int))) eu)
    | none => (CallReturnValue.Error CallError.CannotConvertStringToNumber, eu)

/-- The loop of `arguments` over the arguments of the running function:
`count` iterations are left, starting at `i`. -/
def argumentsLoop (H : Host) (array : Nat) : Nat → Int → ExecutionUnit → ExecutionUnit
  | 0, _, eu => eu
  | count + 1, i, eu =>
    argumentsLoop H array count (i + 1)
      (effect (Effect.setElement array (VM.Value.integer i) (H.argument i)) eu)

/-- `Global::arguments`. -/
def arguments (H : Host) (eu : ExecutionUnit) (_thisValue : VM.Value) (_nparams : Nat) :
    CallReturnValue × ExecutionUnit :=
  match H.objectFactoryCreate eu with
  | none => (CallReturnValue.Error CallError.CannotCreateArgumentsArray, eu)
  | some array =>
    let eu1 := effect (Effect.create array) eu
    let eu2 := argumentsLoop H array H.argumentCount.toNat 0 eu1
    (CallReturnValue.ReturnCount 1, push (VM.Value.object array) eu2)

/-- The loop of `meminfo` over `info.allocationsByType`; `i` is the index of
the row. -/
def meminfoLoop (H : Host) (blockSize : Nat) (allocationsByType : Nat) :
    List AllocationInfo → Nat → ExecutionUnit → ExecutionUnit
  | [], _, eu => eu
  | row :: rows, i, eu =>
    let (allocation, eu1) := create H eu
    let size : Int := toInt32 ((row.sizeInBlocks : Int) * (blockSize : Int))
    let eu2 := effect
      (Effect.setProperty allocation "count" (VM.Value.integer (toInt32 (row.count : Int)))) eu1
    let eu3 := effect (Effect.setProperty allocation "size" (VM.Value.integer size)) eu2
    let eu4 := effect
      (Effect.setProperty allocation "type" (VM.Value.string (H.stringFromMemoryType i))) eu3
    let eu5 := effect
      (Effect.setElement allocationsByType (VM.Value.integer 0) (VM.Value.object allocation)) eu4
    meminfoLoop H blockSize allocationsByType rows (i + 1) eu5

/-- `Global::meminfo`. -/
def meminfo (H : Host) (eu : ExecutionUnit) (_thisValue : VM.Value) (_nparams : Nat) :
    CallReturnValue × ExecutionUnit :=
  let info := H.memoryInfo
  let (obj, eu1) := create H eu
  let freeSize : Int := toInt32 ((info.freeSizeInBlocks : Int) * (info.blockSize : Int))
  let allocatedSize : Int :=
    toInt32 (((info.heapSizeInBlocks : Int) - (info.freeSizeInBlocks : Int))
      * (info.blockSize : Int))
  let eu2 := effect (Effect.setProperty obj "freeSize" (VM.Value.integer freeSize)) eu1
  let eu3 := effect (Effect.setProperty obj "allocatedSize" (VM.Value.integer allocatedSize)) eu2
  let eu4 := effect
    (Effect.setProperty obj "numAllocations"
      (VM.Value.integer (toInt32 (info.numAllocations : Int)))) eu3
  let (allocationsByType, eu5) := create H eu4
  let eu6 := effect (Effect.setArray allocationsByType) eu5
  let eu7 := meminfoLoop H info.blockSize allocationsByType info.allocationsByType 0 eu6
  let eu8 := effect
    (Effect.setProperty obj "allocationsByType" (VM.Value.object allocationsByType)) eu7
  (CallReturnValue.ReturnCount 1, push (VM.Value.object obj) eu8)

end Global

namespace IPAddr

open VM

/-- `IPAddr::toString`: the four bytes joined by `"."`. -/
def toString (H : Host) (ip : VM.IPAddr) : String :=
  H.stringOfByte (ip.get 0) ++ "." ++ H.stringOfByte (ip.get 1) ++ "." ++
    H.stringOfByte (ip.get 2) ++ "." ++ H.stringOfByte (ip.get 3)

end IPAddr

namespace IPAddrProto

open VM

/-- The end of `IPAddrProto::constructor`: the four elements of `this` are
set when `thisValue.asObject()` is valid. -/
def setElements (ip : VM.IPAddr) (thisValue : VM.Value) (eu : ExecutionUnit) :
    CallReturnValue × ExecutionUnit :=
  match thisValue.asObject with
  | some thisObject =>
    let eu1 := effect
      (Effect.setElement thisObject (VM.Value.integer 0) (VM.Value.integer (ip.get 0))) eu
    let eu2 := effect
      (Effect.setElement thisObject (VM.Value.integer 1) (VM.Value.integer (ip.get 1))) eu1
    let eu3 := effect
      (Effect.setElement thisObject (VM.Value.integer 2) (VM.Value.integer (ip.get 2))) eu2
    let eu4 := effect
      (Effect.setElement thisObject (VM.Value.integer 3) (VM.Value.integer (ip.get 3))) eu3
    (CallReturnValue.ReturnCount 0, eu4)
  | none => (CallReturnValue.ReturnCount 0, eu)

/-- `IPAddrProto::constructor`. -/
def constructor (H : Host) (eu : ExecutionUnit) (thisValue : VM.Value) (nparams : Nat) :
    CallReturnValue × ExecutionUnit :=
  if nparams = 1 then
    setElements (H.toIPAddr (H.toStringValue eu (top eu 0))) thisValue eu
  else if nparams = 4 then
    let a := H.toIntValue eu (top eu (-3))
    let b := H.toIntValue eu (top eu (-2))
    let c := H.toIntValue eu (top eu (-1))
    let d := H.toIntValue eu (top eu 0)
    if a < 0 ∨ a > 255 ∨ b < 0 ∨ b > 255 ∨ c < 0 ∨ c > 255 ∨ d < 0 ∨ d > 255 then
      (CallReturnValue.Error CallError.OutOfRange, eu)
    else
      setElements ((((H.defaultIPAddr.set 0 a).set 1 b).set 2 c).set 3 d) thisValue eu
  else setElements H.defaultIPAddr thisValue eu

/-- `IPAddrProto::toString`. -/
def toString (H : Host) (eu : ExecutionUnit) (thisValue : VM.Value) (nparams : Nat) :
    CallReturnValue × ExecutionUnit :=
  if nparams ≠ 0 then (CallReturnValue.Error CallError.WrongNumberOfParams, eu)
  else
    let ip0 := H.defaultIPAddr.set 0 (H.toIntValue eu (H.element eu thisValue (VM.Value.integer 0)))
    let ip1 := ip0.set 1 (H.toIntValue eu (H.element eu thisValue (VM.Value.integer 1)))
    let ip2 := ip1.set 2 (H.toIntValue eu (H.element eu thisValue (VM.Value.integer 2)))
    let ip3 := ip2.set 3 (H.toIntValue eu (H.element eu thisValue (VM.Value.integer 3)))
    (CallReturnValue.ReturnCount 1, push (VM.Value.string (IPAddr.toString H ip3)) eu)

/-- `IPAddrProto::lookupHostname`, up to its return: the callback handed to
`IPAddr::lookupHostName` runs later, as an event. -/
def lookupHostname (H : Host) (eu : ExecutionUnit) (thisValue : VM.Value) (nparams : Nat) :
    CallReturnValue × ExecutionUnit :=
  if nparams < 2 then (CallReturnValue.ReturnCount 0, eu)
  else
    let hostnameValue := top eu (argOffset 1 nparams)
    let hostname := H.toStringValue eu hostnameValue
    let funcValue := top eu (argOffset 2 nparams)
    let eu1 :=
      match funcValue.asObject with
      | some o => effect (Effect.addStaticObject o) eu
      | none => eu
    let eu2 := effect Effect.startEventListening eu1
    (CallReturnValue.ReturnCount 0,
      effect (Effect.lookupHostName hostname funcValue thisValue) eu2)

end IPAddrProto

/-! ## File names (`Application.cpp`) -/

/-- `Application::NameValidationType`. -/
inductive NameValidationType where
  | Ok | BadLength | InvalidChar
deriving DecidableEq, Repr

namespace Application

/-- The test of `validateFileName` on one character: `-`, `.`, `_`, `+`, a
digit, a lower-case letter or an upper-case letter. -/
def isFileNameChar (c : Nat) : Bool :=
  c == 45 || c == 46 || c == 95 || c == 43 ||
  (decide (48 ≤ c) && decide (c ≤ 57)) ||
  (decide (97 ≤ c) && decide (c ≤ 122)) ||
  (decide (65 ≤ c) && decide (c ≤ 90))

/-- The characters of the C string stored in `mem`: the bytes before the
first NUL. -/
def cString (mem : List Nat) : List Nat := mem.takeWhile fun c => c != 0

/-- The `for (size_t i = 0; name[i]; i++)` loop of `validateFileName`, with
`mem` the bytes from `name[i]` on (a NUL follows the last byte). -/
def validateFileNameLoop : List Nat → Nat → NameValidationType
  | [], _ => NameValidationType.Ok
  | c :: rest, i =>
    if c = 0 then NameValidationType.Ok
    else if i ≥ 31 then NameValidationType.BadLength
    else if isFileNameChar c then validateFileNameLoop rest (i + 1)
    else NameValidationType.InvalidChar

/-- `Application::validateFileName(name)`: `none` is the null pointer, `some
mem` a pointer to the bytes `mem` followed by a NUL. -/
def validateFileName (name : Option (List Nat)) : NameValidationType :=
  match name with
  | none => NameValidationType.BadLength
  | some mem =>
    if mem.headD 0 = 0 then NameValidationType.BadLength
    else validateFileNameLoop mem 0

/-- The characters of a name: none for the null pointer. -/
def nameChars (name : Option (List Nat)) : List Nat :=
  match name with
  | none => []
  | some mem => cString mem

/-- The characters the specification allows in a file name: a letter, a
digit or one of `-`, `.`, `_`, `+`. -/
def allowedInFileName (c : Nat) : Bool :=
  isLetter c || isDigit c || (bytes "-._+").contains c

end Application

/-! ## Sums and differences of durations (`SystemTime.h`) -/

namespace Duration

/-- The value of `x` converted to `uint64_t`. -/
def toUInt64 (x : Int) : Nat := (x % 18446744073709551616).toNat

/-- `Duration::operator+`: `Duration(us() + other.us())`; the `int64_t` sum
is converted to the `uint64_t` parameter of the constructor. -/
def add (a b : Duration) : Duration := make (toUInt64 (a.us + b.us)) Units.none

/-- `Duration::operator-` with an operand: `Duration(us() - other.us())`; the
`int64_t` difference is converted to the `uint64_t` parameter of the
constructor. -/
def sub (a b : Duration) : Duration := make (toUInt64 (a.us - b.us)) Units.none

end Duration

/-! ## The labels of a conditional in `expression` -/

namespace ParseEngine

/-- The else label of a conditional in `expression`, as `addMatchedJump(JF,
elseLabel)` leaves it; `tr` is the trace before the two `label()` calls. -/
def ternaryElseLabel (P : Parser) (tr : List Emit) : Label :=
  { label := P.label (tr ++ [Emit.label, Emit.label]),
    matchedAddr := P.matchedAddr (tr ++ [Emit.label, Emit.label]) }

/-- The if label of a conditional in `expression`, as `addMatchedJump(JMP,
ifLabel)` leaves it; `tr` is the trace before the two `label()` calls and
`trC` the trace when the first branch has been parsed. -/
def ternaryIfLabel (P : Parser) (tr trC : List Emit) : Label :=
  { label := P.label (tr ++ [Emit.label]),
    matchedAddr := P.matchedAddr (trC ++ [Emit.emitMove]) }

end ParseEngine

/-! ## The invariant of the handle stores -/

namespace IdStore

variable {V : Type}

/-- The number of empty slots of a store. -/
def emptySlots (st : IdStore V) : Nat := st._values.countP fun v => v.isNone

/-- The invariant of the free counter and the mark vector: the counter is the
number of empty slots, and there is one mark bit per slot. -/
def wellFormed (st : IdStore V) : Prop :=
  st._freeValueIdCount = emptySlots st ∧ st._valueMarked.length = st._values.length

/-- The store states reached from the empty store by `add` of values that
are not null, `remove` where its assertion holds, `gcClear`, and `gcMark` of
handles in range. -/
inductive Reachable (idBool : Nat → Bool) : IdStore V → Prop where
  | empty : Reachable idBool ⟨[], [], 0⟩
  | add (st st1 : IdStore V) (v : V) (id : Nat) :
      Reachable idBool st → IdStore.add st (some v) = some (id, st1) → Reachable idBool st1
  | remove (st st1 : IdStore V) (id : Nat) (del : Bool) :
      Reachable idBool st → IdStore.remove idBool st id del = some st1 → Reachable idBool st1
  | gcClear (st : IdStore V) : Reachable idBool st → Reachable idBool (IdStore.gcClear st)
  | gcMark (st : IdStore V) (id : Nat) :
      Reachable idBool st → id < st._values.length → Reachable idBool (IdStore.gcMark st id)

end IdStore

/-! ## Successive tokens of the scanner -/

namespace Scanner

/-- The tokens returned by `k` calls of `getToken` in a row, and the scanner
afterwards. -/
def getTokens : Nat → Scanner → Option (List Nat × Scanner)
  | 0, s => some ([], s)
  | k + 1, s =>
    match getToken s with
    | none => none
    | some (t, s1) => (getTokens k s1).map fun r => (t :: r.1, r.2)

end Scanner

/-! ## Progress of the parse engine -/

namespace PE

/-- The call `m` from the state `pe` does not run out of budget, and when it
returns, its value and the state afterwards satisfy `Q`. -/
@[irreducible]
def wp {α : Type} (m : PE α) (pe : ParseEngine) (Q : α → ParseEngine → Prop) : Prop :=
  match m pe with
  | Outcome.done (a, pe1) => Q a pe1
  | Outcome.outOfBudget => False
  | _ => True

end PE

namespace ParseEngine

/-- After a call from `pe` that returned `b`: no more tokens are left than
before, and fewer when `b` is `true`. -/
def progress (pe : ParseEngine) (b : Bool) (pe1 : ParseEngine) : Prop :=
  pe1.tokens.length ≤ pe.tokens.length ∧ (b = true → pe1.tokens.length < pe.tokens.length)

/-- After a call from `pe`: no more tokens are left than before. -/
def noLonger {α : Type} (pe : ParseEngine) (_ : α) (pe1 : ParseEngine) : Prop :=
  pe1.tokens.length ≤ pe.tokens.length

/-- The recursive members `r` make progress from every state with fewer than
`L` tokens left. -/
structure Callees.Good (r : Callees) (L : Nat) : Prop where
  statement : ∀ pe : ParseEngine, pe.tokens.length < L → PE.wp r.statement pe (progress pe)
  expression : ∀ (minPrec : Nat) (pe : ParseEngine), pe.tokens.length < L →
    PE.wp (r.expression minPrec) pe (progress pe)
  arithmeticPrimary : ∀ pe : ParseEngine, pe.tokens.length < L →
    PE.wp r.arithmeticPrimary pe (progress pe)
  memberExpression : ∀ pe : ParseEngine, pe.tokens.length < L →
    PE.wp r.memberExpression pe (progress pe)

/-- The call `m` from the state `pe` does not run out of budget, and when it
returns `true` it has retired at least one token. -/
def makesProgress (m : PE Bool) (pe : ParseEngine) : Prop :=
  m pe ≠ Outcome.outOfBudget ∧
    ∀ pe1, m pe = Outcome.done (true, pe1) → pe1.tokens.length < pe.tokens.length

end ParseEngine

end M8r

open M8r

/-! ## Scanner: what `getToken` returns on operators, words and numbers -/

/-- C1: the tokens `Scanner::getToken` returns for the 14 two-character
operators `==, !=, &&, ||, ++, --, +=, -=, *=, /=, %=, &=, ^=, |=`, each
followed by a space. Only `==, &&, ||, ++, --` get their own token; `!=` and
the compound assignments get `O_EQ`, the token of `==` (and `/=` gets `'/'`),
so `!=` does not yield `O_NE` and the results are not pairwise distinct. -/
theorem C1_two_char_operator_tokens :
    (["==", "!=", "&&", "||", "++", "--", "+=", "-=", "*=", "/=", "%=", "&=", "^=", "|="].map
        fun op => (Scanner.getToken (Scanner.start (bytes (op ++ " ")))).map Prod.fst)
      = [some O_EQ, some O_EQ, some O_LAND, some O_LOR, some O_INC, some O_DEC,
         some O_EQ, some O_EQ, some O_EQ, some 47, some O_EQ, some O_EQ, some O_EQ,
         some O_EQ]
    ∧ O_EQ ≠ O_NE := by
  decide

/-- C2: on the word `d` followed by a space, which is not a keyword,
`Scanner::getToken` returns `K_DEFAULT` and not `T_IDENTIFIER`: `scanKeyword`
compares only the first `len` bytes, so a proper prefix of a keyword is taken
for the keyword. -/
theorem C2_keyword_prefix_token :
    (Scanner.getToken (Scanner.start (bytes "d "))).map Prod.fst = some K_DEFAULT
    ∧ K_DEFAULT ≠ T_IDENTIFIER := by
  decide

/-- C3: on `=-1` (the operator byte `=` followed by `-`, where `=-` is not an
operator) `Scanner::getToken` returns `O_DEC` and consumes the `-`; on `/1`
it returns `'/'` but the lookahead byte `1` is consumed without being pushed
back. In both cases the byte after the operator is no longer available to
the next call. -/
theorem C3_operator_lookahead_lost :
    Scanner.getToken (Scanner.start (bytes "=-1"))
      = some (O_DEC, { Scanner.start (bytes "1") with _lastToken := O_DEC })
    ∧ Scanner.getToken (Scanner.start (bytes "/1"))
      = some (47, { Scanner.start [] with _lastToken := 47 }) := by
  decide

/-- C4: on the decimal literal `1` followed by a space `Scanner::getToken`
returns `T_INTEGER` and leaves the space as the next byte, but the text it
appends to the token-string buffer is `11` and a NUL, not `1` and a NUL: the
first digit is pushed back after it was appended and is appended again. -/
theorem C4_decimal_literal_text :
    (Scanner.getToken (Scanner.start (bytes "1 "))).map
        (fun r => (r.1, r.2._istream, r.2._lastChar, Scanner.tokenText r.2))
      = some (T_INTEGER, [], 32, [49, 49, 0])
    ∧ bytes "1" ++ [0] = [49, 0] := by
  decide

/-- C5: on the hexadecimal literal `0xA` followed by a space
`Scanner::getToken` returns `K_UNKNOWN` and not `T_INTEGER`, and the digit
`A` is left unread: the byte after `0x` must pass `isDigit`. -/
theorem C5_hex_literal_letter_first :
    (Scanner.getToken (Scanner.start (bytes "0xA "))).map
        (fun r => (r.1, r.2._lastChar, r.2._istream))
      = some (K_UNKNOWN, 65, [32])
    ∧ K_UNKNOWN ≠ T_INTEGER := by
  decide

/-! ## Handle stores: sweep, removal and stability of handles -/

namespace M8r.IdStore

variable {V : Type}

theorem slot_of_set_none (st : IdStore V) (i j c : Nat) :
    slot { st with _values := st._values.set i none, _freeValueIdCount := c } j
      = if j = i then none else slot st j := by
  unfold slot
  simp only [List.getD_eq_getElem?_getD, List.getElem?_set]
  by_cases h : i = j
  · subst h
    by_cases hl : i < st._values.length <;> simp [hl]
  · have h2 : ¬ j = i := fun e => h e.symm
    simp [h, h2]

theorem slot_none_of_length_le (st : IdStore V) (j : Nat) (h : st._values.length ≤ j) :
    slot st j = none := by
  unfold slot
  simp [List.getD_eq_getElem?_getD, List.getElem?_eq_none h]

theorem remove_eq_some (idBool : Nat → Bool) (st : IdStore V) (i : Nat) (del : Bool)
    (hb : idBool i = true) (hi : i < st._values.length) (hs : (slot st i).isSome = true) :
    remove idBool st i del
      = some { st with _values := st._values.set i none,
                       _freeValueIdCount := (st._freeValueIdCount + 1) % 4294967296 } := by
  unfold remove
  simp [hb, hi, hs]

theorem swept_of_set_none (sweepable : V → Bool) (st : IdStore V) (i j c : Nat) (h : j ≠ i) :
    swept sweepable { st with _values := st._values.set i none, _freeValueIdCount := c } j
      = swept sweepable st j := by
  unfold swept
  rw [slot_of_set_none]
  simp [h, marked]

theorem ite_succ_le {α : Type} (i j : Nat) (P : Prop) [Decidable P] (a b : α) (h : j ≠ i) :
    (if i + 1 ≤ j ∧ P then a else b) = if i ≤ j ∧ P then a else b := by
  have hiff : (i + 1 ≤ j ∧ P) ↔ (i ≤ j ∧ P) := by
    constructor <;> rintro ⟨h1, h2⟩ <;> exact ⟨by omega, h2⟩
  exact if_congr hiff rfl rfl

/-- The sweep loop started at index `i` with enough budget ends, keeps the
mark bits and the number of slots, and empties exactly the slots from `i` on
that are live, unmarked and sweepable. -/
theorem gcSweepLoop_spec (idBool : Nat → Bool) (sweepable : V → Bool) :
    ∀ (k i : Nat) (st : IdStore V), st._values.length < 65536 →
      i + k = st._values.length →
      (∀ j, i ≤ j → swept sweepable st j = true → idBool j = true) →
      ∀ fuel, k < fuel →
        ∃ st1, gcSweepLoop idBool sweepable fuel i st = Outcome.done st1 ∧
          st1._valueMarked = st._valueMarked ∧
          st1._values.length = st._values.length ∧
          ∀ j, slot st1 j = if i ≤ j ∧ swept sweepable st j = true then none else slot st j := by
  intro k
  induction k with
  | zero =>
    intro i st _ hik _ fuel hf
    obtain ⟨f, rfl⟩ : ∃ f, fuel = f + 1 := ⟨fuel - 1, by omega⟩
    refine ⟨st, ?_, rfl, rfl, ?_⟩
    · unfold gcSweepLoop
      have : ¬ i < st._values.length := by omega
      simp [this]
    · intro j
      by_cases hj : i ≤ j ∧ swept sweepable st j = true
      · rw [if_pos hj]
        exact slot_none_of_length_le st j (by omega)
      · rw [if_neg hj]
  | succ k ih =>
    intro i st hlen hik hass fuel hf
    obtain ⟨f, rfl⟩ : ∃ f, fuel = f + 1 := ⟨fuel - 1, by omega⟩
    have hi : i < st._values.length := by omega
    have hmod : (i + 1) % 65536 = i + 1 := Nat.mod_eq_of_lt (by omega)
    have hkf : k < f := by omega
    unfold gcSweepLoop
    rw [if_pos hi, hmod]
    cases hs : slot st i with
    | none =>
      obtain ⟨st1, h1, h2, h3, h4⟩ :=
        ih (i + 1) st hlen (by omega) (fun j hj => hass j (by omega)) f hkf
      refine ⟨st1, ?_, h2, h3, ?_⟩
      · simpa using h1
      · intro j
        rw [h4 j]
        by_cases hji : j = i
        · subst hji
          have : swept sweepable st j = false := by simp [swept, hs]
          simp [this]
        · exact ite_succ_le i j _ _ _ hji
    | some v =>
      by_cases hc : (!marked st i && sweepable v) = true
      · have hsw : swept sweepable st i = true := by simp [swept, hs, hc]
        have hrem := remove_eq_some idBool st i true (hass i (le_refl i) hsw) hi (by simp [hs])
        obtain ⟨st1, h1, h2, h3, h4⟩ :=
          ih (i + 1) { st with _values := st._values.set i none,
                               _freeValueIdCount := (st._freeValueIdCount + 1) % 4294967296 }
            (by simpa using hlen) (by simpa using (by omega : i + 1 + k = st._values.length))
            (fun j hj hsj => hass j (by omega)
              (by rwa [swept_of_set_none sweepable st i j _ (by omega)] at hsj)) f hkf
        refine ⟨st1, ?_, ?_, ?_, ?_⟩
        · simp only [hc, if_true, hrem]
          exact h1
        · simpa using h2
        · simpa using h3
        · intro j
          rw [h4 j, slot_of_set_none]
          by_cases hji : j = i
          · subst hji
            simp [hsw]
          · rw [swept_of_set_none sweepable st i j _ hji, if_neg hji]
            exact ite_succ_le i j _ _ _ hji
      · have hsw : swept sweepable st i = false := by
          simp only [swept, hs]
          simpa using hc
        obtain ⟨st1, h1, h2, h3, h4⟩ :=
          ih (i + 1) st hlen (by omega) (fun j hj => hass j (by omega)) f hkf
        refine ⟨st1, ?_, h2, h3, ?_⟩
        · simp only [hc]
          simpa using h1
        · intro j
          rw [h4 j]
          by_cases hji : j = i
          · subst hji
            simp [hsw]
          · exact ite_succ_le i j _ _ _ hji

theorem ptr_eq_slot (st : IdStore V) (id : Nat) : ptr st id = slot st id := by
  unfold ptr isValid
  by_cases h : id < st._values.length
  · simp [h]
  · simp [h, slot_none_of_length_le st id (by omega)]

/-- A sweep that starts at index 0 with enough budget ends and empties
exactly the live, unmarked, sweepable slots. -/
theorem gcSweepLoop_zero (idBool : Nat → Bool) (sweepable : V → Bool) (st : IdStore V)
    (hsize : st._values.length < 65536)
    (hassert : ∀ j, swept sweepable st j = true → idBool j = true)
    (fuel : Nat) (hfuel : st._values.length < fuel) :
    ∃ st1, gcSweepLoop idBool sweepable fuel 0 st = Outcome.done st1 ∧
      ∀ j, ptr st1 j = if swept sweepable st j = true then none else ptr st j := by
  obtain ⟨st1, h1, _, _, h4⟩ :=
    gcSweepLoop_spec idBool sweepable st._values.length 0 st hsize (by simp)
      (fun j _ => hassert j) fuel hfuel
  refine ⟨st1, h1, fun j => ?_⟩
  rw [ptr_eq_slot, ptr_eq_slot, h4 j]
  simp

/-- A sweep never fills a slot: a slot that is empty before is empty after. -/
theorem gcSweepLoop_keeps_none (idBool : Nat → Bool) (sweepable : V → Bool) (id : Nat) :
    ∀ (fuel i : Nat) (st st1 : IdStore V),
      gcSweepLoop idBool sweepable fuel i st = Outcome.done st1 →
      slot st id = none → slot st1 id = none := by
  intro fuel
  induction fuel with
  | zero => intro i st st1 h; simp [gcSweepLoop] at h
  | succ f ih =>
    intro i st st1 h hn
    unfold gcSweepLoop at h
    by_cases hi : i < st._values.length
    · rw [if_pos hi] at h
      cases hs : slot st i with
      | none =>
        rw [hs] at h
        exact ih _ st st1 h hn
      | some v =>
        rw [hs] at h
        dsimp only at h
        by_cases hc : (!marked st i && sweepable v) = true
        · rw [if_pos hc] at h
          cases hr : remove idBool st i true with
          | none => rw [hr] at h; cases h
          | some st2 =>
            rw [hr] at h
            refine ih _ st2 st1 h ?_
            unfold remove at hr
            split at hr
            · cases hr
              rw [slot_of_set_none]
              split
              · rfl
              · exact hn
            · cases hr
        · rw [if_neg hc] at h
          exact ih _ st st1 h hn
    · rw [if_neg hi] at h
      cases h
      exact hn

theorem addLoop_some (l : List (Option V)) :
    ∀ (i k : Nat), addLoop l i = some k → i ≤ k ∧ k - i < l.length ∧ l.getD (k - i) none = none := by
  induction l with
  | nil => intro i k h; simp [addLoop] at h
  | cons a rest ih =>
    intro i k h
    cases a with
    | none =>
      simp only [addLoop, Option.some.injEq] at h
      subst h
      simp
    | some v =>
      simp only [addLoop] at h
      obtain ⟨h1, h2, h3⟩ := ih (i + 1) k h
      refine ⟨by omega, by simp; omega, ?_⟩
      have hk : k - i = (k - (i + 1)) + 1 := by omega
      rw [hk, List.getD_cons_succ]
      exact h3

theorem addLoop_isSome (l : List (Option V)) :
    ∀ (i k : Nat), k < l.length → l.getD k none = none → (addLoop l i).isSome = true := by
  induction l with
  | nil => intro i k h; simp at h
  | cons a rest ih =>
    intro i k hk hn
    cases a with
    | none => simp [addLoop]
    | some v =>
      simp only [addLoop]
      cases k with
      | zero => simp at hn
      | succ k =>
        refine ih (i + 1) k (by simpa using hk) ?_
        simpa using hn

theorem slot_of_set (st : IdStore V) (i j c : Nat) (v : Option V) (h : j ≠ i) :
    slot { st with _values := st._values.set i v, _freeValueIdCount := c } j = slot st j := by
  unfold slot
  simp only [List.getD_eq_getElem?_getD, List.getElem?_set]
  have h2 : ¬ i = j := fun e => h e.symm
  simp [h2]

theorem slot_of_push (st : IdStore V) (j : Nat) (v : Option V) (m : List Bool)
    (h : j < st._values.length) :
    slot { st with _values := st._values ++ [v], _valueMarked := m } j = slot st j := by
  unfold slot
  simp [List.getD_eq_getElem?_getD, List.getElem?_append_left h]

/-- `add` keeps every slot that is live before the call. -/
theorem add_keeps_live (st st1 : IdStore V) (v : Option V) (id : Nat)
    (h : add st v = some (id, st1)) (j : Nat) (hj : (slot st j).isSome = true) :
    slot st1 j = slot st j := by
  unfold add at h
  split at h
  · cases ha : addLoop st._values 0 with
    | none => rw [ha] at h; cases h
    | some i =>
      rw [ha] at h
      simp only [Option.some.injEq, Prod.mk.injEq] at h
      obtain ⟨rfl, rfl⟩ := h
      obtain ⟨_, _, h3⟩ := addLoop_some st._values 0 i ha
      have hne : j ≠ i := by
        intro e
        subst e
        simp only [Nat.sub_zero] at h3
        unfold slot at hj
        rw [h3] at hj
        cases hj
      exact slot_of_set st i j _ v hne
  · simp only [Option.some.injEq, Prod.mk.injEq] at h
    obtain ⟨rfl, rfl⟩ := h
    have hlt : j < st._values.length := by
      by_contra hge
      rw [slot_none_of_length_le st j (by omega)] at hj
      cases hj
    exact slot_of_push st j v _ hlt

/-- `add` leaves an empty slot empty unless it hands that slot out. -/
theorem add_keeps_none (st st1 : IdStore V) (v : Option V) (id id2 : Nat)
    (h : add st v = some (id2, st1)) (hne : id2 ≠ id) (hn : slot st id = none) :
    slot st1 id = none := by
  unfold add at h
  split at h
  · cases ha : addLoop st._values 0 with
    | none => rw [ha] at h; cases h
    | some i =>
      rw [ha] at h
      simp only [Option.some.injEq, Prod.mk.injEq] at h
      obtain ⟨rfl, rfl⟩ := h
      rw [slot_of_set st i id _ v (fun e => hne e.symm)]
      exact hn
  · simp only [Option.some.injEq, Prod.mk.injEq] at h
    obtain ⟨rfl, rfl⟩ := h
    by_cases hlt : id < st._values.length
    · rw [slot_of_push st id v _ hlt]
      exact hn
    · unfold slot
      have : st._values.length + 1 ≤ id := by omega
      simp [List.getD_eq_getElem?_getD, List.getElem?_eq_none, this]

end M8r.IdStore

/-- C6: in an object store with fewer than 65536 slots, where the sweep does
not trip the assertion of `remove`, `gcSweep` ends and afterwards a slot
`i >= 1` is empty if and only if it was empty before or its object was
unmarked and collectable; every slot that was live and marked, or live and
not collectable, still holds the same object and resolves through `ptr`. -/
theorem C6_object_sweep_slots {V : Type} (idBool : Nat → Bool) (collectable : V → Bool)
    (st : IdStore V) (hsize : st._values.length < 65536)
    (_hmarks : st._valueMarked.length = st._values.length)
    (hassert : ∀ j, IdStore.swept collectable st j = true → idBool j = true)
    (fuel : Nat) (hfuel : st._values.length < fuel) :
    ∃ st1, IdStore.gcSweepObject idBool collectable fuel st = Outcome.done st1 ∧
      ∀ i, 1 ≤ i →
        (IdStore.ptr st1 i = none ↔
          (IdStore.ptr st i = none ∨
            ∃ v, IdStore.ptr st i = some v ∧ IdStore.marked st i = false ∧
              collectable v = true)) ∧
        (∀ v, IdStore.ptr st i = some v →
          (IdStore.marked st i = true ∨ collectable v = false) →
            IdStore.ptr st1 i = some v) := by
  obtain ⟨st1, h1, h2⟩ := IdStore.gcSweepLoop_zero idBool collectable st hsize hassert fuel hfuel
  refine ⟨st1, h1, fun i _ => ?_⟩
  have hp := h2 i
  rw [IdStore.ptr_eq_slot st i] at hp ⊢
  unfold IdStore.swept at hp
  cases hs : IdStore.slot st i with
  | none =>
    rw [hs] at hp
    simp at hp
    simp [hp]
  | some v =>
    rw [hs] at hp
    dsimp only at hp
    by_cases hc : (!IdStore.marked st i && collectable v) = true
    · rw [if_pos hc] at hp
      have hc2 : IdStore.marked st i = false ∧ collectable v = true := by simpa using hc
      refine ⟨by simp [hp, hc2.1, hc2.2], ?_⟩
      intro w hw hor
      cases hw
      rcases hor with h | h
      · rw [hc2.1] at h; cases h
      · rw [hc2.2] at h; cases h
    · rw [if_neg hc] at hp
      have hc2 : ¬ (IdStore.marked st i = false ∧ collectable v = true) := by simpa using hc
      refine ⟨by simp [hp, hc2], ?_⟩
      intro w hw _
      rw [hp]
      exact hw

/-- Witness for C6: a four-slot object store in which slot 1 is marked, slot
2 is empty, slot 3 holds an object that is not collectable and slot 0 is
unmarked and collectable. -/
theorem C6_object_sweep_slots_witness :
    ∃ st1, IdStore.gcSweepObject (fun _ => true) (fun v : Nat => decide (v < 25)) 5
        ⟨[some 10, some 20, none, some 30], [false, true, false, false], 1⟩
          = Outcome.done st1 ∧
      ∀ i, 1 ≤ i →
        (IdStore.ptr st1 i = none ↔
          (IdStore.ptr ⟨[some 10, some 20, none, some 30], [false, true, false, false], 1⟩ i
              = none ∨
            ∃ v, IdStore.ptr ⟨[some 10, some 20, none, some 30], [false, true, false, false], 1⟩ i
                = some v ∧
              IdStore.marked
                (⟨[some 10, some 20, none, some 30], [false, true, false, false], 1⟩ :
                  IdStore Nat) i = false ∧
              (fun v : Nat => decide (v < 25)) v = true)) ∧
        (∀ v, IdStore.ptr ⟨[some 10, some 20, none, some 30], [false, true, false, false], 1⟩ i
              = some v →
          (IdStore.marked
              (⟨[some 10, some 20, none, some 30], [false, true, false, false], 1⟩ :
                IdStore Nat) i = true ∨
            (fun v : Nat => decide (v < 25)) v = false) →
            IdStore.ptr st1 i = some v) :=
  C6_object_sweep_slots (fun _ => true) (fun v : Nat => decide (v < 25))
    ⟨[some 10, some 20, none, some 30], [false, true, false, false], 1⟩
    (by decide) (by decide) (fun _ _ => rfl) 5 (by decide)

/-- C7 (as stated, refuted): a store whose only slot, slot 0, is live and
unmarked. The sweep of the general template and the sweep of the object
store both free slot 0 when the handle 0 passes the assertion of `remove`;
when handle 0 converts to `false` the assertion fails. For no step budget
does the sweep end with slot 0 still holding its value. -/
theorem C7_unmarked_slot_zero_freed :
    IdStore.gcSweep (fun _ => true) 2 (⟨[some 7], [false], 0⟩ : IdStore Nat)
      = Outcome.done ⟨[none], [false], 1⟩
    ∧ IdStore.gcSweepObject (fun _ => true) (fun _ => true) 2
        (⟨[some 7], [false], 0⟩ : IdStore Nat) = Outcome.done ⟨[none], [false], 1⟩
    ∧ IdStore.gcSweep (fun id => id != 0) 2 (⟨[some 7], [false], 0⟩ : IdStore Nat)
      = Outcome.assertFailed
    ∧ ¬ ∃ fuel st1,
        IdStore.gcSweep (fun _ => true) fuel (⟨[some 7], [false], 0⟩ : IdStore Nat)
          = Outcome.done st1 ∧ IdStore.ptr st1 0 = some 7 := by
  refine ⟨by decide, by decide, by decide, ?_⟩
  rintro ⟨fuel, st1, h, hp⟩
  rcases fuel with _ | _ | n
  · simp [IdStore.gcSweep, IdStore.gcSweepLoop] at h
  · simp [IdStore.gcSweep, IdStore.gcSweepLoop, IdStore.slot, IdStore.marked,
      IdStore.remove] at h
  · simp [IdStore.gcSweep, IdStore.gcSweepLoop, IdStore.slot, IdStore.marked,
      IdStore.remove] at h
    subst h
    simp [IdStore.ptr, IdStore.slot, IdStore.isValid] at hp

/-- C7 (amended): in a store with fewer than 65536 slots, where the sweep
does not trip the assertion of `remove`, a live slot 0 that is marked keeps
its value through `gcSweep`; in the object store a live slot 0 that is
marked or whose object is not collectable keeps its value. -/
theorem C7_marked_slot_zero_kept {V : Type} (idBool : Nat → Bool) (collectable : V → Bool)
    (st : IdStore V) (hsize : st._values.length < 65536)
    (_hmarks : st._valueMarked.length = st._values.length)
    (hassert : ∀ j, IdStore.swept (fun _ => true) st j = true → idBool j = true)
    (v : V) (h0 : IdStore.ptr st 0 = some v) (fuel : Nat) (hfuel : st._values.length < fuel) :
    (IdStore.marked st 0 = true →
      ∃ st1, IdStore.gcSweep idBool fuel st = Outcome.done st1 ∧ IdStore.ptr st1 0 = some v)
    ∧ ((IdStore.marked st 0 = true ∨ collectable v = false) →
      ∃ st1, IdStore.gcSweepObject idBool collectable fuel st = Outcome.done st1 ∧
        IdStore.ptr st1 0 = some v) := by
  have hs0 : IdStore.slot st 0 = some v := by rw [← IdStore.ptr_eq_slot]; exact h0
  constructor
  · intro hm
    obtain ⟨st1, h1, h2⟩ :=
      IdStore.gcSweepLoop_zero idBool (fun _ => true) st hsize hassert fuel hfuel
    refine ⟨st1, h1, ?_⟩
    rw [h2 0, h0]
    simp [IdStore.swept, hs0, hm]
  · intro hor
    have hassert2 : ∀ j, IdStore.swept collectable st j = true → idBool j = true := by
      intro j hj
      apply hassert j
      unfold IdStore.swept at hj ⊢
      cases hs : IdStore.slot st j with
      | none => rw [hs] at hj; cases hj
      | some w =>
        rw [hs] at hj
        simp only [Bool.and_eq_true] at hj
        simp [hj.1]
    obtain ⟨st1, h1, h2⟩ :=
      IdStore.gcSweepLoop_zero idBool collectable st hsize hassert2 fuel hfuel
    refine ⟨st1, h1, ?_⟩
    rw [h2 0, h0]
    rcases hor with hm | hc
    · simp [IdStore.swept, hs0, hm]
    · simp [IdStore.swept, hs0, hc]

/-- Witness for C7 (amended): a two-slot store whose slot 0 is live and
marked and whose slot 1 is live and unmarked. -/
theorem C7_marked_slot_zero_kept_witness :
    (IdStore.marked (⟨[some 7, some 8], [true, false], 0⟩ : IdStore Nat) 0 = true →
      ∃ st1, IdStore.gcSweep (fun _ => true) 3 ⟨[some 7, some 8], [true, false], 0⟩
          = Outcome.done st1 ∧ IdStore.ptr st1 0 = some 7)
    ∧ ((IdStore.marked (⟨[some 7, some 8], [true, false], 0⟩ : IdStore Nat) 0 = true ∨
          (fun _ : Nat => true) 7 = false) →
      ∃ st1, IdStore.gcSweepObject (fun _ => true) (fun _ : Nat => true) 3
          ⟨[some 7, some 8], [true, false], 0⟩ = Outcome.done st1 ∧
        IdStore.ptr st1 0 = some 7) :=
  C7_marked_slot_zero_kept (fun _ => true) (fun _ : Nat => true)
    ⟨[some 7, some 8], [true, false], 0⟩ (by decide) (by decide) (fun _ _ => rfl) 7
    (by decide) 3 (by decide)

/-- C8 (as stated, refuted): after `remove` frees the live handle 1 of a
two-slot store, `ptr(1)` is null but `isValid(1)` still returns `true`. -/
theorem C8_freed_handle_still_in_range :
    (IdStore.remove (fun _ => true) (⟨[some 1, some 2], [true, true], 0⟩ : IdStore Nat) 1
        true).map (fun st1 => (IdStore.isValid st1 1, IdStore.ptr st1 1))
      = some (true, none) := by
  decide

/-- C8 (amended): `remove(id, del)` on a live handle whose conversion to
`bool` is `true` succeeds; afterwards `ptr(id)` is null while `isValid(id)`,
a range check, stays `true`. The same holds when a sweep frees the handle (in
a store with fewer than 65536 slots where no swept handle trips the assertion
of `remove`). A null `ptr(id)` stays null through every later `remove`,
`gcClear`, `gcMark` and sweep, and through every `add` that returns a handle
other than `id`. -/
theorem C8_freed_handle_resolves_to_null {V : Type} (idBool : Nat → Bool) (st : IdStore V)
    (id : Nat) (del : Bool) (hb : idBool id = true)
    (hlive : (IdStore.ptr st id).isSome = true) :
    (∃ st1, IdStore.remove idBool st id del = some st1 ∧ IdStore.ptr st1 id = none ∧
        IdStore.isValid st1 id = true)
    ∧ (∀ (sweepable : V → Bool) (fuel : Nat), st._values.length < 65536 →
        (∀ j, IdStore.swept sweepable st j = true → idBool j = true) →
        st._values.length < fuel → IdStore.swept sweepable st id = true →
        ∃ st1, IdStore.gcSweepLoop idBool sweepable fuel 0 st = Outcome.done st1 ∧
          IdStore.ptr st1 id = none ∧ IdStore.isValid st1 id = true)
    ∧ ∀ st2 : IdStore V, IdStore.ptr st2 id = none →
        (∀ j del2 st3, IdStore.remove idBool st2 j del2 = some st3 →
            IdStore.ptr st3 id = none)
        ∧ IdStore.ptr (IdStore.gcClear st2) id = none
        ∧ (∀ j, IdStore.ptr (IdStore.gcMark st2 j) id = none)
        ∧ (∀ sweepable fuel st3,
            IdStore.gcSweepLoop idBool sweepable fuel 0 st2 = Outcome.done st3 →
              IdStore.ptr st3 id = none)
        ∧ (∀ v id2 st3, IdStore.add st2 v = some (id2, st3) → id2 ≠ id →
            IdStore.ptr st3 id = none) := by
  have hi : id < st._values.length := by
    rw [IdStore.ptr_eq_slot] at hlive
    by_contra hge
    rw [IdStore.slot_none_of_length_le st id (by omega)] at hlive
    cases hlive
  refine ⟨?_, ?_, ?_⟩
  · rw [IdStore.ptr_eq_slot] at hlive
    refine ⟨_, IdStore.remove_eq_some idBool st id del hb hi hlive, ?_, ?_⟩
    · rw [IdStore.ptr_eq_slot, IdStore.slot_of_set_none]
      simp
    · simp [IdStore.isValid, hi]
  · intro sweepable fuel hsize hassert hfuel hsw
    obtain ⟨st1, h1, _, h3, h4⟩ :=
      IdStore.gcSweepLoop_spec idBool sweepable st._values.length 0 st hsize (by simp)
        (fun j _ => hassert j) fuel hfuel
    refine ⟨st1, h1, ?_, ?_⟩
    · rw [IdStore.ptr_eq_slot, h4 id]
      simp [hsw]
    · simp [IdStore.isValid, h3, hi]
  · intro st2 hn
    rw [IdStore.ptr_eq_slot] at hn
    refine ⟨?_, ?_, ?_, ?_, ?_⟩
    · intro j del2 st3 hr
      unfold IdStore.remove at hr
      split at hr
      · cases hr
        rw [IdStore.ptr_eq_slot, IdStore.slot_of_set_none]
        split
        · rfl
        · exact hn
      · cases hr
    · rw [IdStore.ptr_eq_slot]
      exact hn
    · intro j
      rw [IdStore.ptr_eq_slot]
      exact hn
    · intro sweepable fuel st3 hs
      rw [IdStore.ptr_eq_slot]
      exact IdStore.gcSweepLoop_keeps_none idBool sweepable id fuel 0 st2 st3 hs hn
    · intro v id2 st3 ha hne
      rw [IdStore.ptr_eq_slot]
      exact IdStore.add_keeps_none st2 st3 v id id2 ha hne hn

/-- Witness for C8 (amended): handle 1 of a two-slot store. -/
theorem C8_freed_handle_resolves_to_null_witness :
    (∃ st1, IdStore.remove (fun _ => true) (⟨[some 1, some 2], [true, true], 0⟩ : IdStore Nat)
        1 true = some st1 ∧ IdStore.ptr st1 1 = none ∧ IdStore.isValid st1 1 = true)
    ∧ (∀ (sweepable : Nat → Bool) (fuel : Nat),
        (⟨[some 1, some 2], [true, true], 0⟩ : IdStore Nat)._values.length < 65536 →
        (∀ j, IdStore.swept sweepable (⟨[some 1, some 2], [true, true], 0⟩ : IdStore Nat) j
            = true → (fun _ : Nat => true) j = true) →
        (⟨[some 1, some 2], [true, true], 0⟩ : IdStore Nat)._values.length < fuel →
        IdStore.swept sweepable (⟨[some 1, some 2], [true, true], 0⟩ : IdStore Nat) 1 = true →
        ∃ st1, IdStore.gcSweepLoop (fun _ => true) sweepable fuel 0
            (⟨[some 1, some 2], [true, true], 0⟩ : IdStore Nat) = Outcome.done st1 ∧
          IdStore.ptr st1 1 = none ∧ IdStore.isValid st1 1 = true)
    ∧ ∀ st2 : IdStore Nat, IdStore.ptr st2 1 = none →
        (∀ j del2 st3, IdStore.remove (fun _ => true) st2 j del2 = some st3 →
            IdStore.ptr st3 1 = none)
        ∧ IdStore.ptr (IdStore.gcClear st2) 1 = none
        ∧ (∀ j, IdStore.ptr (IdStore.gcMark st2 j) 1 = none)
        ∧ (∀ sweepable fuel st3,
            IdStore.gcSweepLoop (fun _ => true) sweepable fuel 0 st2 = Outcome.done st3 →
              IdStore.ptr st3 1 = none)
        ∧ (∀ v id2 st3, IdStore.add st2 v = some (id2, st3) → id2 ≠ 1 →
            IdStore.ptr st3 1 = none) :=
  C8_freed_handle_resolves_to_null (fun _ => true) ⟨[some 1, some 2], [true, true], 0⟩ 1 true
    rfl (by decide)

/-- C9: handles are stable while their target lives. For every store state,
`add(v)` returns (it does not reach `assert(false)`) when the free count is 0
or some slot is empty, and whenever it returns, `ptr(j)` is unchanged for
every handle `j` that was live before the call; `remove(i, del)` on a live
handle `i` that passes its assertion returns and leaves `ptr(j)` unchanged
for every handle `j` different from `i`. -/
theorem C9_handles_stable {V : Type} (idBool : Nat → Bool) (st : IdStore V) :
    (∀ v : Option V,
      ((st._freeValueIdCount = 0 ∨ ∃ k, k < st._values.length ∧ IdStore.slot st k = none) →
        (IdStore.add st v).isSome = true)
      ∧ ∀ id st1, IdStore.add st v = some (id, st1) →
          ∀ j, (IdStore.ptr st j).isSome = true → IdStore.ptr st1 j = IdStore.ptr st j)
    ∧ ∀ (i : Nat) (del : Bool), idBool i = true → (IdStore.ptr st i).isSome = true →
        ∃ st1, IdStore.remove idBool st i del = some st1 ∧
          ∀ j, j ≠ i → IdStore.ptr st1 j = IdStore.ptr st j := by
  constructor
  · intro v
    constructor
    · intro h
      unfold IdStore.add
      by_cases hc : st._freeValueIdCount = 0
      · simp [hc]
      · rcases h with h | ⟨k, hk, hs⟩
        · exact absurd h hc
        · have := IdStore.addLoop_isSome st._values 0 k hk hs
          rw [if_pos hc]
          cases ha : IdStore.addLoop st._values 0 with
          | none => rw [ha] at this; cases this
          | some i => simp
    · intro id st1 ha j hj
      rw [IdStore.ptr_eq_slot] at hj
      rw [IdStore.ptr_eq_slot, IdStore.ptr_eq_slot]
      exact IdStore.add_keeps_live st st1 v id ha j hj
  · intro i del hb hlive
    rw [IdStore.ptr_eq_slot] at hlive
    have hi : i < st._values.length := by
      by_contra hge
      rw [IdStore.slot_none_of_length_le st i (by omega)] at hlive
      cases hlive
    refine ⟨_, IdStore.remove_eq_some idBool st i del hb hi hlive, fun j hj => ?_⟩
    rw [IdStore.ptr_eq_slot, IdStore.ptr_eq_slot, IdStore.slot_of_set_none]
    simp [hj]

/-- Witness for C9: a three-slot store whose slot 1 was freed: `add` returns,
keeps the live handles 0 and 2, and `remove(2)` keeps the handles other
than 2. -/
theorem C9_handles_stable_witness :
    (IdStore.add (⟨[some 7, none, some 3], [false, false, true], 1⟩ : IdStore Nat)
        (some 9)).isSome = true
    ∧ (∀ id st1,
        IdStore.add (⟨[some 7, none, some 3], [false, false, true], 1⟩ : IdStore Nat) (some 9)
          = some (id, st1) →
        ∀ j, (IdStore.ptr (⟨[some 7, none, some 3], [false, false, true], 1⟩ : IdStore Nat)
              j).isSome = true →
          IdStore.ptr st1 j
            = IdStore.ptr (⟨[some 7, none, some 3], [false, false, true], 1⟩ : IdStore Nat) j)
    ∧ ∃ st1, IdStore.remove (fun _ => true)
          (⟨[some 7, none, some 3], [false, false, true], 1⟩ : IdStore Nat) 2 true = some st1 ∧
        ∀ j, j ≠ 2 → IdStore.ptr st1 j
          = IdStore.ptr (⟨[some 7, none, some 3], [false, false, true], 1⟩ : IdStore Nat) j :=
  ⟨((C9_handles_stable (fun _ => true)
        (⟨[some 7, none, some 3], [false, false, true], 1⟩ : IdStore Nat)).1 (some 9)).1
      (Or.inr ⟨1, by decide, rfl⟩),
    ((C9_handles_stable (fun _ => true)
        (⟨[some 7, none, some 3], [false, false, true], 1⟩ : IdStore Nat)).1 (some 9)).2,
    (C9_handles_stable (fun _ => true)
        (⟨[some 7, none, some 3], [false, false, true], 1⟩ : IdStore Nat)).2 2 true rfl
      (by decide)⟩

/-! ## Parse engine: the jumps of a `switch` -/

namespace M8r.PE

theorem bind_eq {α β : Type} (m : PE α) (f : α → PE β) (pe : ParseEngine) :
    (m >>= f) pe = PE.andThen m f pe := rfl

theorem pure_eq {α : Type} (a : α) (pe : ParseEngine) :
    (pure a : PE α) pe = Outcome.done (a, pe) := rfl

end M8r.PE

/-- C10 (as stated, refuted): `switchStatement` on the tokens of
`switch (1) { case 1: a; case 2: b; }`, with an emitter in which every
instruction occupies one address. The body of `case 1` (`a;`, which does not
end in `break`) is followed by a `JMP` (at deferred offset 2, address 10
after the bodies are copied to address 8) that the fix-up matches to the
label taken after all case bodies (address 14), past the body of `case 2`
(address 11). -/
theorem C10_case_body_jumps_to_end :
    ParseEngine.switchStatement Parser.unitCode (ParseEngine.callees Parser.unitCode 8) 8
      (ParseEngine.start
        [ParseEngine.tok Token.Switch, ParseEngine.tok Token.LParen, ParseEngine.intTok 1,
         ParseEngine.tok Token.RParen, ParseEngine.tok Token.LBrace,
         ParseEngine.tok Token.Case, ParseEngine.intTok 1, ParseEngine.tok Token.Colon,
         ParseEngine.ident "a", ParseEngine.tok Token.Semicolon,
         ParseEngine.tok Token.Case, ParseEngine.intTok 2, ParseEngine.tok Token.Colon,
         ParseEngine.ident "b", ParseEngine.tok Token.Semicolon,
         ParseEngine.tok Token.RBrace])
      = Outcome.done (true,
          { tokens := []
            trace :=
              [Emit.pushK (Value.integer 1), Emit.startDeferred, Emit.endDeferred,
               Emit.pushK (Value.integer 1), Emit.emitCaseTest, Emit.label,
               Emit.addMatchedJump Op.JT ⟨3, 3⟩, Emit.resumeDeferred,
               Emit.emitId (some "a") IdType.MightBeLocal, Emit.discardResult,
               Emit.label, Emit.addMatchedJump Op.JMP ⟨2, 2⟩, Emit.endDeferred,
               Emit.pushK (Value.integer 2), Emit.emitCaseTest, Emit.label,
               Emit.addMatchedJump Op.JT ⟨6, 6⟩, Emit.resumeDeferred,
               Emit.emitId (some "b") IdType.MightBeLocal, Emit.discardResult,
               Emit.label, Emit.addMatchedJump Op.JMP ⟨5, 5⟩, Emit.endDeferred,
               Emit.label, Emit.addMatchedJump Op.JMP ⟨7, 7⟩, Emit.emitDeferred, Emit.label,
               Emit.matchJumpToLabel ⟨7, 7⟩ ⟨14, -1⟩,
               Emit.matchJumpToAddr ⟨3, 3⟩ 8,
               Emit.matchJumpToLabel ⟨2, 10⟩ ⟨14, -1⟩,
               Emit.matchJumpToAddr ⟨6, 6⟩ 11,
               Emit.matchJumpToLabel ⟨5, 13⟩ ⟨14, -1⟩,
               Emit.discardResult]
            _breakStack := []
            _continueStack := [] }) := by
  decide

/-- C10 (amended): in a `case` clause of `switchStatement`, when `statement()`
returns `true` for the body (the body is not empty), the calls that follow
the body are `label()`, `addMatchedJump(Op::JMP, fromStatement)` and
`endDeferred()`, and the fix-up loop matches that jump to the label passed as
`afterStatementsLabel`, after relocating it by `statementStart -
deferredStatementStart`; when `statement()` returns `false` (an empty body)
only `endDeferred()` follows and the fix-up loop matches nothing but the `JT`
of the clause, so only an empty body falls through into the next body. -/
theorem C10_nonempty_case_body_gets_jump (P : Parser) (r : ParseEngine.Callees)
    (pe pe0 pe1 : ParseEngine) (head : Label × Int) (b : Bool)
    (hlabel : ∀ tr, 0 ≤ P.label tr)
    (hhead : ParseEngine.switchCaseHead P pe = Outcome.done (head, pe0))
    (hstmt : r.statement pe0 = Outcome.done (b, pe1)) :
    ∃ entry pe2, ParseEngine.switchCaseBody P r pe = Outcome.done (entry, pe2) ∧
      pe2.tokens = pe1.tokens ∧
      (b = true →
        pe2.trace = pe1.trace ++
          [Emit.label, Emit.addMatchedJump Op.JMP entry.fromStatement, Emit.endDeferred] ∧
        ∀ (D S : Int) (after : Label) (rest : List ParseEngine.CaseEntry) (pe3 : ParseEngine),
          ParseEngine.switchFixup D S after (entry :: rest) pe3
            = ParseEngine.switchFixup D S after rest
                ⟨pe3.tokens,
                 pe3.trace ++
                  [Emit.matchJumpToAddr entry.toStatement (entry.statementAddr - D + S),
                   Emit.matchJumpToLabel
                     { entry.fromStatement with
                       matchedAddr := entry.fromStatement.matchedAddr + (S - D) } after],
                 pe3._breakStack, pe3._continueStack⟩) ∧
      (b = false →
        pe2.trace = pe1.trace ++ [Emit.endDeferred] ∧
        ∀ (D S : Int) (after : Label) (rest : List ParseEngine.CaseEntry) (pe3 : ParseEngine),
          ParseEngine.switchFixup D S after (entry :: rest) pe3
            = ParseEngine.switchFixup D S after rest
                ⟨pe3.tokens,
                 pe3.trace ++
                  [Emit.matchJumpToAddr entry.toStatement (entry.statementAddr - D + S)],
                 pe3._breakStack, pe3._continueStack⟩) := by
  obtain ⟨toks1, tr1, bs1, cs1⟩ := pe1
  cases b with
  | true =>
    refine ⟨⟨head.1, ⟨P.label (tr1 ++ [Emit.label]), P.matchedAddr (tr1 ++ [Emit.label])⟩,
      head.2⟩, ⟨toks1, tr1 ++ [Emit.label, Emit.addMatchedJump Op.JMP
        ⟨P.label (tr1 ++ [Emit.label]), P.matchedAddr (tr1 ++ [Emit.label])⟩,
        Emit.endDeferred], bs1, cs1⟩, ?_, rfl, ?_, ?_⟩
    · simp [ParseEngine.switchCaseBody, PE.bind_eq, PE.andThen, hhead, hstmt,
        ParseEngine.label, ParseEngine.addMatchedJump, ParseEngine.emit,
        ParseEngine.getTrace, PE.pure_eq]
    · intro _
      refine ⟨rfl, ?_⟩
      intro D S after rest pe3
      obtain ⟨toks3, tr3, bs3, cs3⟩ := pe3
      simp [ParseEngine.switchFixup, PE.bind_eq, PE.andThen, ParseEngine.emit, hlabel]
    · intro h; cases h
  | false =>
    refine ⟨⟨head.1, { ParseEngine.noLabel with label := -1 }, head.2⟩,
      ⟨toks1, tr1 ++ [Emit.endDeferred], bs1, cs1⟩, ?_, rfl, ?_, ?_⟩
    · simp [ParseEngine.switchCaseBody, PE.bind_eq, PE.andThen, hhead, hstmt,
        ParseEngine.emit, PE.pure_eq]
    · intro h; cases h
    · intro _
      refine ⟨rfl, ?_⟩
      intro D S after rest pe3
      obtain ⟨toks3, tr3, bs3, cs3⟩ := pe3
      simp [ParseEngine.switchFixup, PE.bind_eq, PE.andThen, ParseEngine.emit, PE.pure_eq]

/-- Witness for C10 (amended): the clause body `a;` followed by `case`, with
an emitter in which every instruction occupies one address. -/
theorem C10_nonempty_case_body_gets_jump_witness :
    ∃ entry pe2,
      ParseEngine.switchCaseBody Parser.unitCode (ParseEngine.callees Parser.unitCode 4)
          (ParseEngine.start
            [ParseEngine.ident "a", ParseEngine.tok Token.Semicolon,
             ParseEngine.tok Token.Case]) = Outcome.done (entry, pe2) ∧
      pe2.tokens = [ParseEngine.tok Token.Case] ∧
      pe2.trace =
        [Emit.label, Emit.addMatchedJump Op.JT ⟨0, 0⟩, Emit.resumeDeferred,
         Emit.emitId (some "a") IdType.MightBeLocal, Emit.discardResult] ++
        [Emit.label, Emit.addMatchedJump Op.JMP entry.fromStatement, Emit.endDeferred] :=
  (C10_nonempty_case_body_gets_jump Parser.unitCode (ParseEngine.callees Parser.unitCode 4)
      (ParseEngine.start
        [ParseEngine.ident "a", ParseEngine.tok Token.Semicolon, ParseEngine.tok Token.Case])
      ⟨[ParseEngine.ident "a", ParseEngine.tok Token.Semicolon, ParseEngine.tok Token.Case],
       [Emit.label, Emit.addMatchedJump Op.JT ⟨0, 0⟩, Emit.resumeDeferred], [], []⟩
      ⟨[ParseEngine.tok Token.Case],
       [Emit.label, Emit.addMatchedJump Op.JT ⟨0, 0⟩, Emit.resumeDeferred,
        Emit.emitId (some "a") IdType.MightBeLocal, Emit.discardResult], [], []⟩
      (⟨0, 0⟩, 0) true (fun _ => Int.natCast_nonneg _) (by decide) (by decide)).imp
    fun _ h => h.imp fun _ h2 => ⟨h2.1, h2.2.1, (h2.2.2.1 rfl).1⟩

/-! ## Parse engine: general facts -/

namespace M8r.ParseEngine

theorem getToken_eq (pe : ParseEngine) : getToken pe = Outcome.done (current pe, pe) := rfl

theorem matchJumps_eq (ls : List Label) (toks : List Tok) (tr : List Emit)
    (bs cs : List (List Label)) :
    matchJumps ls ⟨toks, tr, bs, cs⟩
      = Outcome.done ((), ⟨toks, tr ++ ls.map Emit.matchJump, bs, cs⟩) := by
  induction ls generalizing tr with
  | nil => simp [matchJumps, PE.pure_eq]
  | cons l ls ih =>
    simp [matchJumps, PE.bind_eq, PE.andThen, emit, ih]

/-- At a token that starts no expression `primaryExpression` returns `false`
and changes nothing. -/
theorem primaryExpression_false (r : Callees) (n : Nat) (pe : ParseEngine)
    (h : startsExpression (current pe) = false) :
    primaryExpression r n pe = Outcome.done (false, pe) := by
  have h2 := h
  simp only [startsExpression, Bool.or_eq_false_iff, beq_eq_false_iff_ne, ne_eq] at h2
  simp [primaryExpression, PE.bind_eq, PE.andThen, getToken_eq, getTokenValue, h2, PE.pure_eq]

/-- At a token that starts no expression `expression` returns `false` and
changes nothing. -/
theorem expression_false (P : Parser) (r : Callees) (n minPrec : Nat) (pe : ParseEngine)
    (h : startsExpression (current pe) = false) :
    expression P r n minPrec pe = Outcome.done (false, pe) := by
  have h2 := h
  simp only [startsExpression, Bool.or_eq_false_iff, beq_eq_false_iff_ne, ne_eq] at h2
  simp [expression, arithmeticPrimary, leftHandSideExpression, memberExpression,
    primaryExpression_false r n pe h, PE.bind_eq, PE.andThen, getToken_eq, h2, PE.pure_eq,
    prefixOp]

/-- A primary of one token, followed by a token that does not continue it. -/
theorem arithmeticPrimary_primary (P : Parser) (r : Callees) (n : Nat) (a : Tok) (ea : Emit)
    (rest : List Tok) (tr : List Emit) (bs cs : List (List Label))
    (ha : primaryEmit a = some ea)
    (hn : continuesPrimary (current ⟨rest, tr, bs, cs⟩) = false) :
    arithmeticPrimary P r (n + 1) ⟨a :: rest, tr, bs, cs⟩
      = Outcome.done (true, ⟨rest, tr ++ [ea], bs, cs⟩) := by
  obtain ⟨at_, av⟩ := a
  simp only [continuesPrimary, current, Bool.or_eq_false_iff, beq_eq_false_iff_ne, ne_eq] at hn
  obtain ⟨⟨⟨⟨⟨h1, h2⟩, h3⟩, h4⟩, h5⟩, h6⟩ := hn
  cases at_ <;> simp only [primaryEmit, Option.some.injEq, reduceCtorEq] at ha <;> subst ha <;>
    simp [arithmeticPrimary, leftHandSideExpression, memberExpression, primaryExpression,
      leftHandSideLoop, PE.bind_eq, PE.andThen, getToken_eq, current, getTokenValue, PE.pure_eq,
      prefixOp, postfixOp, emit, retireToken, h1, h2, h3, h4, h5, atomizeString]

theorem callees_expression (P : Parser) (n : Nat) :
    (callees P (n + 1)).expression = expression P (callees P n) n := rfl

theorem findOpInfo_some (t : Token) (i : OperatorInfo) (h : findOpInfo t = some i) :
    i ∈ _opInfos ∧ i.token = t := by
  unfold findOpInfo at h
  exact ⟨List.mem_of_find?_eq_some h, by simpa using List.find?_some h⟩

theorem table_continuesPrimary :
    ∀ i ∈ _opInfos, continuesPrimary i.token = false := by decide

theorem table_prec_pos : ∀ i ∈ _opInfos, defaultMinPrec ≤ i.prec := by decide

theorem table_assoc_of_prec :
    ∀ i ∈ _opInfos, ∀ j ∈ _opInfos, i.prec = j.prec → i.assoc = j.assoc := by decide

theorem expressionLoop_stop (P : Parser) (r : Callees) (minPrec k : Nat) (pe : ParseEngine)
    (h : findOpInfo (current pe) = none ∨
         ∃ i, findOpInfo (current pe) = some i ∧ i.prec < minPrec) :
    expressionLoop P r minPrec (k + 1) pe = Outcome.done (true, pe) := by
  rcases h with h | ⟨i, h, hp⟩
  · simp [expressionLoop, PE.bind_eq, PE.andThen, getToken_eq, h, PE.pure_eq]
  · simp [expressionLoop, PE.bind_eq, PE.andThen, getToken_eq, h, PE.pure_eq, hp]

/-- What a binary operator of the table adds around its right operand. -/
theorem expressionLoop_step (P : Parser) (r : Callees) (minPrec k : Nat) (o : Tok)
    (i : OperatorInfo) (rest rest1 : List Tok) (tr tr1 : List Emit)
    (bs cs bs1 cs1 : List (List Label))
    (h : findOpInfo o.token = some i) (hp : minPrec ≤ i.prec)
    (hs : i.op ≠ Op.LAND ∧ i.op ≠ Op.LOR)
    (hexp : r.expression (if i.assoc = Assoc.LeftAssoc then i.prec + 1 else i.prec)
        ⟨rest, tr ++ (if i.sto then [Emit.emitDup] else []), bs, cs⟩
      = Outcome.done (true, ⟨rest1, tr1, bs1, cs1⟩)) :
    expressionLoop P r minPrec (k + 1) ⟨o :: rest, tr, bs, cs⟩
      = expressionLoop P r minPrec k
          ⟨rest1, tr1 ++ [Emit.emitBinOp i.op] ++ (if i.sto then [Emit.emitMove] else []),
           bs1, cs1⟩ := by
  have hp2 : ¬ i.prec < minPrec := by omega
  obtain ⟨hs1, hs2⟩ := hs
  cases hsto : i.sto
  · simp only [hsto, Bool.false_eq_true, ↓reduceIte, List.append_nil] at hexp ⊢
    conv => lhs; unfold expressionLoop
    simp only [PE.bind_eq, PE.andThen, getToken_eq, current, List.head?_cons, Option.map_some',
      Option.getD_some, h, hp2, ↓reduceIte, retireToken, List.tail_cons, hsto,
      Bool.false_eq_true, PE.pure_eq, hs1, hs2, or_self, hexp, expectIf, Bool.not_true,
      emit]
  · simp only [hsto, ↓reduceIte] at hexp ⊢
    conv => lhs; unfold expressionLoop
    simp only [PE.bind_eq, PE.andThen, getToken_eq, current, List.head?_cons, Option.map_some',
      Option.getD_some, h, hp2, ↓reduceIte, retireToken, List.tail_cons, hsto,
      Bool.false_eq_true, PE.pure_eq, hs1, hs2, or_self, hexp, expectIf, Bool.not_true,
      emit, List.append_assoc, List.singleton_append]

/-- After a primary that is followed by a token other than `?`, `expression`
goes on with its loop over the binary operators. -/
theorem expression_of_primary (P : Parser) (r : Callees) (n minPrec : Nat)
    (pe pe1 : ParseEngine)
    (ha : arithmeticPrimary P r n pe = Outcome.done (true, pe1))
    (hq : current pe1 ≠ Token.Question) :
    expression P r n minPrec pe = expressionLoop P r minPrec n pe1 := by
  unfold expression
  simp only [PE.bind_eq, PE.andThen, ha, Bool.not_true, Bool.false_eq_true, ↓reduceIte,
    getToken_eq, hq]

end M8r.ParseEngine

/-! ## Switch clauses, loops and expressions of the parse engine -/

/-- C11 (counterexample): in `switch (1) { case 3: c; break; }` the body of
the clause is the one statement `c;`. At `break` the loop over the clauses
ends, the missing `}` is reported (`expectedError(RBrace)`) and the tokens
`break ; }` are left unconsumed. -/
theorem C11_second_statement_ends_switch :
    ParseEngine.switchStatement Parser.unitCode (ParseEngine.callees Parser.unitCode 8) 8
      (ParseEngine.start
        [ParseEngine.tok Token.Switch, ParseEngine.tok Token.LParen, ParseEngine.intTok 1,
         ParseEngine.tok Token.RParen, ParseEngine.tok Token.LBrace,
         ParseEngine.tok Token.Case, ParseEngine.intTok 3, ParseEngine.tok Token.Colon,
         ParseEngine.ident "c", ParseEngine.tok Token.Semicolon,
         ParseEngine.tok Token.Break, ParseEngine.tok Token.Semicolon,
         ParseEngine.tok Token.RBrace])
      = Outcome.done (true,
          { tokens :=
              [ParseEngine.tok Token.Break, ParseEngine.tok Token.Semicolon,
               ParseEngine.tok Token.RBrace]
            trace :=
              [Emit.pushK (Value.integer 1), Emit.startDeferred, Emit.endDeferred,
               Emit.pushK (Value.integer 3), Emit.emitCaseTest, Emit.label,
               Emit.addMatchedJump Op.JT ⟨3, 3⟩, Emit.resumeDeferred,
               Emit.emitId (some "c") IdType.MightBeLocal, Emit.discardResult,
               Emit.label, Emit.addMatchedJump Op.JMP ⟨2, 2⟩, Emit.endDeferred,
               Emit.expectedError Token.RBrace none,
               Emit.label, Emit.addMatchedJump Op.JMP ⟨4, 4⟩, Emit.emitDeferred, Emit.label,
               Emit.matchJumpToLabel ⟨4, 4⟩ ⟨8, -1⟩,
               Emit.matchJumpToAddr ⟨3, 3⟩ 5,
               Emit.matchJumpToLabel ⟨2, 7⟩ ⟨8, -1⟩,
               Emit.discardResult]
            _breakStack := []
            _continueStack := [] }) := by
  decide

/-- C11 (amended): a clause of a switch holds one statement. When the
expression and colon of a `case` clause, or `default :`, are followed by one
`statement()` call that stops at a token `t` that is neither `case` nor
`default`, the loop over the clauses returns at `t` with what that one call
consumed as the body of the clause (followed by the jump to the end of the
switch; for a `case` clause only when the statement was not empty), and for
every `t` other than `}` the `expect(RBrace)` that follows reports an error
and consumes nothing. -/
theorem C11_clause_body_is_one_statement (P : Parser) (r : ParseEngine.Callees) (n k : Nat)
    (st : ParseEngine.SwitchLocals) :
    (∀ (c colon t : Tok) (toks toks1 toks2 : List Tok) (tr tr1 tr2 : List Emit)
        (bs cs bs1 cs1 bs2 cs2 : List (List Label)) (e b : Bool),
      c.token = Token.Case → colon.token = Token.Colon →
      ParseEngine.expression P r n ParseEngine.defaultMinPrec ⟨toks, tr, bs, cs⟩
        = Outcome.done (e, ⟨colon :: toks1, tr1, bs1, cs1⟩) →
      r.statement
          ⟨toks1,
           tr1 ++ [Emit.emitCaseTest, Emit.label,
             Emit.addMatchedJump Op.JT
               ⟨P.label (tr1 ++ [Emit.emitCaseTest, Emit.label]),
                P.matchedAddr (tr1 ++ [Emit.emitCaseTest, Emit.label])⟩,
             Emit.resumeDeferred],
           bs1, cs1⟩
        = Outcome.done (b, ⟨t :: toks2, tr2, bs2, cs2⟩) →
      t.token ≠ Token.Case ∧ t.token ≠ Token.Default →
      ∃ entry tr3,
        ParseEngine.switchClausesLoop P r n (k + 2) st ⟨c :: toks, tr, bs, cs⟩
          = Outcome.done ({ st with cases := st.cases ++ [entry] },
              ⟨t :: toks2, tr3, bs2, cs2⟩) ∧
        tr3 = tr2 ++ (if b then [Emit.label, Emit.addMatchedJump Op.JMP entry.fromStatement,
                                  Emit.endDeferred]
                      else [Emit.endDeferred]) ∧
        (t.token ≠ Token.RBrace →
          ParseEngine.expect Token.RBrace ⟨t :: toks2, tr3, bs2, cs2⟩
            = Outcome.done (false,
                ⟨t :: toks2, tr3 ++ [Emit.expectedError Token.RBrace none], bs2, cs2⟩)))
    ∧
    (∀ (d colon t : Tok) (toks1 toks2 : List Tok) (tr tr2 : List Emit)
        (bs cs bs2 cs2 : List (List Label)) (b : Bool),
      d.token = Token.Default → colon.token = Token.Colon →
      r.statement
          ⟨toks1,
           tr ++ (if st.haveDefault then [Emit.expectedError Token.DuplicateDefault none]
                  else []) ++ [Emit.resumeDeferred],
           bs, cs⟩
        = Outcome.done (b, ⟨t :: toks2, tr2, bs2, cs2⟩) →
      t.token ≠ Token.Case ∧ t.token ≠ Token.Default →
      ∃ st1 tr3,
        ParseEngine.switchClausesLoop P r n (k + 2) st ⟨d :: colon :: toks1, tr, bs, cs⟩
          = Outcome.done (st1, ⟨t :: toks2, tr3, bs2, cs2⟩) ∧
        st1.cases = st.cases ∧ st1.haveDefault = true ∧
        tr3 = tr2 ++ [Emit.label, Emit.addMatchedJump Op.JMP st1.defaultFromStatementLabel,
                      Emit.endDeferred] ∧
        (t.token ≠ Token.RBrace →
          ParseEngine.expect Token.RBrace ⟨t :: toks2, tr3, bs2, cs2⟩
            = Outcome.done (false,
                ⟨t :: toks2, tr3 ++ [Emit.expectedError Token.RBrace none], bs2, cs2⟩))) := by
  constructor
  · intro c colon t toks toks1 toks2 tr tr1 tr2 bs cs bs1 cs1 bs2 cs2 e b hc hcolon hexp hstmt ht
    obtain ⟨ht1, ht2⟩ := ht
    have hexpect : ∀ tr3, t.token ≠ Token.RBrace →
        ParseEngine.expect Token.RBrace ⟨t :: toks2, tr3, bs2, cs2⟩
          = Outcome.done (false,
              ⟨t :: toks2, tr3 ++ [Emit.expectedError Token.RBrace none], bs2, cs2⟩) := by
      intro tr3 h
      simp only [ParseEngine.expect, PE.bind_eq, PE.andThen, ParseEngine.getToken_eq,
        ParseEngine.current, List.head?_cons, Option.map_some', Option.getD_some, ne_eq, h,
        not_false_eq_true, ↓reduceIte, ParseEngine.emit, PE.pure_eq]
    cases b
    · refine ⟨⟨⟨P.label (tr1 ++ [Emit.emitCaseTest, Emit.label]),
                P.matchedAddr (tr1 ++ [Emit.emitCaseTest, Emit.label])⟩,
               { ParseEngine.noLabel with label := -1 },
               P.resumeDeferred (tr1 ++ [Emit.emitCaseTest, Emit.label,
                 Emit.addMatchedJump Op.JT
                   ⟨P.label (tr1 ++ [Emit.emitCaseTest, Emit.label]),
                    P.matchedAddr (tr1 ++ [Emit.emitCaseTest, Emit.label])⟩,
                 Emit.resumeDeferred])⟩, _, ?_, rfl, hexpect _⟩
      simp only [ParseEngine.switchClausesLoop, PE.bind_eq, PE.andThen, ParseEngine.getToken_eq,
        ParseEngine.current, List.head?_cons, Option.map_some', Option.getD_some, hc,
        reduceCtorEq, or_false, true_or, ↓reduceIte, ParseEngine.retireToken, List.tail_cons,
        hexp, ParseEngine.emit, ParseEngine.expect, hcolon, ne_eq, not_true_eq_false,
        ParseEngine.switchCaseBody, ParseEngine.switchCaseHead, ParseEngine.label,
        ParseEngine.getTrace, PE.pure_eq, ParseEngine.addMatchedJump,
        ParseEngine.resumeDeferred, List.append_assoc, List.cons_append, List.nil_append,
        List.singleton_append, hstmt, Bool.false_eq_true, ht1, ht2, or_self]
    · refine ⟨⟨⟨P.label (tr1 ++ [Emit.emitCaseTest, Emit.label]),
                P.matchedAddr (tr1 ++ [Emit.emitCaseTest, Emit.label])⟩,
               ⟨P.label (tr2 ++ [Emit.label]), P.matchedAddr (tr2 ++ [Emit.label])⟩,
               P.resumeDeferred (tr1 ++ [Emit.emitCaseTest, Emit.label,
                 Emit.addMatchedJump Op.JT
                   ⟨P.label (tr1 ++ [Emit.emitCaseTest, Emit.label]),
                    P.matchedAddr (tr1 ++ [Emit.emitCaseTest, Emit.label])⟩,
                 Emit.resumeDeferred])⟩, _, ?_, rfl, hexpect _⟩
      simp only [ParseEngine.switchClausesLoop, PE.bind_eq, PE.andThen, ParseEngine.getToken_eq,
        ParseEngine.current, List.head?_cons, Option.map_some', Option.getD_some, hc,
        reduceCtorEq, or_false, true_or, ↓reduceIte, ParseEngine.retireToken, List.tail_cons,
        hexp, ParseEngine.emit, ParseEngine.expect, hcolon, ne_eq, not_true_eq_false,
        ParseEngine.switchCaseBody, ParseEngine.switchCaseHead, ParseEngine.label,
        ParseEngine.getTrace, PE.pure_eq, ParseEngine.addMatchedJump,
        ParseEngine.resumeDeferred, List.append_assoc, List.cons_append, List.nil_append,
        List.singleton_append, hstmt, Bool.false_eq_true, ht1, ht2, or_self]
  · intro d colon t toks1 toks2 tr tr2 bs cs bs2 cs2 b hd hcolon hstmt ht
    obtain ⟨ht1, ht2⟩ := ht
    have hexpect : ∀ tr3, t.token ≠ Token.RBrace →
        ParseEngine.expect Token.RBrace ⟨t :: toks2, tr3, bs2, cs2⟩
          = Outcome.done (false,
              ⟨t :: toks2, tr3 ++ [Emit.expectedError Token.RBrace none], bs2, cs2⟩) := by
      intro tr3 h
      simp only [ParseEngine.expect, PE.bind_eq, PE.andThen, ParseEngine.getToken_eq,
        ParseEngine.current, List.head?_cons, Option.map_some', Option.getD_some, ne_eq, h,
        not_false_eq_true, ↓reduceIte, ParseEngine.emit, PE.pure_eq]
    cases hhd : st.haveDefault
    · simp only [hhd, Bool.false_eq_true, ↓reduceIte, List.append_nil] at hstmt
      refine ⟨{ st with defaultStatement := P.resumeDeferred (tr ++ [Emit.resumeDeferred]),
                        defaultFromStatementLabel :=
                          ⟨P.label (tr2 ++ [Emit.label]), P.matchedAddr (tr2 ++ [Emit.label])⟩,
                        haveDefault := true }, _, ?_, rfl, rfl, rfl, hexpect _⟩
      simp only [ParseEngine.switchClausesLoop, PE.bind_eq, PE.andThen, ParseEngine.getToken_eq,
        ParseEngine.current, List.head?_cons, Option.map_some', Option.getD_some, hd,
        reduceCtorEq, false_or, or_true, ↓reduceIte, ParseEngine.retireToken, List.tail_cons,
        ParseEngine.expectIf, hhd, Bool.not_false, Bool.not_true, Bool.false_eq_true,
        ParseEngine.emit, ParseEngine.expect, hcolon, ne_eq, not_true_eq_false,
        ParseEngine.label, ParseEngine.getTrace, PE.pure_eq, ParseEngine.addMatchedJump,
        ParseEngine.resumeDeferred, List.append_assoc, List.cons_append, List.nil_append,
        List.singleton_append, hstmt, ht1, ht2, or_self]
    · simp only [hhd, ↓reduceIte, List.append_assoc, List.singleton_append] at hstmt
      refine ⟨{ st with defaultStatement :=
                          P.resumeDeferred (tr ++ [Emit.expectedError Token.DuplicateDefault none,
                            Emit.resumeDeferred]),
                        defaultFromStatementLabel :=
                          ⟨P.label (tr2 ++ [Emit.label]), P.matchedAddr (tr2 ++ [Emit.label])⟩,
                        haveDefault := true }, _, ?_, rfl, rfl, rfl, hexpect _⟩
      simp only [ParseEngine.switchClausesLoop, PE.bind_eq, PE.andThen, ParseEngine.getToken_eq,
        ParseEngine.current, List.head?_cons, Option.map_some', Option.getD_some, hd,
        reduceCtorEq, false_or, or_true, ↓reduceIte, ParseEngine.retireToken, List.tail_cons,
        ParseEngine.expectIf, hhd, Bool.not_false, Bool.not_true, Bool.false_eq_true,
        ParseEngine.emit, ParseEngine.expect, hcolon, ne_eq, not_true_eq_false,
        ParseEngine.label, ParseEngine.getTrace, PE.pure_eq, ParseEngine.addMatchedJump,
        ParseEngine.resumeDeferred, List.append_assoc, List.cons_append, List.nil_append,
        List.singleton_append, hstmt, ht1, ht2, or_self]

/-- Witness for C11 (amended): the clause `case 3: c;` followed by
`break ; }`. -/
theorem C11_clause_body_is_one_statement_witness :
    ∃ entry tr3,
      ParseEngine.switchClausesLoop Parser.unitCode (ParseEngine.callees Parser.unitCode 8) 8 2
          ⟨[], 0, ParseEngine.noLabel, false⟩
          ⟨[ParseEngine.tok Token.Case, ParseEngine.intTok 3, ParseEngine.tok Token.Colon,
            ParseEngine.ident "c", ParseEngine.tok Token.Semicolon,
            ParseEngine.tok Token.Break, ParseEngine.tok Token.Semicolon,
            ParseEngine.tok Token.RBrace], [], [], []⟩
        = Outcome.done (⟨[entry], 0, ParseEngine.noLabel, false⟩,
            ⟨[ParseEngine.tok Token.Break, ParseEngine.tok Token.Semicolon,
              ParseEngine.tok Token.RBrace], tr3, [], []⟩) ∧
      ParseEngine.expect Token.RBrace
          ⟨[ParseEngine.tok Token.Break, ParseEngine.tok Token.Semicolon,
            ParseEngine.tok Token.RBrace], tr3, [], []⟩
        = Outcome.done (false,
            ⟨[ParseEngine.tok Token.Break, ParseEngine.tok Token.Semicolon,
              ParseEngine.tok Token.RBrace],
             tr3 ++ [Emit.expectedError Token.RBrace none], [], []⟩) :=
  ((C11_clause_body_is_one_statement Parser.unitCode (ParseEngine.callees Parser.unitCode 8) 8 0
      ⟨[], 0, ParseEngine.noLabel, false⟩).1
      (ParseEngine.tok Token.Case) (ParseEngine.tok Token.Colon) (ParseEngine.tok Token.Break)
      [ParseEngine.intTok 3, ParseEngine.tok Token.Colon, ParseEngine.ident "c",
       ParseEngine.tok Token.Semicolon, ParseEngine.tok Token.Break,
       ParseEngine.tok Token.Semicolon, ParseEngine.tok Token.RBrace]
      [ParseEngine.ident "c", ParseEngine.tok Token.Semicolon, ParseEngine.tok Token.Break,
       ParseEngine.tok Token.Semicolon, ParseEngine.tok Token.RBrace]
      [ParseEngine.tok Token.Semicolon, ParseEngine.tok Token.RBrace]
      [] [Emit.pushK (Value.integer 3)]
      [Emit.pushK (Value.integer 3), Emit.emitCaseTest, Emit.label,
       Emit.addMatchedJump Op.JT ⟨2, 2⟩, Emit.resumeDeferred,
       Emit.emitId (some "c") IdType.MightBeLocal, Emit.discardResult]
      [] [] [] [] [] [] true true (by decide) (by decide) (by decide) (by decide)
      (by decide)).imp
    fun _ h => h.imp fun _ h2 => ⟨h2.1, h2.2.2 (by decide)⟩

/-- C12: for `for ( ; a ; b ) c ;` the call of `expression()` for the empty
init clause returns false and `iterationStatement` has no branch for that:
it returns true having consumed only `for (`, with no call on the emitter
(no condition test, no jump, `forLoopCondAndIt` not run) and no error. -/
theorem C12_for_without_init_skipped :
    ParseEngine.iterationStatement Parser.unitCode (ParseEngine.callees Parser.unitCode 8) 8
      (ParseEngine.start
        [ParseEngine.tok Token.For, ParseEngine.tok Token.LParen,
         ParseEngine.tok Token.Semicolon, ParseEngine.ident "a",
         ParseEngine.tok Token.Semicolon, ParseEngine.ident "b",
         ParseEngine.tok Token.RParen, ParseEngine.ident "c",
         ParseEngine.tok Token.Semicolon])
      = Outcome.done (true,
          { tokens :=
              [ParseEngine.tok Token.Semicolon, ParseEngine.ident "a",
               ParseEngine.tok Token.Semicolon, ParseEngine.ident "b",
               ParseEngine.tok Token.RParen, ParseEngine.ident "c",
               ParseEngine.tok Token.Semicolon]
            trace := []
            _breakStack := []
            _continueStack := [] }) := by
  decide

/-- C13: every assignment token has exactly one row in `_opInfos`, with
precedence 1 to 5, right-associative, `sto` set exactly for the compound
ones; every other listed operator has exactly one row, left-associative
without `sto`, with the listed precedence; each compound assignment has the
opcode of its arithmetic operator; and the table has no further rows. -/
theorem C13_operator_table_matches_spec :
    (ParseEngine.specAssignments.all fun t =>
      match ParseEngine.rowsOf t with
      | [i] => decide (1 ≤ i.prec) && decide (i.prec ≤ 5) && i.assoc == Assoc.RightAssoc
                && i.sto == (t != Token.STO)
      | _ => false) = true
    ∧ (ParseEngine.specLeftOperators.all fun e =>
      match ParseEngine.rowsOf e.1 with
      | [i] => i.prec == e.2 && i.assoc == Assoc.LeftAssoc && !i.sto
      | _ => false) = true
    ∧ (ParseEngine.specCompoundOps.all fun e =>
      (ParseEngine.findOpInfo e.1).map (fun i => i.op) == some e.2) = true
    ∧ ParseEngine._opInfos.length
        = ParseEngine.specAssignments.length + ParseEngine.specLeftOperators.length := by
  decide

/-- C14: for tokens `a op1 b op2 c`, where `a`, `b`, `c` are token
sequences that `arithmeticPrimary` parses as one primary each and `op1`,
`op2` are operators of the table other than `&&` and `||`, followed by a
token that ends the expression, `expression` returns true with all of them
consumed, and `emitBinOp(op2)` comes before `emitBinOp(op1)` exactly when
`op2` has the higher precedence, or the same precedence and both are
right-associative; otherwise `emitBinOp(op1)` comes before the calls for `c`.
A compound assignment adds `emitDup` before its right operand and `emitMove`
after its `emitBinOp`. -/
theorem C14_precedence_and_associativity (P : Parser) (n : Nat) (A B C : List Tok)
    (o1 o2 : Tok) (evA evB evC : List Emit) (i1 i2 : ParseEngine.OperatorInfo)
    (rest : List Tok) (tr : List Emit) (bs cs bs1 cs1 bs2 cs2 bs3 cs3 : List (List Label))
    (h1 : ParseEngine.findOpInfo o1.token = some i1)
    (h2 : ParseEngine.findOpInfo o2.token = some i2)
    (hs1 : i1.op ≠ Op.LAND ∧ i1.op ≠ Op.LOR) (hs2 : i2.op ≠ Op.LAND ∧ i2.op ≠ Op.LOR)
    (he : ParseEngine.endsExpression (ParseEngine.current ⟨rest, tr, bs, cs⟩) = true)
    (hA : ParseEngine.arithmeticPrimary P (ParseEngine.callees P (n + 3)) (n + 3)
        ⟨A ++ o1 :: (B ++ o2 :: (C ++ rest)), tr, bs, cs⟩
      = Outcome.done (true, ⟨o1 :: (B ++ o2 :: (C ++ rest)), tr ++ evA, bs1, cs1⟩))
    (hB : ParseEngine.arithmeticPrimary P (ParseEngine.callees P (n + 2)) (n + 2)
        ⟨B ++ o2 :: (C ++ rest),
         tr ++ evA ++ (if i1.sto then [Emit.emitDup] else []), bs1, cs1⟩
      = Outcome.done (true,
          ⟨o2 :: (C ++ rest),
           tr ++ evA ++ (if i1.sto then [Emit.emitDup] else []) ++ evB, bs2, cs2⟩))
    (hC : if i1.prec < i2.prec ∨
            (i2.prec = i1.prec ∧ i1.assoc = Assoc.RightAssoc ∧ i2.assoc = Assoc.RightAssoc)
          then
            ParseEngine.arithmeticPrimary P (ParseEngine.callees P (n + 1)) (n + 1)
              ⟨C ++ rest,
               tr ++ evA ++ (if i1.sto then [Emit.emitDup] else []) ++ evB ++
                 (if i2.sto then [Emit.emitDup] else []), bs2, cs2⟩
            = Outcome.done (true,
                ⟨rest,
                 tr ++ evA ++ (if i1.sto then [Emit.emitDup] else []) ++ evB ++
                   (if i2.sto then [Emit.emitDup] else []) ++ evC, bs3, cs3⟩)
          else
            ParseEngine.arithmeticPrimary P (ParseEngine.callees P (n + 2)) (n + 2)
              ⟨C ++ rest,
               tr ++ evA ++ (if i1.sto then [Emit.emitDup] else []) ++ evB ++
                 [Emit.emitBinOp i1.op] ++ (if i1.sto then [Emit.emitMove] else []) ++
                 (if i2.sto then [Emit.emitDup] else []), bs2, cs2⟩
            = Outcome.done (true,
                ⟨rest,
                 tr ++ evA ++ (if i1.sto then [Emit.emitDup] else []) ++ evB ++
                   [Emit.emitBinOp i1.op] ++ (if i1.sto then [Emit.emitMove] else []) ++
                   (if i2.sto then [Emit.emitDup] else []) ++ evC, bs3, cs3⟩)) :
    ParseEngine.expression P (ParseEngine.callees P (n + 3)) (n + 3) ParseEngine.defaultMinPrec
        ⟨A ++ o1 :: (B ++ o2 :: (C ++ rest)), tr, bs, cs⟩
      = Outcome.done (true,
          ⟨rest,
           tr ++
            (if i1.prec < i2.prec ∨
                (i2.prec = i1.prec ∧ i1.assoc = Assoc.RightAssoc ∧ i2.assoc = Assoc.RightAssoc)
             then
               evA ++ (if i1.sto then [Emit.emitDup] else []) ++ evB ++
               (if i2.sto then [Emit.emitDup] else []) ++ evC ++
               [Emit.emitBinOp i2.op] ++ (if i2.sto then [Emit.emitMove] else []) ++
               [Emit.emitBinOp i1.op] ++ (if i1.sto then [Emit.emitMove] else [])
             else
               evA ++ (if i1.sto then [Emit.emitDup] else []) ++ evB ++
               [Emit.emitBinOp i1.op] ++ (if i1.sto then [Emit.emitMove] else []) ++
               (if i2.sto then [Emit.emitDup] else []) ++ evC ++
               [Emit.emitBinOp i2.op] ++ (if i2.sto then [Emit.emitMove] else [])),
           bs3, cs3⟩) := by
  obtain ⟨m1, t1⟩ := ParseEngine.findOpInfo_some _ _ h1
  obtain ⟨m2, t2⟩ := ParseEngine.findOpInfo_some _ _ h2
  have q1 : ∀ (l : List Tok) (x : List Emit) (y z : List (List Label)),
      ParseEngine.current ⟨o1 :: l, x, y, z⟩ ≠ Token.Question := by
    intro l x y z
    have := ParseEngine.table_continuesPrimary i1 m1
    simp only [ParseEngine.continuesPrimary, Bool.or_eq_false_iff, beq_eq_false_iff_ne, ne_eq,
      t1] at this
    simpa [ParseEngine.current] using this.2
  have q2 : ∀ (l : List Tok) (x : List Emit) (y z : List (List Label)),
      ParseEngine.current ⟨o2 :: l, x, y, z⟩ ≠ Token.Question := by
    intro l x y z
    have := ParseEngine.table_continuesPrimary i2 m2
    simp only [ParseEngine.continuesPrimary, Bool.or_eq_false_iff, beq_eq_false_iff_ne, ne_eq,
      t2] at this
    simpa [ParseEngine.current] using this.2
  have ce : ∀ (x : List Emit) (y z : List (List Label)),
      ParseEngine.current ⟨rest, x, y, z⟩ ≠ Token.Question ∧
      ParseEngine.findOpInfo (ParseEngine.current ⟨rest, x, y, z⟩) = none := by
    intro x y z
    simp only [ParseEngine.endsExpression, ParseEngine.continuesPrimary, ParseEngine.current,
      Bool.and_eq_true, Bool.not_eq_true', Bool.or_eq_false_iff, beq_eq_false_iff_ne, ne_eq,
      Option.isNone_iff_eq_none] at he
    exact ⟨by simpa [ParseEngine.current] using he.1.2, he.2⟩
  have p1 := ParseEngine.table_prec_pos i1 m1
  have p2 := ParseEngine.table_prec_pos i2 m2
  have hassoc := ParseEngine.table_assoc_of_prec i1 m1 i2 m2
  rw [ParseEngine.expression_of_primary P _ _ _ _ _ hA (q1 _ _ _ _)]
  by_cases hcond : i1.prec < i2.prec ∨
      (i2.prec = i1.prec ∧ i1.assoc = Assoc.RightAssoc ∧ i2.assoc = Assoc.RightAssoc)
  · -- op2 binds first: it is taken inside the right operand of op1
    simp only [hcond, ↓reduceIte] at hC
    have hge : (if i1.assoc = Assoc.LeftAssoc then i1.prec + 1 else i1.prec) ≤ i2.prec := by
      rcases hcond with h | ⟨h, hr, _⟩
      · split <;> omega
      · rw [hr]; simp [h]
    have hCe : ∀ mp, (ParseEngine.callees P (n + 2)).expression mp
          ⟨C ++ rest,
           tr ++ evA ++ (if i1.sto then [Emit.emitDup] else []) ++ evB ++
             (if i2.sto then [Emit.emitDup] else []), bs2, cs2⟩
        = Outcome.done (true,
            ⟨rest,
             tr ++ evA ++ (if i1.sto then [Emit.emitDup] else []) ++ evB ++
               (if i2.sto then [Emit.emitDup] else []) ++ evC, bs3, cs3⟩) := by
      intro mp
      rw [ParseEngine.callees_expression,
        ParseEngine.expression_of_primary P _ _ mp _ _ hC (ce _ _ _).1]
      exact ParseEngine.expressionLoop_stop P _ mp n _ (Or.inl (ce _ _ _).2)
    have hinner : (ParseEngine.callees P (n + 3)).expression
          (if i1.assoc = Assoc.LeftAssoc then i1.prec + 1 else i1.prec)
          ⟨B ++ o2 :: (C ++ rest), tr ++ evA ++ (if i1.sto then [Emit.emitDup] else []),
           bs1, cs1⟩
        = Outcome.done (true,
            ⟨rest, tr ++ evA ++ (if i1.sto then [Emit.emitDup] else []) ++ evB ++
              (if i2.sto then [Emit.emitDup] else []) ++ evC ++ [Emit.emitBinOp i2.op] ++
              (if i2.sto then [Emit.emitMove] else []), bs3, cs3⟩) := by
      rw [ParseEngine.callees_expression,
        ParseEngine.expression_of_primary P _ _ _ _ _ hB (q2 _ _ _ _)]
      rw [ParseEngine.expressionLoop_step P _ _ (n + 1) o2 i2 (C ++ rest) rest _ _ bs2 cs2
        bs3 cs3 h2 hge hs2 (hCe _)]
      exact ParseEngine.expressionLoop_stop P _ _ n _ (Or.inl (ce _ _ _).2)
    rw [ParseEngine.expressionLoop_step P _ _ (n + 2) o1 i1 _ rest _ _ bs1 cs1 bs3 cs3
      h1 p1 hs1 hinner]
    rw [ParseEngine.expressionLoop_stop P _ _ (n + 1) _ (Or.inl (ce _ _ _).2)]
    simp only [hcond, ↓reduceIte, List.append_assoc]
  · -- op1 binds first: the right operand of op1 is `b` alone
    simp only [hcond, ↓reduceIte] at hC
    have hlt : i2.prec < (if i1.assoc = Assoc.LeftAssoc then i1.prec + 1 else i1.prec) := by
      by_cases hl : i1.assoc = Assoc.LeftAssoc
      · simp only [hl, ↓reduceIte]
        have : ¬ i1.prec < i2.prec := fun h => hcond (Or.inl h)
        omega
      · have hr : i1.assoc = Assoc.RightAssoc := by
          cases hx : i1.assoc
          · exact absurd hx hl
          · rfl
        simp only [hl, ↓reduceIte]
        by_contra hnot
        have hle : i1.prec ≤ i2.prec := by omega
        rcases Nat.lt_or_eq_of_le hle with h | h
        · exact hcond (Or.inl h)
        · exact hcond (Or.inr ⟨h.symm, hr, by rw [← hassoc h]; exact hr⟩)
    have hinner : (ParseEngine.callees P (n + 3)).expression
          (if i1.assoc = Assoc.LeftAssoc then i1.prec + 1 else i1.prec)
          ⟨B ++ o2 :: (C ++ rest), tr ++ evA ++ (if i1.sto then [Emit.emitDup] else []),
           bs1, cs1⟩
        = Outcome.done (true,
            ⟨o2 :: (C ++ rest), tr ++ evA ++ (if i1.sto then [Emit.emitDup] else []) ++ evB,
             bs2, cs2⟩) := by
      rw [ParseEngine.callees_expression,
        ParseEngine.expression_of_primary P _ _ _ _ _ hB (q2 _ _ _ _)]
      exact ParseEngine.expressionLoop_stop P _ _ (n + 1) _
        (Or.inr ⟨i2, by simpa [ParseEngine.current] using h2, hlt⟩)
    rw [ParseEngine.expressionLoop_step P _ _ (n + 2) o1 i1 _ _ _ _ bs1 cs1 bs2 cs2
      h1 p1 hs1 hinner]
    have hC2 : (ParseEngine.callees P (n + 3)).expression
          (if i2.assoc = Assoc.LeftAssoc then i2.prec + 1 else i2.prec)
          ⟨C ++ rest, tr ++ evA ++ (if i1.sto then [Emit.emitDup] else []) ++ evB ++
            [Emit.emitBinOp i1.op] ++ (if i1.sto then [Emit.emitMove] else []) ++
            (if i2.sto then [Emit.emitDup] else []), bs2, cs2⟩
        = Outcome.done (true,
            ⟨rest, tr ++ evA ++ (if i1.sto then [Emit.emitDup] else []) ++ evB ++
              [Emit.emitBinOp i1.op] ++ (if i1.sto then [Emit.emitMove] else []) ++
              (if i2.sto then [Emit.emitDup] else []) ++ evC, bs3, cs3⟩) := by
      rw [ParseEngine.callees_expression,
        ParseEngine.expression_of_primary P _ _ _ _ _ hC (ce _ _ _).1]
      exact ParseEngine.expressionLoop_stop P _ _ (n + 1) _ (Or.inl (ce _ _ _).2)
    rw [ParseEngine.expressionLoop_step P _ _ (n + 1) o2 i2 _ _ _ _ bs2 cs2 bs3 cs3
      h2 p2 hs2 hC2]
    rw [ParseEngine.expressionLoop_stop P _ _ n _ (Or.inl (ce _ _ _).2)]
    simp only [hcond, ↓reduceIte, List.append_assoc]

/-- Witness for C14: `a + b * c ;` multiplies first. -/
theorem C14_precedence_and_associativity_witness :
    ParseEngine.expression Parser.unitCode (ParseEngine.callees Parser.unitCode 3) 3
        ParseEngine.defaultMinPrec
        ⟨[ParseEngine.ident "a", ParseEngine.tok Token.Plus, ParseEngine.ident "b",
          ParseEngine.tok Token.Star, ParseEngine.ident "c", ParseEngine.tok Token.Semicolon],
         [], [], []⟩
      = Outcome.done (true,
          ⟨[ParseEngine.tok Token.Semicolon],
           [Emit.emitId (some "a") IdType.MightBeLocal,
            Emit.emitId (some "b") IdType.MightBeLocal,
            Emit.emitId (some "c") IdType.MightBeLocal,
            Emit.emitBinOp Op.MUL, Emit.emitBinOp Op.ADD], [], []⟩) :=
  C14_precedence_and_associativity Parser.unitCode 0
    [ParseEngine.ident "a"] [ParseEngine.ident "b"] [ParseEngine.ident "c"]
    (ParseEngine.tok Token.Plus) (ParseEngine.tok Token.Star)
    [Emit.emitId (some "a") IdType.MightBeLocal] [Emit.emitId (some "b") IdType.MightBeLocal]
    [Emit.emitId (some "c") IdType.MightBeLocal]
    ⟨Token.Plus, 14, Assoc.LeftAssoc, false, Op.ADD⟩
    ⟨Token.Star, 15, Assoc.LeftAssoc, false, Op.MUL⟩
    [ParseEngine.tok Token.Semicolon] [] [] [] [] [] [] [] [] []
    (by decide) (by decide) (by decide) (by decide) (by decide) (by decide) (by decide)
    (by decide)

/-- C15: in `do ; while (function() { continue; });` the label of the
`continue` is recorded in the loop's entry of `_continueStack` after the
continue labels have been matched (the condition is parsed after the body),
so the jump `addMatchedJump(JMP, {0, 0})` is never passed to `matchJump`; the
stacks are back at their depth on return. -/
theorem C15_continue_in_do_condition_unmatched :
    ParseEngine.iterationStatement Parser.unitCode (ParseEngine.callees Parser.unitCode 13) 13
      (ParseEngine.start
        [ParseEngine.tok Token.Do, ParseEngine.tok Token.Semicolon,
         ParseEngine.tok Token.While, ParseEngine.tok Token.LParen,
         ParseEngine.tok Token.Function, ParseEngine.tok Token.LParen,
         ParseEngine.tok Token.RParen, ParseEngine.tok Token.LBrace,
         ParseEngine.tok Token.Continue, ParseEngine.tok Token.Semicolon,
         ParseEngine.tok Token.RBrace, ParseEngine.tok Token.RParen,
         ParseEngine.tok Token.Semicolon])
      = Outcome.done (true,
          { tokens := []
            trace :=
              [Emit.label, Emit.functionStart false, Emit.functionParamsEnd, Emit.label,
               Emit.addMatchedJump Op.JMP ⟨0, 0⟩, Emit.functionEnd,
               Emit.pushK (Value.function (some 1)), Emit.jumpToLabel Op.JT ⟨0, -1⟩]
            _breakStack := []
            _continueStack := [] }) := by
  decide

/-- C16: for `for (var x : obj) body`, after `for ( var x :`, `forIteration`
makes these calls in this order: `emitId(x)`, the calls for `obj`, then
`emitDup`, `emitPush`, `emitId(iterator)`, `emitDeref(Prop)`,
`emitCallRet(NEW, -1, 1)`, `emitMove`, `discardResult` (the iterator made from
obj with obj as its one argument, stored into x); `label`; `emitId(x)`,
`emitId(done)`, `emitDeref(Prop)`, `emitCallRet(CALL, -1, 0)`,
`addMatchedJump(JT, L)`; the calls for the body; `matchJump` for the
continue labels of the loop; `emitId(x)`, `emitId(next)`, `emitDeref(Prop)`,
`emitCallRet(CALL, -1, 0)`, `discardResult`; `jumpToLabel(JMP, L)`;
`matchJump(L)`. -/
theorem C16_for_in_emission_order (P : Parser) (r : ParseEngine.Callees) (n : Nat)
    (x : String) (toks rest toks2 : List Tok) (rp : Tok)
    (tr objEv bodyEv : List Emit) (bs cs bs1 cs1 bs2 cs2 : List (List Label))
    (own : List Label) (obj b : Bool) (L : Label)
    (hobj : ParseEngine.leftHandSideExpression P r n
        ⟨toks, tr ++ [Emit.emitId (some x) IdType.MightBeLocal], bs, cs⟩
      = Outcome.done (obj,
          ⟨rp :: rest, tr ++ [Emit.emitId (some x) IdType.MightBeLocal] ++ objEv, bs1, cs1⟩))
    (hrp : rp.token = Token.RParen)
    (hL : L =
      { label := P.label
          (tr ++ [Emit.emitId (some x) IdType.MightBeLocal] ++ objEv ++
            [Emit.emitDup, Emit.emitPush, Emit.emitId (some "iterator") IdType.NotLocal,
             Emit.emitDeref DerefType.Prop, Emit.emitCallRet Op.NEW (-1) 1, Emit.emitMove,
             Emit.discardResult, Emit.label])
        matchedAddr := P.matchedAddr
          (tr ++ [Emit.emitId (some x) IdType.MightBeLocal] ++ objEv ++
            [Emit.emitDup, Emit.emitPush, Emit.emitId (some "iterator") IdType.NotLocal,
             Emit.emitDeref DerefType.Prop, Emit.emitCallRet Op.NEW (-1) 1, Emit.emitMove,
             Emit.discardResult, Emit.label,
             Emit.emitId (some x) IdType.MightBeLocal,
             Emit.emitId (some "done") IdType.NotLocal, Emit.emitDeref DerefType.Prop,
             Emit.emitCallRet Op.CALL (-1) 0]) })
    (hbody : r.statement
        ⟨rest,
         tr ++ [Emit.emitId (some x) IdType.MightBeLocal] ++ objEv ++
            [Emit.emitDup, Emit.emitPush, Emit.emitId (some "iterator") IdType.NotLocal,
             Emit.emitDeref DerefType.Prop, Emit.emitCallRet Op.NEW (-1) 1, Emit.emitMove,
             Emit.discardResult, Emit.label,
             Emit.emitId (some x) IdType.MightBeLocal,
             Emit.emitId (some "done") IdType.NotLocal, Emit.emitDeref DerefType.Prop,
             Emit.emitCallRet Op.CALL (-1) 0, Emit.addMatchedJump Op.JT L],
         bs1, cs1⟩
      = Outcome.done (b,
          ⟨toks2,
           tr ++ [Emit.emitId (some x) IdType.MightBeLocal] ++ objEv ++
            [Emit.emitDup, Emit.emitPush, Emit.emitId (some "iterator") IdType.NotLocal,
             Emit.emitDeref DerefType.Prop, Emit.emitCallRet Op.NEW (-1) 1, Emit.emitMove,
             Emit.discardResult, Emit.label,
             Emit.emitId (some x) IdType.MightBeLocal,
             Emit.emitId (some "done") IdType.NotLocal, Emit.emitDeref DerefType.Prop,
             Emit.emitCallRet Op.CALL (-1) 0, Emit.addMatchedJump Op.JT L] ++ bodyEv,
           bs2, own :: cs2⟩)) :
    ParseEngine.forIteration P r n (some x) ⟨toks, tr, bs, cs⟩
      = Outcome.done ((),
          ⟨toks2,
           tr ++ [Emit.emitId (some x) IdType.MightBeLocal] ++ objEv ++
            [Emit.emitDup, Emit.emitPush, Emit.emitId (some "iterator") IdType.NotLocal,
             Emit.emitDeref DerefType.Prop, Emit.emitCallRet Op.NEW (-1) 1, Emit.emitMove,
             Emit.discardResult, Emit.label,
             Emit.emitId (some x) IdType.MightBeLocal,
             Emit.emitId (some "done") IdType.NotLocal, Emit.emitDeref DerefType.Prop,
             Emit.emitCallRet Op.CALL (-1) 0, Emit.addMatchedJump Op.JT L] ++ bodyEv ++
            own.map Emit.matchJump ++
            [Emit.emitId (some x) IdType.MightBeLocal,
             Emit.emitId (some "next") IdType.NotLocal, Emit.emitDeref DerefType.Prop,
             Emit.emitCallRet Op.CALL (-1) 0, Emit.discardResult,
             Emit.jumpToLabel Op.JMP L, Emit.matchJump L],
           bs2, own :: cs2⟩) := by
  subst hL
  simp only [List.append_assoc, List.cons_append, List.nil_append, List.singleton_append]
    at hobj hbody ⊢
  unfold ParseEngine.forIteration
  simp only [PE.bind_eq, PE.andThen, PE.pure_eq, Option.isSome_some, ↓reduceIte,
    ParseEngine.emit, hobj, ParseEngine.expect, ParseEngine.getToken_eq, ParseEngine.current,
    List.head?_cons, Option.map_some', Option.getD_some, hrp, ne_eq, not_true_eq_false,
    ParseEngine.retireToken, List.tail_cons, ParseEngine.emitDeref, ParseEngine.getTrace,
    ParseEngine.label, ParseEngine.addMatchedJump, List.append_assoc, List.cons_append,
    List.nil_append, List.singleton_append, hbody, ParseEngine.continueBack,
    ParseEngine.matchJumps_eq]

/-- Witness for C16: `for (var x : a) b;` after `for ( var x :`. -/
theorem C16_for_in_emission_order_witness :
    ParseEngine.forIteration Parser.unitCode (ParseEngine.callees Parser.unitCode 4) 4
        (some "x")
        ⟨[ParseEngine.ident "a", ParseEngine.tok Token.RParen, ParseEngine.ident "b",
          ParseEngine.tok Token.Semicolon], [Emit.addVar (some "x")], [[]], [[]]⟩
      = Outcome.done ((),
          ⟨[],
           [Emit.addVar (some "x"),
            Emit.emitId (some "x") IdType.MightBeLocal,
            Emit.emitId (some "a") IdType.MightBeLocal,
            Emit.emitDup, Emit.emitPush, Emit.emitId (some "iterator") IdType.NotLocal,
            Emit.emitDeref DerefType.Prop, Emit.emitCallRet Op.NEW (-1) 1, Emit.emitMove,
            Emit.discardResult, Emit.label,
            Emit.emitId (some "x") IdType.MightBeLocal,
            Emit.emitId (some "done") IdType.NotLocal, Emit.emitDeref DerefType.Prop,
            Emit.emitCallRet Op.CALL (-1) 0, Emit.addMatchedJump Op.JT ⟨9, 13⟩,
            Emit.emitId (some "b") IdType.MightBeLocal, Emit.discardResult,
            Emit.emitId (some "x") IdType.MightBeLocal,
            Emit.emitId (some "next") IdType.NotLocal, Emit.emitDeref DerefType.Prop,
            Emit.emitCallRet Op.CALL (-1) 0, Emit.discardResult,
            Emit.jumpToLabel Op.JMP ⟨9, 13⟩, Emit.matchJump ⟨9, 13⟩],
           [[]], [[]]⟩) :=
  C16_for_in_emission_order Parser.unitCode (ParseEngine.callees Parser.unitCode 4) 4 "x"
    [ParseEngine.ident "a", ParseEngine.tok Token.RParen, ParseEngine.ident "b",
     ParseEngine.tok Token.Semicolon]
    [ParseEngine.ident "b", ParseEngine.tok Token.Semicolon] []
    (ParseEngine.tok Token.RParen)
    [Emit.addVar (some "x")] [Emit.emitId (some "a") IdType.MightBeLocal]
    [Emit.emitId (some "b") IdType.MightBeLocal, Emit.discardResult]
    [[]] [[]] [[]] [[]] [[]] [] [] true true ⟨9, 13⟩
    (by decide) (by decide) (by decide) (by decide)

/-! ## Class members, return, durations and the line counter -/

/-- C17: for a class member `var name = T`, `classContentsStatement` sets
the property `name` to the value of `T` with no `ConstantValueRequired`
error when `T` is a literal scalar token (a string is first added as a
string literal), and otherwise reports `ConstantValueRequired`, leaves `T`
unconsumed and sets the property to null; for `var name` followed by a
token other than `=` it sets the property to null. In each case
`expect(Semicolon)` follows and the result is true. -/
theorem C17_class_var_initializer (P : Parser) (r : ParseEngine.Callees) (n : Nat)
    (v name e T : Tok) (rest : List Tok) (tr : List Emit) (bs cs : List (List Label))
    (hv : v.token = Token.Var) (hname : name.token = Token.Identifier)
    (he : e.token = Token.STO) (hT : T.token ≠ Token.ConstantValueRequired) :
    ParseEngine.classContentsStatement P r n ⟨v :: name :: e :: T :: rest, tr, bs, cs⟩
      = (if ParseEngine.isLiteralScalar T.token then
          (do let _ ← ParseEngine.expect Token.Semicolon; pure true : PE Bool)
            ⟨rest,
             tr ++ (if T.token = Token.String then [Emit.addStringLiteral T.value.str] else [])
                ++ [Emit.setProperty (some name.value.str) (ParseEngine.literalValue T)],
             bs, cs⟩
         else
          (do let _ ← ParseEngine.expect Token.Semicolon; pure true : PE Bool)
            ⟨T :: rest,
             tr ++ [Emit.expectedError Token.ConstantValueRequired none,
                    Emit.setProperty (some name.value.str) Value.null],
             bs, cs⟩)
    ∧ ∀ (s : Tok), s.token ≠ Token.STO →
      ParseEngine.classContentsStatement P r n ⟨v :: name :: s :: rest, tr, bs, cs⟩
        = (do let _ ← ParseEngine.expect Token.Semicolon; pure true : PE Bool)
            ⟨s :: rest, tr ++ [Emit.setProperty (some name.value.str) Value.null], bs, cs⟩ := by
  constructor
  · obtain ⟨tt, tv⟩ := T
    simp only at hT
    unfold ParseEngine.classContentsStatement
    simp only [PE.bind_eq, PE.andThen, ParseEngine.getToken_eq, ParseEngine.current,
      List.head?_cons, Option.map_some', Option.getD_some, hv, reduceCtorEq, ↓reduceIte,
      ParseEngine.retireToken, List.tail_cons, hname, ne_eq, not_true_eq_false,
      ParseEngine.getTokenValue, he, ParseEngine.emit, ParseEngine.atomizeString]
    cases tt <;>
      first
      | exact absurd rfl hT
      | simp only [reduceCtorEq, ↓reduceIte, PE.bind_eq, PE.andThen, ParseEngine.retireToken,
          List.tail_cons, ParseEngine.emit, ParseEngine.isLiteralScalar,
          ParseEngine.literalValue, Bool.or_eq_true, beq_iff_eq, or_false, or_self, false_or,
          or_true, true_or, List.append_assoc, List.nil_append, List.cons_append,
          List.singleton_append, ParseEngine.expect, ParseEngine.getToken_eq,
          ParseEngine.current, List.head?_cons, Option.map_some', Option.getD_some,
          ne_eq, not_true_eq_false, not_false_eq_true, List.append_nil, PE.pure_eq]
  · intro s hs
    unfold ParseEngine.classContentsStatement
    simp only [PE.bind_eq, PE.andThen, ParseEngine.getToken_eq, ParseEngine.current,
      List.head?_cons, Option.map_some', Option.getD_some, hv, reduceCtorEq, ↓reduceIte,
      ParseEngine.retireToken, List.tail_cons, hname, ne_eq, not_true_eq_false,
      ParseEngine.getTokenValue, hs, ParseEngine.emit, ParseEngine.atomizeString]

/-- Witness for C17: the members `var x = 5;` and `var x;`. -/
theorem C17_class_var_initializer_witness :
    ParseEngine.classContentsStatement Parser.unitCode
        (ParseEngine.callees Parser.unitCode 2) 2
        ⟨[ParseEngine.tok Token.Var, ParseEngine.ident "x", ParseEngine.tok Token.STO,
          ParseEngine.intTok 5, ParseEngine.tok Token.Semicolon], [], [], []⟩
      = Outcome.done (true,
          ⟨[], [Emit.setProperty (some "x") (Value.integer 5)], [], []⟩)
    ∧ ParseEngine.classContentsStatement Parser.unitCode
        (ParseEngine.callees Parser.unitCode 2) 2
        ⟨[ParseEngine.tok Token.Var, ParseEngine.ident "x", ParseEngine.tok Token.Semicolon],
         [], [], []⟩
      = Outcome.done (true, ⟨[], [Emit.setProperty (some "x") Value.null], [], []⟩) :=
  ⟨(C17_class_var_initializer Parser.unitCode (ParseEngine.callees Parser.unitCode 2) 2
      (ParseEngine.tok Token.Var) (ParseEngine.ident "x") (ParseEngine.tok Token.STO)
      (ParseEngine.intTok 5) [ParseEngine.tok Token.Semicolon] [] [] []
      (by decide) (by decide) (by decide) (by decide)).1,
   (C17_class_var_initializer Parser.unitCode (ParseEngine.callees Parser.unitCode 2) 2
      (ParseEngine.tok Token.Var) (ParseEngine.ident "x") (ParseEngine.tok Token.STO)
      (ParseEngine.intTok 5) [] [] [] []
      (by decide) (by decide) (by decide) (by decide)).2
      (ParseEngine.tok Token.Semicolon) (by decide)⟩

/-- C18: `return ;` emits `pushThis` and `emitCallRet(RET, -1, 1)` when
`functionIsCtor()` holds and `emitCallRet(RET, -1, 0)` otherwise; `return`
followed by an expression and `;` emits `emitCallRet(RET, -1, 1)` after the
calls for the expression, whatever `functionIsCtor()` is. -/
theorem C18_return_count (P : Parser) (r : ParseEngine.Callees) (n : Nat) :
    (∀ (c s : Tok) (rest : List Tok) (tr : List Emit) (bs cs : List (List Label)),
      c.token = Token.Return → s.token = Token.Semicolon →
      ParseEngine.jumpStatement P r n ⟨c :: s :: rest, tr, bs, cs⟩
        = Outcome.done (true,
            ⟨rest,
             tr ++ (if P.functionIsCtor tr
                    then [Emit.pushThis, Emit.emitCallRet Op.RET (-1) 1]
                    else [Emit.emitCallRet Op.RET (-1) 0]),
             bs, cs⟩))
    ∧ (∀ (c s : Tok) (rest rest1 : List Tok) (tr tr1 : List Emit)
        (bs cs bs1 cs1 : List (List Label)),
      c.token = Token.Return → s.token = Token.Semicolon →
      ParseEngine.expression P r n ParseEngine.defaultMinPrec ⟨rest, tr, bs, cs⟩
        = Outcome.done (true, ⟨s :: rest1, tr1, bs1, cs1⟩) →
      ParseEngine.jumpStatement P r n ⟨c :: rest, tr, bs, cs⟩
        = Outcome.done (true,
            ⟨rest1, tr1 ++ [Emit.emitCallRet Op.RET (-1) 1], bs1, cs1⟩)) := by
  constructor
  · intro c s rest tr bs cs hc hs
    have hexp := ParseEngine.expression_false P r n ParseEngine.defaultMinPrec
      ⟨s :: rest, tr, bs, cs⟩ (by simp [ParseEngine.current, hs, ParseEngine.startsExpression])
    by_cases hctor : P.functionIsCtor tr = true
    · simp [ParseEngine.jumpStatement, PE.bind_eq, PE.andThen, ParseEngine.getToken_eq,
        ParseEngine.current, hc, hs, ParseEngine.retireToken, hexp, ParseEngine.functionIsCtor,
        ParseEngine.getTrace, PE.pure_eq, hctor, ParseEngine.emit, ParseEngine.expect]
    · simp [ParseEngine.jumpStatement, PE.bind_eq, PE.andThen, ParseEngine.getToken_eq,
        ParseEngine.current, hc, hs, ParseEngine.retireToken, hexp, ParseEngine.functionIsCtor,
        ParseEngine.getTrace, PE.pure_eq, hctor, ParseEngine.emit, ParseEngine.expect]
  · intro c s rest rest1 tr tr1 bs cs bs1 cs1 hc hs hexp
    simp [ParseEngine.jumpStatement, PE.bind_eq, PE.andThen, ParseEngine.getToken_eq,
      ParseEngine.current, hc, hs, ParseEngine.retireToken, hexp,
      PE.pure_eq, ParseEngine.emit, ParseEngine.expect]

/-- Witness for C18: `return ;` in a constructor and in a plain function,
and `return a ;` in a constructor. -/
theorem C18_return_count_witness :
    ParseEngine.jumpStatement Parser.unitCode (ParseEngine.callees Parser.unitCode 2) 2
        ⟨[ParseEngine.tok Token.Return, ParseEngine.tok Token.Semicolon],
         [Emit.functionStart true], [], []⟩
      = Outcome.done (true,
          ⟨[], [Emit.functionStart true, Emit.pushThis, Emit.emitCallRet Op.RET (-1) 1],
           [], []⟩)
    ∧ ParseEngine.jumpStatement Parser.unitCode (ParseEngine.callees Parser.unitCode 2) 2
        ⟨[ParseEngine.tok Token.Return, ParseEngine.tok Token.Semicolon],
         [Emit.functionStart false], [], []⟩
      = Outcome.done (true,
          ⟨[], [Emit.functionStart false, Emit.emitCallRet Op.RET (-1) 0], [], []⟩)
    ∧ ParseEngine.jumpStatement Parser.unitCode (ParseEngine.callees Parser.unitCode 2) 2
        ⟨[ParseEngine.tok Token.Return, ParseEngine.ident "a",
          ParseEngine.tok Token.Semicolon], [Emit.functionStart true], [], []⟩
      = Outcome.done (true,
          ⟨[], [Emit.functionStart true, Emit.emitId (some "a") IdType.MightBeLocal,
                Emit.emitCallRet Op.RET (-1) 1], [], []⟩) :=
  ⟨(C18_return_count Parser.unitCode (ParseEngine.callees Parser.unitCode 2) 2).1
      (ParseEngine.tok Token.Return) (ParseEngine.tok Token.Semicolon) []
      [Emit.functionStart true] [] [] (by decide) (by decide),
   (C18_return_count Parser.unitCode (ParseEngine.callees Parser.unitCode 2) 2).1
      (ParseEngine.tok Token.Return) (ParseEngine.tok Token.Semicolon) []
      [Emit.functionStart false] [] [] (by decide) (by decide),
   (C18_return_count Parser.unitCode (ParseEngine.callees Parser.unitCode 2) 2).2
      (ParseEngine.tok Token.Return) (ParseEngine.tok Token.Semicolon)
      [ParseEngine.ident "a", ParseEngine.tok Token.Semicolon] []
      [Emit.functionStart true]
      [Emit.functionStart true, Emit.emitId (some "a") IdType.MightBeLocal]
      [] [] [] [] (by decide) (by decide) (by decide)⟩

/-- C19: `MaxValue` is `(1 << (sizeof(int32_t) - Shift)) - 1` with `sizeof`
counting bytes, which is 3, and the constructor clamps to it: `Duration(4, us)`
holds 3 microseconds, and `Duration(4, ms)` and `Duration(4, sec)` hold 3
milliseconds and 3 seconds. -/
theorem C19_duration_clamped :
    ((Duration.make 4 Units.us).us, (Duration.make 4 Units.ms).us,
      (Duration.make 4 Units.sec).us, (Duration.make 4 Units.ms).ms) = (3, 3000, 3000000, 3)
    ∧ Duration.MaxValue = 3 := by
  decide

/-- C20: on the input `a`, newline, `b` the first `getToken` returns the
identifier `a`, which no newline precedes, with the line counter at 2: the
newline was read as the lookahead byte (and pushed back), and `get` had
counted it. -/
theorem C20_line_counter_runs_ahead :
    (Scanner.getToken (Scanner.start (bytes "a\nb"))).map
        (fun r => (r.1, r.2._lineno, r.2._lastChar, r.2._istream))
      = some (T_IDENTIFIER, 2, 10, bytes "b") := by
  decide

/-! ## The scanner: totality, unread input, comments (C21..C25) -/

namespace M8r.Scanner

/-! ### `get`, `putback` and `append` -/

theorem get_lastChar (s : Scanner) : (get s).2._lastChar = C_EOF := by
  obtain ⟨i, l, n, o, v, t⟩ := s
  unfold get
  by_cases h : l ≠ C_EOF
  · simp [h]
  · have h2 : l = C_EOF := by simpa using h
    cases i <;> simp [h2]

theorem get_istream_subset (s : Scanner) : (get s).2._istream ⊆ s._istream := by
  obtain ⟨i, l, n, o, v, t⟩ := s
  unfold get
  by_cases h : l ≠ C_EOF
  · simp [h]
  · have h2 : l = C_EOF := by simpa using h
    cases i <;> simp [h2]

theorem unread_length_le (s : Scanner) : (unread s).length ≤ s._istream.length + 1 := by
  unfold unread
  split_ifs <;> simp

theorem unread_get_le (s : Scanner) : (unread (get s).2).length ≤ (unread s).length := by
  obtain ⟨i, l, n, o, v, t⟩ := s
  unfold get
  by_cases h : l ≠ C_EOF
  · simp [h, unread]
  · have h2 : l = C_EOF := by simpa using h
    cases i <;> simp [h2, unread]

theorem unread_get_lt (s : Scanner) (h : (get s).1 ≠ C_EOF) :
    (unread (get s).2).length + 1 = (unread s).length := by
  obtain ⟨i, l, n, o, v, t⟩ := s
  unfold get at h ⊢
  by_cases hl : l ≠ C_EOF
  · simp [hl, unread]
  · have h2 : l = C_EOF := by simpa using hl
    cases i with
    | nil => simp [h2] at h
    | cons b rest => simp [h2, unread]

/-- With no byte 255 in the stream, `get` returns `C_EOF` only when nothing
is left to read. -/
theorem get_eof_unread (s : Scanner) (hclean : ∀ b ∈ s._istream, b % 256 ≠ 255)
    (h : (get s).1 = C_EOF) : unread (get s).2 = [] := by
  obtain ⟨i, l, n, o, v, t⟩ := s
  unfold get at h ⊢
  by_cases hl : l ≠ C_EOF
  · simp [hl] at h
  · have h2 : l = C_EOF := by simpa using hl
    cases i with
    | nil => simp [h2, unread]
    | cons b rest =>
      simp [h2] at h
      exact absurd h (hclean b (by simp))

theorem putback_istream (c : Nat) (s : Scanner) : (putback c s)._istream = s._istream := by
  cases s; rfl

theorem append_istream (c : Nat) (s : Scanner) : (append c s)._istream = s._istream := by
  cases s; rfl

theorem append_lastChar (c : Nat) (s : Scanner) : (append c s)._lastChar = s._lastChar := by
  cases s; rfl

theorem unread_append (c : Nat) (s : Scanner) : unread (append c s) = unread s := by
  cases s; rfl

theorem unread_putback_le (c : Nat) (s : Scanner) :
    (unread (putback c s)).length ≤ s._istream.length + 1 := by
  cases s
  simp only [putback, unread]
  split_ifs <;> simp

theorem unread_of_lastChar (s : Scanner) (h : s._lastChar = C_EOF) :
    unread s = s._istream := by
  simp [unread, h]

theorem budget_gt (s : Scanner) : (unread s).length < budget s := by
  have := unread_length_le s
  unfold budget
  omega

/-! ### The loops of the scanner return -/

theorem unread_putback (c : Nat) (s : Scanner) (h : s._lastChar = C_EOF) :
    (unread (putback c s)).length = (unread s).length + (if c ≠ C_EOF then 1 else 0) := by
  obtain ⟨i, l, n, o, v, t⟩ := s
  simp only at h
  subst h
  by_cases hc : c = C_EOF <;> simp [putback, unread, hc]

theorem scanStringLoop_succ (terminal fuel : Nat) (s : Scanner) :
    scanStringLoop terminal (fuel + 1) s
      = if (get s).1 = C_EOF then some (get s).2
        else if (get s).1 = terminal then some (append 0 (get s).2)
        else scanStringLoop terminal fuel (append (get s).1 (get s).2) := rfl

theorem scanStringLoop_some (terminal : Nat) (fuel : Nat) (s : Scanner)
    (h : (unread s).length < fuel) :
    ∃ s1, scanStringLoop terminal fuel s = some s1 ∧ s1._istream ⊆ s._istream := by
  induction fuel generalizing s with
  | zero => omega
  | succ k ih =>
    rw [scanStringLoop_succ]
    by_cases h1 : (get s).1 = C_EOF
    · rw [if_pos h1]
      exact ⟨_, rfl, get_istream_subset s⟩
    · rw [if_neg h1]
      by_cases h2 : (get s).1 = terminal
      · rw [if_pos h2]
        exact ⟨_, rfl, by rw [append_istream]; exact get_istream_subset s⟩
      · rw [if_neg h2]
        have hlt := unread_get_lt s h1
        obtain ⟨s1, hs1, hsub⟩ := ih (append (get s).1 (get s).2)
          (by rw [unread_append]; omega)
        refine ⟨s1, hs1, ?_⟩
        rw [append_istream] at hsub
        exact hsub.trans (get_istream_subset s)

theorem scanIdentifierLoop_succ (fuel : Nat) (first : Bool) (s : Scanner) :
    scanIdentifierLoop (fuel + 1) first s
      = if (get s).1 = C_EOF then some (get s).2
        else if !((first && isIdFirst (get s).1) || (!first && isIdOther (get s).1)) then
          some (putback (get s).1 (get s).2)
        else scanIdentifierLoop fuel false (append (get s).1 (get s).2) := rfl

theorem scanIdentifierLoop_some (fuel : Nat) (first : Bool) (s : Scanner)
    (h : (unread s).length < fuel) :
    ∃ s1, scanIdentifierLoop fuel first s = some s1 ∧ s1._istream ⊆ s._istream := by
  induction fuel generalizing s first with
  | zero => omega
  | succ k ih =>
    rw [scanIdentifierLoop_succ]
    by_cases h1 : (get s).1 = C_EOF
    · rw [if_pos h1]
      exact ⟨_, rfl, get_istream_subset s⟩
    · rw [if_neg h1]
      by_cases h2 : (!((first && isIdFirst (get s).1) || (!first && isIdOther (get s).1))) = true
      · rw [if_pos h2]
        exact ⟨_, rfl, by rw [putback_istream]; exact get_istream_subset s⟩
      · rw [if_neg h2]
        have hlt := unread_get_lt s h1
        obtain ⟨s1, hs1, hsub⟩ := ih false (append (get s).1 (get s).2)
          (by rw [unread_append]; omega)
        refine ⟨s1, hs1, ?_⟩
        rw [append_istream] at hsub
        exact hsub.trans (get_istream_subset s)

theorem scanNumberLoop_succ (hex : Bool) (fuel : Nat) (s : Scanner) :
    scanNumberLoop hex (fuel + 1) s
      = if (get s).1 = C_EOF then some (get s).2
        else if !(isDigit (get s).1 || (hex && isHex (get s).1)) then
          some (putback (get s).1 (append 0 (get s).2))
        else scanNumberLoop hex fuel (append (get s).1 (get s).2) := rfl

theorem scanNumberLoop_some (hex : Bool) (fuel : Nat) (s : Scanner)
    (h : (unread s).length < fuel) :
    ∃ s1, scanNumberLoop hex fuel s = some s1 ∧ s1._istream ⊆ s._istream := by
  induction fuel generalizing s with
  | zero => omega
  | succ k ih =>
    rw [scanNumberLoop_succ]
    by_cases h1 : (get s).1 = C_EOF
    · rw [if_pos h1]
      exact ⟨_, rfl, get_istream_subset s⟩
    · rw [if_neg h1]
      by_cases h2 : (!(isDigit (get s).1 || (hex && isHex (get s).1))) = true
      · rw [if_pos h2]
        exact ⟨_, rfl, by rw [putback_istream, append_istream]; exact get_istream_subset s⟩
      · rw [if_neg h2]
        have hlt := unread_get_lt s h1
        obtain ⟨s1, hs1, hsub⟩ := ih (append (get s).1 (get s).2)
          (by rw [unread_append]; omega)
        refine ⟨s1, hs1, ?_⟩
        rw [append_istream] at hsub
        exact hsub.trans (get_istream_subset s)

theorem scanBlockCommentLoop_succ (fuel : Nat) (s : Scanner) :
    scanBlockCommentLoop (fuel + 1) s
      = if (get s).1 = C_EOF then some (false, (get s).2)
        else if (get s).1 = 42 then
          (if (get (get s).2).1 = 47 then some (true, (get (get s).2).2)
           else scanBlockCommentLoop fuel (putback (get (get s).2).1 (get (get s).2).2))
        else scanBlockCommentLoop fuel (get s).2 := rfl

theorem scanBlockCommentLoop_some (fuel : Nat) (s : Scanner) (h : (unread s).length < fuel) :
    ∃ r, scanBlockCommentLoop fuel s = some r ∧ r.2._istream ⊆ s._istream ∧
      (unread r.2).length ≤ (unread s).length := by
  induction fuel generalizing s with
  | zero => omega
  | succ k ih =>
    rw [scanBlockCommentLoop_succ]
    by_cases h1 : (get s).1 = C_EOF
    · rw [if_pos h1]
      exact ⟨_, rfl, get_istream_subset s, unread_get_le s⟩
    · rw [if_neg h1]
      have hlt := unread_get_lt s h1
      by_cases h2 : (get s).1 = 42
      · rw [if_pos h2]
        have hle2 := unread_get_le (get s).2
        have hsub2 : (get (get s).2).2._istream ⊆ s._istream :=
          (get_istream_subset _).trans (get_istream_subset s)
        by_cases h3 : (get (get s).2).1 = 47
        · rw [if_pos h3]
          exact ⟨_, rfl, hsub2, by simp only; omega⟩
        · rw [if_neg h3]
          have hpb := unread_putback (get (get s).2).1 (get (get s).2).2 (get_lastChar _)
          have hlen : (unread (putback (get (get s).2).1 (get (get s).2).2)).length
              < (unread s).length := by
            by_cases h4 : (get (get s).2).1 = C_EOF
            · rw [hpb]; simp only [h4, ne_eq, not_true_eq_false, ↓reduceIte]; omega
            · have := unread_get_lt (get s).2 h4
              rw [hpb]; simp only [ne_eq, h4, not_false_eq_true, ↓reduceIte]; omega
          obtain ⟨r, hr, hsub, hle⟩ := ih (putback (get (get s).2).1 (get (get s).2).2)
            (by omega)
          refine ⟨r, hr, ?_, by omega⟩
          rw [putback_istream] at hsub
          exact hsub.trans hsub2
      · rw [if_neg h2]
        obtain ⟨r, hr, hsub, hle⟩ := ih (get s).2 (by omega)
        exact ⟨r, hr, hsub.trans (get_istream_subset s), by omega⟩

theorem scanLineCommentLoop_succ (fuel : Nat) (s : Scanner) :
    scanLineCommentLoop (fuel + 1) s
      = if (get s).1 = C_EOF then some (false, (get s).2)
        else if (get s).1 = 10 then some (true, (get s).2)
        else scanLineCommentLoop fuel (get s).2 := rfl

theorem scanLineCommentLoop_some (fuel : Nat) (s : Scanner) (h : (unread s).length < fuel) :
    ∃ r, scanLineCommentLoop fuel s = some r ∧ r.2._istream ⊆ s._istream ∧
      (unread r.2).length ≤ (unread s).length := by
  induction fuel generalizing s with
  | zero => omega
  | succ k ih =>
    rw [scanLineCommentLoop_succ]
    by_cases h1 : (get s).1 = C_EOF
    · rw [if_pos h1]
      exact ⟨_, rfl, get_istream_subset s, unread_get_le s⟩
    · rw [if_neg h1]
      have hlt := unread_get_lt s h1
      by_cases h2 : (get s).1 = 10
      · rw [if_pos h2]
        exact ⟨_, rfl, get_istream_subset s, by simp only; omega⟩
      · rw [if_neg h2]
        obtain ⟨r, hr, hsub, hle⟩ := ih (get s).2 (by omega)
        exact ⟨r, hr, hsub.trans (get_istream_subset s), by omega⟩

theorem scanString_some (terminal : Nat) (s : Scanner) :
    ∃ s1, scanString terminal s = some (T_STRING, s1) ∧ s1._istream ⊆ s._istream := by
  obtain ⟨s1, h1, h2⟩ := scanStringLoop_some terminal (budget s) s (budget_gt s)
  exact ⟨s1, by simp [scanString, h1], h2⟩

theorem scanNumber_eq (s : Scanner) :
    scanNumber s
      = if !isDigit (get s).1 then some (C_EOF, putback (get s).1 (get s).2)
        else if (get s).1 = 48 then
          (if (get (append (get s).1 (get s).2)).1 = 120 ∨
              (get (append (get s).1 (get s).2)).1 = 88 then
            (if !isDigit (get (append 120 (get (append (get s).1 (get s).2)).2)).1 then
              some (K_UNKNOWN,
                putback (get (append 120 (get (append (get s).1 (get s).2)).2)).1
                  (append 0 (get (append 120 (get (append (get s).1 (get s).2)).2)).2))
             else
              (scanNumberLoop true
                (budget (get (append 120 (get (append (get s).1 (get s).2)).2)).2)
                (get (append 120 (get (append (get s).1 (get s).2)).2)).2).map
                fun s6 => (T_INTEGER, s6))
           else
            (scanNumberLoop false
              (budget (putback (get (append (get s).1 (get s).2)).1
                (get (append (get s).1 (get s).2)).2))
              (putback (get (append (get s).1 (get s).2)).1
                (get (append (get s).1 (get s).2)).2)).map fun s5 => (T_INTEGER, s5))
        else
          (scanNumberLoop false (budget (putback (get s).1 (append (get s).1 (get s).2)))
            (putback (get s).1 (append (get s).1 (get s).2))).map fun s4 => (T_INTEGER, s4) :=
  rfl

theorem scanNumber_some (s : Scanner) :
    ∃ r, scanNumber s = some r ∧ r.2._istream ⊆ s._istream := by
  rw [scanNumber_eq]
  have g1 := get_istream_subset s
  have g2 : (get (append (get s).1 (get s).2)).2._istream ⊆ s._istream := by
    refine (get_istream_subset _).trans ?_
    rw [append_istream]; exact g1
  have g3 : (get (append 120 (get (append (get s).1 (get s).2)).2)).2._istream ⊆ s._istream := by
    refine (get_istream_subset _).trans ?_
    rw [append_istream]; exact g2
  split_ifs
  · exact ⟨_, rfl, by rw [putback_istream]; exact g1⟩
  · exact ⟨_, rfl, by rw [putback_istream, append_istream]; exact g3⟩
  · obtain ⟨s1, h1, h2⟩ := scanNumberLoop_some true _ _ (budget_gt
      (get (append 120 (get (append (get s).1 (get s).2)).2)).2)
    exact ⟨_, by rw [h1]; rfl, h2.trans g3⟩
  · obtain ⟨s1, h1, h2⟩ := scanNumberLoop_some false _ _ (budget_gt
      (putback (get (append (get s).1 (get s).2)).1 (get (append (get s).1 (get s).2)).2))
    refine ⟨_, by rw [h1]; rfl, ?_⟩
    rw [putback_istream] at h2
    exact h2.trans g2
  · obtain ⟨s1, h1, h2⟩ := scanNumberLoop_some false _ _ (budget_gt
      (putback (get s).1 (append (get s).1 (get s).2)))
    refine ⟨_, by rw [h1]; rfl, ?_⟩
    rw [putback_istream, append_istream] at h2
    exact h2.trans g1

theorem scanIdentifier_eq (s : Scanner) :
    scanIdentifier s
      = match scanIdentifierLoop (budget s) true s with
        | none => none
        | some s1 =>
          if s1._ostring.length - s._ostring.length ≠ 0 then
            some (if scanKeyword (append 0 s1) s._ostring.length
                      (s1._ostring.length - s._ostring.length) = K_UNKNOWN
                  then T_IDENTIFIER
                  else scanKeyword (append 0 s1) s._ostring.length
                      (s1._ostring.length - s._ostring.length), append 0 s1)
          else some (C_EOF, s1) := rfl

theorem scanIdentifier_some (s : Scanner) :
    ∃ r, scanIdentifier s = some r ∧ r.2._istream ⊆ s._istream := by
  rw [scanIdentifier_eq]
  obtain ⟨s1, h1, h2⟩ := scanIdentifierLoop_some (budget s) true s (budget_gt s)
  rw [h1]
  simp only
  split_ifs
  · exact ⟨_, rfl, by simpa [append_istream] using h2⟩
  · exact ⟨_, rfl, by simpa [append_istream] using h2⟩
  · exact ⟨_, rfl, h2⟩

theorem scanComment_eq (s : Scanner) :
    scanComment s
      = if (get s).1 = 42 then
          (scanBlockCommentLoop (budget (get s).2) (get s).2).map fun r =>
            (if r.1 then K_COMMENT else C_EOF, r.2)
        else if (get s).1 = 47 then
          (scanLineCommentLoop (budget (get s).2) (get s).2).map fun r =>
            (if r.1 then K_COMMENT else C_EOF, r.2)
        else some (47, (get s).2) := rfl

theorem scanComment_some (s : Scanner) :
    ∃ r, scanComment s = some r ∧ r.2._istream ⊆ s._istream ∧
      (unread r.2).length ≤ (unread s).length := by
  rw [scanComment_eq]
  have g1 := get_istream_subset s
  have l1 := unread_get_le s
  split_ifs
  · obtain ⟨r, h1, h2, h3⟩ := scanBlockCommentLoop_some _ _ (budget_gt (get s).2)
    exact ⟨_, by rw [h1]; rfl, h2.trans g1, by simp only; omega⟩
  · obtain ⟨r, h1, h2, h3⟩ := scanLineCommentLoop_some _ _ (budget_gt (get s).2)
    exact ⟨_, by rw [h1]; rfl, h2.trans g1, by simp only; omega⟩
  · exact ⟨_, rfl, g1, l1⟩

theorem ite_subset {c : Prop} [Decidable c] {a b S : List Nat} (ha : a ⊆ S) (hb : b ⊆ S) :
    (if c then a else b) ⊆ S := by
  split <;> assumption

theorem scanSpecial_subset (s : Scanner) : (scanSpecial s).2._istream ⊆ s._istream := by
  unfold scanSpecial
  have g1 := get_istream_subset s
  generalize get s = p1 at g1 ⊢
  obtain ⟨c1, s1⟩ := p1
  have g2 := (get_istream_subset s1).trans g1
  have g3 := (get_istream_subset (get s1).2).trans g2
  have g4 := (get_istream_subset (get (get s1).2).2).trans g3
  simp only at g1 g2 g3 g4 ⊢
  generalize strchr specialSingleChar c1 = b1
  generalize strchr specialFirstChar c1 = b2
  generalize scanSpecialSwitch (get s1).1 = sw
  cases sw <;>
    simp only [apply_ite Prod.snd, apply_ite Scanner._istream, putback_istream] <;>
    repeat' apply ite_subset
  all_goals with_reducible first | exact g1 | exact g2 | exact g3 | exact g4

theorem getTokenSwitch_some (c : Nat) (s : Scanner) :
    ∃ r, getTokenSwitch c s = some r ∧ r.2._istream ⊆ s._istream ∧
      (r.1 = C_EOF → (unread r.2).length ≤ (unread s).length) := by
  unfold getTokenSwitch
  by_cases h1 : c = 47
  · rw [if_pos h1]
    obtain ⟨r, hr, hsub, hle⟩ := scanComment_some s
    exact ⟨(if r.1 = K_COMMENT then C_EOF else r.1, r.2), by rw [hr]; rfl, hsub, fun _ => hle⟩
  · rw [if_neg h1]
    by_cases h2 : c = 34
    · rw [if_pos h2]
      obtain ⟨s1, hs1, hsub⟩ := scanString_some 34 s
      exact ⟨_, hs1, hsub, fun h => absurd h (show T_STRING ≠ C_EOF by decide)⟩
    · rw [if_neg h2]
      by_cases h3 : c = 39
      · rw [if_pos h3]
        obtain ⟨s1, hs1, hsub⟩ := scanString_some 39 s
        exact ⟨_, hs1, hsub, fun h => absurd h (show T_STRING ≠ C_EOF by decide)⟩
      · rw [if_neg h3]
        obtain ⟨⟨t1, s1⟩, hr1, hsub1⟩ := scanNumber_some (putback c s)
        rw [putback_istream] at hsub1
        rw [hr1]
        simp only
        by_cases h4 : t1 ≠ C_EOF
        · rw [if_pos h4]
          exact ⟨_, rfl, hsub1, fun h => absurd h h4⟩
        · rw [if_neg h4]
          have hsub2 := (scanSpecial_subset s1).trans hsub1
          generalize scanSpecial s1 = p2 at hsub2 ⊢
          obtain ⟨t2, s2⟩ := p2
          simp only at hsub2 ⊢
          by_cases h5 : t2 ≠ C_EOF
          · rw [if_pos h5]
            exact ⟨_, rfl, hsub2, fun h => absurd h h5⟩
          · rw [if_neg h5]
            obtain ⟨⟨t3, s3⟩, hr3, hsub3⟩ := scanIdentifier_some s2
            rw [hr3]
            simp only
            by_cases h6 : t3 ≠ C_EOF
            · rw [if_pos h6]
              exact ⟨_, rfl, hsub3.trans hsub2, fun h => absurd h h6⟩
            · rw [if_neg h6]
              exact ⟨_, rfl, hsub3.trans hsub2,
                fun h => absurd h (show K_UNKNOWN ≠ C_EOF by decide)⟩

theorem getTokenLoop_succ (fuel : Nat) (s : Scanner) :
    getTokenLoop (fuel + 1) s
      = if (get s).1 = C_EOF then some (C_EOF, (get s).2)
        else if isWhitespace (get s).1 then getTokenLoop fuel (get s).2
        else
          match getTokenSwitch (get s).1 (get s).2 with
          | none => none
          | some (token, s2) =>
            if token = C_EOF then getTokenLoop fuel s2 else some (token, s2) := rfl

/-- The loop of `getToken` returns when its budget exceeds the number of
unread bytes; the stream only gets shorter; and with no byte 255 in the
stream it returns `C_EOF` only with nothing left to read. -/
theorem getTokenLoop_some (fuel : Nat) (s : Scanner) (h : (unread s).length < fuel) :
    ∃ r, getTokenLoop fuel s = some r ∧ r.2._istream ⊆ s._istream ∧
      ((∀ b ∈ s._istream, b % 256 ≠ 255) → r.1 = C_EOF → unread r.2 = []) := by
  induction fuel generalizing s with
  | zero => omega
  | succ k ih =>
    rw [getTokenLoop_succ]
    have g1 := get_istream_subset s
    by_cases h1 : (get s).1 = C_EOF
    · rw [if_pos h1]
      exact ⟨_, rfl, g1, fun hclean _ => get_eof_unread s hclean h1⟩
    · rw [if_neg h1]
      have hlt := unread_get_lt s h1
      by_cases h2 : isWhitespace (get s).1 = true
      · rw [if_pos h2]
        obtain ⟨r, hr, hsub, hE⟩ := ih (get s).2 (by omega)
        exact ⟨r, hr, hsub.trans g1, fun hclean => hE fun b hb => hclean b (g1 hb)⟩
      · rw [if_neg h2]
        obtain ⟨⟨t, s2⟩, hr, hsub, hle⟩ := getTokenSwitch_some (get s).1 (get s).2
        rw [hr]
        simp only at hsub hle ⊢
        by_cases h3 : t = C_EOF
        · rw [if_pos h3]
          have := hle h3
          obtain ⟨r, hr2, hsub2, hE⟩ := ih s2 (by omega)
          exact ⟨r, hr2, hsub2.trans (hsub.trans g1),
            fun hclean => hE fun b hb => hclean b (g1 (hsub hb))⟩
        · rw [if_neg h3]
          exact ⟨_, rfl, hsub.trans g1, fun _ h => absurd h h3⟩

/-- `getToken` returns for every state of the scanner. -/
theorem getToken_some (s : Scanner) :
    ∃ t s1, getToken s = some (t, s1) ∧ s1._istream ⊆ s._istream ∧
      ((∀ b ∈ s._istream, b % 256 ≠ 255) → t = C_EOF → unread s1 = []) := by
  obtain ⟨i, l, n, o, v, lt⟩ := s
  obtain ⟨⟨t, ⟨i1, l1, n1, o1, v1, lt1⟩⟩, hr, hsub, hE⟩ :=
    getTokenLoop_some (budget ⟨i, l, n, o, o.length, lt⟩) ⟨i, l, n, o, o.length, lt⟩
      (budget_gt _)
  refine ⟨t, ⟨i1, l1, n1, o1, v1, t⟩, ?_, hsub, ?_⟩
  · simp only [getToken, hr]
  · intro hclean ht
    have := hE hclean ht
    simpa [unread] using this

/-- Reading the first unread byte, when it is not 255. -/
theorem get_unread_cons (s : Scanner) (b : Nat) (u : List Nat) (h : unread s = b :: u)
    (hb : b < 255) :
    (get s).1 = b ∧ (get s).2._istream = u ∧ (get s).2._lastChar = C_EOF ∧
      (get s).2._ostring = s._ostring := by
  obtain ⟨i, l, n, o, v, t⟩ := s
  by_cases hl : l ≠ C_EOF
  · simp [unread, hl] at h
    obtain ⟨rfl, rfl⟩ := h
    simp [get, hl]
  · have h2 : l = C_EOF := by simpa using hl
    subst h2
    simp [unread] at h
    subst h
    have hm : b % 256 = b := Nat.mod_eq_of_lt (by omega)
    simp [get, hm]

theorem isDigit_lt (d : Nat) (h : isDigit d = true) : 48 ≤ d ∧ d ≤ 57 := by
  simpa [isDigit] using h

/-- The loop of `scanNumber` on decimal digits followed by a byte that is not
a digit: the digits are consumed and the byte is pushed back. -/
theorem scanNumberLoop_digits (c : Nat) (rest : List Nat) (hc : isDigit c = false)
    (hc255 : c < 255) (ds : List Nat) (hds : ∀ d ∈ ds, isDigit d = true) :
    ∀ (fuel : Nat) (s : Scanner), unread s = ds ++ c :: rest → (unread s).length < fuel →
      ∃ s1, scanNumberLoop false fuel s = some s1 ∧ s1._lastChar = c ∧ s1._istream = rest := by
  induction ds with
  | nil =>
    intro fuel s hu hf
    cases fuel with
    | zero => omega
    | succ k =>
      obtain ⟨g1, g2, g3, _⟩ := get_unread_cons s c rest (by simpa using hu) hc255
      rw [scanNumberLoop_succ]
      have h1 : (get s).1 ≠ C_EOF := by rw [g1]; unfold C_EOF; omega
      rw [if_neg h1, g1, if_pos (by simp [hc])]
      refine ⟨_, rfl, ?_, ?_⟩
      · cases hg : (get s).2; rfl
      · rw [putback_istream, append_istream, g2]
  | cons d ds ih =>
    intro fuel s hu hf
    cases fuel with
    | zero => omega
    | succ k =>
      have hd := isDigit_lt d (hds d (by simp))
      obtain ⟨g1, g2, g3, _⟩ := get_unread_cons s d (ds ++ c :: rest) (by simpa using hu)
        (by omega)
      rw [scanNumberLoop_succ]
      have h1 : (get s).1 ≠ C_EOF := by rw [g1]; unfold C_EOF; omega
      rw [if_neg h1, g1, if_neg (by simp [hds d (by simp)])]
      have hu2 : unread (append d (get s).2) = ds ++ c :: rest := by
        rw [unread_append, unread_of_lastChar _ g3, g2]
      apply ih (fun x hx => hds x (by simp [hx])) k _ hu2
      rw [hu2]
      rw [hu] at hf
      simp only [List.cons_append, List.length_cons] at hf
      omega

theorem unread_putback_cons (x : Nat) (s : Scanner) (hx : x ≠ C_EOF) :
    unread (putback x s) = x :: s._istream := by
  cases s
  simp [putback, unread, hx]

/-- On decimal digits followed by a byte that is not a digit, `x` or `X`,
`scanNumber` returns `T_INTEGER` with that byte pushed back. -/
theorem scanNumber_digits (s : Scanner) (d c : Nat) (ds rest : List Nat)
    (hu : unread s = d :: (ds ++ c :: rest)) (hd : isDigit d = true)
    (hds : ∀ x ∈ ds, isDigit x = true) (hc : isDigit c = false) (hc255 : c < 255)
    (hcx : c ≠ 120 ∧ c ≠ 88) :
    ∃ s1, scanNumber s = some (T_INTEGER, s1) ∧ s1._lastChar = c ∧ s1._istream = rest := by
  have hd2 := isDigit_lt d hd
  obtain ⟨g1, g2, g3, _⟩ := get_unread_cons s d (ds ++ c :: rest) hu (by omega)
  rw [scanNumber_eq]
  rw [if_neg (by rw [g1]; simp [hd])]
  by_cases h48 : (get s).1 = 48
  · rw [if_pos h48]
    have hu2 : unread (append (get s).1 (get s).2) = ds ++ c :: rest := by
      rw [unread_append, unread_of_lastChar _ g3, g2]
    -- the byte after the `0`
    obtain ⟨x, u, hxu, hx255, hxx⟩ : ∃ x u, ds ++ c :: rest = x :: u ∧ x < 255 ∧
        (x ≠ 120 ∧ x ≠ 88) := by
      cases ds with
      | nil => exact ⟨c, rest, rfl, hc255, hcx⟩
      | cons y ys =>
        have hy := isDigit_lt y (hds y (by simp))
        exact ⟨y, ys ++ c :: rest, rfl, by omega, by omega, by omega⟩
    obtain ⟨k1, k2, k3, _⟩ := get_unread_cons (append (get s).1 (get s).2) x u
      (by rw [hu2, hxu]) hx255
    rw [if_neg (by rw [k1]; simp [hxx.1, hxx.2])]
    have hu3 : unread (putback (get (append (get s).1 (get s).2)).1
        (get (append (get s).1 (get s).2)).2) = ds ++ c :: rest := by
      rw [unread_putback_cons _ _ (by rw [k1]; unfold C_EOF; omega), k1, k2, hxu]
    obtain ⟨s1, hs1, hl, hi⟩ := scanNumberLoop_digits c rest hc hc255 ds hds _ _ hu3
      (budget_gt _)
    exact ⟨s1, by rw [hs1]; rfl, hl, hi⟩
  · rw [if_neg h48]
    have hu3 : unread (putback (get s).1 (append (get s).1 (get s).2))
        = (d :: ds) ++ c :: rest := by
      rw [unread_putback_cons _ _ (by rw [g1]; unfold C_EOF; omega), append_istream, g1, g2]
      rfl
    obtain ⟨s1, hs1, hl, hi⟩ := scanNumberLoop_digits c rest hc hc255 (d :: ds)
      (by intro x hx; rcases List.mem_cons.1 hx with rfl | hx
          · exact hd
          · exact hds x hx) _ _ hu3 (budget_gt _)
    exact ⟨s1, by rw [hs1]; rfl, hl, hi⟩

/-! ### The line counter does not influence the scanner -/

theorem clearLine_putback (c : Nat) (s : Scanner) :
    clearLine (putback c s) = putback c (clearLine s) := by
  cases s; rfl

theorem clearLine_append (c : Nat) (s : Scanner) :
    clearLine (append c s) = append c (clearLine s) := by
  cases s; rfl

theorem clearLine_ostring (s : Scanner) : (clearLine s)._ostring = s._ostring := by
  cases s; rfl

theorem clearLine_istream (s : Scanner) : (clearLine s)._istream = s._istream := by
  cases s; rfl

theorem unread_clearLine (s : Scanner) : unread (clearLine s) = unread s := by
  cases s; rfl

theorem budget_clearLine (s : Scanner) : budget (clearLine s) = budget s := by
  cases s; rfl

theorem ostring_of_clearLine {s t : Scanner} (h : clearLine s = clearLine t) :
    s._ostring = t._ostring := by
  rw [← clearLine_ostring s, h, clearLine_ostring]

theorem budget_of_clearLine {s t : Scanner} (h : clearLine s = clearLine t) :
    budget s = budget t := by
  rw [← budget_clearLine s, h, budget_clearLine]

theorem get_clearLine {s t : Scanner} (h : clearLine s = clearLine t) :
    (get s).1 = (get t).1 ∧ clearLine (get s).2 = clearLine (get t).2 := by
  obtain ⟨i, l, n, o, v, lt⟩ := s
  obtain ⟨i', l', n', o', v', lt'⟩ := t
  simp only [clearLine, Scanner.mk.injEq, true_and] at h
  obtain ⟨rfl, rfl, rfl, rfl, rfl⟩ := h
  unfold get
  by_cases hl : l ≠ C_EOF
  · simp [hl, clearLine]
  · have h2 : l = C_EOF := by simpa using hl
    cases i <;> simp [h2, clearLine]

theorem scanStringLoop_clearLine (terminal fuel : Nat) (s t : Scanner)
    (h : clearLine s = clearLine t) :
    (scanStringLoop terminal fuel s).map clearLine
      = (scanStringLoop terminal fuel t).map clearLine := by
  induction fuel generalizing s t with
  | zero => rfl
  | succ k ih =>
    obtain ⟨hc, hs⟩ := get_clearLine h
    rw [scanStringLoop_succ, scanStringLoop_succ, ← hc]
    by_cases h1 : (get s).1 = C_EOF
    · rw [if_pos h1, if_pos h1]
      simp only [Option.map_some', hs]
    · rw [if_neg h1, if_neg h1]
      by_cases h2 : (get s).1 = terminal
      · rw [if_pos h2, if_pos h2]
        simp only [Option.map_some', clearLine_append, hs]
      · rw [if_neg h2, if_neg h2]
        exact ih _ _ (by rw [clearLine_append, clearLine_append, hs])

theorem scanIdentifierLoop_clearLine (fuel : Nat) (first : Bool) (s t : Scanner)
    (h : clearLine s = clearLine t) :
    (scanIdentifierLoop fuel first s).map clearLine
      = (scanIdentifierLoop fuel first t).map clearLine := by
  induction fuel generalizing s t first with
  | zero => rfl
  | succ k ih =>
    obtain ⟨hc, hs⟩ := get_clearLine h
    rw [scanIdentifierLoop_succ, scanIdentifierLoop_succ, ← hc]
    by_cases h1 : (get s).1 = C_EOF
    · rw [if_pos h1, if_pos h1]
      simp only [Option.map_some', hs]
    · rw [if_neg h1, if_neg h1]
      by_cases h2 : (!((first && isIdFirst (get s).1) || (!first && isIdOther (get s).1))) = true
      · rw [if_pos h2, if_pos h2]
        simp only [Option.map_some', clearLine_putback, hs]
      · rw [if_neg h2, if_neg h2]
        exact ih _ _ _ (by rw [clearLine_append, clearLine_append, hs])

theorem scanNumberLoop_clearLine (hex : Bool) (fuel : Nat) (s t : Scanner)
    (h : clearLine s = clearLine t) :
    (scanNumberLoop hex fuel s).map clearLine = (scanNumberLoop hex fuel t).map clearLine := by
  induction fuel generalizing s t with
  | zero => rfl
  | succ k ih =>
    obtain ⟨hc, hs⟩ := get_clearLine h
    rw [scanNumberLoop_succ, scanNumberLoop_succ, ← hc]
    by_cases h1 : (get s).1 = C_EOF
    · rw [if_pos h1, if_pos h1]
      simp only [Option.map_some', hs]
    · rw [if_neg h1, if_neg h1]
      by_cases h2 : (!(isDigit (get s).1 || (hex && isHex (get s).1))) = true
      · rw [if_pos h2, if_pos h2]
        simp only [Option.map_some', clearLine_putback, clearLine_append, hs]
      · rw [if_neg h2, if_neg h2]
        exact ih _ _ (by rw [clearLine_append, clearLine_append, hs])

theorem scanBlockCommentLoop_clearLine (fuel : Nat) (s t : Scanner)
    (h : clearLine s = clearLine t) :
    (scanBlockCommentLoop fuel s).map (Prod.map id clearLine)
      = (scanBlockCommentLoop fuel t).map (Prod.map id clearLine) := by
  induction fuel generalizing s t with
  | zero => rfl
  | succ k ih =>
    obtain ⟨hc, hs⟩ := get_clearLine h
    obtain ⟨hc2, hs2⟩ := get_clearLine hs
    rw [scanBlockCommentLoop_succ, scanBlockCommentLoop_succ, ← hc, ← hc2]
    by_cases h1 : (get s).1 = C_EOF
    · rw [if_pos h1, if_pos h1]
      simp only [Option.map_some', Prod.map_apply, id_eq, hs]
    · rw [if_neg h1, if_neg h1]
      by_cases h2 : (get s).1 = 42
      · rw [if_pos h2, if_pos h2]
        by_cases h3 : (get (get s).2).1 = 47
        · rw [if_pos h3, if_pos h3]
          simp only [Option.map_some', Prod.map_apply, id_eq, hs2]
        · rw [if_neg h3, if_neg h3]
          exact ih _ _ (by rw [clearLine_putback, clearLine_putback, hs2])
      · rw [if_neg h2, if_neg h2]
        exact ih _ _ hs

theorem scanLineCommentLoop_clearLine (fuel : Nat) (s t : Scanner)
    (h : clearLine s = clearLine t) :
    (scanLineCommentLoop fuel s).map (Prod.map id clearLine)
      = (scanLineCommentLoop fuel t).map (Prod.map id clearLine) := by
  induction fuel generalizing s t with
  | zero => rfl
  | succ k ih =>
    obtain ⟨hc, hs⟩ := get_clearLine h
    rw [scanLineCommentLoop_succ, scanLineCommentLoop_succ, ← hc]
    by_cases h1 : (get s).1 = C_EOF
    · rw [if_pos h1, if_pos h1]
      simp only [Option.map_some', Prod.map_apply, id_eq, hs]
    · rw [if_neg h1, if_neg h1]
      by_cases h2 : (get s).1 = 10
      · rw [if_pos h2, if_pos h2]
        simp only [Option.map_some', Prod.map_apply, id_eq, hs]
      · rw [if_neg h2, if_neg h2]
        exact ih _ _ hs

theorem map_token_clearLine (k : Nat) (o : Option Scanner) :
    (o.map fun s => (k, s)).map (Prod.map id clearLine)
      = (o.map clearLine).map fun s => (k, s) := by
  cases o <;> rfl

theorem scanString_clearLine (terminal : Nat) (s t : Scanner) (h : clearLine s = clearLine t) :
    (scanString terminal s).map (Prod.map id clearLine)
      = (scanString terminal t).map (Prod.map id clearLine) := by
  unfold scanString
  rw [map_token_clearLine, map_token_clearLine, budget_of_clearLine h,
    scanStringLoop_clearLine terminal (budget t) s t h]

theorem scanNumber_clearLine (s t : Scanner) (h : clearLine s = clearLine t) :
    (scanNumber s).map (Prod.map id clearLine) = (scanNumber t).map (Prod.map id clearLine) := by
  obtain ⟨hc1, hs1⟩ := get_clearLine h
  have ha : clearLine (append (get s).1 (get s).2) = clearLine (append (get s).1 (get t).2) := by
    rw [clearLine_append, clearLine_append, hs1]
  obtain ⟨hc2, hs2⟩ := get_clearLine ha
  have hb : clearLine (append 120 (get (append (get s).1 (get s).2)).2)
      = clearLine (append 120 (get (append (get s).1 (get t).2)).2) := by
    rw [clearLine_append, clearLine_append, hs2]
  obtain ⟨hc3, hs3⟩ := get_clearLine hb
  rw [scanNumber_eq, scanNumber_eq, ← hc1, ← hc2, ← hc3]
  by_cases h1 : (!isDigit (get s).1) = true
  · rw [if_pos h1, if_pos h1]
    simp only [Option.map_some', Prod.map_apply, id_eq, clearLine_putback, hs1]
  · rw [if_neg h1, if_neg h1]
    by_cases h2 : (get s).1 = 48
    · rw [if_pos h2, if_pos h2]
      by_cases h3 : (get (append (get s).1 (get s).2)).1 = 120 ∨
          (get (append (get s).1 (get s).2)).1 = 88
      · rw [if_pos h3, if_pos h3]
        by_cases h4 : (!isDigit (get (append 120 (get (append (get s).1 (get s).2)).2)).1) = true
        · rw [if_pos h4, if_pos h4]
          simp only [Option.map_some', Prod.map_apply, id_eq, clearLine_putback,
            clearLine_append, hs3]
        · rw [if_neg h4, if_neg h4, map_token_clearLine, map_token_clearLine,
            budget_of_clearLine hs3, scanNumberLoop_clearLine true _ _ _ hs3]
      · rw [if_neg h3, if_neg h3, map_token_clearLine, map_token_clearLine]
        have hp : clearLine (putback (get (append (get s).1 (get s).2)).1
              (get (append (get s).1 (get s).2)).2)
            = clearLine (putback (get (append (get s).1 (get s).2)).1
              (get (append (get s).1 (get t).2)).2) := by
          rw [clearLine_putback, clearLine_putback, hs2]
        rw [budget_of_clearLine hp, scanNumberLoop_clearLine false _ _ _ hp]
    · rw [if_neg h2, if_neg h2, map_token_clearLine, map_token_clearLine]
      have hp : clearLine (putback (get s).1 (append (get s).1 (get s).2))
          = clearLine (putback (get s).1 (append (get s).1 (get t).2)) := by
        rw [clearLine_putback, clearLine_putback, clearLine_append, clearLine_append, hs1]
      rw [budget_of_clearLine hp, scanNumberLoop_clearLine false _ _ _ hp]

theorem scanKeyword_clearLine (s t : Scanner) (h : clearLine s = clearLine t)
    (current len : Nat) : scanKeyword s current len = scanKeyword t current len := by
  unfold scanKeyword
  rw [ostring_of_clearLine h]

theorem scanIdentifier_clearLine (s t : Scanner) (h : clearLine s = clearLine t) :
    (scanIdentifier s).map (Prod.map id clearLine)
      = (scanIdentifier t).map (Prod.map id clearLine) := by
  have hl := scanIdentifierLoop_clearLine (budget t) true s t h
  rw [scanIdentifier_eq, scanIdentifier_eq, budget_of_clearLine h, ostring_of_clearLine h]
  cases h1 : scanIdentifierLoop (budget t) true s with
  | none =>
    rw [h1] at hl
    cases h2 : scanIdentifierLoop (budget t) true t with
    | none => rfl
    | some t1 => rw [h2] at hl; cases hl
  | some s1 =>
    rw [h1] at hl
    cases h2 : scanIdentifierLoop (budget t) true t with
    | none => rw [h2] at hl; cases hl
    | some t1 =>
      rw [h2] at hl
      have he : clearLine s1 = clearLine t1 := by simpa using hl
      have ho := ostring_of_clearLine he
      have ha : clearLine (append 0 s1) = clearLine (append 0 t1) := by
        rw [clearLine_append, clearLine_append, he]
      simp only
      rw [ho, scanKeyword_clearLine _ _ ha]
      by_cases h3 : t1._ostring.length - t._ostring.length ≠ 0
      · rw [if_pos h3, if_pos h3]
        simp only [Option.map_some', Prod.map_apply, id_eq, ha]
      · rw [if_neg h3, if_neg h3]
        simp only [Option.map_some', Prod.map_apply, id_eq, he]

theorem map_comment_clearLine (o : Option (Bool × Scanner)) :
    (o.map fun r => (if r.1 then K_COMMENT else C_EOF, r.2)).map (Prod.map id clearLine)
      = (o.map (Prod.map id clearLine)).map fun r => (if r.1 then K_COMMENT else C_EOF, r.2) := by
  cases o <;> rfl

theorem scanComment_clearLine (s t : Scanner) (h : clearLine s = clearLine t) :
    (scanComment s).map (Prod.map id clearLine)
      = (scanComment t).map (Prod.map id clearLine) := by
  obtain ⟨hc1, hs1⟩ := get_clearLine h
  rw [scanComment_eq, scanComment_eq, ← hc1]
  by_cases h1 : (get s).1 = 42
  · rw [if_pos h1, if_pos h1, map_comment_clearLine, map_comment_clearLine,
      budget_of_clearLine hs1, scanBlockCommentLoop_clearLine _ _ _ hs1]
  · rw [if_neg h1, if_neg h1]
    by_cases h2 : (get s).1 = 47
    · rw [if_pos h2, if_pos h2, map_comment_clearLine, map_comment_clearLine,
        budget_of_clearLine hs1, scanLineCommentLoop_clearLine _ _ _ hs1]
    · rw [if_neg h2, if_neg h2]
      simp only [Option.map_some', Prod.map_apply, id_eq, hs1]

theorem scanSpecial_clearLine (s t : Scanner) (h : clearLine s = clearLine t) :
    Prod.map id clearLine (scanSpecial s) = Prod.map id clearLine (scanSpecial t) := by
  unfold scanSpecial
  obtain ⟨hc1, hs1⟩ := get_clearLine h
  generalize get s = p1 at hc1 hs1 ⊢
  generalize get t = q1 at hc1 hs1 ⊢
  obtain ⟨c1, s1⟩ := p1
  obtain ⟨d1, t1⟩ := q1
  simp only at hc1 hs1
  subst hc1
  obtain ⟨hc2, hs2⟩ := get_clearLine hs1
  obtain ⟨hc3, hs3⟩ := get_clearLine hs2
  obtain ⟨hc4, hs4⟩ := get_clearLine hs3
  generalize strchr specialSingleChar c1 = b1
  generalize strchr specialFirstChar c1 = b2
  simp only [hc2, hc3, hc4]
  generalize scanSpecialSwitch (get t1).1 = sw
  cases sw <;>
    simp only [apply_ite (Prod.map id clearLine), Prod.map_apply, id_eq, clearLine_putback,
      hs1, hs2, hs3, hs4]

theorem getTokenSwitch_clearLine (c : Nat) (s t : Scanner) (h : clearLine s = clearLine t) :
    (getTokenSwitch c s).map (Prod.map id clearLine)
      = (getTokenSwitch c t).map (Prod.map id clearLine) := by
  unfold getTokenSwitch
  by_cases h1 : c = 47
  · rw [if_pos h1, if_pos h1]
    have hl := scanComment_clearLine s t h
    cases hs : scanComment s with
    | none =>
      cases ht : scanComment t with
      | none => rfl
      | some b => rw [hs, ht] at hl; cases hl
    | some a =>
      cases ht : scanComment t with
      | none => rw [hs, ht] at hl; cases hl
      | some b =>
        rw [hs, ht] at hl
        obtain ⟨a1, a2⟩ := a
        obtain ⟨b1, b2⟩ := b
        simp only [Option.map_some', Prod.map_apply, id_eq, Option.some.injEq,
          Prod.mk.injEq] at hl ⊢
        obtain ⟨rfl, hl2⟩ := hl
        exact ⟨rfl, hl2⟩
  · rw [if_neg h1, if_neg h1]
    by_cases h2 : c = 34
    · rw [if_pos h2, if_pos h2]
      exact scanString_clearLine 34 s t h
    · rw [if_neg h2, if_neg h2]
      by_cases h3 : c = 39
      · rw [if_pos h3, if_pos h3]
        exact scanString_clearLine 39 s t h
      · rw [if_neg h3, if_neg h3]
        have hp : clearLine (putback c s) = clearLine (putback c t) := by
          rw [clearLine_putback, clearLine_putback, h]
        have hl := scanNumber_clearLine _ _ hp
        cases hs : scanNumber (putback c s) with
        | none =>
          cases ht : scanNumber (putback c t) with
          | none => rfl
          | some b => rw [hs, ht] at hl; cases hl
        | some a =>
          cases ht : scanNumber (putback c t) with
          | none => rw [hs, ht] at hl; cases hl
          | some b =>
            rw [hs, ht] at hl
            obtain ⟨a1, a2⟩ := a
            obtain ⟨b1, b2⟩ := b
            simp only [Option.map_some', Prod.map_apply, id_eq, Option.some.injEq,
              Prod.mk.injEq] at hl
            obtain ⟨rfl, hl2⟩ := hl
            simp only
            by_cases h4 : a1 ≠ C_EOF
            · rw [if_pos h4, if_pos h4]
              simp only [Option.map_some', Prod.map_apply, id_eq, hl2]
            · rw [if_neg h4, if_neg h4]
              have hsp := scanSpecial_clearLine _ _ hl2
              generalize scanSpecial a2 = x at hsp ⊢
              generalize scanSpecial b2 = y at hsp ⊢
              obtain ⟨x1, x2⟩ := x
              obtain ⟨y1, y2⟩ := y
              simp only [Prod.map_apply, id_eq, Prod.mk.injEq] at hsp
              obtain ⟨rfl, hsp2⟩ := hsp
              simp only
              by_cases h5 : x1 ≠ C_EOF
              · rw [if_pos h5, if_pos h5]
                simp only [Option.map_some', Prod.map_apply, id_eq, hsp2]
              · rw [if_neg h5, if_neg h5]
                have hi := scanIdentifier_clearLine _ _ hsp2
                cases hs3 : scanIdentifier x2 with
                | none =>
                  cases ht3 : scanIdentifier y2 with
                  | none => rfl
                  | some b => rw [hs3, ht3] at hi; cases hi
                | some a =>
                  cases ht3 : scanIdentifier y2 with
                  | none => rw [hs3, ht3] at hi; cases hi
                  | some b =>
                    rw [hs3, ht3] at hi
                    obtain ⟨u1, u2⟩ := a
                    obtain ⟨v1, v2⟩ := b
                    simp only [Option.map_some', Prod.map_apply, id_eq, Option.some.injEq,
                      Prod.mk.injEq] at hi
                    obtain ⟨rfl, hi2⟩ := hi
                    simp only
                    by_cases h6 : u1 ≠ C_EOF
                    · rw [if_pos h6, if_pos h6]
                      simp only [Option.map_some', Prod.map_apply, id_eq, hi2]
                    · rw [if_neg h6, if_neg h6]
                      simp only [Option.map_some', Prod.map_apply, id_eq, hi2]

theorem getTokenLoop_clearLine (fuel : Nat) (s t : Scanner) (h : clearLine s = clearLine t) :
    (getTokenLoop fuel s).map (Prod.map id clearLine)
      = (getTokenLoop fuel t).map (Prod.map id clearLine) := by
  induction fuel generalizing s t with
  | zero => rfl
  | succ k ih =>
    obtain ⟨hc, hs⟩ := get_clearLine h
    rw [getTokenLoop_succ, getTokenLoop_succ, ← hc]
    by_cases h1 : (get s).1 = C_EOF
    · rw [if_pos h1, if_pos h1]
      simp only [Option.map_some', Prod.map_apply, id_eq, hs]
    · rw [if_neg h1, if_neg h1]
      by_cases h2 : isWhitespace (get s).1 = true
      · rw [if_pos h2, if_pos h2]
        exact ih _ _ hs
      · rw [if_neg h2, if_neg h2]
        have hl := getTokenSwitch_clearLine (get s).1 _ _ hs
        cases hs3 : getTokenSwitch (get s).1 (get s).2 with
        | none =>
          cases ht3 : getTokenSwitch (get s).1 (get t).2 with
          | none => rfl
          | some b => rw [hs3, ht3] at hl; cases hl
        | some a =>
          cases ht3 : getTokenSwitch (get s).1 (get t).2 with
          | none => rw [hs3, ht3] at hl; cases hl
          | some b =>
            rw [hs3, ht3] at hl
            obtain ⟨u1, u2⟩ := a
            obtain ⟨v1, v2⟩ := b
            simp only [Option.map_some', Prod.map_apply, id_eq, Option.some.injEq,
              Prod.mk.injEq] at hl
            obtain ⟨rfl, hl2⟩ := hl
            simp only
            by_cases h6 : u1 = C_EOF
            · rw [if_pos h6, if_pos h6]
              exact ih _ _ hl2
            · rw [if_neg h6, if_neg h6]
              simp only [Option.map_some', Prod.map_apply, id_eq, hl2]

/-- More budget does not change what the loop of `getToken` returns. -/
theorem getTokenLoop_mono (k : Nat) (s : Scanner) (r : Nat × Scanner)
    (h : getTokenLoop k s = some r) : getTokenLoop (k + 1) s = some r := by
  induction k generalizing s with
  | zero => cases h
  | succ k ih =>
    rw [getTokenLoop_succ] at h
    rw [getTokenLoop_succ]
    by_cases h1 : (get s).1 = C_EOF
    · rw [if_pos h1] at h ⊢; exact h
    · rw [if_neg h1] at h ⊢
      by_cases h2 : isWhitespace (get s).1 = true
      · rw [if_pos h2] at h ⊢; exact ih _ h
      · rw [if_neg h2] at h ⊢
        cases hs3 : getTokenSwitch (get s).1 (get s).2 with
        | none => rw [hs3] at h; cases h
        | some a =>
          obtain ⟨u1, u2⟩ := a
          rw [hs3] at h
          simp only at h ⊢
          by_cases h6 : u1 = C_EOF
          · rw [if_pos h6] at h ⊢; exact ih _ h
          · rw [if_neg h6] at h ⊢; exact h

theorem getTokenLoop_mono_le (k k2 : Nat) (s : Scanner) (r : Nat × Scanner)
    (h : getTokenLoop k s = some r) (hk : k ≤ k2) : getTokenLoop k2 s = some r := by
  induction hk with
  | refl => exact h
  | step _ ih => exact getTokenLoop_mono _ s r ih

/-! ### Comments are skipped -/

theorem unread_atInput (u : List Nat) (s : Scanner) : unread (atInput u s) = u := by
  simp [unread, atInput]

theorem atInput_congr {a b : Scanner} {u : List Nat} (h : clearLine a = atInput u b)
    (v : List Nat) : atInput v a = atInput v b := by
  obtain ⟨i, l, n, o, w, t⟩ := a
  obtain ⟨i', l', n', o', w', t'⟩ := b
  simp only [clearLine, atInput, Scanner.mk.injEq] at h ⊢
  obtain ⟨_, _, _, h4, h5, h6⟩ := h
  exact ⟨trivial, trivial, trivial, h4, h5, h6⟩

theorem unread_of_atInput {a b : Scanner} {u : List Nat} (h : clearLine a = atInput u b) :
    unread a = u := by
  rw [← unread_clearLine, h, unread_atInput]

theorem get_atInput (s : Scanner) (b : Nat) (u : List Nat) (h : unread s = b :: u)
    (hb : b < 255) : (get s).1 = b ∧ clearLine (get s).2 = atInput u s := by
  obtain ⟨i, l, n, o, v, t⟩ := s
  by_cases hl : l ≠ C_EOF
  · simp [unread, hl] at h
    obtain ⟨rfl, rfl⟩ := h
    simp [get, hl, clearLine, atInput]
  · have h2 : l = C_EOF := by simpa using hl
    subst h2
    simp [unread] at h
    subst h
    have hm : b % 256 = b := Nat.mod_eq_of_lt (by omega)
    simp [get, hm, clearLine, atInput]

theorem putback_atInput (x : Nat) (s1 s : Scanner) (u : List Nat)
    (h : clearLine s1 = atInput u s) (hx : x ≠ C_EOF) :
    unread (putback x s1) = x :: u ∧ ∀ v, atInput v (putback x s1) = atInput v s := by
  obtain ⟨i, l, n, o, w, t⟩ := s1
  obtain ⟨i', l', n', o', w', t'⟩ := s
  simp only [clearLine, atInput, Scanner.mk.injEq] at h
  obtain ⟨rfl, _, _, rfl, rfl, rfl⟩ := h
  simp [putback, unread, hx, atInput]

/-- The body of a block comment that holds no byte 255 and no comment end
is skipped up to and including the comment end after it. -/
theorem scanBlockCommentLoop_skip (r : List Nat) (body : List Nat) :
    (∀ b ∈ body, b < 255) → containsCommentEnd body = false →
    ∀ (fuel : Nat) (s : Scanner), unread s = body ++ 42 :: 47 :: r → body.length < fuel →
      ∃ s1, scanBlockCommentLoop fuel s = some (true, s1) ∧ clearLine s1 = atInput r s := by
  induction body with
  | nil =>
    intro _ _ fuel s hu hf
    cases fuel with
    | zero => omega
    | succ k =>
      obtain ⟨g1, g2⟩ := get_atInput s 42 (47 :: r) (by simpa using hu) (by omega)
      obtain ⟨k1, k2⟩ := get_atInput (get s).2 47 r (unread_of_atInput g2) (by omega)
      rw [scanBlockCommentLoop_succ, if_neg (by rw [g1]; decide), if_pos g1, if_pos k1]
      exact ⟨_, rfl, by rw [k2, atInput_congr g2]⟩
  | cons a rest ih =>
    intro hb hc fuel s hu hf
    cases fuel with
    | zero => omega
    | succ k =>
      have ha : a < 255 := hb a (by simp)
      have hrest : ∀ b ∈ rest, b < 255 := fun b h => hb b (by simp [h])
      simp only [containsCommentEnd, Bool.or_eq_false_iff, Bool.and_eq_false_imp,
        beq_iff_eq] at hc
      obtain ⟨hc1, hc2⟩ := hc
      obtain ⟨g1, g2⟩ := get_atInput s a (rest ++ 42 :: 47 :: r) (by simpa using hu) ha
      rw [scanBlockCommentLoop_succ, if_neg (by rw [g1]; unfold C_EOF; omega)]
      simp only [List.length_cons] at hf
      by_cases h42 : a = 42
      · rw [if_pos (by rw [g1]; exact h42)]
        obtain ⟨x, u, hxu, hx255, hx47⟩ : ∃ x u, rest ++ 42 :: 47 :: r = x :: u ∧ x < 255 ∧
            x ≠ 47 := by
          cases rest with
          | nil => exact ⟨42, 47 :: r, rfl, by omega, by omega⟩
          | cons y ys =>
            refine ⟨y, ys ++ 42 :: 47 :: r, rfl, hrest y (by simp), ?_⟩
            intro hy
            have := hc1 h42
            simp [hy] at this
        obtain ⟨k1, k2⟩ := get_atInput (get s).2 x u (by rw [unread_of_atInput g2, hxu]) hx255
        rw [if_neg (by rw [k1]; exact hx47), k1]
        obtain ⟨p1, p2⟩ := putback_atInput x _ _ u k2 (by unfold C_EOF; omega)
        obtain ⟨s1, hs1, hs2⟩ := ih hrest hc2 k (putback x (get (get s).2).2)
          (by rw [p1, hxu]) (by omega)
        exact ⟨s1, hs1, by rw [hs2, p2, atInput_congr g2]⟩
      · rw [if_neg (by rw [g1]; exact h42)]
        obtain ⟨s1, hs1, hs2⟩ := ih hrest hc2 k (get s).2 (unread_of_atInput g2) (by omega)
        exact ⟨s1, hs1, by rw [hs2, atInput_congr g2]⟩

/-- The body of a line comment that holds no byte 255 and no newline is
skipped up to and including the newline after it. -/
theorem scanLineCommentLoop_skip (r : List Nat) (body : List Nat) :
    (∀ b ∈ body, b < 255 ∧ b ≠ 10) →
    ∀ (fuel : Nat) (s : Scanner), unread s = body ++ 10 :: r → body.length < fuel →
      ∃ s1, scanLineCommentLoop fuel s = some (true, s1) ∧ clearLine s1 = atInput r s := by
  induction body with
  | nil =>
    intro _ fuel s hu hf
    cases fuel with
    | zero => omega
    | succ k =>
      obtain ⟨g1, g2⟩ := get_atInput s 10 r (by simpa using hu) (by omega)
      rw [scanLineCommentLoop_succ, if_neg (by rw [g1]; decide), if_pos g1]
      exact ⟨_, rfl, g2⟩
  | cons a rest ih =>
    intro hb fuel s hu hf
    cases fuel with
    | zero => omega
    | succ k =>
      have ha := hb a (by simp)
      have hrest : ∀ b ∈ rest, b < 255 ∧ b ≠ 10 := fun b h => hb b (by simp [h])
      obtain ⟨g1, g2⟩ := get_atInput s a (rest ++ 10 :: r) (by simpa using hu) ha.1
      simp only [List.length_cons] at hf
      rw [scanLineCommentLoop_succ, if_neg (by rw [g1]; unfold C_EOF; omega),
        if_neg (by rw [g1]; exact ha.2)]
      obtain ⟨s1, hs1, hs2⟩ := ih hrest k (get s).2 (unread_of_atInput g2) (by omega)
      exact ⟨s1, hs1, by rw [hs2, atInput_congr g2]⟩

theorem firstToken_eq (input : List Nat) :
    firstToken input
      = (getTokenLoop (input.length + 2) (start input)).map fun r => (r.1, unread r.2) := by
  unfold firstToken
  show (match getTokenLoop (input.length + 2) (start input) with
    | none => none
    | some (token, ⟨istream1, lastChar1, lineno1, ostring1, lastTokenValue1, _⟩) =>
      some (token, (⟨istream1, lastChar1, lineno1, ostring1, lastTokenValue1, token⟩ : Scanner))).map
        (fun (r : Nat × Scanner) => (r.1, unread r.2)) = _
  cases getTokenLoop (input.length + 2) (start input) with
  | none => rfl
  | some r =>
    obtain ⟨t, ⟨i, l, n, o, v, lt⟩⟩ := r
    rfl

theorem map_unread_clearLine (o : Option (Nat × Scanner)) :
    (o.map (Prod.map id clearLine)).map (fun r => (r.1, unread r.2))
      = o.map fun r => (r.1, unread r.2) := by
  cases o with
  | none => rfl
  | some r => simp [unread_clearLine]

/-- From a state that is the start of `r` but for its line counter, the loop
of `getToken` gives what a fresh scanner on `r` gives. -/
theorem getTokenLoop_atInput (r : List Nat) (s : Scanner) (k : Nat)
    (h : clearLine s = clearLine (start r)) (hk : r.length + 2 ≤ k) :
    (getTokenLoop k s).map (fun x => (x.1, unread x.2)) = firstToken r := by
  rw [firstToken_eq, ← map_unread_clearLine, getTokenLoop_clearLine k s (start r) h,
    map_unread_clearLine]
  obtain ⟨x, hx, _⟩ := getTokenLoop_some (r.length + 2) (start r) (budget_gt (start r))
  rw [hx, getTokenLoop_mono_le _ k _ _ hx hk]

theorem getTokenLoop_comment (k : Nat) (s : Scanner) (b : Nat) (u r : List Nat)
    (hu : unread s = 47 :: b :: u) (hb : b = 42 ∨ b = 47)
    (hloop : ∀ s2, unread s2 = u →
      ∃ s1, (if b = 42 then scanBlockCommentLoop (budget s2) s2
        else scanLineCommentLoop (budget s2) s2) = some (true, s1) ∧
        clearLine s1 = atInput r s2) :
    ∃ s1, getTokenLoop (k + 1) s = getTokenLoop k s1 ∧ clearLine s1 = atInput r s := by
  obtain ⟨g1, g2⟩ := get_atInput s 47 (b :: u) hu (by omega)
  obtain ⟨k1, k2⟩ := get_atInput (get s).2 b u (unread_of_atInput g2)
    (by rcases hb with rfl | rfl <;> omega)
  obtain ⟨s1, hl, hl2⟩ := hloop (get (get s).2).2 (unread_of_atInput k2)
  refine ⟨s1, ?_, by rw [hl2, atInput_congr k2, atInput_congr g2]⟩
  rw [getTokenLoop_succ, if_neg (by rw [g1]; decide), if_neg (by rw [g1]; decide), g1]
  unfold getTokenSwitch
  rw [if_pos rfl, scanComment_eq, k1]
  rcases hb with rfl | rfl
  · rw [if_pos rfl] at hl ⊢
    rw [hl]
    rfl
  · rw [if_neg (by decide)] at hl ⊢
    rw [if_pos rfl, hl]
    rfl

end M8r.Scanner

/-! ## Claims C21..C25: the scanner on comments, operators, EOF and numbers -/

/-- C21 (counterexample): a terminated block comment with the byte 255 in its
text, followed by `x`: the scanner stops the comment at the byte 255, and
`getToken` returns `T_INTEGER` for the `1` after it with `*/x` unread, where
`getToken` on `x` alone returns `T_IDENTIFIER` with nothing unread. -/
theorem C21_comment_with_byte_255_surfaces :
    Scanner.firstToken ([47, 42, 255, 49, 42, 47] ++ [120]) = some (T_INTEGER, [42, 47, 120])
    ∧ Scanner.firstToken [120] = some (T_IDENTIFIER, []) := by
  decide

/-- C21 (amended): a terminated comment whose text holds no byte 255 is
consumed and not surfaced. For a block comment with body free of the comment
end, and for a line comment with body free of newlines, followed by any
input r, the first token and the input left unread are those of r alone. -/
theorem C21_comment_without_byte_255_skipped (body r : List Nat) (h255 : ∀ b ∈ body, b < 255) :
    (Scanner.containsCommentEnd body = false →
      Scanner.firstToken (47 :: 42 :: (body ++ 42 :: 47 :: r)) = Scanner.firstToken r) ∧
    ((∀ b ∈ body, b ≠ 10) →
      Scanner.firstToken (47 :: 47 :: (body ++ 10 :: r)) = Scanner.firstToken r) := by
  constructor
  · intro hc
    obtain ⟨s1, hs1, hs2⟩ := Scanner.getTokenLoop_comment
      ((47 :: 42 :: (body ++ 42 :: 47 :: r)).length + 1)
      (Scanner.start (47 :: 42 :: (body ++ 42 :: 47 :: r))) 42 (body ++ 42 :: 47 :: r) r rfl
      (Or.inl rfl) (fun s2 h2 => by
        rw [if_pos rfl]
        apply Scanner.scanBlockCommentLoop_skip r body h255 hc _ s2 h2
        have := Scanner.budget_gt s2
        rw [h2] at this
        simp only [List.length_append, List.length_cons] at this
        omega)
    rw [Scanner.firstToken_eq, hs1]
    exact Scanner.getTokenLoop_atInput r s1 _ hs2
      (by simp only [List.length_append, List.length_cons]; omega)
  · intro hn
    obtain ⟨s1, hs1, hs2⟩ := Scanner.getTokenLoop_comment
      ((47 :: 47 :: (body ++ 10 :: r)).length + 1)
      (Scanner.start (47 :: 47 :: (body ++ 10 :: r))) 47 (body ++ 10 :: r) r rfl
      (Or.inr rfl) (fun s2 h2 => by
        rw [if_neg (by decide)]
        apply Scanner.scanLineCommentLoop_skip r body (fun b hb => ⟨h255 b hb, hn b hb⟩) _ s2 h2
        have := Scanner.budget_gt s2
        rw [h2] at this
        simp only [List.length_append, List.length_cons] at this
        omega)
    rw [Scanner.firstToken_eq, hs1]
    exact Scanner.getTokenLoop_atInput r s1 _ hs2
      (by simp only [List.length_append, List.length_cons]; omega)

/-- Witness of C21: the comments `/*a*/` and `//a` with its newline, each
followed by `x`. -/
theorem C21_comment_without_byte_255_skipped_witness :
    (∀ b ∈ [97], b < 255) ∧ Scanner.containsCommentEnd [97] = false ∧ (∀ b ∈ [97], b ≠ 10) ∧
    Scanner.firstToken (47 :: 42 :: ([97] ++ 42 :: 47 :: [120])) = Scanner.firstToken [120] ∧
    Scanner.firstToken (47 :: 47 :: ([97] ++ 10 :: [120])) = Scanner.firstToken [120] :=
  ⟨by decide, by decide, by decide,
    (C21_comment_without_byte_255_skipped [97] [120] (by decide)).1 (by decide),
    (C21_comment_without_byte_255_skipped [97] [120] (by decide)).2 (by decide)⟩

/-- C22 (counterexample): `<` followed by the byte 255, which extends no
operator: `getToken` returns `K_UNKNOWN`, not the token of `<`; and with `a`
after the byte 255 it returns `T_IDENTIFIER` with nothing unread, so the byte
255 is not the first byte the next call sees. -/
theorem C22_angle_operator_before_byte_255 :
    Scanner.firstToken [60, 255] = some (K_UNKNOWN, [])
    ∧ Scanner.firstToken [60, 255, 97] = some (T_IDENTIFIER, []) := by
  decide

/-- C22 (amended): longest match for the `<` and `>` families. For each
operator text of `angleOperators` followed by a byte `c` below 255 that does
not extend it to a longer operator, `getToken` returns the token of the text
and leaves `c` (pushed back) and the bytes after it unread. -/
theorem C22_angle_operator_longest_match (e : List Nat × Nat × List Nat)
    (he : e ∈ Scanner.angleOperators) (c : Nat) (rest : List Nat) (hc : c < 255)
    (hne : c ∉ e.2.2) :
    Scanner.firstToken (e.1 ++ c :: rest) = some (e.2.1, c :: rest) := by
  have hm : c % 256 = c := Nat.mod_eq_of_lt (by omega)
  have h255 : c ≠ 255 := by omega
  simp only [Scanner.angleOperators, List.mem_cons, List.mem_singleton, List.not_mem_nil,
    or_false] at he
  rcases he with rfl | rfl | rfl | rfl | rfl | rfl | rfl | rfl | rfl | rfl <;>
    simp [bytes] at hne <;>
    simp [bytes, Scanner.firstToken, Scanner.getToken, Scanner.start, Scanner.budget,
      Scanner.getTokenLoop,
      Scanner.get, isWhitespace, Scanner.getTokenSwitch, Scanner.putback, Scanner.scanNumber,
      isDigit, Scanner.scanSpecial, hm, hne, h255, Scanner.unread]

/-- Witness of C22: `>>` followed by `a` and `b`. -/
theorem C22_angle_operator_longest_match_witness :
    (bytes ">>", O_RSHIFT, bytes ">=") ∈ Scanner.angleOperators ∧ (97 : Nat) < 255 ∧
    97 ∉ bytes ">=" ∧
    Scanner.firstToken (bytes ">>" ++ 97 :: [98]) = some (O_RSHIFT, 97 :: [98]) :=
  ⟨by simp [Scanner.angleOperators], by decide, by simp [bytes],
    C22_angle_operator_longest_match (bytes ">>", O_RSHIFT, bytes ">=")
      (by simp [Scanner.angleOperators]) 97 [98] (by decide) (by simp [bytes])⟩

/-- C23 (counterexample): on the input of the byte 255 followed by `a`,
`getToken` returns `C_EOF` with `a` left in the stream: a byte of the input
is reported as the EOF token, before the end of the input. -/
theorem C23_byte_255_reported_as_eof :
    Scanner.firstToken [255, 97] = some (C_EOF, [97]) := by
  decide

/-- C23 (amended): from every state of the scanner whose stream holds no
byte 255, `getToken` returns, and when it returns `C_EOF` the whole input
has been consumed: nothing is left in the stream or in the pushback slot. -/
theorem C23_eof_only_at_end (s : Scanner) (h : ∀ b ∈ s._istream, b % 256 ≠ 255) :
    ∃ t s1, Scanner.getToken s = some (t, s1) ∧ (t = C_EOF → Scanner.unread s1 = []) := by
  obtain ⟨t, s1, hr, _, hE⟩ := Scanner.getToken_some s
  exact ⟨t, s1, hr, hE h⟩

/-- Witness of C23: a fresh scanner on a blank followed by a newline, where
`getToken` returns `C_EOF`. -/
theorem C23_eof_only_at_end_witness :
    (∀ b ∈ (Scanner.start [32, 10])._istream, b % 256 ≠ 255) ∧
    ∃ t s1, Scanner.getToken (Scanner.start [32, 10]) = some (t, s1) ∧
      (t = C_EOF → Scanner.unread s1 = []) :=
  ⟨by decide, C23_eof_only_at_end (Scanner.start [32, 10]) (by decide)⟩

/-- C24 (counterexample): on `1.5` `getToken` returns `T_INTEGER`, which is
not `T_FLOAT`, and leaves `.5` unread. -/
theorem C24_float_literal_scanned_as_integer :
    Scanner.firstToken [49, 46, 53] = some (T_INTEGER, [46, 53]) ∧ T_INTEGER ≠ T_FLOAT := by
  decide

/-- C24 (amended): on decimal digits followed by a decimal point or an
exponent letter (`.`, `e` or `E`), `getToken` returns `T_INTEGER` for the
digits and leaves the point or letter, pushed back, and all that follows it
unread: the scanner has no float literal. -/
theorem C24_integer_before_point_or_exponent (d c : Nat) (ds rest : List Nat)
    (hd : isDigit d = true) (hds : ∀ x ∈ ds, isDigit x = true)
    (hc : c = 46 ∨ c = 101 ∨ c = 69) :
    Scanner.firstToken (d :: ds ++ c :: rest) = some (T_INTEGER, c :: rest) := by
  have hd2 := Scanner.isDigit_lt d hd
  have hcd : isDigit c = false := by rcases hc with rfl | rfl | rfl <;> decide
  have hc255 : c < 255 := by rcases hc with rfl | rfl | rfl <;> decide
  have hcx : c ≠ 120 ∧ c ≠ 88 := by rcases hc with rfl | rfl | rfl <;> decide
  have hm : d % 256 = d := Nat.mod_eq_of_lt (by omega)
  have hws : isWhitespace d = false := by
    have : d ≠ 32 ∧ d ≠ 10 ∧ d ≠ 13 ∧ d ≠ 12 ∧ d ≠ 9 ∧ d ≠ 11 := by omega
    simp [isWhitespace, this]
  have h10 : d ≠ 10 := by omega
  have h255 : d ≠ 255 := by omega
  -- the state after the first byte has been read and pushed back
  obtain ⟨s1, hs1, hl, hi⟩ := Scanner.scanNumber_digits
    ⟨ds ++ c :: rest, d, 1, [], 0, C_EOF⟩ d c ds rest
    (by simp [Scanner.unread, h255]) hd hds hcd hc255 hcx
  obtain ⟨i1, l1, n1, o1, v1, t1⟩ := s1
  simp only at hl hi
  subst hl hi
  have h47 : d ≠ 47 ∧ d ≠ 34 ∧ d ≠ 39 := by omega
  have hc2 : l1 ≠ C_EOF := by unfold C_EOF; omega
  simp [Scanner.firstToken, Scanner.getToken, Scanner.start, Scanner.budget, Scanner.getTokenLoop, Scanner.get, hm,
    h10, h255, hws, Scanner.getTokenSwitch, h47, Scanner.putback, hs1, Scanner.unread, hc2]

/-- Witness of C24: the literal `12.5`. -/
theorem C24_integer_before_point_or_exponent_witness :
    isDigit 49 = true ∧ (∀ x ∈ [50], isDigit x = true) ∧
    Scanner.firstToken (49 :: [50] ++ 46 :: [53]) = some (T_INTEGER, 46 :: [53]) :=
  ⟨by decide, by decide,
    C24_integer_before_point_or_exponent 49 46 [50] [53] (by decide) (by decide)
      (Or.inl rfl)⟩

/-- C25 (failing input): `getToken` returns from every state of the scanner,
but on the NUL byte, which starts no token, it returns the token code 0:
`scanSpecial` asks `strchr(specialSingleChar, c1)`, which finds the
terminator of the string for `c1 = 0`; the code is none of the scanner's
token codes, not `K_UNKNOWN` and not `C_EOF`. -/
theorem C25_nul_byte_token_zero :
    (∀ s : Scanner, ∃ r, Scanner.getToken s = some r)
    ∧ Scanner.firstToken [0] = some (0, [])
    ∧ (0 : Nat) ≠ K_UNKNOWN ∧ (0 : Nat) ≠ C_EOF := by
  refine ⟨fun s => ?_, by decide, by decide, by decide⟩
  obtain ⟨t, s1, hr, _⟩ := Scanner.getToken_some s
  exact ⟨_, hr⟩


/-! ## Native functions: general facts -/

namespace M8r.VM

theorem push_stack (v : Value) (eu : ExecutionUnit) :
    (push v eu).stack = v :: eu.stack := by
  cases eu; rfl

theorem effect_stack (e : Effect) (eu : ExecutionUnit) : (effect e eu).stack = eu.stack := by
  cases eu; rfl

theorem create_stack (H : Host) (eu : ExecutionUnit) : (create H eu).2.stack = eu.stack := by
  simp [create, effect_stack]

end M8r.VM

namespace M8r.Global

open VM

theorem printLoop_stack (H : Host) (count : Nat) (i : Int) (eu : ExecutionUnit) :
    (printLoop H count i eu).stack = eu.stack := by
  induction count generalizing i eu with
  | zero => rfl
  | succ k ih => simp [printLoop, ih, effect_stack]

theorem argumentsLoop_stack (H : Host) (array count : Nat) (i : Int) (eu : ExecutionUnit) :
    (argumentsLoop H array count i eu).stack = eu.stack := by
  induction count generalizing i eu with
  | zero => rfl
  | succ k ih => simp [argumentsLoop, ih, effect_stack]

theorem meminfoLoop_stack (H : Host) (blockSize a : Nat) (rows : List AllocationInfo) (i : Nat)
    (eu : ExecutionUnit) :
    (meminfoLoop H blockSize a rows i eu).stack = eu.stack := by
  induction rows generalizing i eu with
  | nil => rfl
  | cons row rows ih => simp [meminfoLoop, ih, effect_stack, create_stack]

end M8r.Global

namespace M8r.ParseEngine

/-- The calls of the fix-up loop at the end of `switchStatement`: for every
case the `JT` is matched to the relocated start of its body, and the jump at
the end of the body, when there is one, is relocated and matched to the
label after the bodies. -/
theorem switchFixup_eq (D E : Int) (after : Label) (cases : List CaseEntry) (toks : List Tok)
    (tr : List Emit) (bs cs : List (List Label)) :
    switchFixup D E after cases ⟨toks, tr, bs, cs⟩
      = Outcome.done ((),
          ⟨toks,
           tr ++ cases.flatMap (fun it =>
             Emit.matchJumpToAddr it.toStatement (it.statementAddr - D + E) ::
               (if it.fromStatement.label ≥ 0 then
                  [Emit.matchJumpToLabel
                    { it.fromStatement with
                      matchedAddr := it.fromStatement.matchedAddr + (E - D) } after]
                else [])),
           bs, cs⟩) := by
  induction cases generalizing tr with
  | nil => simp [switchFixup, PE.pure_eq]
  | cons it rest ih =>
    by_cases h : it.fromStatement.label ≥ 0
    · simp [switchFixup, PE.bind_eq, PE.andThen, emit, h, ih]
    · simp [switchFixup, PE.bind_eq, PE.andThen, emit, h, ih, PE.pure_eq]

end M8r.ParseEngine

/-! ## Claims C26..C29: native functions -/

section NativeFunctions

open M8r.VM

/-- C26: for `toInt` and `toUInt` called with at least one argument, with `s`
the string value of the first argument and white space allowed unless there
is a second argument whose integer value is 0: the result is the error
`CannotConvertStringToNumber` exactly when `String::toInt` (`String::toUInt`)
fails on `s`, and then the execution unit is unchanged (nothing is pushed);
when the conversion succeeds exactly one value is pushed and the result is
`ReturnCount(1)`. -/
theorem C26_toInt_toUInt_error_iff (H : Host) (eu : ExecutionUnit) (thisValue : VM.Value)
    (nparams : Nat) (s : String) (allowWs : Bool) (h : 1 ≤ nparams)
    (hs : s = H.toStringValue eu (top eu (argOffset 1 nparams)))
    (hws : allowWs =
      !(decide (1 < nparams) && decide (H.toIntValue eu (top eu (argOffset 2 nparams)) = 0))) :
    (((Global.toInt H eu thisValue nparams).1
          = CallReturnValue.Error CallError.CannotConvertStringToNumber
        ↔ H.stringToInt s allowWs = none) ∧
      (H.stringToInt s allowWs = none → (Global.toInt H eu thisValue nparams).2 = eu) ∧
      (∀ i, H.stringToInt s allowWs = some i →
        Global.toInt H eu thisValue nparams
          = (CallReturnValue.ReturnCount 1, ⟨VM.Value.integer i :: eu.stack, eu.log⟩))) ∧
    (((Global.toUInt H eu thisValue nparams).1
          = CallReturnValue.Error CallError.CannotConvertStringToNumber
        ↔ H.stringToUInt s allowWs = none) ∧
      (H.stringToUInt s allowWs = none → (Global.toUInt H eu thisValue nparams).2 = eu) ∧
      (∀ u, H.stringToUInt s allowWs = some u →
        ∃ v, Global.toUInt H eu thisValue nparams
          = (CallReturnValue.ReturnCount 1, ⟨v :: eu.stack, eu.log⟩))) := by
  have hn : ¬ nparams < 1 := by omega
  have hws2 : allowWs = Global.allowWhitespace H eu nparams := by
    rw [hws]
    unfold Global.allowWhitespace
    by_cases h1 : 1 < nparams <;> simp [h1]
  subst hs
  rw [hws2]
  obtain ⟨stack, log⟩ := eu
  constructor
  · unfold Global.toInt
    simp only [hn, ↓reduceIte]
    cases H.stringToInt _ _ <;> simp [push]
  · unfold Global.toUInt
    simp only [hn, ↓reduceIte]
    cases H.stringToUInt _ _ <;> simp [push]

/-- Witness for C26: `toInt("12")` pushes 12 and `toUInt("x")` pushes
nothing. -/
theorem C26_toInt_toUInt_error_iff_witness :
    Global.toInt Host.decimal ⟨[Value.string "12"], []⟩ Value.none 1
      = (CallReturnValue.ReturnCount 1, ⟨[Value.integer 12, Value.string "12"], []⟩)
    ∧ (Global.toUInt Host.decimal ⟨[Value.string "x"], []⟩ Value.none 1).2
      = ⟨[Value.string "x"], []⟩ :=
  ⟨(C26_toInt_toUInt_error_iff Host.decimal ⟨[Value.string "12"], []⟩ Value.none 1 "12" true
      (by decide) (by decide) (by decide)).1.2.2 12 (by decide),
   (C26_toInt_toUInt_error_iff Host.decimal ⟨[Value.string "x"], []⟩ Value.none 1 "x" true
      (by decide) (by decide) (by decide)).2.2.1 (by decide)⟩

/-- C27 (counterexample): `toUInt("4294967295")` pushes the integer -1. -/
theorem C27_toUInt_wraps_to_negative :
    Global.toUInt Host.decimal ⟨[Value.string "4294967295"], []⟩ Value.none 1
      = (CallReturnValue.ReturnCount 1,
          ⟨[Value.integer (-1), Value.string "4294967295"], []⟩) := by
  decide

/-- C27 (amended): when `String::toUInt` converts the first argument to the
unsigned 32-bit value `u`, `toUInt` pushes `Value(static_cast<int32_t>(u))`:
the integer `u` when `u` is below 2^31 and `u - 2^32` otherwise. -/
theorem C27_toUInt_pushes_int32 (H : Host) (eu : ExecutionUnit) (thisValue : VM.Value)
    (nparams u : Nat) (h : 1 ≤ nparams) (hu32 : u < 4294967296)
    (hu : H.stringToUInt (H.toStringValue eu (top eu (argOffset 1 nparams)))
        (Global.allowWhitespace H eu nparams) = some u) :
    Global.toUInt H eu thisValue nparams
      = (CallReturnValue.ReturnCount 1,
          ⟨VM.Value.integer (if u < 2147483648 then (u : Int) else (u : Int) - 4294967296)
             :: eu.stack, eu.log⟩) := by
  have hn : ¬ nparams < 1 := by omega
  have hcast : toInt32 (u : Int)
      = (if u < 2147483648 then (u : Int) else (u : Int) - 4294967296) := by
    unfold toInt32
    split_ifs with hlt <;> omega
  obtain ⟨stack, log⟩ := eu
  unfold Global.toUInt
  simp only [hn, ↓reduceIte, hu, push, hcast]

/-- Witness for C27 (amended): `toUInt("3000000000")` pushes -1294967296. -/
theorem C27_toUInt_pushes_int32_witness :
    Global.toUInt Host.decimal ⟨[Value.string "3000000000"], []⟩ Value.none 1
      = (CallReturnValue.ReturnCount 1,
          ⟨[Value.integer (-1294967296), Value.string "3000000000"], []⟩) :=
  C27_toUInt_pushes_int32 Host.decimal ⟨[Value.string "3000000000"], []⟩ Value.none 1
    3000000000 (by decide) (by decide) (by decide)

/-- C28: each of `currentTime`, `print`, `printf`, `println`, `toFloat`,
`toInt`, `toUInt`, `arguments`, `meminfo`, and the `IPAddr` constructor,
`toString` and `lookupHostname` leaves, when it returns `ReturnCount(n)`,
exactly `n` more values on the VM stack than on entry, and leaves the stack
as it was when it returns an error. -/
theorem C28_native_return_count (H : Host) (eu : ExecutionUnit) (thisValue : VM.Value)
    (nparams : Nat) :
    ∀ f ∈ [Global.currentTime, Global.print, Global.printf, Global.println, Global.toFloat,
           Global.toInt, Global.toUInt, Global.arguments, Global.meminfo,
           IPAddrProto.constructor, IPAddrProto.toString, IPAddrProto.lookupHostname],
      (∀ n, (f H eu thisValue nparams).1 = CallReturnValue.ReturnCount n →
        (f H eu thisValue nparams).2.stack.length = eu.stack.length + n) ∧
      (∀ e, (f H eu thisValue nparams).1 = CallReturnValue.Error e →
        (f H eu thisValue nparams).2.stack = eu.stack) := by
  intro f hf
  simp only [List.mem_cons, List.mem_singleton, List.not_mem_nil, or_false] at hf
  rcases hf with rfl | rfl | rfl | rfl | rfl | rfl | rfl | rfl | rfl | rfl | rfl | rfl
  · simp [Global.currentTime, push_stack]
  · simp [Global.print, Global.printLoop_stack]
  · unfold Global.printf
    dsimp only
    repeat' split
    all_goals simp [effect_stack]
  · simp [Global.println, Global.printLoop_stack, effect_stack]
  · unfold Global.toFloat
    dsimp only
    repeat' split
    all_goals simp [push_stack]
  · unfold Global.toInt
    dsimp only
    repeat' split
    all_goals simp [push_stack]
  · unfold Global.toUInt
    dsimp only
    repeat' split
    all_goals simp [push_stack]
  · unfold Global.arguments
    dsimp only
    repeat' split
    all_goals simp [push_stack, Global.argumentsLoop_stack, effect_stack]
  · simp [Global.meminfo, push_stack, effect_stack, Global.meminfoLoop_stack, create_stack]
  · unfold IPAddrProto.constructor IPAddrProto.setElements
    dsimp only
    repeat' split
    all_goals simp [effect_stack]
  · unfold IPAddrProto.toString
    dsimp only
    repeat' split
    all_goals simp [push_stack]
  · unfold IPAddrProto.lookupHostname
    dsimp only
    repeat' split
    all_goals simp [effect_stack]

/-- Witness for C28: `toInt("12")` returns `ReturnCount(1)` with one more
value on the stack. -/
theorem C28_native_return_count_witness :
    (Global.toInt Host.decimal ⟨[Value.string "12"], []⟩ Value.none 1).2.stack.length
      = (⟨[Value.string "12"], []⟩ : ExecutionUnit).stack.length + 1 :=
  (C28_native_return_count Host.decimal ⟨[Value.string "12"], []⟩ Value.none 1 Global.toInt
    (by simp)).1 1 (by decide)

/-- C29 (counterexample): `IPAddr(1, 2, 3, 4)` called with a `this` that is
not an object returns `ReturnCount(0)` and sets no element. -/
theorem C29_constructor_without_this_object :
    IPAddrProto.constructor Host.decimal
        ⟨[Value.integer 4, Value.integer 3, Value.integer 2, Value.integer 1], []⟩ Value.none 4
      = (CallReturnValue.ReturnCount 0,
          ⟨[Value.integer 4, Value.integer 3, Value.integer 2, Value.integer 1], []⟩) := by
  decide

/-- C29 (amended): for `IPAddr(a, b, c, d)`, with `a`, `b`, `c`, `d` the
integer values of the four arguments: the constructor returns the error
`OutOfRange` exactly when one of them lies outside 0..255, and then nothing
changes; otherwise it returns `ReturnCount(0)`, after setting the elements
0, 1, 2, 3 of `this` to `a`, `b`, `c`, `d` in that order when `this` is an
object, and setting nothing when it is not. -/
theorem C29_constructor_four_integers (H : Host) (eu : ExecutionUnit) (thisValue : VM.Value)
    (a b c d : Int)
    (ha : a = H.toIntValue eu (top eu (-3))) (hb : b = H.toIntValue eu (top eu (-2)))
    (hc : c = H.toIntValue eu (top eu (-1))) (hd : d = H.toIntValue eu (top eu 0)) :
    ((IPAddrProto.constructor H eu thisValue 4).1 = CallReturnValue.Error CallError.OutOfRange
        ↔ ¬ (0 ≤ a ∧ a ≤ 255 ∧ 0 ≤ b ∧ b ≤ 255 ∧ 0 ≤ c ∧ c ≤ 255 ∧ 0 ≤ d ∧ d ≤ 255)) ∧
    (¬ (0 ≤ a ∧ a ≤ 255 ∧ 0 ≤ b ∧ b ≤ 255 ∧ 0 ≤ c ∧ c ≤ 255 ∧ 0 ≤ d ∧ d ≤ 255) →
      (IPAddrProto.constructor H eu thisValue 4).2 = eu) ∧
    ((0 ≤ a ∧ a ≤ 255 ∧ 0 ≤ b ∧ b ≤ 255 ∧ 0 ≤ c ∧ c ≤ 255 ∧ 0 ≤ d ∧ d ≤ 255) →
      (∀ o, thisValue.asObject = some o →
        IPAddrProto.constructor H eu thisValue 4
          = (CallReturnValue.ReturnCount 0,
              ⟨eu.stack,
               eu.log ++
                 [Effect.setElement o (VM.Value.integer 0) (VM.Value.integer a),
                  Effect.setElement o (VM.Value.integer 1) (VM.Value.integer b),
                  Effect.setElement o (VM.Value.integer 2) (VM.Value.integer c),
                  Effect.setElement o (VM.Value.integer 3) (VM.Value.integer d)]⟩)) ∧
      (thisValue.asObject = none →
        IPAddrProto.constructor H eu thisValue 4 = (CallReturnValue.ReturnCount 0, eu))) := by
  obtain ⟨stack, log⟩ := eu
  by_cases hr : (0 ≤ a ∧ a ≤ 255 ∧ 0 ≤ b ∧ b ≤ 255 ∧ 0 ≤ c ∧ c ≤ 255 ∧ 0 ≤ d ∧ d ≤ 255)
  · have hcond : ¬ (a < 0 ∨ a > 255 ∨ b < 0 ∨ b > 255 ∨ c < 0 ∨ c > 255 ∨ d < 0 ∨ d > 255) := by
      omega
    obtain ⟨h1, h2, h3, h4, h5, h6, h7, h8⟩ := hr
    have m : ∀ x : Int, 0 ≤ x → x ≤ 255 → ((x % 256).toNat : Int) = x := by
      intro x hx0 hx1
      rw [Int.emod_eq_of_lt hx0 (by omega)]
      exact Int.toNat_of_nonneg hx0
    refine ⟨?_, ?_, ?_⟩
    · unfold IPAddrProto.constructor IPAddrProto.setElements
      simp only [OfNat.ofNat_ne_one, ↓reduceIte, ← ha, ← hb, ← hc, ← hd, hcond]
      cases thisValue.asObject <;> simp [h1, h2, h3, h4, h5, h6, h7, h8]
    · intro hn
      exact absurd ⟨h1, h2, h3, h4, h5, h6, h7, h8⟩ hn
    · intro _
      constructor
      · intro o ho
        unfold IPAddrProto.constructor IPAddrProto.setElements
        simp only [OfNat.ofNat_ne_one, ↓reduceIte, ← ha, ← hb, ← hc, ← hd, hcond, ho, effect,
          IPAddr.set, IPAddr.get, one_ne_zero, OfNat.ofNat_ne_zero, List.append_assoc,
          List.singleton_append, List.cons_append, List.nil_append, Nat.reduceEqDiff,
          m a h1 h2, m b h3 h4, m c h5 h6, m d h7 h8]
      · intro ho
        unfold IPAddrProto.constructor IPAddrProto.setElements
        simp only [OfNat.ofNat_ne_one, ↓reduceIte, ← ha, ← hb, ← hc, ← hd, hcond, ho]
  · have hcond : (a < 0 ∨ a > 255 ∨ b < 0 ∨ b > 255 ∨ c < 0 ∨ c > 255 ∨ d < 0 ∨ d > 255) := by
      omega
    refine ⟨?_, ?_, ?_⟩
    · unfold IPAddrProto.constructor
      simp only [OfNat.ofNat_ne_one, ↓reduceIte, ← ha, ← hb, ← hc, ← hd, hcond, hr,
        not_false_eq_true]
    · intro _
      unfold IPAddrProto.constructor
      simp only [OfNat.ofNat_ne_one, ↓reduceIte, ← ha, ← hb, ← hc, ← hd, hcond]
    · intro h
      exact absurd h hr

/-- Witness for C29 (amended): `IPAddr(1, 2, 3, 4)` on the object 7. -/
theorem C29_constructor_four_integers_witness :
    IPAddrProto.constructor Host.decimal
        ⟨[Value.integer 4, Value.integer 3, Value.integer 2, Value.integer 1], []⟩
        (Value.object 7) 4
      = (CallReturnValue.ReturnCount 0,
          ⟨[Value.integer 4, Value.integer 3, Value.integer 2, Value.integer 1],
           [] ++
           [Effect.setElement 7 (Value.integer 0) (Value.integer 1),
            Effect.setElement 7 (Value.integer 1) (Value.integer 2),
            Effect.setElement 7 (Value.integer 2) (Value.integer 3),
            Effect.setElement 7 (Value.integer 3) (Value.integer 4)]⟩) :=
  ((C29_constructor_four_integers Host.decimal
      ⟨[Value.integer 4, Value.integer 3, Value.integer 2, Value.integer 1], []⟩
      (Value.object 7) 1 2 3 4 (by decide) (by decide) (by decide) (by decide)).2.2
    (by decide)).1 7 (by decide)

end NativeFunctions

/-! ## Claim C30: the relocation of switch jumps -/

/-- C30: with `D` the offset returned by `startDeferred` and `E` the offset
returned by `emitDeferred`, the calls `switchStatement` makes after the
clauses are: `label`, `addMatchedJump(JMP, endJump)`, `emitDeferred`, `label`
(the label after the bodies); then, with a default clause, `endJump` matched
to the address `defaultStatement - D + E` and the label at the end of the
default body, its `matchedAddr` shifted by `E - D`, matched to the label
after the bodies, and without one `endJump` matched to the label after the
bodies; then for every case its `JT` matched to the address
`statementAddr - D + E` and the label at the end of its body, when there is
one, shifted by `E - D` and matched to the label after the bodies; then
`discardResult`. -/
theorem C30_switch_relocation (P : Parser) (r : ParseEngine.Callees) (n : Nat)
    (sw lp rp lb rb : Tok) (toks toks1 rest : List Tok) (tr tr1 tr2 : List Emit)
    (bs cs bs1 cs1 bs2 cs2 : List (List Label)) (e : Bool) (st : ParseEngine.SwitchLocals)
    (D E : Int) (endJump after : Label)
    (hsw : sw.token = Token.Switch) (hlp : lp.token = Token.LParen)
    (hrp : rp.token = Token.RParen) (hlb : lb.token = Token.LBrace)
    (hrb : rb.token = Token.RBrace)
    (hexp : ParseEngine.expression P r n ParseEngine.defaultMinPrec ⟨toks, tr, bs, cs⟩
      = Outcome.done (e, ⟨rp :: lb :: toks1, tr1, bs1, cs1⟩))
    (hD : D = P.startDeferred (tr1 ++ [Emit.startDeferred]))
    (hloop : ParseEngine.switchClausesLoop P r n n
        { cases := [], defaultStatement := 0, defaultFromStatementLabel := ParseEngine.noLabel,
          haveDefault := false }
        ⟨toks1, tr1 ++ [Emit.startDeferred, Emit.endDeferred], bs1, cs1⟩
      = Outcome.done (st, ⟨rb :: rest, tr2, bs2, cs2⟩))
    (hend : endJump = ⟨P.label (tr2 ++ [Emit.label]), P.matchedAddr (tr2 ++ [Emit.label])⟩)
    (hE : E = P.emitDeferred
      (tr2 ++ [Emit.label, Emit.addMatchedJump Op.JMP endJump, Emit.emitDeferred]))
    (hafter : after =
      ⟨P.label (tr2 ++ [Emit.label, Emit.addMatchedJump Op.JMP endJump, Emit.emitDeferred,
          Emit.label]), -1⟩) :
    ParseEngine.switchStatement P r n ⟨sw :: lp :: toks, tr, bs, cs⟩
      = Outcome.done (true,
          ⟨rest,
           tr2 ++ [Emit.label, Emit.addMatchedJump Op.JMP endJump, Emit.emitDeferred,
                   Emit.label] ++
            (if st.haveDefault then
               [Emit.matchJumpToAddr endJump (st.defaultStatement - D + E),
                Emit.matchJumpToLabel
                  { st.defaultFromStatementLabel with
                    matchedAddr := st.defaultFromStatementLabel.matchedAddr + (E - D) } after]
             else [Emit.matchJumpToLabel endJump after]) ++
            st.cases.flatMap (fun it =>
              Emit.matchJumpToAddr it.toStatement (it.statementAddr - D + E) ::
                (if it.fromStatement.label ≥ 0 then
                   [Emit.matchJumpToLabel
                     { it.fromStatement with
                       matchedAddr := it.fromStatement.matchedAddr + (E - D) } after]
                 else [])) ++
            [Emit.discardResult],
           bs2, cs2⟩) := by
  subst hD hend hE hafter
  unfold ParseEngine.switchStatement
  cases hd : st.haveDefault <;>
    simp only [PE.bind_eq, PE.andThen, ParseEngine.getToken_eq, ParseEngine.current,
      List.head?_cons, Option.map_some', Option.getD_some, hsw, hlp, hrp, hlb, hrb, ne_eq,
      not_true_eq_false, ↓reduceIte, ParseEngine.retireToken, List.tail_cons,
      ParseEngine.expect, hexp, ParseEngine.startDeferred, ParseEngine.emit,
      ParseEngine.getTrace, PE.pure_eq, List.append_assoc, List.cons_append, List.nil_append,
      List.singleton_append, hloop, ParseEngine.label, ParseEngine.addMatchedJump,
      ParseEngine.emitDeferred, hd, Bool.false_eq_true, ParseEngine.switchFixup_eq]

/-- Witness for C30: `switch (a) { case 1: b; default: c; }`, where `D` is 0
and `E` is 5. -/
theorem C30_switch_relocation_witness :
    ParseEngine.switchStatement Parser.unitCode (ParseEngine.callees Parser.unitCode 8) 8
        ⟨[ParseEngine.tok Token.Switch, ParseEngine.tok Token.LParen, ParseEngine.ident "a",
          ParseEngine.tok Token.RParen, ParseEngine.tok Token.LBrace,
          ParseEngine.tok Token.Case, ParseEngine.intTok 1, ParseEngine.tok Token.Colon,
          ParseEngine.ident "b", ParseEngine.tok Token.Semicolon,
          ParseEngine.tok Token.Default, ParseEngine.tok Token.Colon, ParseEngine.ident "c",
          ParseEngine.tok Token.Semicolon, ParseEngine.tok Token.RBrace], [], [], []⟩
      = Outcome.done (true,
          ⟨[],
           [Emit.emitId (some "a") IdType.MightBeLocal, Emit.startDeferred, Emit.endDeferred,
            Emit.pushK (Value.integer 1), Emit.emitCaseTest, Emit.label,
            Emit.addMatchedJump Op.JT ⟨3, 3⟩, Emit.resumeDeferred,
            Emit.emitId (some "b") IdType.MightBeLocal, Emit.discardResult, Emit.label,
            Emit.addMatchedJump Op.JMP ⟨2, 2⟩, Emit.endDeferred, Emit.resumeDeferred,
            Emit.emitId (some "c") IdType.MightBeLocal, Emit.discardResult, Emit.label,
            Emit.addMatchedJump Op.JMP ⟨5, 5⟩, Emit.endDeferred,
            Emit.label, Emit.addMatchedJump Op.JMP ⟨4, 4⟩, Emit.emitDeferred, Emit.label,
            Emit.matchJumpToAddr ⟨4, 4⟩ 8, Emit.matchJumpToLabel ⟨5, 10⟩ ⟨11, -1⟩,
            Emit.matchJumpToAddr ⟨3, 3⟩ 5, Emit.matchJumpToLabel ⟨2, 7⟩ ⟨11, -1⟩,
            Emit.discardResult], [], []⟩) :=
  C30_switch_relocation Parser.unitCode (ParseEngine.callees Parser.unitCode 8) 8
    (ParseEngine.tok Token.Switch) (ParseEngine.tok Token.LParen)
    (ParseEngine.tok Token.RParen) (ParseEngine.tok Token.LBrace)
    (ParseEngine.tok Token.RBrace)
    [ParseEngine.ident "a", ParseEngine.tok Token.RParen, ParseEngine.tok Token.LBrace,
     ParseEngine.tok Token.Case, ParseEngine.intTok 1, ParseEngine.tok Token.Colon,
     ParseEngine.ident "b", ParseEngine.tok Token.Semicolon,
     ParseEngine.tok Token.Default, ParseEngine.tok Token.Colon, ParseEngine.ident "c",
     ParseEngine.tok Token.Semicolon, ParseEngine.tok Token.RBrace]
    [ParseEngine.tok Token.Case, ParseEngine.intTok 1, ParseEngine.tok Token.Colon,
     ParseEngine.ident "b", ParseEngine.tok Token.Semicolon,
     ParseEngine.tok Token.Default, ParseEngine.tok Token.Colon, ParseEngine.ident "c",
     ParseEngine.tok Token.Semicolon, ParseEngine.tok Token.RBrace]
    [] [] [Emit.emitId (some "a") IdType.MightBeLocal]
    [Emit.emitId (some "a") IdType.MightBeLocal, Emit.startDeferred, Emit.endDeferred,
     Emit.pushK (Value.integer 1), Emit.emitCaseTest, Emit.label,
     Emit.addMatchedJump Op.JT ⟨3, 3⟩, Emit.resumeDeferred,
     Emit.emitId (some "b") IdType.MightBeLocal, Emit.discardResult, Emit.label,
     Emit.addMatchedJump Op.JMP ⟨2, 2⟩, Emit.endDeferred, Emit.resumeDeferred,
     Emit.emitId (some "c") IdType.MightBeLocal, Emit.discardResult, Emit.label,
     Emit.addMatchedJump Op.JMP ⟨5, 5⟩, Emit.endDeferred]
    [] [] [] [] [] [] true
    ⟨[⟨⟨3, 3⟩, ⟨2, 2⟩, 0⟩], 3, ⟨5, 5⟩, true⟩ 0 5 ⟨4, 4⟩ ⟨11, -1⟩
    (by decide) (by decide) (by decide) (by decide) (by decide) (by decide) (by decide)
    (by decide) (by decide) (by decide) (by decide)

/-! ## Handle stores: reuse of slots, the free counter, the sweep index -/

namespace M8r.IdStore

variable {V : Type}

theorem addLoop_first (l : List (Option V)) :
    ∀ (i k : Nat), addLoop l i = some k → ∀ j, j < k - i → l.getD j none ≠ none := by
  induction l with
  | nil => intro i k h; simp [addLoop] at h
  | cons a rest ih =>
    intro i k h j hj
    cases a with
    | none =>
      simp only [addLoop, Option.some.injEq] at h
      omega
    | some v =>
      simp only [addLoop] at h
      cases j with
      | zero => simp
      | succ j =>
        have := ih (i + 1) k h j (by omega)
        simpa using this

theorem addLoop_none (l : List (Option V)) :
    ∀ (i : Nat), addLoop l i = none → ∀ j, j < l.length → l.getD j none ≠ none := by
  intro i h j hj hn
  have := addLoop_isSome l i j hj hn
  rw [h] at this
  cases this

theorem resize_length (l : List Bool) (n : Nat) : (resize l n).length = n := by
  unfold resize
  simp only [List.length_append, List.length_take, List.length_replicate]
  omega

theorem countP_set_none (l : List (Option V)) :
    ∀ i, i < l.length → l.getD i none ≠ none →
      (l.set i none).countP (fun v => v.isNone) = l.countP (fun v => v.isNone) + 1 := by
  induction l with
  | nil => intro i h; simp at h
  | cons a rest ih =>
    intro i h hs
    cases i with
    | zero =>
      cases a with
      | none => simp at hs
      | some v => simp [List.countP_cons]
    | succ i =>
      have := ih i (by simpa using h) (by simpa using hs)
      simp only [List.set_cons_succ, List.countP_cons, this]
      omega

theorem countP_set_some (l : List (Option V)) (v : V) :
    ∀ i, i < l.length → l.getD i none = none →
      (l.set i (some v)).countP (fun v => v.isNone) + 1 = l.countP (fun v => v.isNone) := by
  induction l with
  | nil => intro i h; simp at h
  | cons a rest ih =>
    intro i h hs
    cases i with
    | zero =>
      cases a with
      | none => simp [List.countP_cons]
      | some w => simp at hs
    | succ i =>
      have := ih i (by simpa using h) (by simpa using hs)
      simp only [List.set_cons_succ, List.countP_cons]
      omega

theorem countP_le_of_live (l : List (Option V)) :
    ∀ i, i < l.length → l.getD i none ≠ none →
      l.countP (fun v => v.isNone) + 1 ≤ l.length := by
  induction l with
  | nil => intro i h; simp at h
  | cons a rest ih =>
    intro i h hs
    cases i with
    | zero =>
      cases a with
      | none => simp at hs
      | some v =>
        have := List.countP_le_length (fun v : Option V => v.isNone) (l := rest)
        simp [List.countP_cons]
        omega
    | succ i =>
      have := ih i (by simpa using h) (by simpa using hs)
      have h2 : (if a.isNone = true then 1 else 0) ≤ 1 := by split <;> omega
      simp only [List.countP_cons, List.length_cons]
      omega

/-- With the free counter right, a store has an empty slot exactly when the
counter is not zero. -/
theorem exists_empty_iff (st : IdStore V) (h : st._freeValueIdCount = emptySlots st) :
    st._freeValueIdCount ≠ 0 ↔ ∃ j, j < st._values.length ∧ slot st j = none := by
  rw [h]
  unfold emptySlots
  rw [Nat.ne_zero_iff_zero_lt, List.countP_pos_iff]
  constructor
  · rintro ⟨a, ha, hn⟩
    obtain ⟨j, hj, rfl⟩ := List.getElem_of_mem ha
    refine ⟨j, hj, ?_⟩
    unfold slot
    rw [List.getD_eq_getElem _ _ hj]
    cases hx : st._values[j] with
    | none => rfl
    | some w => rw [hx] at hn; simp at hn
  · rintro ⟨j, hj, hn⟩
    unfold slot at hn
    rw [List.getD_eq_getElem _ _ hj] at hn
    exact ⟨st._values[j], List.getElem_mem _, by rw [hn]; rfl⟩

end M8r.IdStore

namespace M8r.IdStore

variable {V : Type}

theorem slot_set_self (l : List (Option V)) (m : List Bool) (c i : Nat) (v : Option V)
    (h : i < l.length) : slot (⟨l.set i v, m, c⟩ : IdStore V) i = v := by
  unfold slot
  simp [List.getD_eq_getElem?_getD, List.getElem?_set, h]

theorem slot_push_self (l : List (Option V)) (m : List Bool) (c : Nat) (v : Option V) :
    slot (⟨l ++ [v], m, c⟩ : IdStore V) l.length = v := by
  unfold slot
  simp [List.getD_eq_getElem?_getD]

/-- What `add` returns when the free counter is right. -/
theorem add_spec (st : IdStore V) (v : Option V) (h : st._freeValueIdCount = emptySlots st) :
    ∃ id st1, add st v = some (id, st1) ∧ slot st1 id = v ∧ slot st id = none ∧
      ((∃ j, j < st._values.length ∧ slot st j = none) →
        id < st._values.length ∧ (∀ j, j < id → slot st j ≠ none) ∧
          st1._values = st._values.set id v ∧ st1._valueMarked = st._valueMarked ∧
          st1._freeValueIdCount = st._freeValueIdCount - 1) ∧
      ((∀ j, j < st._values.length → slot st j ≠ none) →
        id = st._values.length ∧ st1._values = st._values ++ [v] ∧
          st1._valueMarked
            = (resize st._valueMarked (st._values.length + 1)).set st._values.length true ∧
          st1._freeValueIdCount = st._freeValueIdCount) := by
  have hiff := exists_empty_iff st h
  unfold add
  by_cases hc : st._freeValueIdCount ≠ 0
  · rw [if_pos hc]
    obtain ⟨j, hj, hn⟩ := hiff.mp hc
    have hsome := addLoop_isSome st._values 0 j hj hn
    cases ha : addLoop st._values 0 with
    | none => rw [ha] at hsome; cases hsome
    | some i =>
      obtain ⟨_, h2, h3⟩ := addLoop_some st._values 0 i ha
      have h4 := addLoop_first st._values 0 i ha
      simp only [Nat.sub_zero] at h2 h3 h4
      refine ⟨i, _, rfl, slot_set_self _ _ _ _ _ h2, h3, ?_, ?_⟩
      · intro _
        exact ⟨h2, h4, rfl, rfl, rfl⟩
      · intro hall
        exact absurd h3 (hall i h2)
  · rw [if_neg hc]
    have hall : ∀ j, j < st._values.length → slot st j ≠ none := by
      intro j hj hn
      exact hc (hiff.mpr ⟨j, hj, hn⟩)
    refine ⟨st._values.length, _, rfl, slot_push_self _ _ _ _,
      slot_none_of_length_le st _ (Nat.le_refl _), ?_, ?_⟩
    · rintro ⟨j, hj, hn⟩
      exact absurd hn (hall j hj)
    · intro _
      refine ⟨rfl, rfl, ?_, rfl⟩
      simp only [List.length_append, List.length_cons, List.length_nil, Nat.zero_add]

end M8r.IdStore

namespace M8r.IdStore

variable {V : Type}

theorem emptySlots_push (l : List (Option V)) (m : List Bool) (c : Nat) (v : V) :
    emptySlots (⟨l ++ [some v], m, c⟩ : IdStore V) = l.countP fun v => v.isNone := by
  simp [emptySlots, List.countP_append]

theorem wellFormed_empty : wellFormed (⟨[], [], 0⟩ : IdStore V) := ⟨rfl, rfl⟩

theorem add_length_le (st st1 : IdStore V) (v : Option V) (id : Nat)
    (h : add st v = some (id, st1)) : st._values.length ≤ st1._values.length := by
  unfold add at h
  split at h
  · cases ha : addLoop st._values 0 with
    | none => rw [ha] at h; cases h
    | some i =>
      rw [ha] at h
      simp only [Option.some.injEq, Prod.mk.injEq] at h
      obtain ⟨_, rfl⟩ := h
      simp
  · simp only [Option.some.injEq, Prod.mk.injEq] at h
    obtain ⟨_, rfl⟩ := h
    simp

theorem wellFormed_add (st st1 : IdStore V) (v : V) (id : Nat) (hw : wellFormed st)
    (h : add st (some v) = some (id, st1)) : wellFormed st1 := by
  obtain ⟨hc, hm⟩ := hw
  obtain ⟨id2, st2, h1, _, h3, h4, h5⟩ := add_spec st (some v) hc
  rw [h] at h1
  simp only [Option.some.injEq, Prod.mk.injEq] at h1
  obtain ⟨rfl, rfl⟩ := h1
  by_cases he : ∃ j, j < st._values.length ∧ slot st j = none
  · obtain ⟨a, _, c, d, e⟩ := h4 he
    constructor
    · have := countP_set_some st._values v id a h3
      unfold emptySlots
      rw [e, c, hc]
      unfold emptySlots
      omega
    · rw [d, c, List.length_set, hm]
  · have hall : ∀ j, j < st._values.length → slot st j ≠ none := by
      intro j hj hn
      exact he ⟨j, hj, hn⟩
    obtain ⟨_, b, c, d⟩ := h5 hall
    constructor
    · unfold emptySlots
      rw [d, b, hc]
      unfold emptySlots
      simp [List.countP_append]
    · rw [c, b, List.length_set, resize_length]
      simp

theorem wellFormed_remove (idBool : Nat → Bool) (st st1 : IdStore V) (id : Nat) (del : Bool)
    (hw : wellFormed st) (hsize : st._values.length < 4294967296)
    (h : remove idBool st id del = some st1) : wellFormed st1 := by
  obtain ⟨hc, hm⟩ := hw
  unfold remove at h
  split at h
  · rename_i hcond
    simp only [Bool.and_eq_true, decide_eq_true_eq] at hcond
    obtain ⟨⟨_, hlt⟩, hlive⟩ := hcond
    simp only [Option.some.injEq] at h
    subst h
    have hne : st._values.getD id none ≠ none := by
      intro e
      unfold slot at hlive
      rw [e] at hlive
      cases hlive
    have h1 := countP_set_none st._values id hlt hne
    have h2 := countP_le_of_live st._values id hlt hne
    constructor
    · unfold emptySlots
      simp only
      rw [h1, hc]
      unfold emptySlots
      exact Nat.mod_eq_of_lt (by omega)
    · simp only [List.length_set]
      exact hm
  · cases h

theorem remove_length (idBool : Nat → Bool) (st st1 : IdStore V) (id : Nat) (del : Bool)
    (h : remove idBool st id del = some st1) : st1._values.length = st._values.length := by
  unfold remove at h
  split at h
  · simp only [Option.some.injEq] at h
    subst h
    simp
  · cases h

theorem wellFormed_gcClear (st : IdStore V) (hw : wellFormed st) : wellFormed (gcClear st) :=
  ⟨hw.1, resize_length _ _⟩

theorem wellFormed_gcMark (st : IdStore V) (id : Nat) (hw : wellFormed st) :
    wellFormed (gcMark st id) :=
  ⟨hw.1, by unfold gcMark; simp only [List.length_set]; exact hw.2⟩

/-- Every reachable store with fewer than 2^32 slots is well formed. -/
theorem wellFormed_of_reachable (idBool : Nat → Bool) (st : IdStore V)
    (hr : Reachable idBool st) : st._values.length < 4294967296 → wellFormed st := by
  induction hr with
  | empty => intro _; exact wellFormed_empty
  | add st st1 v id _ h ih =>
    intro hs
    have := add_length_le st st1 (some v) id h
    exact wellFormed_add st st1 v id (ih (by omega)) h
  | remove st st1 id del _ h ih =>
    intro hs
    have := remove_length idBool st st1 id del h
    exact wellFormed_remove idBool st st1 id del (ih (by omega)) (by omega) h
  | gcClear st _ ih =>
    intro hs
    exact wellFormed_gcClear st (ih hs)
  | gcMark st id _ _ ih =>
    intro hs
    exact wellFormed_gcMark st id (ih hs)

end M8r.IdStore

namespace M8r.IdStore

variable {V : Type}

/-- With 65536 or more slots the 16-bit index of the sweep loop stays below
the number of slots, and the loop does not end. -/
theorem gcSweepLoop_not_done (idBool : Nat → Bool) (sweepable : V → Bool) :
    ∀ (fuel i : Nat) (st : IdStore V), 65536 ≤ st._values.length → i < 65536 →
      gcSweepLoop idBool sweepable fuel i st = Outcome.outOfBudget ∨
      gcSweepLoop idBool sweepable fuel i st = Outcome.assertFailed := by
  intro fuel
  induction fuel with
  | zero => intro i st _ _; exact Or.inl rfl
  | succ k ih =>
    intro i st hs hi
    have hlt : i < st._values.length := by omega
    have hnext : (i + 1) % 65536 < 65536 := Nat.mod_lt _ (by omega)
    unfold gcSweepLoop
    rw [if_pos hlt]
    cases hsl : slot st i with
    | none => exact ih _ st hs hnext
    | some v =>
      simp only
      by_cases hc : (!marked st i && sweepable v) = true
      · rw [if_pos hc]
        cases hr : remove idBool st i true with
        | none => exact Or.inr rfl
        | some st1 =>
          have := remove_length idBool st st1 i true hr
          exact ih _ st1 (by omega) hnext
      · rw [if_neg hc]
        exact ih _ st hs hnext

end M8r.IdStore

/-- C31: for a store whose free counter is the number of its empty slots,
`add(v)` returns a handle `id` with `ptr(id) = v` afterwards and no live
entry at `id` before. When a slot is empty, `id` is the lowest index of an
empty slot and the number of slots is unchanged; when none is, `id` is the
old number of slots and the store has one slot more. -/
theorem C31_add_reuses_lowest_empty_slot {V : Type} (st : IdStore V) (v : Option V)
    (h : st._freeValueIdCount = IdStore.emptySlots st) :
    ∃ id st1, IdStore.add st v = some (id, st1) ∧ IdStore.ptr st1 id = v ∧
      IdStore.ptr st id = none ∧
      ((∃ j, j < st._values.length ∧ IdStore.slot st j = none) →
        id < st._values.length ∧ IdStore.slot st id = none ∧
          (∀ j, j < id → IdStore.slot st j ≠ none) ∧
          st1._values.length = st._values.length) ∧
      ((∀ j, j < st._values.length → IdStore.slot st j ≠ none) →
        id = st._values.length ∧ st1._values.length = st._values.length + 1) := by
  obtain ⟨id, st1, h1, h2, h3, h4, h5⟩ := IdStore.add_spec st v h
  refine ⟨id, st1, h1, ?_, ?_, ?_, ?_⟩
  · rw [IdStore.ptr_eq_slot, h2]
  · rw [IdStore.ptr_eq_slot, h3]
  · intro he
    obtain ⟨a, b, c, _, _⟩ := h4 he
    exact ⟨a, h3, b, by rw [c, List.length_set]⟩
  · intro he
    obtain ⟨a, b, _, _⟩ := h5 he
    exact ⟨a, by rw [b]; simp⟩

/-- Witness of C31: a store with slots 1 and 2 empty gives out handle 1. -/
theorem C31_add_reuses_lowest_empty_slot_witness :
    ∃ id st1, IdStore.add (⟨[some 10, none, none, some 30], [], 2⟩ : IdStore Nat) (some 7)
        = some (id, st1) ∧
      IdStore.ptr st1 id = some 7 ∧
      IdStore.ptr (⟨[some 10, none, none, some 30], [], 2⟩ : IdStore Nat) id = none ∧
      ((∃ j, j < (⟨[some 10, none, none, some 30], [], 2⟩ : IdStore Nat)._values.length ∧
          IdStore.slot (⟨[some 10, none, none, some 30], [], 2⟩ : IdStore Nat) j = none) →
        id < (⟨[some 10, none, none, some 30], [], 2⟩ : IdStore Nat)._values.length ∧
          IdStore.slot (⟨[some 10, none, none, some 30], [], 2⟩ : IdStore Nat) id = none ∧
          (∀ j, j < id →
            IdStore.slot (⟨[some 10, none, none, some 30], [], 2⟩ : IdStore Nat) j ≠ none) ∧
          st1._values.length
            = (⟨[some 10, none, none, some 30], [], 2⟩ : IdStore Nat)._values.length) ∧
      ((∀ j, j < (⟨[some 10, none, none, some 30], [], 2⟩ : IdStore Nat)._values.length →
          IdStore.slot (⟨[some 10, none, none, some 30], [], 2⟩ : IdStore Nat) j ≠ none) →
        id = (⟨[some 10, none, none, some 30], [], 2⟩ : IdStore Nat)._values.length ∧
          st1._values.length
            = (⟨[some 10, none, none, some 30], [], 2⟩ : IdStore Nat)._values.length + 1) :=
  C31_add_reuses_lowest_empty_slot ⟨[some 10, none, none, some 30], [], 2⟩ (some 7) (by decide)

/-- C32: in a store with 65536 or more slots `gcSweep` does not end, neither
the general template nor the one of the object store: the loop index is a
`uint16_t`, which wraps to 0 after 65535 and never reaches the number of
slots. With every budget the sweep runs out of budget (or stops at the
assertion of `remove`). -/
theorem C32_sweep_does_not_end_from_65536_slots {V : Type} (idBool : Nat → Bool)
    (collectable : V → Bool) (st : IdStore V) (h : 65536 ≤ st._values.length) (fuel : Nat) :
    (∀ st1, IdStore.gcSweep idBool fuel st ≠ Outcome.done st1) ∧
    (∀ st1, IdStore.gcSweepObject idBool collectable fuel st ≠ Outcome.done st1) := by
  constructor
  · intro st1 hd
    rcases IdStore.gcSweepLoop_not_done idBool (fun _ => true) fuel 0 st h (by omega) with h1 | h1
    · unfold IdStore.gcSweep at hd; rw [h1] at hd; cases hd
    · unfold IdStore.gcSweep at hd; rw [h1] at hd; cases hd
  · intro st1 hd
    rcases IdStore.gcSweepLoop_not_done idBool collectable fuel 0 st h (by omega) with h1 | h1
    · unfold IdStore.gcSweepObject at hd; rw [h1] at hd; cases hd
    · unfold IdStore.gcSweepObject at hd; rw [h1] at hd; cases hd

/-- Witness of C32: a store of 65536 empty slots, with a budget of a million
steps. -/
theorem C32_sweep_does_not_end_from_65536_slots_witness :
    65536 ≤ (⟨List.replicate 65536 none, List.replicate 65536 false, 65536⟩ :
        IdStore Nat)._values.length ∧
    (∀ st1, IdStore.gcSweep (fun i => decide (i ≠ 0)) 1000000
        (⟨List.replicate 65536 none, List.replicate 65536 false, 65536⟩ : IdStore Nat)
      ≠ Outcome.done st1) ∧
    (∀ st1, IdStore.gcSweepObject (fun i => decide (i ≠ 0)) (fun _ => true) 1000000
        (⟨List.replicate 65536 none, List.replicate 65536 false, 65536⟩ : IdStore Nat)
      ≠ Outcome.done st1) :=
  ⟨Nat.le_of_eq (List.length_replicate 65536 none).symm,
   C32_sweep_does_not_end_from_65536_slots (fun i => decide (i ≠ 0)) (fun _ => true)
    ⟨List.replicate 65536 none, List.replicate 65536 false, 65536⟩
    (Nat.le_of_eq (List.length_replicate 65536 none).symm) 1000000⟩

/-! ## The scanner on a byte that starts no token -/

namespace M8r.Scanner

theorem getTokens_unknown_fixed (k : Nat) :
    getTokens k ⟨[], 64, 1, [], 0, K_UNKNOWN⟩
      = some (List.replicate k K_UNKNOWN, ⟨[], 64, 1, [], 0, K_UNKNOWN⟩) := by
  induction k with
  | zero => rfl
  | succ k ih =>
    have h : getToken ⟨[], 64, 1, [], 0, K_UNKNOWN⟩
        = some (K_UNKNOWN, ⟨[], 64, 1, [], 0, K_UNKNOWN⟩) := by decide
    unfold getTokens
    rw [h]
    simp only [ih, Option.map_some', List.replicate_succ]

end M8r.Scanner

/-- C33: on the input `@` the first `getToken` returns `K_UNKNOWN` with the
byte `@` still unread (in the pushback slot): no byte is consumed. Every
further call does the same: `k` calls in a row return `K_UNKNOWN` `k` times,
and `C_EOF` is never returned. -/
theorem C33_unknown_byte_not_consumed :
    Scanner.unread (Scanner.start [64]) = [64]
    ∧ Scanner.firstToken [64] = some (K_UNKNOWN, [64])
    ∧ ∀ k, (Scanner.getTokens k (Scanner.start [64])).map Prod.fst
        = some (List.replicate k K_UNKNOWN) := by
  refine ⟨by decide, by decide, fun k => ?_⟩
  cases k with
  | zero => rfl
  | succ k =>
    have h : Scanner.getToken (Scanner.start [64])
        = some (K_UNKNOWN, ⟨[], 64, 1, [], 0, K_UNKNOWN⟩) := by decide
    unfold Scanner.getTokens
    rw [h]
    simp only [Scanner.getTokens_unknown_fixed, Option.map_some', List.replicate_succ]

/-! ## The invariant of the handle stores and the marks of new entries -/

/-- C34: in every store reached from the empty store by `add` of values that
are not null, `remove` where its assertion holds, `gcClear` and `gcMark` of
handles in range, and that has fewer than 2^32 slots (the range of the
handles and of the `uint32_t` free counter), the free counter is the number
of empty slots and there is one mark bit per slot; so `add` does not reach
its `assert(false)`, and every valid handle indexes inside the mark
vector. -/
theorem C34_store_invariant {V : Type} (idBool : Nat → Bool) (st : IdStore V)
    (hr : IdStore.Reachable idBool st) (hsize : st._values.length < 4294967296) :
    st._freeValueIdCount = IdStore.emptySlots st ∧
    st._valueMarked.length = st._values.length ∧
    (∀ v : Option V, (IdStore.add st v).isSome = true) ∧
    (∀ id, IdStore.isValid st id = true → id < st._valueMarked.length) := by
  obtain ⟨hc, hm⟩ := IdStore.wellFormed_of_reachable idBool st hr hsize
  refine ⟨hc, hm, ?_, ?_⟩
  · intro v
    obtain ⟨id, st1, h, _⟩ := IdStore.add_spec st v hc
    rw [h]
    rfl
  · intro id hv
    unfold IdStore.isValid at hv
    rw [hm]
    simpa using hv

/-- Witness of C34: the store after `add(10)`, `add(20)`, `remove(1)`. -/
theorem C34_store_invariant_witness :
    (⟨[some 10, none], [true, true], 1⟩ : IdStore Nat)._freeValueIdCount
        = IdStore.emptySlots (⟨[some 10, none], [true, true], 1⟩ : IdStore Nat) ∧
    (⟨[some 10, none], [true, true], 1⟩ : IdStore Nat)._valueMarked.length
        = (⟨[some 10, none], [true, true], 1⟩ : IdStore Nat)._values.length ∧
    (∀ v : Option Nat,
      (IdStore.add (⟨[some 10, none], [true, true], 1⟩ : IdStore Nat) v).isSome = true) ∧
    (∀ id, IdStore.isValid (⟨[some 10, none], [true, true], 1⟩ : IdStore Nat) id = true →
      id < (⟨[some 10, none], [true, true], 1⟩ : IdStore Nat)._valueMarked.length) :=
  C34_store_invariant (fun i => decide (i ≠ 0)) ⟨[some 10, none], [true, true], 1⟩
    (IdStore.Reachable.remove ⟨[some 10, some 20], [true, true], 0⟩ _ 1 true
      (IdStore.Reachable.add ⟨[some 10], [true], 0⟩ _ 20 1
        (IdStore.Reachable.add ⟨[], [], 0⟩ _ 10 0 IdStore.Reachable.empty (by decide))
        (by decide))
      (by decide))
    (by decide)

/-- C35: a handle that `add` gives out by reusing a freed slot is not marked.
From the empty store: add two values (handles 0 and 1), remove handle 1,
`gcClear`, mark handle 0, add a third value, which gets handle 1 again;
the mark of slot 1 is still clear, and `gcSweep` frees the new entry. A
value added to a store without a free slot gets a new slot, which is marked,
and survives the sweep. -/
theorem C35_reused_slot_born_unmarked :
    ((IdStore.add (⟨[], [], 0⟩ : IdStore Nat) (some 10)).bind fun r =>
        IdStore.add r.2 (some 20)) = some (1, ⟨[some 10, some 20], [true, true], 0⟩)
    ∧ IdStore.remove (fun i => decide (i ≠ 0))
        (⟨[some 10, some 20], [true, true], 0⟩ : IdStore Nat) 1 true
        = some ⟨[some 10, none], [true, true], 1⟩
    ∧ IdStore.gcMark (IdStore.gcClear (⟨[some 10, none], [true, true], 1⟩ : IdStore Nat)) 0
        = ⟨[some 10, none], [true, false], 1⟩
    ∧ IdStore.add (⟨[some 10, none], [true, false], 1⟩ : IdStore Nat) (some 30)
        = some (1, ⟨[some 10, some 30], [true, false], 0⟩)
    ∧ IdStore.isGCMarked (⟨[some 10, some 30], [true, false], 0⟩ : IdStore Nat) 1 = false
    ∧ IdStore.gcSweepObject (fun i => decide (i ≠ 0)) (fun _ => true) 3
          (⟨[some 10, some 30], [true, false], 0⟩ : IdStore Nat)
        = Outcome.done ⟨[some 10, none], [true, false], 1⟩
    ∧ IdStore.add
          (IdStore.gcMark (IdStore.gcClear (⟨[some 10, some 20], [true, true], 0⟩ : IdStore Nat))
            0) (some 30)
        = some (2, ⟨[some 10, some 20, some 30], [true, false, true], 0⟩)
    ∧ IdStore.gcSweepObject (fun i => decide (i ≠ 0)) (fun _ => true) 4
          (⟨[some 10, some 20, some 30], [true, false, true], 0⟩ : IdStore Nat)
        = Outcome.done ⟨[some 10, none, some 30], [true, false, true], 1⟩ := by
  decide

/-! ## Differences of durations -/

namespace M8r.Duration

theorem selectUnits_units (value : Nat) :
    (selectUnits value).2 = Units.us ∨ (selectUnits value).2 = Units.ms ∨
      (selectUnits value).2 = Units.sec := by
  unfold selectUnits
  simp only [Nat.not_lt_zero, decide_False, Bool.false_eq_true, ↓reduceIte]
  split_ifs <;> simp

/-- A duration built with the units left to the constructor holds a value
from 0 to 3 in microseconds, milliseconds or seconds. -/
theorem make_none_mem (value : Nat) :
    make value Units.none ∈
      [make 0 Units.us, make 1 Units.us, make 2 Units.us, make 3 Units.us,
       make 0 Units.ms, make 1 Units.ms, make 2 Units.ms, make 3 Units.ms,
       make 0 Units.sec, make 1 Units.sec, make 2 Units.sec, make 3 Units.sec] := by
  have hu := selectUnits_units (value % 18446744073709551616)
  unfold make
  simp only [↓reduceIte]
  generalize selectUnits (value % 18446744073709551616) = r at hu ⊢
  obtain ⟨v, u⟩ := r
  simp only at hu ⊢
  have hM : MaxValue = 3 := by decide
  by_cases hv : v > MaxValue
  · rw [if_pos hv]
    rcases hu with rfl | rfl | rfl <;> decide
  · rw [if_neg hv]
    rw [hM] at hv
    have : v = 0 ∨ v = 1 ∨ v = 2 ∨ v = 3 := by omega
    rcases this with rfl | rfl | rfl | rfl <;> rcases hu with rfl | rfl | rfl <;> decide

theorem make_none_us_nonneg (value : Nat) : 0 ≤ (make value Units.none).us := by
  have h := make_none_mem value
  simp only [List.mem_cons, List.mem_singleton, List.not_mem_nil, or_false] at h
  rcases h with h | h | h | h | h | h | h | h | h | h | h | h <;> rw [h] <;> decide

end M8r.Duration

/-- C36: `Duration(1, us) - Duration(2, us)` has `us() = 3000000`, not -1: the
difference -1 becomes the `uint64_t` argument 2^64 - 1 of the constructor,
whose test `value < 0` is never true, and is divided down and clamped. No
difference of two durations has a negative `us()`. -/
theorem C36_duration_difference_never_negative :
    (Duration.make 1 Units.us).us = 1 ∧ (Duration.make 2 Units.us).us = 2 ∧
    (Duration.sub (Duration.make 1 Units.us) (Duration.make 2 Units.us)).us = 3000000 ∧
    ∀ a b : Duration, 0 ≤ (Duration.sub a b).us := by
  refine ⟨by decide, by decide, by decide, fun a b => ?_⟩
  exact Duration.make_none_us_nonneg _

/-! ## The conditional operator and jumps out of loops -/

namespace M8r.ParseEngine

/-- A primary followed by `?`: `expression` parses the conditional, whatever
its `minPrec`, and goes on with its loop over the binary operators. -/
theorem expression_ternary (P : Parser) (r : Callees) (n minPrec : Nat) (pe : ParseEngine)
    (q colon : Tok) (rest rest2 rest3 : List Tok) (tr trC trD : List Emit)
    (bs cs bs2 cs2 bs3 cs3 : List (List Label)) (bC bD : Bool)
    (ha : arithmeticPrimary P r n pe = Outcome.done (true, ⟨q :: rest, tr, bs, cs⟩))
    (hq : q.token = Token.Question)
    (hC : r.expression defaultMinPrec
        ⟨rest, tr ++ [Emit.label, Emit.label,
          Emit.addMatchedJump Op.JF (ternaryElseLabel P tr), Emit.pushTmp], bs, cs⟩
      = Outcome.done (bC, ⟨colon :: rest2, trC, bs2, cs2⟩))
    (hcolon : colon.token = Token.Colon)
    (hD : r.expression defaultMinPrec
        ⟨rest2, trC ++ [Emit.emitMove, Emit.addMatchedJump Op.JMP (ternaryIfLabel P tr trC),
          Emit.matchJump (ternaryElseLabel P tr)], bs2, cs2⟩
      = Outcome.done (bD, ⟨rest3, trD, bs3, cs3⟩)) :
    expression P r n minPrec pe
      = expressionLoop P r minPrec n
          ⟨rest3, trD ++ [Emit.emitMove, Emit.matchJump (ternaryIfLabel P tr trC)], bs3, cs3⟩ := by
  unfold expression
  simp only [PE.bind_eq, PE.andThen, ha, Bool.not_true, Bool.false_eq_true, ↓reduceIte,
    getToken_eq, current, List.head?_cons, Option.map_some', Option.getD_some, hq, retireToken,
    List.tail_cons, label, addMatchedJump, emit, getTrace, PE.pure_eq, List.append_assoc,
    List.singleton_append, List.cons_append, List.nil_append]
  simp only [ternaryElseLabel, ternaryIfLabel, List.append_assoc, List.singleton_append,
    List.cons_append, List.nil_append] at hC hD
  simp only [hC, expect, PE.bind_eq, PE.andThen, getToken_eq, current, List.head?_cons,
    Option.map_some', Option.getD_some, hcolon, ne_eq, not_true_eq_false, ↓reduceIte,
    retireToken, List.tail_cons, PE.pure_eq, emit, List.append_assoc, List.singleton_append,
    List.cons_append, List.nil_append, hD, ternaryIfLabel]

end M8r.ParseEngine

namespace M8r.ParseEngine

theorem table_assignment :
    ∀ i ∈ _opInfos, i.assoc = Assoc.RightAssoc →
      i.op ≠ Op.LAND ∧ i.op ≠ Op.LOR ∧ i.token ≠ Token.Question := by decide

end M8r.ParseEngine

/-- C37 (counterexample): on `a = b ? c : d` the `JF` of the conditional is
emitted before `emitBinOp(MOVE)`: the condition tested is `b`, not `a = b`,
and the assignment stores the value of the conditional. -/
theorem C37_conditional_is_assigned :
    ParseEngine.expression Parser.unitCode (ParseEngine.callees Parser.unitCode 3) 3
        ParseEngine.defaultMinPrec
        (ParseEngine.start
          [ParseEngine.ident "a", ParseEngine.tok Token.STO, ParseEngine.ident "b",
           ParseEngine.tok Token.Question, ParseEngine.ident "c", ParseEngine.tok Token.Colon,
           ParseEngine.ident "d", ParseEngine.tok Token.Semicolon])
      = Outcome.done (true,
          ⟨[ParseEngine.tok Token.Semicolon],
           [Emit.emitId (some "a") IdType.MightBeLocal,
            Emit.emitId (some "b") IdType.MightBeLocal,
            Emit.label, Emit.label,
            Emit.addMatchedJump Op.JF ⟨2, 2⟩,
            Emit.pushTmp,
            Emit.emitId (some "c") IdType.MightBeLocal,
            Emit.emitMove,
            Emit.addMatchedJump Op.JMP ⟨2, 5⟩,
            Emit.matchJump ⟨2, 2⟩,
            Emit.emitId (some "d") IdType.MightBeLocal,
            Emit.emitMove,
            Emit.matchJump ⟨2, 5⟩,
            Emit.emitBinOp Op.MOVE], [], []⟩) := by
  decide

/-- C37 (amended): for tokens `a op b ? c : d`, where `op` is an assignment
operator of the table (the right-associative rows), `a` and `b` are token
sequences that `arithmeticPrimary` parses as one primary each, `c` and `d`
are what the two recursive `expression` calls of the conditional consume,
and the token after `d` is not in the operator table: `expression` returns
true, the `JF` of the conditional and `pushTmp` are emitted right after the
calls for `b`, and `emitBinOp(op)` is emitted after the whole conditional:
the right operand of the assignment is `b ? c : d`. -/
theorem C37_assignment_takes_conditional (P : Parser) (n : Nat) (A B C D rest : List Tok)
    (o q colon : Tok) (i : ParseEngine.OperatorInfo) (tr evA evB evC evD : List Emit)
    (bs cs bs1 cs1 bs2 cs2 bs3 cs3 bs4 cs4 : List (List Label)) (bC bD : Bool)
    (ho : ParseEngine.findOpInfo o.token = some i) (hassign : i.assoc = Assoc.RightAssoc)
    (hq : q.token = Token.Question) (hcolon : colon.token = Token.Colon)
    (he : ParseEngine.findOpInfo (ParseEngine.current ⟨rest, tr, bs, cs⟩) = none)
    (hA : ParseEngine.arithmeticPrimary P (ParseEngine.callees P (n + 2)) (n + 2)
        ⟨A ++ o :: (B ++ q :: (C ++ colon :: (D ++ rest))), tr, bs, cs⟩
      = Outcome.done (true, ⟨o :: (B ++ q :: (C ++ colon :: (D ++ rest))), tr ++ evA, bs1, cs1⟩))
    (hB : ParseEngine.arithmeticPrimary P (ParseEngine.callees P (n + 1)) (n + 1)
        ⟨B ++ q :: (C ++ colon :: (D ++ rest)),
         tr ++ evA ++ (if i.sto then [Emit.emitDup] else []), bs1, cs1⟩
      = Outcome.done (true,
          ⟨q :: (C ++ colon :: (D ++ rest)),
           tr ++ evA ++ (if i.sto then [Emit.emitDup] else []) ++ evB, bs2, cs2⟩))
    (hC : (ParseEngine.callees P (n + 1)).expression ParseEngine.defaultMinPrec
        ⟨C ++ colon :: (D ++ rest),
         tr ++ evA ++ (if i.sto then [Emit.emitDup] else []) ++ evB ++
           [Emit.label, Emit.label,
            Emit.addMatchedJump Op.JF
              (ParseEngine.ternaryElseLabel P
                (tr ++ evA ++ (if i.sto then [Emit.emitDup] else []) ++ evB)),
            Emit.pushTmp], bs2, cs2⟩
      = Outcome.done (bC,
          ⟨colon :: (D ++ rest),
           tr ++ evA ++ (if i.sto then [Emit.emitDup] else []) ++ evB ++
             [Emit.label, Emit.label,
              Emit.addMatchedJump Op.JF
                (ParseEngine.ternaryElseLabel P
                  (tr ++ evA ++ (if i.sto then [Emit.emitDup] else []) ++ evB)),
              Emit.pushTmp] ++ evC, bs3, cs3⟩))
    (hD : (ParseEngine.callees P (n + 1)).expression ParseEngine.defaultMinPrec
        ⟨D ++ rest,
         tr ++ evA ++ (if i.sto then [Emit.emitDup] else []) ++ evB ++
           [Emit.label, Emit.label,
            Emit.addMatchedJump Op.JF
              (ParseEngine.ternaryElseLabel P
                (tr ++ evA ++ (if i.sto then [Emit.emitDup] else []) ++ evB)),
            Emit.pushTmp] ++ evC ++
           [Emit.emitMove,
            Emit.addMatchedJump Op.JMP
              (ParseEngine.ternaryIfLabel P
                (tr ++ evA ++ (if i.sto then [Emit.emitDup] else []) ++ evB)
                (tr ++ evA ++ (if i.sto then [Emit.emitDup] else []) ++ evB ++
                  [Emit.label, Emit.label,
                   Emit.addMatchedJump Op.JF
                     (ParseEngine.ternaryElseLabel P
                       (tr ++ evA ++ (if i.sto then [Emit.emitDup] else []) ++ evB)),
                   Emit.pushTmp] ++ evC)),
            Emit.matchJump
              (ParseEngine.ternaryElseLabel P
                (tr ++ evA ++ (if i.sto then [Emit.emitDup] else []) ++ evB))], bs3, cs3⟩
      = Outcome.done (bD,
          ⟨rest,
           tr ++ evA ++ (if i.sto then [Emit.emitDup] else []) ++ evB ++
             [Emit.label, Emit.label,
              Emit.addMatchedJump Op.JF
                (ParseEngine.ternaryElseLabel P
                  (tr ++ evA ++ (if i.sto then [Emit.emitDup] else []) ++ evB)),
              Emit.pushTmp] ++ evC ++
             [Emit.emitMove,
              Emit.addMatchedJump Op.JMP
                (ParseEngine.ternaryIfLabel P
                  (tr ++ evA ++ (if i.sto then [Emit.emitDup] else []) ++ evB)
                  (tr ++ evA ++ (if i.sto then [Emit.emitDup] else []) ++ evB ++
                    [Emit.label, Emit.label,
                     Emit.addMatchedJump Op.JF
                       (ParseEngine.ternaryElseLabel P
                         (tr ++ evA ++ (if i.sto then [Emit.emitDup] else []) ++ evB)),
                     Emit.pushTmp] ++ evC)),
              Emit.matchJump
                (ParseEngine.ternaryElseLabel P
                  (tr ++ evA ++ (if i.sto then [Emit.emitDup] else []) ++ evB))] ++ evD,
           bs4, cs4⟩)) :
    ParseEngine.expression P (ParseEngine.callees P (n + 2)) (n + 2) ParseEngine.defaultMinPrec
        ⟨A ++ o :: (B ++ q :: (C ++ colon :: (D ++ rest))), tr, bs, cs⟩
      = Outcome.done (true,
          ⟨rest,
           tr ++ evA ++ (if i.sto then [Emit.emitDup] else []) ++ evB ++
             [Emit.label, Emit.label,
              Emit.addMatchedJump Op.JF
                (ParseEngine.ternaryElseLabel P
                  (tr ++ evA ++ (if i.sto then [Emit.emitDup] else []) ++ evB)),
              Emit.pushTmp] ++ evC ++
             [Emit.emitMove,
              Emit.addMatchedJump Op.JMP
                (ParseEngine.ternaryIfLabel P
                  (tr ++ evA ++ (if i.sto then [Emit.emitDup] else []) ++ evB)
                  (tr ++ evA ++ (if i.sto then [Emit.emitDup] else []) ++ evB ++
                    [Emit.label, Emit.label,
                     Emit.addMatchedJump Op.JF
                       (ParseEngine.ternaryElseLabel P
                         (tr ++ evA ++ (if i.sto then [Emit.emitDup] else []) ++ evB)),
                     Emit.pushTmp] ++ evC)),
              Emit.matchJump
                (ParseEngine.ternaryElseLabel P
                  (tr ++ evA ++ (if i.sto then [Emit.emitDup] else []) ++ evB))] ++ evD ++
             [Emit.emitMove,
              Emit.matchJump
                (ParseEngine.ternaryIfLabel P
                  (tr ++ evA ++ (if i.sto then [Emit.emitDup] else []) ++ evB)
                  (tr ++ evA ++ (if i.sto then [Emit.emitDup] else []) ++ evB ++
                    [Emit.label, Emit.label,
                     Emit.addMatchedJump Op.JF
                       (ParseEngine.ternaryElseLabel P
                         (tr ++ evA ++ (if i.sto then [Emit.emitDup] else []) ++ evB)),
                     Emit.pushTmp] ++ evC))] ++
             [Emit.emitBinOp i.op] ++ (if i.sto then [Emit.emitMove] else []),
           bs4, cs4⟩) := by
  obtain ⟨hmem, htok⟩ := ParseEngine.findOpInfo_some o.token i ho
  obtain ⟨hs1, hs2, hnq⟩ := ParseEngine.table_assignment i hmem hassign
  have hcur : ∀ (t : List Emit) (b c : List (List Label)),
      ParseEngine.findOpInfo (ParseEngine.current ⟨rest, t, b, c⟩) = none := fun _ _ _ => he
  -- the inner call: the right operand is the conditional
  have hin := ParseEngine.expression_ternary P (ParseEngine.callees P (n + 1)) (n + 1)
    (if i.assoc = Assoc.LeftAssoc then i.prec + 1 else i.prec) _ q colon _ _ _ _ _ _ _ _ _ _ _ _
    bC bD hB hq hC hcolon hD
  rw [ParseEngine.expressionLoop_stop P _ _ n _ (Or.inl (hcur _ _ _))] at hin
  rw [← ParseEngine.callees_expression] at hin
  -- the outer call
  rw [ParseEngine.expression_of_primary P _ (n + 2) _ _ _ hA
    (by simp only [ParseEngine.current, List.head?_cons, Option.map_some', Option.getD_some]
        rw [← htok]; exact hnq)]
  rw [ParseEngine.expressionLoop_step P _ _ (n + 1) o i _ _ _ _ _ _ _ _ ho
    (ParseEngine.table_prec_pos i hmem) ⟨hs1, hs2⟩ hin]
  rw [ParseEngine.expressionLoop_stop P _ _ n _ (Or.inl (hcur _ _ _))]

/-- Witness of C37: `a += b ? c : d` followed by a semicolon, with the
emitter in which every instruction occupies one address. -/
theorem C37_assignment_takes_conditional_witness :
    ParseEngine.expression Parser.unitCode (ParseEngine.callees Parser.unitCode 3) 3
        ParseEngine.defaultMinPrec
        ⟨[ParseEngine.ident "a"] ++ ParseEngine.tok Token.ADDSTO ::
          ([ParseEngine.ident "b"] ++ ParseEngine.tok Token.Question ::
            ([ParseEngine.ident "c"] ++ ParseEngine.tok Token.Colon ::
              ([ParseEngine.ident "d"] ++ [ParseEngine.tok Token.Semicolon]))), [], [], []⟩
      = Outcome.done (true,
          ⟨[ParseEngine.tok Token.Semicolon],
           [Emit.emitId (some "a") IdType.MightBeLocal,
            Emit.emitDup,
            Emit.emitId (some "b") IdType.MightBeLocal,
            Emit.label, Emit.label,
            Emit.addMatchedJump Op.JF ⟨3, 3⟩,
            Emit.pushTmp,
            Emit.emitId (some "c") IdType.MightBeLocal,
            Emit.emitMove,
            Emit.addMatchedJump Op.JMP ⟨3, 6⟩,
            Emit.matchJump ⟨3, 3⟩,
            Emit.emitId (some "d") IdType.MightBeLocal,
            Emit.emitMove,
            Emit.matchJump ⟨3, 6⟩,
            Emit.emitBinOp Op.ADD,
            Emit.emitMove], [], []⟩) :=
  C37_assignment_takes_conditional Parser.unitCode 1
    [ParseEngine.ident "a"] [ParseEngine.ident "b"] [ParseEngine.ident "c"]
    [ParseEngine.ident "d"] [ParseEngine.tok Token.Semicolon]
    (ParseEngine.tok Token.ADDSTO) (ParseEngine.tok Token.Question)
    (ParseEngine.tok Token.Colon)
    ⟨Token.ADDSTO, 2, Assoc.RightAssoc, true, Op.ADD⟩
    [] [Emit.emitId (some "a") IdType.MightBeLocal]
    [Emit.emitId (some "b") IdType.MightBeLocal]
    [Emit.emitId (some "c") IdType.MightBeLocal]
    [Emit.emitId (some "d") IdType.MightBeLocal]
    [] [] [] [] [] [] [] [] [] [] true true
    (by decide) (by decide) (by decide) (by decide) (by decide) (by decide) (by decide)
    (by decide) (by decide)

/-- C38: `break;` and `continue;` at top level read the top of an empty
stack: whatever the emitter and the budget, `statement` on `break ;` and on
`continue ;` with both label stacks empty ends in the undefined `.back()`
call. The same happens for a `break;` in a `switch` that is not inside a
loop, as in `switch (a) { case 1: break; }`: `switchStatement` pushes no
entry on `_breakStack`. -/
theorem C38_break_outside_loop_reads_empty_stack :
    (∀ (P : Parser) (r : ParseEngine.Callees) (n : Nat),
      ParseEngine.statement P r n
          (ParseEngine.start [ParseEngine.tok Token.Break, ParseEngine.tok Token.Semicolon])
        = Outcome.undefined)
    ∧ (∀ (P : Parser) (r : ParseEngine.Callees) (n : Nat),
      ParseEngine.statement P r n
          (ParseEngine.start [ParseEngine.tok Token.Continue, ParseEngine.tok Token.Semicolon])
        = Outcome.undefined)
    ∧ ParseEngine.statement Parser.unitCode (ParseEngine.callees Parser.unitCode 4) 4
        (ParseEngine.start
          [ParseEngine.tok Token.Switch, ParseEngine.tok Token.LParen, ParseEngine.ident "a",
           ParseEngine.tok Token.RParen, ParseEngine.tok Token.LBrace,
           ParseEngine.tok Token.Case, ParseEngine.intTok 1, ParseEngine.tok Token.Colon,
           ParseEngine.tok Token.Break, ParseEngine.tok Token.Semicolon,
           ParseEngine.tok Token.RBrace])
        = Outcome.undefined := by
  refine ⟨fun _ _ _ => rfl, fun _ _ _ => rfl, by decide⟩

/-! ## Progress and termination of the parse engine -/

set_option linter.unusedTactic false
set_option linter.unreachableTactic false

namespace M8r.PE

theorem wp_pure {α : Type} (a : α) (pe : ParseEngine) (Q : α → ParseEngine → Prop) :
    wp (pure a) pe Q ↔ Q a pe := by
  unfold wp
  rfl

theorem wp_bind {α β : Type} (m : PE α) (f : α → PE β) (pe : ParseEngine)
    (Q : β → ParseEngine → Prop) :
    wp (m >>= f) pe Q ↔ wp m pe (fun a pe1 => wp (f a) pe1 Q) := by
  show wp (PE.andThen m f) pe Q ↔ _
  unfold wp PE.andThen
  cases h : m pe with
  | done r => obtain ⟨a, pe1⟩ := r; rfl
  | assertFailed => rfl
  | outOfBudget => rfl
  | undefined => rfl

theorem wp_mono {α : Type} {m : PE α} {pe : ParseEngine} {Q R : α → ParseEngine → Prop}
    (h : wp m pe Q) (hQ : ∀ a pe1, Q a pe1 → R a pe1) : wp m pe R := by
  unfold wp at h ⊢
  cases hm : m pe with
  | done r => obtain ⟨a, pe1⟩ := r; rw [hm] at h; exact hQ a pe1 h
  | assertFailed => trivial
  | outOfBudget => rw [hm] at h; exact h
  | undefined => trivial

theorem wp_ite {α : Type} (c : Prop) [Decidable c] (a b : PE α) (pe : ParseEngine)
    (Q : α → ParseEngine → Prop) :
    wp (if c then a else b) pe Q ↔ (c → wp a pe Q) ∧ (¬ c → wp b pe Q) := by
  by_cases h : c <;> simp [h]

theorem wp_undefined {α : Type} (pe : ParseEngine) (Q : α → ParseEngine → Prop) :
    wp (PE.undefined : PE α) pe Q ↔ True := by
  unfold wp
  rfl

theorem wp_outOfBudget {α : Type} (pe : ParseEngine) (Q : α → ParseEngine → Prop) :
    wp (PE.outOfBudget : PE α) pe Q ↔ False := by
  unfold wp
  rfl

/-- The outcome of a call that satisfies `wp`. -/
theorem wp_iff {α : Type} (m : PE α) (pe : ParseEngine) (Q : α → ParseEngine → Prop) :
    wp m pe Q ↔ m pe ≠ Outcome.outOfBudget ∧ ∀ a pe1, m pe = Outcome.done (a, pe1) → Q a pe1 := by
  unfold wp
  cases hm : m pe with
  | done r =>
    obtain ⟨a, pe1⟩ := r
    simp only [ne_eq, reduceCtorEq, not_false_eq_true, Outcome.done.injEq, Prod.mk.injEq,
      and_imp, true_and]
    constructor
    · intro h a1 p1 ha hp; subst ha hp; exact h
    · intro h; exact h a pe1 rfl rfl
  | assertFailed => simp
  | outOfBudget => simp
  | undefined => simp

end M8r.PE

namespace M8r.ParseEngine

open PE

/-- The state after `retireToken`. -/
theorem wp_retireToken (pe : ParseEngine) (Q : Unit → ParseEngine → Prop) :
    wp retireToken pe Q ↔ Q () ⟨pe.tokens.tail, pe.trace, pe._breakStack, pe._continueStack⟩ := by
  obtain ⟨t, tr, b, c⟩ := pe
  unfold wp
  rfl

theorem wp_emit (e : Emit) (pe : ParseEngine) (Q : Unit → ParseEngine → Prop) :
    wp (emit e) pe Q ↔ Q () ⟨pe.tokens, pe.trace ++ [e], pe._breakStack, pe._continueStack⟩ := by
  obtain ⟨t, tr, b, c⟩ := pe
  unfold wp
  rfl

theorem wp_getTrace (pe : ParseEngine) (Q : List Emit → ParseEngine → Prop) :
    wp getTrace pe Q ↔ Q pe.trace pe := by
  unfold wp
  rfl

theorem wp_getToken (pe : ParseEngine) (Q : Token → ParseEngine → Prop) :
    wp getToken pe Q ↔ Q (current pe) pe := by
  unfold wp
  rfl

theorem wp_getTokenValue (pe : ParseEngine) (Q : TokenValue → ParseEngine → Prop) :
    wp getTokenValue pe Q ↔ Q ((pe.tokens.head?.map Tok.value).getD ⟨"", 0, 0⟩) pe := by
  unfold wp
  rfl

/-- A token other than `EndOfFile` is the current token only when a token is
left. -/
theorem pos_of_current {pe : ParseEngine} {t : Token} (h : current pe = t)
    (ht : t ≠ Token.EndOfFile) : 0 < pe.tokens.length := by
  obtain ⟨toks, tr, b, c⟩ := pe
  cases toks with
  | nil => exact absurd h.symm ht
  | cons a rest => simp

end M8r.ParseEngine

namespace M8r.ParseEngine

open PE

theorem propertyName_wp (pe : ParseEngine) : wp propertyName pe (progress pe) := by
  unfold propertyName
  simp only [wp_bind, wp_getToken, wp_getTokenValue, wp_ite, wp_emit, wp_retireToken, wp_pure,
    progress, List.length_tail, Bool.false_eq_true, false_implies, and_true, implies_true,
    true_implies, le_refl]
  repeat' first
    | omega
    | apply And.intro
    | (intro h; try (have hp := pos_of_current h (by decide)))

theorem wp_expect (t : Token) (ht : t ≠ Token.EndOfFile) (pe : ParseEngine)
    (Q : Bool → ParseEngine → Prop) :
    wp (expect t) pe Q ↔
      (current pe ≠ t →
        Q false ⟨pe.tokens, pe.trace ++ [Emit.expectedError t none], pe._breakStack,
          pe._continueStack⟩) ∧
      (0 < pe.tokens.length → current pe = t →
        Q true ⟨pe.tokens.tail, pe.trace, pe._breakStack, pe._continueStack⟩) := by
  unfold expect
  simp only [wp_bind, wp_getToken, wp_ite, wp_emit, wp_retireToken, wp_pure, ne_eq,
    Decidable.not_not]
  constructor
  · rintro ⟨h1, h2⟩
    exact ⟨h1, fun _ h => h2 h⟩
  · rintro ⟨h1, h2⟩
    exact ⟨h1, fun h => h2 (pos_of_current h ht) h⟩

theorem wp_expectIf (t : Token) (b : Bool) (s : Option String) (pe : ParseEngine)
    (Q : Bool → ParseEngine → Prop) :
    wp (expectIf t b s) pe Q ↔
      (b = false →
        Q false ⟨pe.tokens, pe.trace ++ [Emit.expectedError t s], pe._breakStack,
          pe._continueStack⟩) ∧
      (b = true → Q true pe) := by
  cases b <;> simp [expectIf, wp_bind, wp_emit, wp_pure, wp_ite]

end M8r.ParseEngine

namespace M8r.ParseEngine

open PE

theorem wp_breakBack (pe : ParseEngine) (Q : List Label → ParseEngine → Prop) :
    wp breakBack pe Q ↔ ∀ top rest, pe._breakStack = top :: rest → Q top pe := by
  obtain ⟨t, tr, b, c⟩ := pe
  cases b <;> simp [wp, breakBack]

theorem wp_continueBack (pe : ParseEngine) (Q : List Label → ParseEngine → Prop) :
    wp continueBack pe Q ↔ ∀ top rest, pe._continueStack = top :: rest → Q top pe := by
  obtain ⟨t, tr, b, c⟩ := pe
  cases c <;> simp [wp, continueBack]

theorem wp_breakPush (l : Label) (pe : ParseEngine) (Q : Unit → ParseEngine → Prop) :
    wp (breakPush l) pe Q ↔
      ∀ top rest, pe._breakStack = top :: rest →
        Q () ⟨pe.tokens, pe.trace, (top ++ [l]) :: rest, pe._continueStack⟩ := by
  obtain ⟨t, tr, b, c⟩ := pe
  cases b <;> simp [wp, breakPush]

theorem wp_continuePush (l : Label) (pe : ParseEngine) (Q : Unit → ParseEngine → Prop) :
    wp (continuePush l) pe Q ↔
      ∀ top rest, pe._continueStack = top :: rest →
        Q () ⟨pe.tokens, pe.trace, pe._breakStack, (top ++ [l]) :: rest⟩ := by
  obtain ⟨t, tr, b, c⟩ := pe
  cases c <;> simp [wp, continuePush]

theorem wp_pushLoop (pe : ParseEngine) (Q : Unit → ParseEngine → Prop) :
    wp pushLoop pe Q ↔
      Q () ⟨pe.tokens, pe.trace, [] :: pe._breakStack, [] :: pe._continueStack⟩ := by
  obtain ⟨t, tr, b, c⟩ := pe
  unfold wp
  rfl

theorem wp_popLoop (pe : ParseEngine) (Q : Unit → ParseEngine → Prop) :
    wp popLoop pe Q ↔
      ∀ b bs c cs, pe._breakStack = b :: bs → pe._continueStack = c :: cs →
        Q () ⟨pe.tokens, pe.trace, bs, cs⟩ := by
  obtain ⟨t, tr, b, c⟩ := pe
  cases b <;> cases c <;> simp only [wp, popLoop, reduceCtorEq, false_implies, implies_true,
    List.cons.injEq, and_imp]
  constructor
  · intro h b bs c cs hb hbs hc hcs
    subst hb hbs hc hcs
    exact h
  · intro h
    exact h _ _ _ _ rfl rfl rfl rfl

theorem wp_matchJumps (ls : List Label) (pe : ParseEngine) (Q : Unit → ParseEngine → Prop) :
    wp (matchJumps ls) pe Q ↔
      Q () ⟨pe.tokens, pe.trace ++ ls.map Emit.matchJump, pe._breakStack,
        pe._continueStack⟩ := by
  obtain ⟨t, tr, b, c⟩ := pe
  unfold wp
  rw [matchJumps_eq]

theorem wp_switchFixup (D E : Int) (after : Label) (cases : List CaseEntry) (pe : ParseEngine)
    (Q : Unit → ParseEngine → Prop) :
    wp (switchFixup D E after cases) pe Q ↔
      Q () ⟨pe.tokens,
        pe.trace ++ cases.flatMap (fun it =>
          Emit.matchJumpToAddr it.toStatement (it.statementAddr - D + E) ::
            (if it.fromStatement.label ≥ 0 then
               [Emit.matchJumpToLabel
                 { it.fromStatement with
                   matchedAddr := it.fromStatement.matchedAddr + (E - D) } after]
             else [])),
        pe._breakStack, pe._continueStack⟩ := by
  obtain ⟨t, tr, b, c⟩ := pe
  unfold wp
  rw [switchFixup_eq]

/-- The fix-up loop of `switchStatement` leaves the tokens alone. -/
theorem switchFixup_wp (D E : Int) (after : Label) (cases : List CaseEntry) (pe : ParseEngine) :
    wp (switchFixup D E after cases) pe (noLonger pe) := by
  obtain ⟨t, tr, b, c⟩ := pe
  unfold wp
  rw [switchFixup_eq]
  exact Nat.le_refl _

theorem pos_of_prefixOp {pe : ParseEngine} (h : prefixOp (current pe) ≠ Op.UNKNOWN) :
    0 < pe.tokens.length := by
  obtain ⟨toks, tr, b, c⟩ := pe
  cases toks with
  | nil => exact absurd rfl h
  | cons a rest => simp

theorem pos_of_postfixOp {pe : ParseEngine} (h : postfixOp (current pe) ≠ Op.UNKNOWN) :
    0 < pe.tokens.length := by
  obtain ⟨toks, tr, b, c⟩ := pe
  cases toks with
  | nil => exact absurd rfl h
  | cons a rest => simp

theorem pos_of_findOpInfo {pe : ParseEngine} {i : OperatorInfo}
    (h : findOpInfo (current pe) = some i) : 0 < pe.tokens.length := by
  obtain ⟨toks, tr, b, c⟩ := pe
  cases toks with
  | nil =>
    have h0 : findOpInfo Token.EndOfFile = none := by decide
    have h1 : current ⟨[], tr, b, c⟩ = Token.EndOfFile := rfl
    rw [h1, h0] at h
    cases h
  | cons a rest => simp

/-- A loop `while (body()) { }` ends when every `true` of `body` costs a
token and the budget exceeds the number of tokens. -/
theorem whileTrue_wp (body : PE Bool) (L : Nat)
    (hbody : ∀ pe : ParseEngine, pe.tokens.length < L → wp body pe (progress pe)) :
    ∀ (k : Nat) (pe : ParseEngine), pe.tokens.length < L → pe.tokens.length < k →
      wp (whileTrue body k) pe (noLonger pe) := by
  intro k
  induction k with
  | zero => intro pe _ h; omega
  | succ k ih =>
    intro pe hL hk
    unfold whileTrue
    rw [wp_bind]
    refine wp_mono (hbody pe hL) ?_
    intro b pe1 h
    unfold progress at h
    cases b
    · simp only [Bool.false_eq_true, ↓reduceIte, wp_pure, noLonger]
      exact h.1
    · simp only [↓reduceIte]
      have h2 := h.2 rfl
      refine wp_mono (ih pe1 (by omega) (by omega)) ?_
      intro _ pe2 h3
      unfold noLonger at h3 ⊢
      omega

end M8r.ParseEngine

namespace M8r.ParseEngine

open PE

/-! ### Progress of the members of the parse engine -/

theorem propertyAssignment_wp (r : Callees) (L : Nat) (pe : ParseEngine) (hr : r.Good L)
    (hpe : pe.tokens.length ≤ L) : wp (propertyAssignment r) pe (progress pe) := by
  unfold propertyAssignment
  simp only [wp_bind, wp_getToken, wp_getTokenValue, wp_ite, wp_emit, wp_retireToken, wp_pure,
    wp_getTrace, wp_expectIf, wp_expect, wp_breakBack, wp_continueBack, wp_breakPush,
    wp_continuePush, wp_pushLoop, wp_popLoop, wp_matchJumps, wp_switchFixup, label,
    addMatchedJump, startDeferred, resumeDeferred, emitDeferred, emitDeref, functionEnd,
    functionIsCtor, progress, noLonger, List.length_tail, Bool.false_eq_true, false_implies,
    and_true, true_and, implies_true, true_implies, le_refl, ne_eq, reduceCtorEq,
    not_false_eq_true, not_true_eq_false, Bool.not_eq_true', Bool.not_true, Bool.not_false,
    Decidable.not_not, decide_eq_true_eq, Bool.true_eq_false, false_and, and_false, not_and,
    not_or, imp_false]
  repeat' first
    | omega
    | apply And.intro
    | (refine wp_mono (hr.expression _ _ (by first | omega | (dsimp only; omega) | (simp only [List.length_tail]; omega))) ?_; intro a pe1 h;
       cases a <;> try simp only [wp_bind, wp_getToken, wp_getTokenValue, wp_ite, wp_emit, wp_retireToken, wp_pure,
           wp_getTrace, wp_expectIf, wp_expect, wp_breakBack, wp_continueBack, wp_breakPush,
           wp_continuePush, wp_pushLoop, wp_popLoop, wp_matchJumps, wp_switchFixup, label, addMatchedJump,
           startDeferred, resumeDeferred, emitDeferred, emitDeref, functionEnd, functionIsCtor, progress,
           noLonger, List.length_tail, Bool.false_eq_true, false_implies, and_true, true_and, implies_true,
           true_implies, le_refl, ne_eq, reduceCtorEq, not_false_eq_true, not_true_eq_false,
           Bool.not_eq_true', Bool.not_true, Bool.not_false, Decidable.not_not, decide_eq_true_eq,
           Bool.true_eq_false, false_and, and_false, not_and, not_or, imp_false] at h ⊢)
    | (refine wp_mono (propertyName_wp _) ?_; intro a pe1 h;
       cases a <;> try simp only [wp_bind, wp_getToken, wp_getTokenValue, wp_ite, wp_emit, wp_retireToken, wp_pure,
           wp_getTrace, wp_expectIf, wp_expect, wp_breakBack, wp_continueBack, wp_breakPush,
           wp_continuePush, wp_pushLoop, wp_popLoop, wp_matchJumps, wp_switchFixup, label, addMatchedJump,
           startDeferred, resumeDeferred, emitDeferred, emitDeref, functionEnd, functionIsCtor, progress,
           noLonger, List.length_tail, Bool.false_eq_true, false_implies, and_true, true_and, implies_true,
           true_implies, le_refl, ne_eq, reduceCtorEq, not_false_eq_true, not_true_eq_false,
           Bool.not_eq_true', Bool.not_true, Bool.not_false, Decidable.not_not, decide_eq_true_eq,
           Bool.true_eq_false, false_and, and_false, not_and, not_or, imp_false] at h ⊢)
    | (intro h;
       try (first
         | (have hp := pos_of_current h (by decide))
         | (have hp := pos_of_prefixOp h)
         | (have hp := pos_of_postfixOp h)
         | (rcases h with h | h <;> have hp := pos_of_current h (by decide)));
       try simp only [List.length_tail] at hp)

theorem arrayElementsLoop_wp (r : Callees) (L : Nat) (hr : r.Good L) :
    ∀ (k : Nat) (pe : ParseEngine), pe.tokens.length ≤ L → pe.tokens.length < k →
      wp (arrayElementsLoop r k) pe (noLonger pe) := by
  intro k
  induction k with
  | zero => intro pe _ h; omega
  | succ k ih =>
    intro pe hpe hk
    unfold arrayElementsLoop
    simp only [wp_bind, wp_getToken, wp_getTokenValue, wp_ite, wp_emit, wp_retireToken, wp_pure,
      wp_getTrace, wp_expectIf, wp_expect, wp_breakBack, wp_continueBack, wp_breakPush,
      wp_continuePush, wp_pushLoop, wp_popLoop, wp_matchJumps, wp_switchFixup, label,
      addMatchedJump, startDeferred, resumeDeferred, emitDeferred, emitDeref, functionEnd,
      functionIsCtor, progress, noLonger, List.length_tail, Bool.false_eq_true, false_implies,
      and_true, true_and, implies_true, true_implies, le_refl, ne_eq, reduceCtorEq,
      not_false_eq_true, not_true_eq_false, Bool.not_eq_true', Bool.not_true, Bool.not_false,
      Decidable.not_not, decide_eq_true_eq, Bool.true_eq_false, false_and, and_false, not_and,
      not_or, imp_false]
    repeat' first
      | omega
      | apply And.intro
      | (refine wp_mono (hr.expression _ _ (by first | omega | (dsimp only; omega) | (simp only [List.length_tail]; omega))) ?_; intro a pe1 h;
         cases a <;> try simp only [wp_bind, wp_getToken, wp_getTokenValue, wp_ite, wp_emit, wp_retireToken, wp_pure,
             wp_getTrace, wp_expectIf, wp_expect, wp_breakBack, wp_continueBack, wp_breakPush,
             wp_continuePush, wp_pushLoop, wp_popLoop, wp_matchJumps, wp_switchFixup, label, addMatchedJump,
             startDeferred, resumeDeferred, emitDeferred, emitDeref, functionEnd, functionIsCtor, progress,
             noLonger, List.length_tail, Bool.false_eq_true, false_implies, and_true, true_and, implies_true,
             true_implies, le_refl, ne_eq, reduceCtorEq, not_false_eq_true, not_true_eq_false,
             Bool.not_eq_true', Bool.not_true, Bool.not_false, Decidable.not_not, decide_eq_true_eq,
             Bool.true_eq_false, false_and, and_false, not_and, not_or, imp_false] at h ⊢)
      | (refine wp_mono (ih _ (by first | omega | (dsimp only; omega) | (simp only [List.length_tail]; omega)) (by first | omega | (dsimp only; omega) | (simp only [List.length_tail]; omega))) ?_; intro a pe1 h;
         try simp only [wp_bind, wp_getToken, wp_getTokenValue, wp_ite, wp_emit, wp_retireToken, wp_pure,
             wp_getTrace, wp_expectIf, wp_expect, wp_breakBack, wp_continueBack, wp_breakPush,
             wp_continuePush, wp_pushLoop, wp_popLoop, wp_matchJumps, wp_switchFixup, label, addMatchedJump,
             startDeferred, resumeDeferred, emitDeferred, emitDeref, functionEnd, functionIsCtor, progress,
             noLonger, List.length_tail, Bool.false_eq_true, false_implies, and_true, true_and, implies_true,
             true_implies, le_refl, ne_eq, reduceCtorEq, not_false_eq_true, not_true_eq_false,
             Bool.not_eq_true', Bool.not_true, Bool.not_false, Decidable.not_not, decide_eq_true_eq,
             Bool.true_eq_false, false_and, and_false, not_and, not_or, imp_false] at h ⊢)
      | (intro h;
         try (first
           | (have hp := pos_of_current h (by decide))
           | (have hp := pos_of_prefixOp h)
           | (have hp := pos_of_postfixOp h)
           | (rcases h with h | h <;> have hp := pos_of_current h (by decide)));
         try simp only [List.length_tail] at hp)

theorem propertiesLoop_wp (r : Callees) (L : Nat) (hr : r.Good L) :
    ∀ (k : Nat) (pe : ParseEngine), pe.tokens.length ≤ L → pe.tokens.length < k →
      wp (propertiesLoop r k) pe (noLonger pe) := by
  intro k
  induction k with
  | zero => intro pe _ h; omega
  | succ k ih =>
    intro pe hpe hk
    unfold propertiesLoop
    simp only [wp_bind, wp_getToken, wp_getTokenValue, wp_ite, wp_emit, wp_retireToken, wp_pure,
      wp_getTrace, wp_expectIf, wp_expect, wp_breakBack, wp_continueBack, wp_breakPush,
      wp_continuePush, wp_pushLoop, wp_popLoop, wp_matchJumps, wp_switchFixup, label,
      addMatchedJump, startDeferred, resumeDeferred, emitDeferred, emitDeref, functionEnd,
      functionIsCtor, progress, noLonger, List.length_tail, Bool.false_eq_true, false_implies,
      and_true, true_and, implies_true, true_implies, le_refl, ne_eq, reduceCtorEq,
      not_false_eq_true, not_true_eq_false, Bool.not_eq_true', Bool.not_true, Bool.not_false,
      Decidable.not_not, decide_eq_true_eq, Bool.true_eq_false, false_and, and_false, not_and,
      not_or, imp_false]
    repeat' first
      | omega
      | apply And.intro
      | (refine wp_mono (propertyAssignment_wp r L _ hr (by first | omega | (dsimp only; omega) | (simp only [List.length_tail]; omega))) ?_; intro a pe1 h;
         cases a <;> try simp only [wp_bind, wp_getToken, wp_getTokenValue, wp_ite, wp_emit, wp_retireToken, wp_pure,
             wp_getTrace, wp_expectIf, wp_expect, wp_breakBack, wp_continueBack, wp_breakPush,
             wp_continuePush, wp_pushLoop, wp_popLoop, wp_matchJumps, wp_switchFixup, label, addMatchedJump,
             startDeferred, resumeDeferred, emitDeferred, emitDeref, functionEnd, functionIsCtor, progress,
             noLonger, List.length_tail, Bool.false_eq_true, false_implies, and_true, true_and, implies_true,
             true_implies, le_refl, ne_eq, reduceCtorEq, not_false_eq_true, not_true_eq_false,
             Bool.not_eq_true', Bool.not_true, Bool.not_false, Decidable.not_not, decide_eq_true_eq,
             Bool.true_eq_false, false_and, and_false, not_and, not_or, imp_false] at h ⊢)
      | (refine wp_mono (ih _ (by first | omega | (dsimp only; omega) | (simp only [List.length_tail]; omega)) (by first | omega | (dsimp only; omega) | (simp only [List.length_tail]; omega))) ?_; intro a pe1 h;
         try simp only [wp_bind, wp_getToken, wp_getTokenValue, wp_ite, wp_emit, wp_retireToken, wp_pure,
             wp_getTrace, wp_expectIf, wp_expect, wp_breakBack, wp_continueBack, wp_breakPush,
             wp_continuePush, wp_pushLoop, wp_popLoop, wp_matchJumps, wp_switchFixup, label, addMatchedJump,
             startDeferred, resumeDeferred, emitDeferred, emitDeref, functionEnd, functionIsCtor, progress,
             noLonger, List.length_tail, Bool.false_eq_true, false_implies, and_true, true_and, implies_true,
             true_implies, le_refl, ne_eq, reduceCtorEq, not_false_eq_true, not_true_eq_false,
             Bool.not_eq_true', Bool.not_true, Bool.not_false, Decidable.not_not, decide_eq_true_eq,
             Bool.true_eq_false, false_and, and_false, not_and, not_or, imp_false] at h ⊢)
      | (intro h;
         try (first
           | (have hp := pos_of_current h (by decide))
           | (have hp := pos_of_prefixOp h)
           | (have hp := pos_of_postfixOp h)
           | (rcases h with h | h <;> have hp := pos_of_current h (by decide)));
         try simp only [List.length_tail] at hp)

theorem primaryExpression_wp (r : Callees) (n L : Nat) (pe : ParseEngine) (hr : r.Good L)
    (hn : L ≤ n) (hpe : pe.tokens.length ≤ L) :
    wp (primaryExpression r n) pe (progress pe) := by
  unfold primaryExpression
  simp only [wp_bind, wp_getToken, wp_getTokenValue, wp_ite, wp_emit, wp_retireToken, wp_pure,
    wp_getTrace, wp_expectIf, wp_expect, wp_breakBack, wp_continueBack, wp_breakPush,
    wp_continuePush, wp_pushLoop, wp_popLoop, wp_matchJumps, wp_switchFixup, label,
    addMatchedJump, startDeferred, resumeDeferred, emitDeferred, emitDeref, functionEnd,
    functionIsCtor, progress, noLonger, List.length_tail, Bool.false_eq_true, false_implies,
    and_true, true_and, implies_true, true_implies, le_refl, ne_eq, reduceCtorEq,
    not_false_eq_true, not_true_eq_false, Bool.not_eq_true', Bool.not_true, Bool.not_false,
    Decidable.not_not, decide_eq_true_eq, Bool.true_eq_false, false_and, and_false, not_and,
    not_or, imp_false]
  repeat' first
    | omega
    | apply And.intro
    | (refine wp_mono (hr.expression _ _ (by first | omega | (dsimp only; omega) | (simp only [List.length_tail]; omega))) ?_; intro a pe1 h;
       cases a <;> try simp only [wp_bind, wp_getToken, wp_getTokenValue, wp_ite, wp_emit, wp_retireToken, wp_pure,
           wp_getTrace, wp_expectIf, wp_expect, wp_breakBack, wp_continueBack, wp_breakPush,
           wp_continuePush, wp_pushLoop, wp_popLoop, wp_matchJumps, wp_switchFixup, label, addMatchedJump,
           startDeferred, resumeDeferred, emitDeferred, emitDeref, functionEnd, functionIsCtor, progress,
           noLonger, List.length_tail, Bool.false_eq_true, false_implies, and_true, true_and, implies_true,
           true_implies, le_refl, ne_eq, reduceCtorEq, not_false_eq_true, not_true_eq_false,
           Bool.not_eq_true', Bool.not_true, Bool.not_false, Decidable.not_not, decide_eq_true_eq,
           Bool.true_eq_false, false_and, and_false, not_and, not_or, imp_false] at h ⊢)
    | (refine wp_mono (propertyAssignment_wp r L _ hr (by first | omega | (dsimp only; omega) | (simp only [List.length_tail]; omega))) ?_; intro a pe1 h;
       cases a <;> try simp only [wp_bind, wp_getToken, wp_getTokenValue, wp_ite, wp_emit, wp_retireToken, wp_pure,
           wp_getTrace, wp_expectIf, wp_expect, wp_breakBack, wp_continueBack, wp_breakPush,
           wp_continuePush, wp_pushLoop, wp_popLoop, wp_matchJumps, wp_switchFixup, label, addMatchedJump,
           startDeferred, resumeDeferred, emitDeferred, emitDeref, functionEnd, functionIsCtor, progress,
           noLonger, List.length_tail, Bool.false_eq_true, false_implies, and_true, true_and, implies_true,
           true_implies, le_refl, ne_eq, reduceCtorEq, not_false_eq_true, not_true_eq_false,
           Bool.not_eq_true', Bool.not_true, Bool.not_false, Decidable.not_not, decide_eq_true_eq,
           Bool.true_eq_false, false_and, and_false, not_and, not_or, imp_false] at h ⊢)
    | (refine wp_mono (arrayElementsLoop_wp r L hr n _ (by first | omega | (dsimp only; omega) | (simp only [List.length_tail]; omega)) (by first | omega | (dsimp only; omega) | (simp only [List.length_tail]; omega))) ?_; intro a pe1 h;
       try simp only [wp_bind, wp_getToken, wp_getTokenValue, wp_ite, wp_emit, wp_retireToken, wp_pure,
           wp_getTrace, wp_expectIf, wp_expect, wp_breakBack, wp_continueBack, wp_breakPush,
           wp_continuePush, wp_pushLoop, wp_popLoop, wp_matchJumps, wp_switchFixup, label, addMatchedJump,
           startDeferred, resumeDeferred, emitDeferred, emitDeref, functionEnd, functionIsCtor, progress,
           noLonger, List.length_tail, Bool.false_eq_true, false_implies, and_true, true_and, implies_true,
           true_implies, le_refl, ne_eq, reduceCtorEq, not_false_eq_true, not_true_eq_false,
           Bool.not_eq_true', Bool.not_true, Bool.not_false, Decidable.not_not, decide_eq_true_eq,
           Bool.true_eq_false, false_and, and_false, not_and, not_or, imp_false] at h ⊢)
    | (refine wp_mono (propertiesLoop_wp r L hr n _ (by first | omega | (dsimp only; omega) | (simp only [List.length_tail]; omega)) (by first | omega | (dsimp only; omega) | (simp only [List.length_tail]; omega))) ?_; intro a pe1 h;
       try simp only [wp_bind, wp_getToken, wp_getTokenValue, wp_ite, wp_emit, wp_retireToken, wp_pure,
           wp_getTrace, wp_expectIf, wp_expect, wp_breakBack, wp_continueBack, wp_breakPush,
           wp_continuePush, wp_pushLoop, wp_popLoop, wp_matchJumps, wp_switchFixup, label, addMatchedJump,
           startDeferred, resumeDeferred, emitDeferred, emitDeref, functionEnd, functionIsCtor, progress,
           noLonger, List.length_tail, Bool.false_eq_true, false_implies, and_true, true_and, implies_true,
           true_implies, le_refl, ne_eq, reduceCtorEq, not_false_eq_true, not_true_eq_false,
           Bool.not_eq_true', Bool.not_true, Bool.not_false, Decidable.not_not, decide_eq_true_eq,
           Bool.true_eq_false, false_and, and_false, not_and, not_or, imp_false] at h ⊢)
    | (intro h;
       try (first
         | (have hp := pos_of_current h (by decide))
         | (have hp := pos_of_prefixOp h)
         | (have hp := pos_of_postfixOp h)
         | (rcases h with h | h <;> have hp := pos_of_current h (by decide)));
       try simp only [List.length_tail] at hp)

theorem argumentListLoop_wp (r : Callees) (L : Nat) (hr : r.Good L) :
    ∀ (k i : Nat) (pe : ParseEngine), pe.tokens.length ≤ L → pe.tokens.length < k →
      wp (argumentListLoop r k i) pe (noLonger pe) := by
  intro k
  induction k with
  | zero => intro i pe _ h; omega
  | succ k ih =>
    intro i pe hpe hk
    unfold argumentListLoop
    simp only [wp_bind, wp_getToken, wp_getTokenValue, wp_ite, wp_emit, wp_retireToken, wp_pure,
      wp_getTrace, wp_expectIf, wp_expect, wp_breakBack, wp_continueBack, wp_breakPush,
      wp_continuePush, wp_pushLoop, wp_popLoop, wp_matchJumps, wp_switchFixup, label,
      addMatchedJump, startDeferred, resumeDeferred, emitDeferred, emitDeref, functionEnd,
      functionIsCtor, progress, noLonger, List.length_tail, Bool.false_eq_true, false_implies,
      and_true, true_and, implies_true, true_implies, le_refl, ne_eq, reduceCtorEq,
      not_false_eq_true, not_true_eq_false, Bool.not_eq_true', Bool.not_true, Bool.not_false,
      Decidable.not_not, decide_eq_true_eq, Bool.true_eq_false, false_and, and_false, not_and,
      not_or, imp_false]
    repeat' first
      | omega
      | apply And.intro
      | (refine wp_mono (hr.expression _ _ (by first | omega | (dsimp only; omega) | (simp only [List.length_tail]; omega))) ?_; intro a pe1 h;
         cases a <;> try simp only [wp_bind, wp_getToken, wp_getTokenValue, wp_ite, wp_emit, wp_retireToken, wp_pure,
             wp_getTrace, wp_expectIf, wp_expect, wp_breakBack, wp_continueBack, wp_breakPush,
             wp_continuePush, wp_pushLoop, wp_popLoop, wp_matchJumps, wp_switchFixup, label, addMatchedJump,
             startDeferred, resumeDeferred, emitDeferred, emitDeref, functionEnd, functionIsCtor, progress,
             noLonger, List.length_tail, Bool.false_eq_true, false_implies, and_true, true_and, implies_true,
             true_implies, le_refl, ne_eq, reduceCtorEq, not_false_eq_true, not_true_eq_false,
             Bool.not_eq_true', Bool.not_true, Bool.not_false, Decidable.not_not, decide_eq_true_eq,
             Bool.true_eq_false, false_and, and_false, not_and, not_or, imp_false] at h ⊢)
      | (refine wp_mono (ih _ _ (by first | omega | (dsimp only; omega) | (simp only [List.length_tail]; omega)) (by first | omega | (dsimp only; omega) | (simp only [List.length_tail]; omega))) ?_; intro a pe1 h;
         try simp only [wp_bind, wp_getToken, wp_getTokenValue, wp_ite, wp_emit, wp_retireToken, wp_pure,
             wp_getTrace, wp_expectIf, wp_expect, wp_breakBack, wp_continueBack, wp_breakPush,
             wp_continuePush, wp_pushLoop, wp_popLoop, wp_matchJumps, wp_switchFixup, label, addMatchedJump,
             startDeferred, resumeDeferred, emitDeferred, emitDeref, functionEnd, functionIsCtor, progress,
             noLonger, List.length_tail, Bool.false_eq_true, false_implies, and_true, true_and, implies_true,
             true_implies, le_refl, ne_eq, reduceCtorEq, not_false_eq_true, not_true_eq_false,
             Bool.not_eq_true', Bool.not_true, Bool.not_false, Decidable.not_not, decide_eq_true_eq,
             Bool.true_eq_false, false_and, and_false, not_and, not_or, imp_false] at h ⊢)
      | (intro h;
         try (first
           | (have hp := pos_of_current h (by decide))
           | (have hp := pos_of_prefixOp h)
           | (have hp := pos_of_postfixOp h)
           | (rcases h with h | h <;> have hp := pos_of_current h (by decide)));
         try simp only [List.length_tail] at hp)

theorem argumentList_wp (r : Callees) (n L : Nat) (pe : ParseEngine) (hr : r.Good L)
    (hn : L ≤ n) (hpe : pe.tokens.length < L) : wp (argumentList r n) pe (noLonger pe) := by
  unfold argumentList
  simp only [wp_bind, wp_getToken, wp_getTokenValue, wp_ite, wp_emit, wp_retireToken, wp_pure,
    wp_getTrace, wp_expectIf, wp_expect, wp_breakBack, wp_continueBack, wp_breakPush,
    wp_continuePush, wp_pushLoop, wp_popLoop, wp_matchJumps, wp_switchFixup, label,
    addMatchedJump, startDeferred, resumeDeferred, emitDeferred, emitDeref, functionEnd,
    functionIsCtor, progress, noLonger, List.length_tail, Bool.false_eq_true, false_implies,
    and_true, true_and, implies_true, true_implies, le_refl, ne_eq, reduceCtorEq,
    not_false_eq_true, not_true_eq_false, Bool.not_eq_true', Bool.not_true, Bool.not_false,
    Decidable.not_not, decide_eq_true_eq, Bool.true_eq_false, false_and, and_false, not_and,
    not_or, imp_false]
  repeat' first
    | omega
    | apply And.intro
    | (refine wp_mono (hr.expression _ _ (by first | omega | (dsimp only; omega) | (simp only [List.length_tail]; omega))) ?_; intro a pe1 h;
       cases a <;> try simp only [wp_bind, wp_getToken, wp_getTokenValue, wp_ite, wp_emit, wp_retireToken, wp_pure,
           wp_getTrace, wp_expectIf, wp_expect, wp_breakBack, wp_continueBack, wp_breakPush,
           wp_continuePush, wp_pushLoop, wp_popLoop, wp_matchJumps, wp_switchFixup, label, addMatchedJump,
           startDeferred, resumeDeferred, emitDeferred, emitDeref, functionEnd, functionIsCtor, progress,
           noLonger, List.length_tail, Bool.false_eq_true, false_implies, and_true, true_and, implies_true,
           true_implies, le_refl, ne_eq, reduceCtorEq, not_false_eq_true, not_true_eq_false,
           Bool.not_eq_true', Bool.not_true, Bool.not_false, Decidable.not_not, decide_eq_true_eq,
           Bool.true_eq_false, false_and, and_false, not_and, not_or, imp_false] at h ⊢)
    | (refine wp_mono (argumentListLoop_wp r L hr n _ _ (by first | omega | (dsimp only; omega) | (simp only [List.length_tail]; omega)) (by first | omega | (dsimp only; omega) | (simp only [List.length_tail]; omega))) ?_; intro a pe1 h;
       try simp only [wp_bind, wp_getToken, wp_getTokenValue, wp_ite, wp_emit, wp_retireToken, wp_pure,
           wp_getTrace, wp_expectIf, wp_expect, wp_breakBack, wp_continueBack, wp_breakPush,
           wp_continuePush, wp_pushLoop, wp_popLoop, wp_matchJumps, wp_switchFixup, label, addMatchedJump,
           startDeferred, resumeDeferred, emitDeferred, emitDeref, functionEnd, functionIsCtor, progress,
           noLonger, List.length_tail, Bool.false_eq_true, false_implies, and_true, true_and, implies_true,
           true_implies, le_refl, ne_eq, reduceCtorEq, not_false_eq_true, not_true_eq_false,
           Bool.not_eq_true', Bool.not_true, Bool.not_false, Decidable.not_not, decide_eq_true_eq,
           Bool.true_eq_false, false_and, and_false, not_and, not_or, imp_false] at h ⊢)
    | (intro h;
       try (first
         | (have hp := pos_of_current h (by decide))
         | (have hp := pos_of_prefixOp h)
         | (have hp := pos_of_postfixOp h)
         | (rcases h with h | h <;> have hp := pos_of_current h (by decide)));
       try simp only [List.length_tail] at hp)

theorem formalParameterLoop_wp :
    ∀ (k : Nat) (pe : ParseEngine), pe.tokens.length < k →
      wp (formalParameterLoop k) pe (noLonger pe) := by
  intro k
  induction k with
  | zero => intro pe h; omega
  | succ k ih =>
    intro pe hk
    unfold formalParameterLoop
    simp only [wp_bind, wp_getToken, wp_getTokenValue, wp_ite, wp_emit, wp_retireToken, wp_pure,
      wp_getTrace, wp_expectIf, wp_expect, wp_breakBack, wp_continueBack, wp_breakPush,
      wp_continuePush, wp_pushLoop, wp_popLoop, wp_matchJumps, wp_switchFixup, label,
      addMatchedJump, startDeferred, resumeDeferred, emitDeferred, emitDeref, functionEnd,
      functionIsCtor, progress, noLonger, List.length_tail, Bool.false_eq_true, false_implies,
      and_true, true_and, implies_true, true_implies, le_refl, ne_eq, reduceCtorEq,
      not_false_eq_true, not_true_eq_false, Bool.not_eq_true', Bool.not_true, Bool.not_false,
      Decidable.not_not, decide_eq_true_eq, Bool.true_eq_false, false_and, and_false, not_and,
      not_or, imp_false]
    repeat' first
      | omega
      | apply And.intro
      | (refine wp_mono (ih _ (by first | omega | (dsimp only; omega) | (simp only [List.length_tail]; omega))) ?_; intro a pe1 h;
         try simp only [wp_bind, wp_getToken, wp_getTokenValue, wp_ite, wp_emit, wp_retireToken, wp_pure,
             wp_getTrace, wp_expectIf, wp_expect, wp_breakBack, wp_continueBack, wp_breakPush,
             wp_continuePush, wp_pushLoop, wp_popLoop, wp_matchJumps, wp_switchFixup, label, addMatchedJump,
             startDeferred, resumeDeferred, emitDeferred, emitDeref, functionEnd, functionIsCtor, progress,
             noLonger, List.length_tail, Bool.false_eq_true, false_implies, and_true, true_and, implies_true,
             true_implies, le_refl, ne_eq, reduceCtorEq, not_false_eq_true, not_true_eq_false,
             Bool.not_eq_true', Bool.not_true, Bool.not_false, Decidable.not_not, decide_eq_true_eq,
             Bool.true_eq_false, false_and, and_false, not_and, not_or, imp_false] at h ⊢)
      | (intro h;
         try (first
           | (have hp := pos_of_current h (by decide))
           | (have hp := pos_of_prefixOp h)
           | (have hp := pos_of_postfixOp h)
           | (rcases h with h | h <;> have hp := pos_of_current h (by decide)));
         try simp only [List.length_tail] at hp)

theorem formalParameterList_wp (n : Nat) (pe : ParseEngine) (hn : pe.tokens.length < n) :
    wp (formalParameterList n) pe (noLonger pe) := by
  unfold formalParameterList
  simp only [wp_bind, wp_getToken, wp_getTokenValue, wp_ite, wp_emit, wp_retireToken, wp_pure,
    wp_getTrace, wp_expectIf, wp_expect, wp_breakBack, wp_continueBack, wp_breakPush,
    wp_continuePush, wp_pushLoop, wp_popLoop, wp_matchJumps, wp_switchFixup, label,
    addMatchedJump, startDeferred, resumeDeferred, emitDeferred, emitDeref, functionEnd,
    functionIsCtor, progress, noLonger, List.length_tail, Bool.false_eq_true, false_implies,
    and_true, true_and, implies_true, true_implies, le_refl, ne_eq, reduceCtorEq,
    not_false_eq_true, not_true_eq_false, Bool.not_eq_true', Bool.not_true, Bool.not_false,
    Decidable.not_not, decide_eq_true_eq, Bool.true_eq_false, false_and, and_false, not_and,
    not_or, imp_false]
  repeat' first
    | omega
    | apply And.intro
    | (refine wp_mono (formalParameterLoop_wp n _ (by first | omega | (dsimp only; omega) | (simp only [List.length_tail]; omega))) ?_; intro a pe1 h;
       try simp only [wp_bind, wp_getToken, wp_getTokenValue, wp_ite, wp_emit, wp_retireToken, wp_pure,
           wp_getTrace, wp_expectIf, wp_expect, wp_breakBack, wp_continueBack, wp_breakPush,
           wp_continuePush, wp_pushLoop, wp_popLoop, wp_matchJumps, wp_switchFixup, label, addMatchedJump,
           startDeferred, resumeDeferred, emitDeferred, emitDeref, functionEnd, functionIsCtor, progress,
           noLonger, List.length_tail, Bool.false_eq_true, false_implies, and_true, true_and, implies_true,
           true_implies, le_refl, ne_eq, reduceCtorEq, not_false_eq_true, not_true_eq_false,
           Bool.not_eq_true', Bool.not_true, Bool.not_false, Decidable.not_not, decide_eq_true_eq,
           Bool.true_eq_false, false_and, and_false, not_and, not_or, imp_false] at h ⊢)
    | (intro h;
       try (first
         | (have hp := pos_of_current h (by decide))
         | (have hp := pos_of_prefixOp h)
         | (have hp := pos_of_postfixOp h)
         | (rcases h with h | h <;> have hp := pos_of_current h (by decide)));
       try simp only [List.length_tail] at hp)

theorem functionExpression_wp (P : Parser) (r : Callees) (n L : Nat) (ctor : Bool)
    (pe : ParseEngine) (hr : r.Good L) (hn : L ≤ n) (hpe : pe.tokens.length < L) :
    wp (functionExpression P r n ctor) pe (noLonger pe) := by
  unfold functionExpression
  simp only [wp_bind, wp_getToken, wp_getTokenValue, wp_ite, wp_emit, wp_retireToken, wp_pure,
    wp_getTrace, wp_expectIf, wp_expect, wp_breakBack, wp_continueBack, wp_breakPush,
    wp_continuePush, wp_pushLoop, wp_popLoop, wp_matchJumps, wp_switchFixup, label,
    addMatchedJump, startDeferred, resumeDeferred, emitDeferred, emitDeref, functionEnd,
    functionIsCtor, progress, noLonger, List.length_tail, Bool.false_eq_true, false_implies,
    and_true, true_and, implies_true, true_implies, le_refl, ne_eq, reduceCtorEq,
    not_false_eq_true, not_true_eq_false, Bool.not_eq_true', Bool.not_true, Bool.not_false,
    Decidable.not_not, decide_eq_true_eq, Bool.true_eq_false, false_and, and_false, not_and,
    not_or, imp_false]
  repeat' first
    | omega
    | apply And.intro
    | (refine wp_mono (formalParameterList_wp n _ (by first | omega | (dsimp only; omega) | (simp only [List.length_tail]; omega))) ?_; intro a pe1 h;
       try simp only [wp_bind, wp_getToken, wp_getTokenValue, wp_ite, wp_emit, wp_retireToken, wp_pure,
           wp_getTrace, wp_expectIf, wp_expect, wp_breakBack, wp_continueBack, wp_breakPush,
           wp_continuePush, wp_pushLoop, wp_popLoop, wp_matchJumps, wp_switchFixup, label, addMatchedJump,
           startDeferred, resumeDeferred, emitDeferred, emitDeref, functionEnd, functionIsCtor, progress,
           noLonger, List.length_tail, Bool.false_eq_true, false_implies, and_true, true_and, implies_true,
           true_implies, le_refl, ne_eq, reduceCtorEq, not_false_eq_true, not_true_eq_false,
           Bool.not_eq_true', Bool.not_true, Bool.not_false, Decidable.not_not, decide_eq_true_eq,
           Bool.true_eq_false, false_and, and_false, not_and, not_or, imp_false] at h ⊢)
    | (refine wp_mono (whileTrue_wp r.statement L hr.statement n _ (by first | omega | (dsimp only; omega) | (simp only [List.length_tail]; omega)) (by first | omega | (dsimp only; omega) | (simp only [List.length_tail]; omega))) ?_; intro a pe1 h;
       try simp only [wp_bind, wp_getToken, wp_getTokenValue, wp_ite, wp_emit, wp_retireToken, wp_pure,
           wp_getTrace, wp_expectIf, wp_expect, wp_breakBack, wp_continueBack, wp_breakPush,
           wp_continuePush, wp_pushLoop, wp_popLoop, wp_matchJumps, wp_switchFixup, label, addMatchedJump,
           startDeferred, resumeDeferred, emitDeferred, emitDeref, functionEnd, functionIsCtor, progress,
           noLonger, List.length_tail, Bool.false_eq_true, false_implies, and_true, true_and, implies_true,
           true_implies, le_refl, ne_eq, reduceCtorEq, not_false_eq_true, not_true_eq_false,
           Bool.not_eq_true', Bool.not_true, Bool.not_false, Decidable.not_not, decide_eq_true_eq,
           Bool.true_eq_false, false_and, and_false, not_and, not_or, imp_false] at h ⊢)
    | (intro h;
       try (first
         | (have hp := pos_of_current h (by decide))
         | (have hp := pos_of_prefixOp h)
         | (have hp := pos_of_postfixOp h)
         | (rcases h with h | h <;> have hp := pos_of_current h (by decide)));
       try simp only [List.length_tail] at hp)

theorem classContentsStatement_wp (P : Parser) (r : Callees) (n L : Nat) (pe : ParseEngine)
    (hr : r.Good L) (hn : L ≤ n) (hpe : pe.tokens.length ≤ L) :
    wp (classContentsStatement P r n) pe (progress pe) := by
  unfold classContentsStatement
  simp only [wp_bind, wp_getToken, wp_getTokenValue, wp_ite, wp_emit, wp_retireToken, wp_pure,
    wp_getTrace, wp_expectIf, wp_expect, wp_breakBack, wp_continueBack, wp_breakPush,
    wp_continuePush, wp_pushLoop, wp_popLoop, wp_matchJumps, wp_switchFixup, label,
    addMatchedJump, startDeferred, resumeDeferred, emitDeferred, emitDeref, functionEnd,
    functionIsCtor, progress, noLonger, List.length_tail, Bool.false_eq_true, false_implies,
    and_true, true_and, implies_true, true_implies, le_refl, ne_eq, reduceCtorEq,
    not_false_eq_true, not_true_eq_false, Bool.not_eq_true', Bool.not_true, Bool.not_false,
    Decidable.not_not, decide_eq_true_eq, Bool.true_eq_false, false_and, and_false, not_and,
    not_or, imp_false]
  repeat' first
    | omega
    | apply And.intro
    | (refine wp_mono (functionExpression_wp P r n L _ _ hr hn (by first | omega | (dsimp only; omega) | (simp only [List.length_tail]; omega))) ?_; intro a pe1 h;
       try simp only [wp_bind, wp_getToken, wp_getTokenValue, wp_ite, wp_emit, wp_retireToken, wp_pure,
           wp_getTrace, wp_expectIf, wp_expect, wp_breakBack, wp_continueBack, wp_breakPush,
           wp_continuePush, wp_pushLoop, wp_popLoop, wp_matchJumps, wp_switchFixup, label, addMatchedJump,
           startDeferred, resumeDeferred, emitDeferred, emitDeref, functionEnd, functionIsCtor, progress,
           noLonger, List.length_tail, Bool.false_eq_true, false_implies, and_true, true_and, implies_true,
           true_implies, le_refl, ne_eq, reduceCtorEq, not_false_eq_true, not_true_eq_false,
           Bool.not_eq_true', Bool.not_true, Bool.not_false, Decidable.not_not, decide_eq_true_eq,
           Bool.true_eq_false, false_and, and_false, not_and, not_or, imp_false] at h ⊢)
    | (intro h;
       try (first
         | (have hp := pos_of_current h (by decide))
         | (have hp := pos_of_prefixOp h)
         | (have hp := pos_of_postfixOp h)
         | (rcases h with h | h <;> have hp := pos_of_current h (by decide)));
       try simp only [List.length_tail] at hp)

theorem classExpression_wp (P : Parser) (r : Callees) (n L : Nat) (pe : ParseEngine)
    (hr : r.Good L) (hn : L ≤ n) (hpe : pe.tokens.length < L) :
    wp (classExpression P r n) pe (noLonger pe) := by
  unfold classExpression
  simp only [wp_bind, wp_getToken, wp_getTokenValue, wp_ite, wp_emit, wp_retireToken, wp_pure,
    wp_getTrace, wp_expectIf, wp_expect, wp_breakBack, wp_continueBack, wp_breakPush,
    wp_continuePush, wp_pushLoop, wp_popLoop, wp_matchJumps, wp_switchFixup, label,
    addMatchedJump, startDeferred, resumeDeferred, emitDeferred, emitDeref, functionEnd,
    functionIsCtor, progress, noLonger, List.length_tail, Bool.false_eq_true, false_implies,
    and_true, true_and, implies_true, true_implies, le_refl, ne_eq, reduceCtorEq,
    not_false_eq_true, not_true_eq_false, Bool.not_eq_true', Bool.not_true, Bool.not_false,
    Decidable.not_not, decide_eq_true_eq, Bool.true_eq_false, false_and, and_false, not_and,
    not_or, imp_false]
  repeat' first
    | omega
    | apply And.intro
    | (refine wp_mono (whileTrue_wp (classContentsStatement P r n) L (fun pe h => classContentsStatement_wp P r n L pe hr hn (Nat.le_of_lt h)) n _ (by first | omega | (dsimp only; omega) | (simp only [List.length_tail]; omega)) (by first | omega | (dsimp only; omega) | (simp only [List.length_tail]; omega))) ?_; intro a pe1 h;
       try simp only [wp_bind, wp_getToken, wp_getTokenValue, wp_ite, wp_emit, wp_retireToken, wp_pure,
           wp_getTrace, wp_expectIf, wp_expect, wp_breakBack, wp_continueBack, wp_breakPush,
           wp_continuePush, wp_pushLoop, wp_popLoop, wp_matchJumps, wp_switchFixup, label, addMatchedJump,
           startDeferred, resumeDeferred, emitDeferred, emitDeref, functionEnd, functionIsCtor, progress,
           noLonger, List.length_tail, Bool.false_eq_true, false_implies, and_true, true_and, implies_true,
           true_implies, le_refl, ne_eq, reduceCtorEq, not_false_eq_true, not_true_eq_false,
           Bool.not_eq_true', Bool.not_true, Bool.not_false, Decidable.not_not, decide_eq_true_eq,
           Bool.true_eq_false, false_and, and_false, not_and, not_or, imp_false] at h ⊢)
    | (intro h;
       try (first
         | (have hp := pos_of_current h (by decide))
         | (have hp := pos_of_prefixOp h)
         | (have hp := pos_of_postfixOp h)
         | (rcases h with h | h <;> have hp := pos_of_current h (by decide)));
       try simp only [List.length_tail] at hp)

theorem memberExpression_wp (P : Parser) (r : Callees) (n L : Nat) (pe : ParseEngine)
    (hr : r.Good L) (hn : L ≤ n) (hpe : pe.tokens.length ≤ L) :
    wp (memberExpression P r n) pe (progress pe) := by
  unfold memberExpression
  simp only [wp_bind, wp_getToken, wp_getTokenValue, wp_ite, wp_emit, wp_retireToken, wp_pure,
    wp_getTrace, wp_expectIf, wp_expect, wp_breakBack, wp_continueBack, wp_breakPush,
    wp_continuePush, wp_pushLoop, wp_popLoop, wp_matchJumps, wp_switchFixup, label,
    addMatchedJump, startDeferred, resumeDeferred, emitDeferred, emitDeref, functionEnd,
    functionIsCtor, progress, noLonger, List.length_tail, Bool.false_eq_true, false_implies,
    and_true, true_and, implies_true, true_implies, le_refl, ne_eq, reduceCtorEq,
    not_false_eq_true, not_true_eq_false, Bool.not_eq_true', Bool.not_true, Bool.not_false,
    Decidable.not_not, decide_eq_true_eq, Bool.true_eq_false, false_and, and_false, not_and,
    not_or, imp_false]
  repeat' first
    | omega
    | apply And.intro
    | (refine wp_mono (hr.memberExpression _ (by first | omega | (dsimp only; omega) | (simp only [List.length_tail]; omega))) ?_; intro a pe1 h;
       cases a <;> try simp only [wp_bind, wp_getToken, wp_getTokenValue, wp_ite, wp_emit, wp_retireToken, wp_pure,
           wp_getTrace, wp_expectIf, wp_expect, wp_breakBack, wp_continueBack, wp_breakPush,
           wp_continuePush, wp_pushLoop, wp_popLoop, wp_matchJumps, wp_switchFixup, label, addMatchedJump,
           startDeferred, resumeDeferred, emitDeferred, emitDeref, functionEnd, functionIsCtor, progress,
           noLonger, List.length_tail, Bool.false_eq_true, false_implies, and_true, true_and, implies_true,
           true_implies, le_refl, ne_eq, reduceCtorEq, not_false_eq_true, not_true_eq_false,
           Bool.not_eq_true', Bool.not_true, Bool.not_false, Decidable.not_not, decide_eq_true_eq,
           Bool.true_eq_false, false_and, and_false, not_and, not_or, imp_false] at h ⊢)
    | (refine wp_mono (argumentList_wp r n L _ hr hn (by first | omega | (dsimp only; omega) | (simp only [List.length_tail]; omega))) ?_; intro a pe1 h;
       try simp only [wp_bind, wp_getToken, wp_getTokenValue, wp_ite, wp_emit, wp_retireToken, wp_pure,
           wp_getTrace, wp_expectIf, wp_expect, wp_breakBack, wp_continueBack, wp_breakPush,
           wp_continuePush, wp_pushLoop, wp_popLoop, wp_matchJumps, wp_switchFixup, label, addMatchedJump,
           startDeferred, resumeDeferred, emitDeferred, emitDeref, functionEnd, functionIsCtor, progress,
           noLonger, List.length_tail, Bool.false_eq_true, false_implies, and_true, true_and, implies_true,
           true_implies, le_refl, ne_eq, reduceCtorEq, not_false_eq_true, not_true_eq_false,
           Bool.not_eq_true', Bool.not_true, Bool.not_false, Decidable.not_not, decide_eq_true_eq,
           Bool.true_eq_false, false_and, and_false, not_and, not_or, imp_false] at h ⊢)
    | (refine wp_mono (functionExpression_wp P r n L _ _ hr hn (by first | omega | (dsimp only; omega) | (simp only [List.length_tail]; omega))) ?_; intro a pe1 h;
       try simp only [wp_bind, wp_getToken, wp_getTokenValue, wp_ite, wp_emit, wp_retireToken, wp_pure,
           wp_getTrace, wp_expectIf, wp_expect, wp_breakBack, wp_continueBack, wp_breakPush,
           wp_continuePush, wp_pushLoop, wp_popLoop, wp_matchJumps, wp_switchFixup, label, addMatchedJump,
           startDeferred, resumeDeferred, emitDeferred, emitDeref, functionEnd, functionIsCtor, progress,
           noLonger, List.length_tail, Bool.false_eq_true, false_implies, and_true, true_and, implies_true,
           true_implies, le_refl, ne_eq, reduceCtorEq, not_false_eq_true, not_true_eq_false,
           Bool.not_eq_true', Bool.not_true, Bool.not_false, Decidable.not_not, decide_eq_true_eq,
           Bool.true_eq_false, false_and, and_false, not_and, not_or, imp_false] at h ⊢)
    | (refine wp_mono (classExpression_wp P r n L _ hr hn (by first | omega | (dsimp only; omega) | (simp only [List.length_tail]; omega))) ?_; intro a pe1 h;
       try simp only [wp_bind, wp_getToken, wp_getTokenValue, wp_ite, wp_emit, wp_retireToken, wp_pure,
           wp_getTrace, wp_expectIf, wp_expect, wp_breakBack, wp_continueBack, wp_breakPush,
           wp_continuePush, wp_pushLoop, wp_popLoop, wp_matchJumps, wp_switchFixup, label, addMatchedJump,
           startDeferred, resumeDeferred, emitDeferred, emitDeref, functionEnd, functionIsCtor, progress,
           noLonger, List.length_tail, Bool.false_eq_true, false_implies, and_true, true_and, implies_true,
           true_implies, le_refl, ne_eq, reduceCtorEq, not_false_eq_true, not_true_eq_false,
           Bool.not_eq_true', Bool.not_true, Bool.not_false, Decidable.not_not, decide_eq_true_eq,
           Bool.true_eq_false, false_and, and_false, not_and, not_or, imp_false] at h ⊢)
    | (refine wp_mono (primaryExpression_wp r n L _ hr hn (by first | omega | (dsimp only; omega) | (simp only [List.length_tail]; omega))) ?_; intro a pe1 h;
       cases a <;> try simp only [wp_bind, wp_getToken, wp_getTokenValue, wp_ite, wp_emit, wp_retireToken, wp_pure,
           wp_getTrace, wp_expectIf, wp_expect, wp_breakBack, wp_continueBack, wp_breakPush,
           wp_continuePush, wp_pushLoop, wp_popLoop, wp_matchJumps, wp_switchFixup, label, addMatchedJump,
           startDeferred, resumeDeferred, emitDeferred, emitDeref, functionEnd, functionIsCtor, progress,
           noLonger, List.length_tail, Bool.false_eq_true, false_implies, and_true, true_and, implies_true,
           true_implies, le_refl, ne_eq, reduceCtorEq, not_false_eq_true, not_true_eq_false,
           Bool.not_eq_true', Bool.not_true, Bool.not_false, Decidable.not_not, decide_eq_true_eq,
           Bool.true_eq_false, false_and, and_false, not_and, not_or, imp_false] at h ⊢)
    | (intro h;
       try (first
         | (have hp := pos_of_current h (by decide))
         | (have hp := pos_of_prefixOp h)
         | (have hp := pos_of_postfixOp h)
         | (rcases h with h | h <;> have hp := pos_of_current h (by decide)));
       try simp only [List.length_tail] at hp)

theorem leftHandSideLoop_wp (P : Parser) (r : Callees) (n L : Nat) (hr : r.Good L)
    (hn : L ≤ n) :
    ∀ (k : Nat) (objectReg : Int) (pe : ParseEngine), pe.tokens.length ≤ L →
      pe.tokens.length < k → wp (leftHandSideLoop P r n k objectReg) pe (noLonger pe) := by
  intro k
  induction k with
  | zero => intro _ pe _ h; omega
  | succ k ih =>
    intro objectReg pe hpe hk
    unfold leftHandSideLoop
    simp only [wp_bind, wp_getToken, wp_getTokenValue, wp_ite, wp_emit, wp_retireToken, wp_pure,
      wp_getTrace, wp_expectIf, wp_expect, wp_breakBack, wp_continueBack, wp_breakPush,
      wp_continuePush, wp_pushLoop, wp_popLoop, wp_matchJumps, wp_switchFixup, label,
      addMatchedJump, startDeferred, resumeDeferred, emitDeferred, emitDeref, functionEnd,
      functionIsCtor, progress, noLonger, List.length_tail, Bool.false_eq_true, false_implies,
      and_true, true_and, implies_true, true_implies, le_refl, ne_eq, reduceCtorEq,
      not_false_eq_true, not_true_eq_false, Bool.not_eq_true', Bool.not_true, Bool.not_false,
      Decidable.not_not, decide_eq_true_eq, Bool.true_eq_false, false_and, and_false, not_and,
      not_or, imp_false]
    repeat' first
      | omega
      | apply And.intro
      | (refine wp_mono (hr.expression _ _ (by first | omega | (dsimp only; omega) | (simp only [List.length_tail]; omega))) ?_; intro a pe1 h;
         cases a <;> try simp only [wp_bind, wp_getToken, wp_getTokenValue, wp_ite, wp_emit, wp_retireToken, wp_pure,
             wp_getTrace, wp_expectIf, wp_expect, wp_breakBack, wp_continueBack, wp_breakPush,
             wp_continuePush, wp_pushLoop, wp_popLoop, wp_matchJumps, wp_switchFixup, label, addMatchedJump,
             startDeferred, resumeDeferred, emitDeferred, emitDeref, functionEnd, functionIsCtor, progress,
             noLonger, List.length_tail, Bool.false_eq_true, false_implies, and_true, true_and, implies_true,
             true_implies, le_refl, ne_eq, reduceCtorEq, not_false_eq_true, not_true_eq_false,
             Bool.not_eq_true', Bool.not_true, Bool.not_false, Decidable.not_not, decide_eq_true_eq,
             Bool.true_eq_false, false_and, and_false, not_and, not_or, imp_false] at h ⊢)
      | (refine wp_mono (argumentList_wp r n L _ hr hn (by first | omega | (dsimp only; omega) | (simp only [List.length_tail]; omega))) ?_; intro a pe1 h;
         try simp only [wp_bind, wp_getToken, wp_getTokenValue, wp_ite, wp_emit, wp_retireToken, wp_pure,
             wp_getTrace, wp_expectIf, wp_expect, wp_breakBack, wp_continueBack, wp_breakPush,
             wp_continuePush, wp_pushLoop, wp_popLoop, wp_matchJumps, wp_switchFixup, label, addMatchedJump,
             startDeferred, resumeDeferred, emitDeferred, emitDeref, functionEnd, functionIsCtor, progress,
             noLonger, List.length_tail, Bool.false_eq_true, false_implies, and_true, true_and, implies_true,
             true_implies, le_refl, ne_eq, reduceCtorEq, not_false_eq_true, not_true_eq_false,
             Bool.not_eq_true', Bool.not_true, Bool.not_false, Decidable.not_not, decide_eq_true_eq,
             Bool.true_eq_false, false_and, and_false, not_and, not_or, imp_false] at h ⊢)
      | (refine wp_mono (ih _ _ (by first | omega | (dsimp only; omega) | (simp only [List.length_tail]; omega)) (by first | omega | (dsimp only; omega) | (simp only [List.length_tail]; omega))) ?_; intro a pe1 h;
         try simp only [wp_bind, wp_getToken, wp_getTokenValue, wp_ite, wp_emit, wp_retireToken, wp_pure,
             wp_getTrace, wp_expectIf, wp_expect, wp_breakBack, wp_continueBack, wp_breakPush,
             wp_continuePush, wp_pushLoop, wp_popLoop, wp_matchJumps, wp_switchFixup, label, addMatchedJump,
             startDeferred, resumeDeferred, emitDeferred, emitDeref, functionEnd, functionIsCtor, progress,
             noLonger, List.length_tail, Bool.false_eq_true, false_implies, and_true, true_and, implies_true,
             true_implies, le_refl, ne_eq, reduceCtorEq, not_false_eq_true, not_true_eq_false,
             Bool.not_eq_true', Bool.not_true, Bool.not_false, Decidable.not_not, decide_eq_true_eq,
             Bool.true_eq_false, false_and, and_false, not_and, not_or, imp_false] at h ⊢)
      | (intro h;
         try (first
           | (have hp := pos_of_current h (by decide))
           | (have hp := pos_of_prefixOp h)
           | (have hp := pos_of_postfixOp h)
           | (rcases h with h | h <;> have hp := pos_of_current h (by decide)));
         try simp only [List.length_tail] at hp)

theorem leftHandSideExpression_wp (P : Parser) (r : Callees) (n L : Nat) (pe : ParseEngine)
    (hr : r.Good L) (hn : L ≤ n) (hpe : pe.tokens.length ≤ L) :
    wp (leftHandSideExpression P r n) pe (progress pe) := by
  unfold leftHandSideExpression
  simp only [wp_bind, wp_getToken, wp_getTokenValue, wp_ite, wp_emit, wp_retireToken, wp_pure,
    wp_getTrace, wp_expectIf, wp_expect, wp_breakBack, wp_continueBack, wp_breakPush,
    wp_continuePush, wp_pushLoop, wp_popLoop, wp_matchJumps, wp_switchFixup, label,
    addMatchedJump, startDeferred, resumeDeferred, emitDeferred, emitDeref, functionEnd,
    functionIsCtor, progress, noLonger, List.length_tail, Bool.false_eq_true, false_implies,
    and_true, true_and, implies_true, true_implies, le_refl, ne_eq, reduceCtorEq,
    not_false_eq_true, not_true_eq_false, Bool.not_eq_true', Bool.not_true, Bool.not_false,
    Decidable.not_not, decide_eq_true_eq, Bool.true_eq_false, false_and, and_false, not_and,
    not_or, imp_false]
  repeat' first
    | omega
    | apply And.intro
    | (refine wp_mono (memberExpression_wp P r n L _ hr hn (by first | omega | (dsimp only; omega) | (simp only [List.length_tail]; omega))) ?_; intro a pe1 h;
       cases a <;> try simp only [wp_bind, wp_getToken, wp_getTokenValue, wp_ite, wp_emit, wp_retireToken, wp_pure,
           wp_getTrace, wp_expectIf, wp_expect, wp_breakBack, wp_continueBack, wp_breakPush,
           wp_continuePush, wp_pushLoop, wp_popLoop, wp_matchJumps, wp_switchFixup, label, addMatchedJump,
           startDeferred, resumeDeferred, emitDeferred, emitDeref, functionEnd, functionIsCtor, progress,
           noLonger, List.length_tail, Bool.false_eq_true, false_implies, and_true, true_and, implies_true,
           true_implies, le_refl, ne_eq, reduceCtorEq, not_false_eq_true, not_true_eq_false,
           Bool.not_eq_true', Bool.not_true, Bool.not_false, Decidable.not_not, decide_eq_true_eq,
           Bool.true_eq_false, false_and, and_false, not_and, not_or, imp_false] at h ⊢)
    | (refine wp_mono (leftHandSideLoop_wp P r n L hr hn n _ _ (by first | omega | (dsimp only; omega) | (simp only [List.length_tail]; omega)) (by first | omega | (dsimp only; omega) | (simp only [List.length_tail]; omega))) ?_; intro a pe1 h;
       try simp only [wp_bind, wp_getToken, wp_getTokenValue, wp_ite, wp_emit, wp_retireToken, wp_pure,
           wp_getTrace, wp_expectIf, wp_expect, wp_breakBack, wp_continueBack, wp_breakPush,
           wp_continuePush, wp_pushLoop, wp_popLoop, wp_matchJumps, wp_switchFixup, label, addMatchedJump,
           startDeferred, resumeDeferred, emitDeferred, emitDeref, functionEnd, functionIsCtor, progress,
           noLonger, List.length_tail, Bool.false_eq_true, false_implies, and_true, true_and, implies_true,
           true_implies, le_refl, ne_eq, reduceCtorEq, not_false_eq_true, not_true_eq_false,
           Bool.not_eq_true', Bool.not_true, Bool.not_false, Decidable.not_not, decide_eq_true_eq,
           Bool.true_eq_false, false_and, and_false, not_and, not_or, imp_false] at h ⊢)
    | (intro h;
       try (first
         | (have hp := pos_of_current h (by decide))
         | (have hp := pos_of_prefixOp h)
         | (have hp := pos_of_postfixOp h)
         | (rcases h with h | h <;> have hp := pos_of_current h (by decide)));
       try simp only [List.length_tail] at hp)

theorem arithmeticPrimary_wp (P : Parser) (r : Callees) (n L : Nat) (pe : ParseEngine)
    (hr : r.Good L) (hn : L ≤ n) (hpe : pe.tokens.length ≤ L) :
    wp (arithmeticPrimary P r n) pe (progress pe) := by
  unfold arithmeticPrimary
  simp only [wp_bind, wp_getToken, wp_getTokenValue, wp_ite, wp_emit, wp_retireToken, wp_pure,
    wp_getTrace, wp_expectIf, wp_expect, wp_breakBack, wp_continueBack, wp_breakPush,
    wp_continuePush, wp_pushLoop, wp_popLoop, wp_matchJumps, wp_switchFixup, label,
    addMatchedJump, startDeferred, resumeDeferred, emitDeferred, emitDeref, functionEnd,
    functionIsCtor, progress, noLonger, List.length_tail, Bool.false_eq_true, false_implies,
    and_true, true_and, implies_true, true_implies, le_refl, ne_eq, reduceCtorEq,
    not_false_eq_true, not_true_eq_false, Bool.not_eq_true', Bool.not_true, Bool.not_false,
    Decidable.not_not, decide_eq_true_eq, Bool.true_eq_false, false_and, and_false, not_and,
    not_or, imp_false]
  repeat' first
    | omega
    | apply And.intro
    | (refine wp_mono (hr.expression _ _ (by first | omega | (dsimp only; omega) | (simp only [List.length_tail]; omega))) ?_; intro a pe1 h;
       cases a <;> try simp only [wp_bind, wp_getToken, wp_getTokenValue, wp_ite, wp_emit, wp_retireToken, wp_pure,
           wp_getTrace, wp_expectIf, wp_expect, wp_breakBack, wp_continueBack, wp_breakPush,
           wp_continuePush, wp_pushLoop, wp_popLoop, wp_matchJumps, wp_switchFixup, label, addMatchedJump,
           startDeferred, resumeDeferred, emitDeferred, emitDeref, functionEnd, functionIsCtor, progress,
           noLonger, List.length_tail, Bool.false_eq_true, false_implies, and_true, true_and, implies_true,
           true_implies, le_refl, ne_eq, reduceCtorEq, not_false_eq_true, not_true_eq_false,
           Bool.not_eq_true', Bool.not_true, Bool.not_false, Decidable.not_not, decide_eq_true_eq,
           Bool.true_eq_false, false_and, and_false, not_and, not_or, imp_false] at h ⊢)
    | (refine wp_mono (hr.arithmeticPrimary _ (by first | omega | (dsimp only; omega) | (simp only [List.length_tail]; omega))) ?_; intro a pe1 h;
       cases a <;> try simp only [wp_bind, wp_getToken, wp_getTokenValue, wp_ite, wp_emit, wp_retireToken, wp_pure,
           wp_getTrace, wp_expectIf, wp_expect, wp_breakBack, wp_continueBack, wp_breakPush,
           wp_continuePush, wp_pushLoop, wp_popLoop, wp_matchJumps, wp_switchFixup, label, addMatchedJump,
           startDeferred, resumeDeferred, emitDeferred, emitDeref, functionEnd, functionIsCtor, progress,
           noLonger, List.length_tail, Bool.false_eq_true, false_implies, and_true, true_and, implies_true,
           true_implies, le_refl, ne_eq, reduceCtorEq, not_false_eq_true, not_true_eq_false,
           Bool.not_eq_true', Bool.not_true, Bool.not_false, Decidable.not_not, decide_eq_true_eq,
           Bool.true_eq_false, false_and, and_false, not_and, not_or, imp_false] at h ⊢)
    | (refine wp_mono (leftHandSideExpression_wp P r n L _ hr hn (by first | omega | (dsimp only; omega) | (simp only [List.length_tail]; omega))) ?_; intro a pe1 h;
       cases a <;> try simp only [wp_bind, wp_getToken, wp_getTokenValue, wp_ite, wp_emit, wp_retireToken, wp_pure,
           wp_getTrace, wp_expectIf, wp_expect, wp_breakBack, wp_continueBack, wp_breakPush,
           wp_continuePush, wp_pushLoop, wp_popLoop, wp_matchJumps, wp_switchFixup, label, addMatchedJump,
           startDeferred, resumeDeferred, emitDeferred, emitDeref, functionEnd, functionIsCtor, progress,
           noLonger, List.length_tail, Bool.false_eq_true, false_implies, and_true, true_and, implies_true,
           true_implies, le_refl, ne_eq, reduceCtorEq, not_false_eq_true, not_true_eq_false,
           Bool.not_eq_true', Bool.not_true, Bool.not_false, Decidable.not_not, decide_eq_true_eq,
           Bool.true_eq_false, false_and, and_false, not_and, not_or, imp_false] at h ⊢)
    | (intro h;
       try (first
         | (have hp := pos_of_current h (by decide))
         | (have hp := pos_of_prefixOp h)
         | (have hp := pos_of_postfixOp h)
         | (rcases h with h | h <;> have hp := pos_of_current h (by decide)));
       try simp only [List.length_tail] at hp)

theorem expressionLoop_wp (P : Parser) (r : Callees) (minPrec L : Nat) (hr : r.Good L) :
    ∀ (k : Nat) (pe : ParseEngine), pe.tokens.length ≤ L → pe.tokens.length < k →
      wp (expressionLoop P r minPrec k) pe (noLonger pe) := by
  intro k
  induction k with
  | zero => intro pe _ h; omega
  | succ k ih =>
    intro pe hpe hk
    unfold expressionLoop
    simp only [wp_bind, wp_getToken]
    cases hf : findOpInfo (current pe) with
    | none => simp only [wp_pure, noLonger, le_refl]
    | some it =>
      have hp := pos_of_findOpInfo hf
      simp only [wp_bind, wp_getToken, wp_getTokenValue, wp_ite, wp_emit, wp_retireToken,
        wp_pure, wp_getTrace, wp_expectIf, wp_expect, wp_breakBack, wp_continueBack, wp_breakPush,
        wp_continuePush, wp_pushLoop, wp_popLoop, wp_matchJumps, wp_switchFixup, label,
        addMatchedJump, startDeferred, resumeDeferred, emitDeferred, emitDeref, functionEnd,
        functionIsCtor, progress, noLonger, List.length_tail, Bool.false_eq_true, false_implies,
        and_true, true_and, implies_true, true_implies, le_refl, ne_eq, reduceCtorEq,
        not_false_eq_true, not_true_eq_false, Bool.not_eq_true', Bool.not_true, Bool.not_false,
        Decidable.not_not, decide_eq_true_eq, Bool.true_eq_false, false_and, and_false, not_and,
        not_or, imp_false]
      repeat' first
        | omega
        | apply And.intro
        | (refine wp_mono (hr.expression _ _ (by first | omega | (dsimp only; omega) | (simp only [List.length_tail]; omega))) ?_; intro a pe1 h;
           cases a <;> try simp only [wp_bind, wp_getToken, wp_getTokenValue, wp_ite, wp_emit, wp_retireToken, wp_pure,
               wp_getTrace, wp_expectIf, wp_expect, wp_breakBack, wp_continueBack, wp_breakPush,
               wp_continuePush, wp_pushLoop, wp_popLoop, wp_matchJumps, wp_switchFixup, label, addMatchedJump,
               startDeferred, resumeDeferred, emitDeferred, emitDeref, functionEnd, functionIsCtor, progress,
               noLonger, List.length_tail, Bool.false_eq_true, false_implies, and_true, true_and, implies_true,
               true_implies, le_refl, ne_eq, reduceCtorEq, not_false_eq_true, not_true_eq_false,
               Bool.not_eq_true', Bool.not_true, Bool.not_false, Decidable.not_not, decide_eq_true_eq,
               Bool.true_eq_false, false_and, and_false, not_and, not_or, imp_false] at h ⊢)
        | (refine wp_mono (ih _ (by first | omega | (dsimp only; omega) | (simp only [List.length_tail]; omega)) (by first | omega | (dsimp only; omega) | (simp only [List.length_tail]; omega))) ?_; intro a pe1 h;
           try simp only [wp_bind, wp_getToken, wp_getTokenValue, wp_ite, wp_emit, wp_retireToken, wp_pure,
               wp_getTrace, wp_expectIf, wp_expect, wp_breakBack, wp_continueBack, wp_breakPush,
               wp_continuePush, wp_pushLoop, wp_popLoop, wp_matchJumps, wp_switchFixup, label, addMatchedJump,
               startDeferred, resumeDeferred, emitDeferred, emitDeref, functionEnd, functionIsCtor, progress,
               noLonger, List.length_tail, Bool.false_eq_true, false_implies, and_true, true_and, implies_true,
               true_implies, le_refl, ne_eq, reduceCtorEq, not_false_eq_true, not_true_eq_false,
               Bool.not_eq_true', Bool.not_true, Bool.not_false, Decidable.not_not, decide_eq_true_eq,
               Bool.true_eq_false, false_and, and_false, not_and, not_or, imp_false] at h ⊢)
        | (intro h;
           try (first
             | (have hp := pos_of_current h (by decide))
             | (have hp := pos_of_prefixOp h)
             | (have hp := pos_of_postfixOp h)
             | (rcases h with h | h <;> have hp := pos_of_current h (by decide)));
           try simp only [List.length_tail] at hp)

theorem expression_wp (P : Parser) (r : Callees) (n L minPrec : Nat) (pe : ParseEngine)
    (hr : r.Good L) (hn : L ≤ n) (hpe : pe.tokens.length ≤ L) :
    wp (expression P r n minPrec) pe (progress pe) := by
  unfold expression
  simp only [wp_bind, wp_getToken, wp_getTokenValue, wp_ite, wp_emit, wp_retireToken, wp_pure,
    wp_getTrace, wp_expectIf, wp_expect, wp_breakBack, wp_continueBack, wp_breakPush,
    wp_continuePush, wp_pushLoop, wp_popLoop, wp_matchJumps, wp_switchFixup, label,
    addMatchedJump, startDeferred, resumeDeferred, emitDeferred, emitDeref, functionEnd,
    functionIsCtor, progress, noLonger, List.length_tail, Bool.false_eq_true, false_implies,
    and_true, true_and, implies_true, true_implies, le_refl, ne_eq, reduceCtorEq,
    not_false_eq_true, not_true_eq_false, Bool.not_eq_true', Bool.not_true, Bool.not_false,
    Decidable.not_not, decide_eq_true_eq, Bool.true_eq_false, false_and, and_false, not_and,
    not_or, imp_false]
  repeat' first
    | omega
    | apply And.intro
    | (refine wp_mono (hr.expression _ _ (by first | omega | (dsimp only; omega) | (simp only [List.length_tail]; omega))) ?_; intro a pe1 h;
       cases a <;> try simp only [wp_bind, wp_getToken, wp_getTokenValue, wp_ite, wp_emit, wp_retireToken, wp_pure,
           wp_getTrace, wp_expectIf, wp_expect, wp_breakBack, wp_continueBack, wp_breakPush,
           wp_continuePush, wp_pushLoop, wp_popLoop, wp_matchJumps, wp_switchFixup, label, addMatchedJump,
           startDeferred, resumeDeferred, emitDeferred, emitDeref, functionEnd, functionIsCtor, progress,
           noLonger, List.length_tail, Bool.false_eq_true, false_implies, and_true, true_and, implies_true,
           true_implies, le_refl, ne_eq, reduceCtorEq, not_false_eq_true, not_true_eq_false,
           Bool.not_eq_true', Bool.not_true, Bool.not_false, Decidable.not_not, decide_eq_true_eq,
           Bool.true_eq_false, false_and, and_false, not_and, not_or, imp_false] at h ⊢)
    | (refine wp_mono (arithmeticPrimary_wp P r n L _ hr hn (by first | omega | (dsimp only; omega) | (simp only [List.length_tail]; omega))) ?_; intro a pe1 h;
       cases a <;> try simp only [wp_bind, wp_getToken, wp_getTokenValue, wp_ite, wp_emit, wp_retireToken, wp_pure,
           wp_getTrace, wp_expectIf, wp_expect, wp_breakBack, wp_continueBack, wp_breakPush,
           wp_continuePush, wp_pushLoop, wp_popLoop, wp_matchJumps, wp_switchFixup, label, addMatchedJump,
           startDeferred, resumeDeferred, emitDeferred, emitDeref, functionEnd, functionIsCtor, progress,
           noLonger, List.length_tail, Bool.false_eq_true, false_implies, and_true, true_and, implies_true,
           true_implies, le_refl, ne_eq, reduceCtorEq, not_false_eq_true, not_true_eq_false,
           Bool.not_eq_true', Bool.not_true, Bool.not_false, Decidable.not_not, decide_eq_true_eq,
           Bool.true_eq_false, false_and, and_false, not_and, not_or, imp_false] at h ⊢)
    | (refine wp_mono (expressionLoop_wp P r minPrec L hr n _ (by first | omega | (dsimp only; omega) | (simp only [List.length_tail]; omega)) (by first | omega | (dsimp only; omega) | (simp only [List.length_tail]; omega))) ?_; intro a pe1 h;
       try simp only [wp_bind, wp_getToken, wp_getTokenValue, wp_ite, wp_emit, wp_retireToken, wp_pure,
           wp_getTrace, wp_expectIf, wp_expect, wp_breakBack, wp_continueBack, wp_breakPush,
           wp_continuePush, wp_pushLoop, wp_popLoop, wp_matchJumps, wp_switchFixup, label, addMatchedJump,
           startDeferred, resumeDeferred, emitDeferred, emitDeref, functionEnd, functionIsCtor, progress,
           noLonger, List.length_tail, Bool.false_eq_true, false_implies, and_true, true_and, implies_true,
           true_implies, le_refl, ne_eq, reduceCtorEq, not_false_eq_true, not_true_eq_false,
           Bool.not_eq_true', Bool.not_true, Bool.not_false, Decidable.not_not, decide_eq_true_eq,
           Bool.true_eq_false, false_and, and_false, not_and, not_or, imp_false] at h ⊢)
    | (intro h;
       try (first
         | (have hp := pos_of_current h (by decide))
         | (have hp := pos_of_prefixOp h)
         | (have hp := pos_of_postfixOp h)
         | (rcases h with h | h <;> have hp := pos_of_current h (by decide)));
       try simp only [List.length_tail] at hp)

end M8r.ParseEngine

namespace M8r.ParseEngine

open PE

theorem variableDeclaration_wp (P : Parser) (r : Callees) (n L : Nat) (pe : ParseEngine)
    (hr : r.Good L) (hn : L ≤ n) (hpe : pe.tokens.length ≤ L) :
    wp (variableDeclaration P r n) pe (progress pe) := by
  unfold variableDeclaration
  simp only [wp_bind, wp_getToken, wp_getTokenValue, wp_ite, wp_emit, wp_retireToken, wp_pure,
    wp_getTrace, wp_expectIf, wp_expect, wp_breakBack, wp_continueBack, wp_breakPush,
    wp_continuePush, wp_pushLoop, wp_popLoop, wp_matchJumps, wp_switchFixup, label,
    addMatchedJump, startDeferred, resumeDeferred, emitDeferred, emitDeref, functionEnd,
    functionIsCtor, progress, noLonger, List.length_tail, Bool.false_eq_true, false_implies,
    and_true, true_and, implies_true, true_implies, le_refl, ne_eq, reduceCtorEq,
    not_false_eq_true, not_true_eq_false, Bool.not_eq_true', Bool.not_true, Bool.not_false,
    Decidable.not_not, decide_eq_true_eq, Bool.true_eq_false, false_and, and_false, not_and,
    not_or, imp_false]
  repeat' first
    | omega
    | apply And.intro
    | (refine wp_mono (expression_wp P r n L _ _ hr hn (by first | omega | (dsimp only; omega) | (simp only [List.length_tail]; omega))) ?_; intro a pe1 h;
       cases a <;> try simp only [wp_bind, wp_getToken, wp_getTokenValue, wp_ite, wp_emit, wp_retireToken, wp_pure,
           wp_getTrace, wp_expectIf, wp_expect, wp_breakBack, wp_continueBack, wp_breakPush,
           wp_continuePush, wp_pushLoop, wp_popLoop, wp_matchJumps, wp_switchFixup, label, addMatchedJump,
           startDeferred, resumeDeferred, emitDeferred, emitDeref, functionEnd, functionIsCtor, progress,
           noLonger, List.length_tail, Bool.false_eq_true, false_implies, and_true, true_and, implies_true,
           true_implies, le_refl, ne_eq, reduceCtorEq, not_false_eq_true, not_true_eq_false,
           Bool.not_eq_true', Bool.not_true, Bool.not_false, Decidable.not_not, decide_eq_true_eq,
           Bool.true_eq_false, false_and, and_false, not_and, not_or, imp_false] at h ⊢)
    | (intro h;
       try (first
         | (have hp := pos_of_current h (by decide))
         | (have hp := pos_of_prefixOp h)
         | (have hp := pos_of_postfixOp h)
         | (rcases h with h | h <;> have hp := pos_of_current h (by decide)));
       try simp only [List.length_tail] at hp)

theorem variableDeclarationLoop_wp (P : Parser) (r : Callees) (n L : Nat) (hr : r.Good L)
    (hn : L ≤ n) :
    ∀ (k count : Nat) (pe : ParseEngine), pe.tokens.length ≤ L → pe.tokens.length < k →
      wp (variableDeclarationLoop P r n k count) pe (noLonger pe) := by
  intro k
  induction k with
  | zero => intro _ pe _ h; omega
  | succ k ih =>
    intro count pe hpe hk
    unfold variableDeclarationLoop
    simp only [wp_bind, wp_getToken, wp_getTokenValue, wp_ite, wp_emit, wp_retireToken, wp_pure,
      wp_getTrace, wp_expectIf, wp_expect, wp_breakBack, wp_continueBack, wp_breakPush,
      wp_continuePush, wp_pushLoop, wp_popLoop, wp_matchJumps, wp_switchFixup, label,
      addMatchedJump, startDeferred, resumeDeferred, emitDeferred, emitDeref, functionEnd,
      functionIsCtor, progress, noLonger, List.length_tail, Bool.false_eq_true, false_implies,
      and_true, true_and, implies_true, true_implies, le_refl, ne_eq, reduceCtorEq,
      not_false_eq_true, not_true_eq_false, Bool.not_eq_true', Bool.not_true, Bool.not_false,
      Decidable.not_not, decide_eq_true_eq, Bool.true_eq_false, false_and, and_false, not_and,
      not_or, imp_false]
    repeat' first
      | omega
      | apply And.intro
      | (refine wp_mono (variableDeclaration_wp P r n L _ hr hn (by first | omega | (dsimp only; omega) | (simp only [List.length_tail]; omega))) ?_; intro a pe1 h;
         cases a <;> try simp only [wp_bind, wp_getToken, wp_getTokenValue, wp_ite, wp_emit, wp_retireToken, wp_pure,
             wp_getTrace, wp_expectIf, wp_expect, wp_breakBack, wp_continueBack, wp_breakPush,
             wp_continuePush, wp_pushLoop, wp_popLoop, wp_matchJumps, wp_switchFixup, label, addMatchedJump,
             startDeferred, resumeDeferred, emitDeferred, emitDeref, functionEnd, functionIsCtor, progress,
             noLonger, List.length_tail, Bool.false_eq_true, false_implies, and_true, true_and, implies_true,
             true_implies, le_refl, ne_eq, reduceCtorEq, not_false_eq_true, not_true_eq_false,
             Bool.not_eq_true', Bool.not_true, Bool.not_false, Decidable.not_not, decide_eq_true_eq,
             Bool.true_eq_false, false_and, and_false, not_and, not_or, imp_false] at h ⊢)
      | (refine wp_mono (ih _ _ (by first | omega | (dsimp only; omega) | (simp only [List.length_tail]; omega)) (by first | omega | (dsimp only; omega) | (simp only [List.length_tail]; omega))) ?_; intro a pe1 h;
         try simp only [wp_bind, wp_getToken, wp_getTokenValue, wp_ite, wp_emit, wp_retireToken, wp_pure,
             wp_getTrace, wp_expectIf, wp_expect, wp_breakBack, wp_continueBack, wp_breakPush,
             wp_continuePush, wp_pushLoop, wp_popLoop, wp_matchJumps, wp_switchFixup, label, addMatchedJump,
             startDeferred, resumeDeferred, emitDeferred, emitDeref, functionEnd, functionIsCtor, progress,
             noLonger, List.length_tail, Bool.false_eq_true, false_implies, and_true, true_and, implies_true,
             true_implies, le_refl, ne_eq, reduceCtorEq, not_false_eq_true, not_true_eq_false,
             Bool.not_eq_true', Bool.not_true, Bool.not_false, Decidable.not_not, decide_eq_true_eq,
             Bool.true_eq_false, false_and, and_false, not_and, not_or, imp_false] at h ⊢)
      | (intro h;
         try (first
           | (have hp := pos_of_current h (by decide))
           | (have hp := pos_of_prefixOp h)
           | (have hp := pos_of_postfixOp h)
           | (rcases h with h | h <;> have hp := pos_of_current h (by decide)));
         try simp only [List.length_tail] at hp)

theorem variableDeclarationList_wp (P : Parser) (r : Callees) (n L : Nat) (pe : ParseEngine)
    (hr : r.Good L) (hn : L ≤ n) (hpe : pe.tokens.length < L) :
    wp (variableDeclarationList P r n) pe (noLonger pe) :=
  variableDeclarationLoop_wp P r n L hr hn n 0 pe (by omega) (by omega)

theorem jumpStatement_wp (P : Parser) (r : Callees) (n L : Nat) (pe : ParseEngine)
    (hr : r.Good L) (hn : L ≤ n) (hpe : pe.tokens.length ≤ L) :
    wp (jumpStatement P r n) pe (progress pe) := by
  unfold jumpStatement
  simp only [wp_bind, wp_getToken, wp_getTokenValue, wp_ite, wp_emit, wp_retireToken, wp_pure,
    wp_getTrace, wp_expectIf, wp_expect, wp_breakBack, wp_continueBack, wp_breakPush,
    wp_continuePush, wp_pushLoop, wp_popLoop, wp_matchJumps, wp_switchFixup, label,
    addMatchedJump, startDeferred, resumeDeferred, emitDeferred, emitDeref, functionEnd,
    functionIsCtor, progress, noLonger, List.length_tail, Bool.false_eq_true, false_implies,
    and_true, true_and, implies_true, true_implies, le_refl, ne_eq, reduceCtorEq,
    not_false_eq_true, not_true_eq_false, Bool.not_eq_true', Bool.not_true, Bool.not_false,
    Decidable.not_not, decide_eq_true_eq, Bool.true_eq_false, false_and, and_false, not_and,
    not_or, imp_false]
  repeat' first
    | omega
    | apply And.intro
    | (refine wp_mono (expression_wp P r n L _ _ hr hn (by first | omega | (dsimp only; omega) | (simp only [List.length_tail]; omega))) ?_; intro a pe1 h;
       cases a <;> try simp only [wp_bind, wp_getToken, wp_getTokenValue, wp_ite, wp_emit, wp_retireToken, wp_pure,
           wp_getTrace, wp_expectIf, wp_expect, wp_breakBack, wp_continueBack, wp_breakPush,
           wp_continuePush, wp_pushLoop, wp_popLoop, wp_matchJumps, wp_switchFixup, label, addMatchedJump,
           startDeferred, resumeDeferred, emitDeferred, emitDeref, functionEnd, functionIsCtor, progress,
           noLonger, List.length_tail, Bool.false_eq_true, false_implies, and_true, true_and, implies_true,
           true_implies, le_refl, ne_eq, reduceCtorEq, not_false_eq_true, not_true_eq_false,
           Bool.not_eq_true', Bool.not_true, Bool.not_false, Decidable.not_not, decide_eq_true_eq,
           Bool.true_eq_false, false_and, and_false, not_and, not_or, imp_false] at h ⊢)
    | (intro h;
       try (first
         | (have hp := pos_of_current h (by decide))
         | (have hp := pos_of_prefixOp h)
         | (have hp := pos_of_postfixOp h)
         | (rcases h with h | h <;> have hp := pos_of_current h (by decide)));
       try simp only [List.length_tail] at hp)

theorem forLoopCondAndIt_wp (P : Parser) (r : Callees) (n L : Nat) (pe : ParseEngine)
    (hr : r.Good L) (hn : L ≤ n) (hpe : pe.tokens.length < L) :
    wp (forLoopCondAndIt P r n) pe (noLonger pe) := by
  unfold forLoopCondAndIt
  simp only [wp_bind, wp_getToken, wp_getTokenValue, wp_ite, wp_emit, wp_retireToken, wp_pure,
    wp_getTrace, wp_expectIf, wp_expect, wp_breakBack, wp_continueBack, wp_breakPush,
    wp_continuePush, wp_pushLoop, wp_popLoop, wp_matchJumps, wp_switchFixup, label,
    addMatchedJump, startDeferred, resumeDeferred, emitDeferred, emitDeref, functionEnd,
    functionIsCtor, progress, noLonger, List.length_tail, Bool.false_eq_true, false_implies,
    and_true, true_and, implies_true, true_implies, le_refl, ne_eq, reduceCtorEq,
    not_false_eq_true, not_true_eq_false, Bool.not_eq_true', Bool.not_true, Bool.not_false,
    Decidable.not_not, decide_eq_true_eq, Bool.true_eq_false, false_and, and_false, not_and,
    not_or, imp_false]
  repeat' first
    | omega
    | apply And.intro
    | (refine wp_mono (hr.statement _ (by first | omega | (dsimp only; omega) | (simp only [List.length_tail]; omega))) ?_; intro a pe1 h;
       cases a <;> try simp only [wp_bind, wp_getToken, wp_getTokenValue, wp_ite, wp_emit, wp_retireToken, wp_pure,
           wp_getTrace, wp_expectIf, wp_expect, wp_breakBack, wp_continueBack, wp_breakPush,
           wp_continuePush, wp_pushLoop, wp_popLoop, wp_matchJumps, wp_switchFixup, label, addMatchedJump,
           startDeferred, resumeDeferred, emitDeferred, emitDeref, functionEnd, functionIsCtor, progress,
           noLonger, List.length_tail, Bool.false_eq_true, false_implies, and_true, true_and, implies_true,
           true_implies, le_refl, ne_eq, reduceCtorEq, not_false_eq_true, not_true_eq_false,
           Bool.not_eq_true', Bool.not_true, Bool.not_false, Decidable.not_not, decide_eq_true_eq,
           Bool.true_eq_false, false_and, and_false, not_and, not_or, imp_false] at h ⊢)
    | (refine wp_mono (expression_wp P r n L _ _ hr hn (by first | omega | (dsimp only; omega) | (simp only [List.length_tail]; omega))) ?_; intro a pe1 h;
       cases a <;> try simp only [wp_bind, wp_getToken, wp_getTokenValue, wp_ite, wp_emit, wp_retireToken, wp_pure,
           wp_getTrace, wp_expectIf, wp_expect, wp_breakBack, wp_continueBack, wp_breakPush,
           wp_continuePush, wp_pushLoop, wp_popLoop, wp_matchJumps, wp_switchFixup, label, addMatchedJump,
           startDeferred, resumeDeferred, emitDeferred, emitDeref, functionEnd, functionIsCtor, progress,
           noLonger, List.length_tail, Bool.false_eq_true, false_implies, and_true, true_and, implies_true,
           true_implies, le_refl, ne_eq, reduceCtorEq, not_false_eq_true, not_true_eq_false,
           Bool.not_eq_true', Bool.not_true, Bool.not_false, Decidable.not_not, decide_eq_true_eq,
           Bool.true_eq_false, false_and, and_false, not_and, not_or, imp_false] at h ⊢)
    | (intro h;
       try (first
         | (have hp := pos_of_current h (by decide))
         | (have hp := pos_of_prefixOp h)
         | (have hp := pos_of_postfixOp h)
         | (rcases h with h | h <;> have hp := pos_of_current h (by decide)));
       try simp only [List.length_tail] at hp)

theorem forIteration_wp (P : Parser) (r : Callees) (n L : Nat) (iteratorName : Atom)
    (pe : ParseEngine) (hr : r.Good L) (hn : L ≤ n) (hpe : pe.tokens.length < L) :
    wp (forIteration P r n iteratorName) pe (noLonger pe) := by
  unfold forIteration
  simp only [wp_bind, wp_getToken, wp_getTokenValue, wp_ite, wp_emit, wp_retireToken, wp_pure,
    wp_getTrace, wp_expectIf, wp_expect, wp_breakBack, wp_continueBack, wp_breakPush,
    wp_continuePush, wp_pushLoop, wp_popLoop, wp_matchJumps, wp_switchFixup, label,
    addMatchedJump, startDeferred, resumeDeferred, emitDeferred, emitDeref, functionEnd,
    functionIsCtor, progress, noLonger, List.length_tail, Bool.false_eq_true, false_implies,
    and_true, true_and, implies_true, true_implies, le_refl, ne_eq, reduceCtorEq,
    not_false_eq_true, not_true_eq_false, Bool.not_eq_true', Bool.not_true, Bool.not_false,
    Decidable.not_not, decide_eq_true_eq, Bool.true_eq_false, false_and, and_false, not_and,
    not_or, imp_false]
  repeat' first
    | omega
    | apply And.intro
    | (refine wp_mono (hr.statement _ (by first | omega | (dsimp only; omega) | (simp only [List.length_tail]; omega))) ?_; intro a pe1 h;
       cases a <;> try simp only [wp_bind, wp_getToken, wp_getTokenValue, wp_ite, wp_emit, wp_retireToken, wp_pure,
           wp_getTrace, wp_expectIf, wp_expect, wp_breakBack, wp_continueBack, wp_breakPush,
           wp_continuePush, wp_pushLoop, wp_popLoop, wp_matchJumps, wp_switchFixup, label, addMatchedJump,
           startDeferred, resumeDeferred, emitDeferred, emitDeref, functionEnd, functionIsCtor, progress,
           noLonger, List.length_tail, Bool.false_eq_true, false_implies, and_true, true_and, implies_true,
           true_implies, le_refl, ne_eq, reduceCtorEq, not_false_eq_true, not_true_eq_false,
           Bool.not_eq_true', Bool.not_true, Bool.not_false, Decidable.not_not, decide_eq_true_eq,
           Bool.true_eq_false, false_and, and_false, not_and, not_or, imp_false] at h ⊢)
    | (refine wp_mono (leftHandSideExpression_wp P r n L _ hr hn (by first | omega | (dsimp only; omega) | (simp only [List.length_tail]; omega))) ?_; intro a pe1 h;
       cases a <;> try simp only [wp_bind, wp_getToken, wp_getTokenValue, wp_ite, wp_emit, wp_retireToken, wp_pure,
           wp_getTrace, wp_expectIf, wp_expect, wp_breakBack, wp_continueBack, wp_breakPush,
           wp_continuePush, wp_pushLoop, wp_popLoop, wp_matchJumps, wp_switchFixup, label, addMatchedJump,
           startDeferred, resumeDeferred, emitDeferred, emitDeref, functionEnd, functionIsCtor, progress,
           noLonger, List.length_tail, Bool.false_eq_true, false_implies, and_true, true_and, implies_true,
           true_implies, le_refl, ne_eq, reduceCtorEq, not_false_eq_true, not_true_eq_false,
           Bool.not_eq_true', Bool.not_true, Bool.not_false, Decidable.not_not, decide_eq_true_eq,
           Bool.true_eq_false, false_and, and_false, not_and, not_or, imp_false] at h ⊢)
    | (intro h;
       try (first
         | (have hp := pos_of_current h (by decide))
         | (have hp := pos_of_prefixOp h)
         | (have hp := pos_of_postfixOp h)
         | (rcases h with h | h <;> have hp := pos_of_current h (by decide)));
       try simp only [List.length_tail] at hp)

theorem iterationBody_wp (P : Parser) (r : Callees) (n L : Nat) (type : Token)
    (pe : ParseEngine) (hr : r.Good L) (hn : L ≤ n) (hpe : pe.tokens.length < L) :
    wp (iterationBody P r n type) pe (noLonger pe) := by
  unfold iterationBody
  simp only [wp_bind, wp_getToken, wp_getTokenValue, wp_ite, wp_emit, wp_retireToken, wp_pure,
    wp_getTrace, wp_expectIf, wp_expect, wp_breakBack, wp_continueBack, wp_breakPush,
    wp_continuePush, wp_pushLoop, wp_popLoop, wp_matchJumps, wp_switchFixup, label,
    addMatchedJump, startDeferred, resumeDeferred, emitDeferred, emitDeref, functionEnd,
    functionIsCtor, progress, noLonger, List.length_tail, Bool.false_eq_true, false_implies,
    and_true, true_and, implies_true, true_implies, le_refl, ne_eq, reduceCtorEq,
    not_false_eq_true, not_true_eq_false, Bool.not_eq_true', Bool.not_true, Bool.not_false,
    Decidable.not_not, decide_eq_true_eq, Bool.true_eq_false, false_and, and_false, not_and,
    not_or, imp_false]
  repeat' first
    | omega
    | apply And.intro
    | (refine wp_mono (hr.statement _ (by first | omega | (dsimp only; omega) | (simp only [List.length_tail]; omega))) ?_; intro a pe1 h;
       cases a <;> try simp only [wp_bind, wp_getToken, wp_getTokenValue, wp_ite, wp_emit, wp_retireToken, wp_pure,
           wp_getTrace, wp_expectIf, wp_expect, wp_breakBack, wp_continueBack, wp_breakPush,
           wp_continuePush, wp_pushLoop, wp_popLoop, wp_matchJumps, wp_switchFixup, label, addMatchedJump,
           startDeferred, resumeDeferred, emitDeferred, emitDeref, functionEnd, functionIsCtor, progress,
           noLonger, List.length_tail, Bool.false_eq_true, false_implies, and_true, true_and, implies_true,
           true_implies, le_refl, ne_eq, reduceCtorEq, not_false_eq_true, not_true_eq_false,
           Bool.not_eq_true', Bool.not_true, Bool.not_false, Decidable.not_not, decide_eq_true_eq,
           Bool.true_eq_false, false_and, and_false, not_and, not_or, imp_false] at h ⊢)
    | (refine wp_mono (expression_wp P r n L _ _ hr hn (by first | omega | (dsimp only; omega) | (simp only [List.length_tail]; omega))) ?_; intro a pe1 h;
       cases a <;> try simp only [wp_bind, wp_getToken, wp_getTokenValue, wp_ite, wp_emit, wp_retireToken, wp_pure,
           wp_getTrace, wp_expectIf, wp_expect, wp_breakBack, wp_continueBack, wp_breakPush,
           wp_continuePush, wp_pushLoop, wp_popLoop, wp_matchJumps, wp_switchFixup, label, addMatchedJump,
           startDeferred, resumeDeferred, emitDeferred, emitDeref, functionEnd, functionIsCtor, progress,
           noLonger, List.length_tail, Bool.false_eq_true, false_implies, and_true, true_and, implies_true,
           true_implies, le_refl, ne_eq, reduceCtorEq, not_false_eq_true, not_true_eq_false,
           Bool.not_eq_true', Bool.not_true, Bool.not_false, Decidable.not_not, decide_eq_true_eq,
           Bool.true_eq_false, false_and, and_false, not_and, not_or, imp_false] at h ⊢)
    | (refine wp_mono (variableDeclarationList_wp P r n L _ hr hn (by first | omega | (dsimp only; omega) | (simp only [List.length_tail]; omega))) ?_; intro a pe1 h;
       try simp only [wp_bind, wp_getToken, wp_getTokenValue, wp_ite, wp_emit, wp_retireToken, wp_pure,
           wp_getTrace, wp_expectIf, wp_expect, wp_breakBack, wp_continueBack, wp_breakPush,
           wp_continuePush, wp_pushLoop, wp_popLoop, wp_matchJumps, wp_switchFixup, label, addMatchedJump,
           startDeferred, resumeDeferred, emitDeferred, emitDeref, functionEnd, functionIsCtor, progress,
           noLonger, List.length_tail, Bool.false_eq_true, false_implies, and_true, true_and, implies_true,
           true_implies, le_refl, ne_eq, reduceCtorEq, not_false_eq_true, not_true_eq_false,
           Bool.not_eq_true', Bool.not_true, Bool.not_false, Decidable.not_not, decide_eq_true_eq,
           Bool.true_eq_false, false_and, and_false, not_and, not_or, imp_false] at h ⊢)
    | (refine wp_mono (forIteration_wp P r n L _ _ hr hn (by first | omega | (dsimp only; omega) | (simp only [List.length_tail]; omega))) ?_; intro a pe1 h;
       try simp only [wp_bind, wp_getToken, wp_getTokenValue, wp_ite, wp_emit, wp_retireToken, wp_pure,
           wp_getTrace, wp_expectIf, wp_expect, wp_breakBack, wp_continueBack, wp_breakPush,
           wp_continuePush, wp_pushLoop, wp_popLoop, wp_matchJumps, wp_switchFixup, label, addMatchedJump,
           startDeferred, resumeDeferred, emitDeferred, emitDeref, functionEnd, functionIsCtor, progress,
           noLonger, List.length_tail, Bool.false_eq_true, false_implies, and_true, true_and, implies_true,
           true_implies, le_refl, ne_eq, reduceCtorEq, not_false_eq_true, not_true_eq_false,
           Bool.not_eq_true', Bool.not_true, Bool.not_false, Decidable.not_not, decide_eq_true_eq,
           Bool.true_eq_false, false_and, and_false, not_and, not_or, imp_false] at h ⊢)
    | (refine wp_mono (forLoopCondAndIt_wp P r n L _ hr hn (by first | omega | (dsimp only; omega) | (simp only [List.length_tail]; omega))) ?_; intro a pe1 h;
       try simp only [wp_bind, wp_getToken, wp_getTokenValue, wp_ite, wp_emit, wp_retireToken, wp_pure,
           wp_getTrace, wp_expectIf, wp_expect, wp_breakBack, wp_continueBack, wp_breakPush,
           wp_continuePush, wp_pushLoop, wp_popLoop, wp_matchJumps, wp_switchFixup, label, addMatchedJump,
           startDeferred, resumeDeferred, emitDeferred, emitDeref, functionEnd, functionIsCtor, progress,
           noLonger, List.length_tail, Bool.false_eq_true, false_implies, and_true, true_and, implies_true,
           true_implies, le_refl, ne_eq, reduceCtorEq, not_false_eq_true, not_true_eq_false,
           Bool.not_eq_true', Bool.not_true, Bool.not_false, Decidable.not_not, decide_eq_true_eq,
           Bool.true_eq_false, false_and, and_false, not_and, not_or, imp_false] at h ⊢)
    | (intro h;
       try (first
         | (have hp := pos_of_current h (by decide))
         | (have hp := pos_of_prefixOp h)
         | (have hp := pos_of_postfixOp h)
         | (rcases h with h | h <;> have hp := pos_of_current h (by decide)));
       try simp only [List.length_tail] at hp)

theorem pos_of_iteration {pe : ParseEngine}
    (h : ¬ (current pe ≠ Token.While ∧ current pe ≠ Token.Do ∧ current pe ≠ Token.For)) :
    0 < pe.tokens.length := by
  obtain ⟨toks, tr, b, c⟩ := pe
  cases toks with
  | nil =>
    have h0 : current ⟨[], tr, b, c⟩ = Token.EndOfFile := rfl
    exact absurd (by rw [h0]; decide) h
  | cons a rest => simp

theorem iterationStatement_wp (P : Parser) (r : Callees) (n L : Nat) (pe : ParseEngine)
    (hr : r.Good L) (hn : L ≤ n) (hpe : pe.tokens.length ≤ L) :
    wp (iterationStatement P r n) pe (progress pe) := by
  unfold iterationStatement
  rw [wp_bind, wp_getToken, wp_ite]
  refine ⟨fun _ => ?_, fun h => ?_⟩
  · simp only [wp_pure, progress, le_refl, Bool.false_eq_true, false_implies, and_true]
  · have hp := pos_of_iteration h
    clear h
    simp only [wp_bind, wp_getToken, wp_getTokenValue, wp_ite, wp_emit, wp_retireToken, wp_pure,
      wp_getTrace, wp_expectIf, wp_expect, wp_breakBack, wp_continueBack, wp_breakPush,
      wp_continuePush, wp_pushLoop, wp_popLoop, wp_matchJumps, wp_switchFixup, label,
      addMatchedJump, startDeferred, resumeDeferred, emitDeferred, emitDeref, functionEnd,
      functionIsCtor, progress, noLonger, List.length_tail, Bool.false_eq_true, false_implies,
      and_true, true_and, implies_true, true_implies, le_refl, ne_eq, reduceCtorEq,
      not_false_eq_true, not_true_eq_false, Bool.not_eq_true', Bool.not_true, Bool.not_false,
      Decidable.not_not, decide_eq_true_eq, Bool.true_eq_false, false_and, and_false, not_and,
      not_or, imp_false]
    repeat' first
      | omega
      | apply And.intro
      | (refine wp_mono (iterationBody_wp P r n L _ _ hr hn (by first | omega | (dsimp only; omega) | (simp only [List.length_tail]; omega))) ?_; intro a pe1 h;
         try simp only [wp_bind, wp_getToken, wp_getTokenValue, wp_ite, wp_emit, wp_retireToken, wp_pure,
             wp_getTrace, wp_expectIf, wp_expect, wp_breakBack, wp_continueBack, wp_breakPush,
             wp_continuePush, wp_pushLoop, wp_popLoop, wp_matchJumps, wp_switchFixup, label, addMatchedJump,
             startDeferred, resumeDeferred, emitDeferred, emitDeref, functionEnd, functionIsCtor, progress,
             noLonger, List.length_tail, Bool.false_eq_true, false_implies, and_true, true_and, implies_true,
             true_implies, le_refl, ne_eq, reduceCtorEq, not_false_eq_true, not_true_eq_false,
             Bool.not_eq_true', Bool.not_true, Bool.not_false, Decidable.not_not, decide_eq_true_eq,
             Bool.true_eq_false, false_and, and_false, not_and, not_or, imp_false] at h ⊢)
      | (intro h;
         try (first
           | (have hp := pos_of_current h (by decide))
           | (have hp := pos_of_prefixOp h)
           | (have hp := pos_of_postfixOp h)
           | (rcases h with h | h <;> have hp := pos_of_current h (by decide)));
         try simp only [List.length_tail] at hp)

theorem switchCaseBody_wp (P : Parser) (r : Callees) (L : Nat) (pe : ParseEngine)
    (hr : r.Good L) (hpe : pe.tokens.length < L) :
    wp (switchCaseBody P r) pe (noLonger pe) := by
  unfold switchCaseBody switchCaseHead
  simp only [wp_bind, wp_getToken, wp_getTokenValue, wp_ite, wp_emit, wp_retireToken, wp_pure,
    wp_getTrace, wp_expectIf, wp_expect, wp_breakBack, wp_continueBack, wp_breakPush,
    wp_continuePush, wp_pushLoop, wp_popLoop, wp_matchJumps, wp_switchFixup, label,
    addMatchedJump, startDeferred, resumeDeferred, emitDeferred, emitDeref, functionEnd,
    functionIsCtor, progress, noLonger, List.length_tail, Bool.false_eq_true, false_implies,
    and_true, true_and, implies_true, true_implies, le_refl, ne_eq, reduceCtorEq,
    not_false_eq_true, not_true_eq_false, Bool.not_eq_true', Bool.not_true, Bool.not_false,
    Decidable.not_not, decide_eq_true_eq, Bool.true_eq_false, false_and, and_false, not_and,
    not_or, imp_false]
  repeat' first
    | omega
    | apply And.intro
    | (refine wp_mono (hr.statement _ (by first | omega | (dsimp only; omega) | (simp only [List.length_tail]; omega))) ?_; intro a pe1 h;
       cases a <;> try simp only [wp_bind, wp_getToken, wp_getTokenValue, wp_ite, wp_emit, wp_retireToken, wp_pure,
           wp_getTrace, wp_expectIf, wp_expect, wp_breakBack, wp_continueBack, wp_breakPush,
           wp_continuePush, wp_pushLoop, wp_popLoop, wp_matchJumps, wp_switchFixup, label, addMatchedJump,
           startDeferred, resumeDeferred, emitDeferred, emitDeref, functionEnd, functionIsCtor, progress,
           noLonger, List.length_tail, Bool.false_eq_true, false_implies, and_true, true_and, implies_true,
           true_implies, le_refl, ne_eq, reduceCtorEq, not_false_eq_true, not_true_eq_false,
           Bool.not_eq_true', Bool.not_true, Bool.not_false, Decidable.not_not, decide_eq_true_eq,
           Bool.true_eq_false, false_and, and_false, not_and, not_or, imp_false] at h ⊢)
    | (intro h;
       try (first
         | (have hp := pos_of_current h (by decide))
         | (have hp := pos_of_prefixOp h)
         | (have hp := pos_of_postfixOp h)
         | (rcases h with h | h <;> have hp := pos_of_current h (by decide)));
       try simp only [List.length_tail] at hp)

theorem switchClausesLoop_wp (P : Parser) (r : Callees) (n L : Nat) (hr : r.Good L)
    (hn : L ≤ n) :
    ∀ (k : Nat) (st : SwitchLocals) (pe : ParseEngine), pe.tokens.length ≤ L →
      pe.tokens.length < k → wp (switchClausesLoop P r n k st) pe (noLonger pe) := by
  intro k
  induction k with
  | zero => intro _ pe _ h; omega
  | succ k ih =>
    intro st pe hpe hk
    unfold switchClausesLoop
    simp only [wp_bind, wp_getToken, wp_getTokenValue, wp_ite, wp_emit, wp_retireToken, wp_pure,
      wp_getTrace, wp_expectIf, wp_expect, wp_breakBack, wp_continueBack, wp_breakPush,
      wp_continuePush, wp_pushLoop, wp_popLoop, wp_matchJumps, wp_switchFixup, label,
      addMatchedJump, startDeferred, resumeDeferred, emitDeferred, emitDeref, functionEnd,
      functionIsCtor, progress, noLonger, List.length_tail, Bool.false_eq_true, false_implies,
      and_true, true_and, implies_true, true_implies, le_refl, ne_eq, reduceCtorEq,
      not_false_eq_true, not_true_eq_false, Bool.not_eq_true', Bool.not_true, Bool.not_false,
      Decidable.not_not, decide_eq_true_eq, Bool.true_eq_false, false_and, and_false, not_and,
      not_or, imp_false]
    repeat' first
      | omega
      | apply And.intro
      | (refine wp_mono (hr.statement _ (by first | omega | (dsimp only; omega) | (simp only [List.length_tail]; omega))) ?_; intro a pe1 h;
         cases a <;> try simp only [wp_bind, wp_getToken, wp_getTokenValue, wp_ite, wp_emit, wp_retireToken, wp_pure,
             wp_getTrace, wp_expectIf, wp_expect, wp_breakBack, wp_continueBack, wp_breakPush,
             wp_continuePush, wp_pushLoop, wp_popLoop, wp_matchJumps, wp_switchFixup, label, addMatchedJump,
             startDeferred, resumeDeferred, emitDeferred, emitDeref, functionEnd, functionIsCtor, progress,
             noLonger, List.length_tail, Bool.false_eq_true, false_implies, and_true, true_and, implies_true,
             true_implies, le_refl, ne_eq, reduceCtorEq, not_false_eq_true, not_true_eq_false,
             Bool.not_eq_true', Bool.not_true, Bool.not_false, Decidable.not_not, decide_eq_true_eq,
             Bool.true_eq_false, false_and, and_false, not_and, not_or, imp_false] at h ⊢)
      | (refine wp_mono (expression_wp P r n L _ _ hr hn (by first | omega | (dsimp only; omega) | (simp only [List.length_tail]; omega))) ?_; intro a pe1 h;
         cases a <;> try simp only [wp_bind, wp_getToken, wp_getTokenValue, wp_ite, wp_emit, wp_retireToken, wp_pure,
             wp_getTrace, wp_expectIf, wp_expect, wp_breakBack, wp_continueBack, wp_breakPush,
             wp_continuePush, wp_pushLoop, wp_popLoop, wp_matchJumps, wp_switchFixup, label, addMatchedJump,
             startDeferred, resumeDeferred, emitDeferred, emitDeref, functionEnd, functionIsCtor, progress,
             noLonger, List.length_tail, Bool.false_eq_true, false_implies, and_true, true_and, implies_true,
             true_implies, le_refl, ne_eq, reduceCtorEq, not_false_eq_true, not_true_eq_false,
             Bool.not_eq_true', Bool.not_true, Bool.not_false, Decidable.not_not, decide_eq_true_eq,
             Bool.true_eq_false, false_and, and_false, not_and, not_or, imp_false] at h ⊢)
      | (refine wp_mono (switchCaseBody_wp P r L _ hr (by first | omega | (dsimp only; omega) | (simp only [List.length_tail]; omega))) ?_; intro a pe1 h;
         try simp only [wp_bind, wp_getToken, wp_getTokenValue, wp_ite, wp_emit, wp_retireToken, wp_pure,
             wp_getTrace, wp_expectIf, wp_expect, wp_breakBack, wp_continueBack, wp_breakPush,
             wp_continuePush, wp_pushLoop, wp_popLoop, wp_matchJumps, wp_switchFixup, label, addMatchedJump,
             startDeferred, resumeDeferred, emitDeferred, emitDeref, functionEnd, functionIsCtor, progress,
             noLonger, List.length_tail, Bool.false_eq_true, false_implies, and_true, true_and, implies_true,
             true_implies, le_refl, ne_eq, reduceCtorEq, not_false_eq_true, not_true_eq_false,
             Bool.not_eq_true', Bool.not_true, Bool.not_false, Decidable.not_not, decide_eq_true_eq,
             Bool.true_eq_false, false_and, and_false, not_and, not_or, imp_false] at h ⊢)
      | (refine wp_mono (ih _ _ (by first | omega | (dsimp only; omega) | (simp only [List.length_tail]; omega)) (by first | omega | (dsimp only; omega) | (simp only [List.length_tail]; omega))) ?_; intro a pe1 h;
         try simp only [wp_bind, wp_getToken, wp_getTokenValue, wp_ite, wp_emit, wp_retireToken, wp_pure,
             wp_getTrace, wp_expectIf, wp_expect, wp_breakBack, wp_continueBack, wp_breakPush,
             wp_continuePush, wp_pushLoop, wp_popLoop, wp_matchJumps, wp_switchFixup, label, addMatchedJump,
             startDeferred, resumeDeferred, emitDeferred, emitDeref, functionEnd, functionIsCtor, progress,
             noLonger, List.length_tail, Bool.false_eq_true, false_implies, and_true, true_and, implies_true,
             true_implies, le_refl, ne_eq, reduceCtorEq, not_false_eq_true, not_true_eq_false,
             Bool.not_eq_true', Bool.not_true, Bool.not_false, Decidable.not_not, decide_eq_true_eq,
             Bool.true_eq_false, false_and, and_false, not_and, not_or, imp_false] at h ⊢)
      | (intro h;
         try (first
           | (have hp := pos_of_current h (by decide))
           | (have hp := pos_of_prefixOp h)
           | (have hp := pos_of_postfixOp h)
           | (rcases h with h | h <;> have hp := pos_of_current h (by decide)));
         try simp only [List.length_tail] at hp)

theorem switchStatement_wp (P : Parser) (r : Callees) (n L : Nat) (pe : ParseEngine)
    (hr : r.Good L) (hn : L ≤ n) (hpe : pe.tokens.length ≤ L) :
    wp (switchStatement P r n) pe (progress pe) := by
  unfold switchStatement
  simp only [wp_bind, wp_getToken, wp_getTokenValue, wp_ite, wp_emit, wp_retireToken, wp_pure,
    wp_getTrace, wp_expectIf, wp_expect, wp_breakBack, wp_continueBack, wp_breakPush,
    wp_continuePush, wp_pushLoop, wp_popLoop, wp_matchJumps, wp_switchFixup, label,
    addMatchedJump, startDeferred, resumeDeferred, emitDeferred, emitDeref, functionEnd,
    functionIsCtor, progress, noLonger, List.length_tail, Bool.false_eq_true, false_implies,
    and_true, true_and, implies_true, true_implies, le_refl, ne_eq, reduceCtorEq,
    not_false_eq_true, not_true_eq_false, Bool.not_eq_true', Bool.not_true, Bool.not_false,
    Decidable.not_not, decide_eq_true_eq, Bool.true_eq_false, false_and, and_false, not_and,
    not_or, imp_false]
  repeat' first
    | omega
    | apply And.intro
    | (refine wp_mono (expression_wp P r n L _ _ hr hn (by first | omega | (dsimp only; omega) | (simp only [List.length_tail]; omega))) ?_; intro a pe1 h;
       cases a <;> try simp only [wp_bind, wp_getToken, wp_getTokenValue, wp_ite, wp_emit, wp_retireToken, wp_pure,
           wp_getTrace, wp_expectIf, wp_expect, wp_breakBack, wp_continueBack, wp_breakPush,
           wp_continuePush, wp_pushLoop, wp_popLoop, wp_matchJumps, wp_switchFixup, label, addMatchedJump,
           startDeferred, resumeDeferred, emitDeferred, emitDeref, functionEnd, functionIsCtor, progress,
           noLonger, List.length_tail, Bool.false_eq_true, false_implies, and_true, true_and, implies_true,
           true_implies, le_refl, ne_eq, reduceCtorEq, not_false_eq_true, not_true_eq_false,
           Bool.not_eq_true', Bool.not_true, Bool.not_false, Decidable.not_not, decide_eq_true_eq,
           Bool.true_eq_false, false_and, and_false, not_and, not_or, imp_false] at h ⊢)
    | (refine wp_mono (switchClausesLoop_wp P r n L hr hn n _ _ (by first | omega | (dsimp only; omega) | (simp only [List.length_tail]; omega)) (by first | omega | (dsimp only; omega) | (simp only [List.length_tail]; omega))) ?_; intro a pe1 h;
       try simp only [wp_bind, wp_getToken, wp_getTokenValue, wp_ite, wp_emit, wp_retireToken, wp_pure,
           wp_getTrace, wp_expectIf, wp_expect, wp_breakBack, wp_continueBack, wp_breakPush,
           wp_continuePush, wp_pushLoop, wp_popLoop, wp_matchJumps, wp_switchFixup, label, addMatchedJump,
           startDeferred, resumeDeferred, emitDeferred, emitDeref, functionEnd, functionIsCtor, progress,
           noLonger, List.length_tail, Bool.false_eq_true, false_implies, and_true, true_and, implies_true,
           true_implies, le_refl, ne_eq, reduceCtorEq, not_false_eq_true, not_true_eq_false,
           Bool.not_eq_true', Bool.not_true, Bool.not_false, Decidable.not_not, decide_eq_true_eq,
           Bool.true_eq_false, false_and, and_false, not_and, not_or, imp_false] at h ⊢)
    | (intro h;
       try (first
         | (have hp := pos_of_current h (by decide))
         | (have hp := pos_of_prefixOp h)
         | (have hp := pos_of_postfixOp h)
         | (rcases h with h | h <;> have hp := pos_of_current h (by decide)));
       try simp only [List.length_tail] at hp)

theorem selectionStatement_wp (P : Parser) (r : Callees) (n L : Nat) (pe : ParseEngine)
    (hr : r.Good L) (hn : L ≤ n) (hpe : pe.tokens.length ≤ L) :
    wp (selectionStatement P r n) pe (progress pe) := by
  unfold selectionStatement
  simp only [wp_bind, wp_getToken, wp_getTokenValue, wp_ite, wp_emit, wp_retireToken, wp_pure,
    wp_getTrace, wp_expectIf, wp_expect, wp_breakBack, wp_continueBack, wp_breakPush,
    wp_continuePush, wp_pushLoop, wp_popLoop, wp_matchJumps, wp_switchFixup, label,
    addMatchedJump, startDeferred, resumeDeferred, emitDeferred, emitDeref, functionEnd,
    functionIsCtor, progress, noLonger, List.length_tail, Bool.false_eq_true, false_implies,
    and_true, true_and, implies_true, true_implies, le_refl, ne_eq, reduceCtorEq,
    not_false_eq_true, not_true_eq_false, Bool.not_eq_true', Bool.not_true, Bool.not_false,
    Decidable.not_not, decide_eq_true_eq, Bool.true_eq_false, false_and, and_false, not_and,
    not_or, imp_false]
  repeat' first
    | omega
    | apply And.intro
    | (refine wp_mono (hr.statement _ (by first | omega | (dsimp only; omega) | (simp only [List.length_tail]; omega))) ?_; intro a pe1 h;
       cases a <;> try simp only [wp_bind, wp_getToken, wp_getTokenValue, wp_ite, wp_emit, wp_retireToken, wp_pure,
           wp_getTrace, wp_expectIf, wp_expect, wp_breakBack, wp_continueBack, wp_breakPush,
           wp_continuePush, wp_pushLoop, wp_popLoop, wp_matchJumps, wp_switchFixup, label, addMatchedJump,
           startDeferred, resumeDeferred, emitDeferred, emitDeref, functionEnd, functionIsCtor, progress,
           noLonger, List.length_tail, Bool.false_eq_true, false_implies, and_true, true_and, implies_true,
           true_implies, le_refl, ne_eq, reduceCtorEq, not_false_eq_true, not_true_eq_false,
           Bool.not_eq_true', Bool.not_true, Bool.not_false, Decidable.not_not, decide_eq_true_eq,
           Bool.true_eq_false, false_and, and_false, not_and, not_or, imp_false] at h ⊢)
    | (refine wp_mono (expression_wp P r n L _ _ hr hn (by first | omega | (dsimp only; omega) | (simp only [List.length_tail]; omega))) ?_; intro a pe1 h;
       cases a <;> try simp only [wp_bind, wp_getToken, wp_getTokenValue, wp_ite, wp_emit, wp_retireToken, wp_pure,
           wp_getTrace, wp_expectIf, wp_expect, wp_breakBack, wp_continueBack, wp_breakPush,
           wp_continuePush, wp_pushLoop, wp_popLoop, wp_matchJumps, wp_switchFixup, label, addMatchedJump,
           startDeferred, resumeDeferred, emitDeferred, emitDeref, functionEnd, functionIsCtor, progress,
           noLonger, List.length_tail, Bool.false_eq_true, false_implies, and_true, true_and, implies_true,
           true_implies, le_refl, ne_eq, reduceCtorEq, not_false_eq_true, not_true_eq_false,
           Bool.not_eq_true', Bool.not_true, Bool.not_false, Decidable.not_not, decide_eq_true_eq,
           Bool.true_eq_false, false_and, and_false, not_and, not_or, imp_false] at h ⊢)
    | (intro h;
       try (first
         | (have hp := pos_of_current h (by decide))
         | (have hp := pos_of_prefixOp h)
         | (have hp := pos_of_postfixOp h)
         | (rcases h with h | h <;> have hp := pos_of_current h (by decide)));
       try simp only [List.length_tail] at hp)

theorem compoundStatement_wp (r : Callees) (n L : Nat) (pe : ParseEngine)
    (hr : r.Good L) (hn : L ≤ n) (hpe : pe.tokens.length ≤ L) :
    wp (compoundStatement r n) pe (progress pe) := by
  unfold compoundStatement
  simp only [wp_bind, wp_getToken, wp_getTokenValue, wp_ite, wp_emit, wp_retireToken, wp_pure,
    wp_getTrace, wp_expectIf, wp_expect, wp_breakBack, wp_continueBack, wp_breakPush,
    wp_continuePush, wp_pushLoop, wp_popLoop, wp_matchJumps, wp_switchFixup, label,
    addMatchedJump, startDeferred, resumeDeferred, emitDeferred, emitDeref, functionEnd,
    functionIsCtor, progress, noLonger, List.length_tail, Bool.false_eq_true, false_implies,
    and_true, true_and, implies_true, true_implies, le_refl, ne_eq, reduceCtorEq,
    not_false_eq_true, not_true_eq_false, Bool.not_eq_true', Bool.not_true, Bool.not_false,
    Decidable.not_not, decide_eq_true_eq, Bool.true_eq_false, false_and, and_false, not_and,
    not_or, imp_false]
  repeat' first
    | omega
    | apply And.intro
    | (refine wp_mono (whileTrue_wp r.statement L hr.statement n _ (by first | omega | (dsimp only; omega) | (simp only [List.length_tail]; omega)) (by first | omega | (dsimp only; omega) | (simp only [List.length_tail]; omega))) ?_; intro a pe1 h;
       try simp only [wp_bind, wp_getToken, wp_getTokenValue, wp_ite, wp_emit, wp_retireToken, wp_pure,
           wp_getTrace, wp_expectIf, wp_expect, wp_breakBack, wp_continueBack, wp_breakPush,
           wp_continuePush, wp_pushLoop, wp_popLoop, wp_matchJumps, wp_switchFixup, label, addMatchedJump,
           startDeferred, resumeDeferred, emitDeferred, emitDeref, functionEnd, functionIsCtor, progress,
           noLonger, List.length_tail, Bool.false_eq_true, false_implies, and_true, true_and, implies_true,
           true_implies, le_refl, ne_eq, reduceCtorEq, not_false_eq_true, not_true_eq_false,
           Bool.not_eq_true', Bool.not_true, Bool.not_false, Decidable.not_not, decide_eq_true_eq,
           Bool.true_eq_false, false_and, and_false, not_and, not_or, imp_false] at h ⊢)
    | (intro h;
       try (first
         | (have hp := pos_of_current h (by decide))
         | (have hp := pos_of_prefixOp h)
         | (have hp := pos_of_postfixOp h)
         | (rcases h with h | h <;> have hp := pos_of_current h (by decide)));
       try simp only [List.length_tail] at hp)

theorem classStatement_wp (P : Parser) (r : Callees) (n L : Nat) (pe : ParseEngine)
    (hr : r.Good L) (hn : L ≤ n) (hpe : pe.tokens.length ≤ L) :
    wp (classStatement P r n) pe (progress pe) := by
  unfold classStatement
  simp only [wp_bind, wp_getToken, wp_getTokenValue, wp_ite, wp_emit, wp_retireToken, wp_pure,
    wp_getTrace, wp_expectIf, wp_expect, wp_breakBack, wp_continueBack, wp_breakPush,
    wp_continuePush, wp_pushLoop, wp_popLoop, wp_matchJumps, wp_switchFixup, label,
    addMatchedJump, startDeferred, resumeDeferred, emitDeferred, emitDeref, functionEnd,
    functionIsCtor, progress, noLonger, List.length_tail, Bool.false_eq_true, false_implies,
    and_true, true_and, implies_true, true_implies, le_refl, ne_eq, reduceCtorEq,
    not_false_eq_true, not_true_eq_false, Bool.not_eq_true', Bool.not_true, Bool.not_false,
    Decidable.not_not, decide_eq_true_eq, Bool.true_eq_false, false_and, and_false, not_and,
    not_or, imp_false]
  repeat' first
    | omega
    | apply And.intro
    | (refine wp_mono (classExpression_wp P r n L _ hr hn (by first | omega | (dsimp only; omega) | (simp only [List.length_tail]; omega))) ?_; intro a pe1 h;
       cases a <;> try simp only [wp_bind, wp_getToken, wp_getTokenValue, wp_ite, wp_emit, wp_retireToken, wp_pure,
           wp_getTrace, wp_expectIf, wp_expect, wp_breakBack, wp_continueBack, wp_breakPush,
           wp_continuePush, wp_pushLoop, wp_popLoop, wp_matchJumps, wp_switchFixup, label, addMatchedJump,
           startDeferred, resumeDeferred, emitDeferred, emitDeref, functionEnd, functionIsCtor, progress,
           noLonger, List.length_tail, Bool.false_eq_true, false_implies, and_true, true_and, implies_true,
           true_implies, le_refl, ne_eq, reduceCtorEq, not_false_eq_true, not_true_eq_false,
           Bool.not_eq_true', Bool.not_true, Bool.not_false, Decidable.not_not, decide_eq_true_eq,
           Bool.true_eq_false, false_and, and_false, not_and, not_or, imp_false] at h ⊢)
    | (intro h;
       try (first
         | (have hp := pos_of_current h (by decide))
         | (have hp := pos_of_prefixOp h)
         | (have hp := pos_of_postfixOp h)
         | (rcases h with h | h <;> have hp := pos_of_current h (by decide)));
       try simp only [List.length_tail] at hp)

theorem functionStatement_wp (P : Parser) (r : Callees) (n L : Nat) (pe : ParseEngine)
    (hr : r.Good L) (hn : L ≤ n) (hpe : pe.tokens.length ≤ L) :
    wp (functionStatement P r n) pe (progress pe) := by
  unfold functionStatement
  simp only [wp_bind, wp_getToken, wp_getTokenValue, wp_ite, wp_emit, wp_retireToken, wp_pure,
    wp_getTrace, wp_expectIf, wp_expect, wp_breakBack, wp_continueBack, wp_breakPush,
    wp_continuePush, wp_pushLoop, wp_popLoop, wp_matchJumps, wp_switchFixup, label,
    addMatchedJump, startDeferred, resumeDeferred, emitDeferred, emitDeref, functionEnd,
    functionIsCtor, progress, noLonger, List.length_tail, Bool.false_eq_true, false_implies,
    and_true, true_and, implies_true, true_implies, le_refl, ne_eq, reduceCtorEq,
    not_false_eq_true, not_true_eq_false, Bool.not_eq_true', Bool.not_true, Bool.not_false,
    Decidable.not_not, decide_eq_true_eq, Bool.true_eq_false, false_and, and_false, not_and,
    not_or, imp_false]
  repeat' first
    | omega
    | apply And.intro
    | (refine wp_mono (functionExpression_wp P r n L _ _ hr hn (by first | omega | (dsimp only; omega) | (simp only [List.length_tail]; omega))) ?_; intro a pe1 h;
       try simp only [wp_bind, wp_getToken, wp_getTokenValue, wp_ite, wp_emit, wp_retireToken, wp_pure,
           wp_getTrace, wp_expectIf, wp_expect, wp_breakBack, wp_continueBack, wp_breakPush,
           wp_continuePush, wp_pushLoop, wp_popLoop, wp_matchJumps, wp_switchFixup, label, addMatchedJump,
           startDeferred, resumeDeferred, emitDeferred, emitDeref, functionEnd, functionIsCtor, progress,
           noLonger, List.length_tail, Bool.false_eq_true, false_implies, and_true, true_and, implies_true,
           true_implies, le_refl, ne_eq, reduceCtorEq, not_false_eq_true, not_true_eq_false,
           Bool.not_eq_true', Bool.not_true, Bool.not_false, Decidable.not_not, decide_eq_true_eq,
           Bool.true_eq_false, false_and, and_false, not_and, not_or, imp_false] at h ⊢)
    | (intro h;
       try (first
         | (have hp := pos_of_current h (by decide))
         | (have hp := pos_of_prefixOp h)
         | (have hp := pos_of_postfixOp h)
         | (rcases h with h | h <;> have hp := pos_of_current h (by decide)));
       try simp only [List.length_tail] at hp)

theorem structuredStatement_wp (P : Parser) (r : Callees) (n L : Nat) (pe : ParseEngine)
    (hr : r.Good L) (hn : L ≤ n) (hpe : pe.tokens.length ≤ L) :
    wp (structuredStatement P r n) pe (progress pe) := by
  unfold structuredStatement
  simp only [wp_bind, wp_getToken, wp_getTokenValue, wp_ite, wp_emit, wp_retireToken, wp_pure,
    wp_getTrace, wp_expectIf, wp_expect, wp_breakBack, wp_continueBack, wp_breakPush,
    wp_continuePush, wp_pushLoop, wp_popLoop, wp_matchJumps, wp_switchFixup, label,
    addMatchedJump, startDeferred, resumeDeferred, emitDeferred, emitDeref, functionEnd,
    functionIsCtor, progress, noLonger, List.length_tail, Bool.false_eq_true, false_implies,
    and_true, true_and, implies_true, true_implies, le_refl, ne_eq, reduceCtorEq,
    not_false_eq_true, not_true_eq_false, Bool.not_eq_true', Bool.not_true, Bool.not_false,
    Decidable.not_not, decide_eq_true_eq, Bool.true_eq_false, false_and, and_false, not_and,
    not_or, imp_false]
  repeat' first
    | omega
    | apply And.intro
    | (refine wp_mono (compoundStatement_wp r n L _ hr hn (by first | omega | (dsimp only; omega) | (simp only [List.length_tail]; omega))) ?_; intro a pe1 h;
       cases a <;> try simp only [wp_bind, wp_getToken, wp_getTokenValue, wp_ite, wp_emit, wp_retireToken, wp_pure,
           wp_getTrace, wp_expectIf, wp_expect, wp_breakBack, wp_continueBack, wp_breakPush,
           wp_continuePush, wp_pushLoop, wp_popLoop, wp_matchJumps, wp_switchFixup, label, addMatchedJump,
           startDeferred, resumeDeferred, emitDeferred, emitDeref, functionEnd, functionIsCtor, progress,
           noLonger, List.length_tail, Bool.false_eq_true, false_implies, and_true, true_and, implies_true,
           true_implies, le_refl, ne_eq, reduceCtorEq, not_false_eq_true, not_true_eq_false,
           Bool.not_eq_true', Bool.not_true, Bool.not_false, Decidable.not_not, decide_eq_true_eq,
           Bool.true_eq_false, false_and, and_false, not_and, not_or, imp_false] at h ⊢)
    | (refine wp_mono (selectionStatement_wp P r n L _ hr hn (by first | omega | (dsimp only; omega) | (simp only [List.length_tail]; omega))) ?_; intro a pe1 h;
       cases a <;> try simp only [wp_bind, wp_getToken, wp_getTokenValue, wp_ite, wp_emit, wp_retireToken, wp_pure,
           wp_getTrace, wp_expectIf, wp_expect, wp_breakBack, wp_continueBack, wp_breakPush,
           wp_continuePush, wp_pushLoop, wp_popLoop, wp_matchJumps, wp_switchFixup, label, addMatchedJump,
           startDeferred, resumeDeferred, emitDeferred, emitDeref, functionEnd, functionIsCtor, progress,
           noLonger, List.length_tail, Bool.false_eq_true, false_implies, and_true, true_and, implies_true,
           true_implies, le_refl, ne_eq, reduceCtorEq, not_false_eq_true, not_true_eq_false,
           Bool.not_eq_true', Bool.not_true, Bool.not_false, Decidable.not_not, decide_eq_true_eq,
           Bool.true_eq_false, false_and, and_false, not_and, not_or, imp_false] at h ⊢)
    | (refine wp_mono (switchStatement_wp P r n L _ hr hn (by first | omega | (dsimp only; omega) | (simp only [List.length_tail]; omega))) ?_; intro a pe1 h;
       cases a <;> try simp only [wp_bind, wp_getToken, wp_getTokenValue, wp_ite, wp_emit, wp_retireToken, wp_pure,
           wp_getTrace, wp_expectIf, wp_expect, wp_breakBack, wp_continueBack, wp_breakPush,
           wp_continuePush, wp_pushLoop, wp_popLoop, wp_matchJumps, wp_switchFixup, label, addMatchedJump,
           startDeferred, resumeDeferred, emitDeferred, emitDeref, functionEnd, functionIsCtor, progress,
           noLonger, List.length_tail, Bool.false_eq_true, false_implies, and_true, true_and, implies_true,
           true_implies, le_refl, ne_eq, reduceCtorEq, not_false_eq_true, not_true_eq_false,
           Bool.not_eq_true', Bool.not_true, Bool.not_false, Decidable.not_not, decide_eq_true_eq,
           Bool.true_eq_false, false_and, and_false, not_and, not_or, imp_false] at h ⊢)
    | (refine wp_mono (iterationStatement_wp P r n L _ hr hn (by first | omega | (dsimp only; omega) | (simp only [List.length_tail]; omega))) ?_; intro a pe1 h;
       cases a <;> try simp only [wp_bind, wp_getToken, wp_getTokenValue, wp_ite, wp_emit, wp_retireToken, wp_pure,
           wp_getTrace, wp_expectIf, wp_expect, wp_breakBack, wp_continueBack, wp_breakPush,
           wp_continuePush, wp_pushLoop, wp_popLoop, wp_matchJumps, wp_switchFixup, label, addMatchedJump,
           startDeferred, resumeDeferred, emitDeferred, emitDeref, functionEnd, functionIsCtor, progress,
           noLonger, List.length_tail, Bool.false_eq_true, false_implies, and_true, true_and, implies_true,
           true_implies, le_refl, ne_eq, reduceCtorEq, not_false_eq_true, not_true_eq_false,
           Bool.not_eq_true', Bool.not_true, Bool.not_false, Decidable.not_not, decide_eq_true_eq,
           Bool.true_eq_false, false_and, and_false, not_and, not_or, imp_false] at h ⊢)
    | (refine wp_mono (jumpStatement_wp P r n L _ hr hn (by first | omega | (dsimp only; omega) | (simp only [List.length_tail]; omega))) ?_; intro a pe1 h;
       cases a <;> try simp only [wp_bind, wp_getToken, wp_getTokenValue, wp_ite, wp_emit, wp_retireToken, wp_pure,
           wp_getTrace, wp_expectIf, wp_expect, wp_breakBack, wp_continueBack, wp_breakPush,
           wp_continuePush, wp_pushLoop, wp_popLoop, wp_matchJumps, wp_switchFixup, label, addMatchedJump,
           startDeferred, resumeDeferred, emitDeferred, emitDeref, functionEnd, functionIsCtor, progress,
           noLonger, List.length_tail, Bool.false_eq_true, false_implies, and_true, true_and, implies_true,
           true_implies, le_refl, ne_eq, reduceCtorEq, not_false_eq_true, not_true_eq_false,
           Bool.not_eq_true', Bool.not_true, Bool.not_false, Decidable.not_not, decide_eq_true_eq,
           Bool.true_eq_false, false_and, and_false, not_and, not_or, imp_false] at h ⊢)
    | (intro h;
       try (first
         | (have hp := pos_of_current h (by decide))
         | (have hp := pos_of_prefixOp h)
         | (have hp := pos_of_postfixOp h)
         | (rcases h with h | h <;> have hp := pos_of_current h (by decide)));
       try simp only [List.length_tail] at hp)

theorem statement_wp (P : Parser) (r : Callees) (n L : Nat) (pe : ParseEngine)
    (hr : r.Good L) (hn : L ≤ n) (hpe : pe.tokens.length ≤ L) :
    wp (statement P r n) pe (progress pe) := by
  unfold statement
  simp only [wp_bind, wp_getToken, wp_getTokenValue, wp_ite, wp_emit, wp_retireToken, wp_pure,
    wp_getTrace, wp_expectIf, wp_expect, wp_breakBack, wp_continueBack, wp_breakPush,
    wp_continuePush, wp_pushLoop, wp_popLoop, wp_matchJumps, wp_switchFixup, label,
    addMatchedJump, startDeferred, resumeDeferred, emitDeferred, emitDeref, functionEnd,
    functionIsCtor, progress, noLonger, List.length_tail, Bool.false_eq_true, false_implies,
    and_true, true_and, implies_true, true_implies, le_refl, ne_eq, reduceCtorEq,
    not_false_eq_true, not_true_eq_false, Bool.not_eq_true', Bool.not_true, Bool.not_false,
    Decidable.not_not, decide_eq_true_eq, Bool.true_eq_false, false_and, and_false, not_and,
    not_or, imp_false]
  repeat' first
    | omega
    | apply And.intro
    | (refine wp_mono (functionStatement_wp P r n L _ hr hn (by first | omega | (dsimp only; omega) | (simp only [List.length_tail]; omega))) ?_; intro a pe1 h;
       cases a <;> try simp only [wp_bind, wp_getToken, wp_getTokenValue, wp_ite, wp_emit, wp_retireToken, wp_pure,
           wp_getTrace, wp_expectIf, wp_expect, wp_breakBack, wp_continueBack, wp_breakPush,
           wp_continuePush, wp_pushLoop, wp_popLoop, wp_matchJumps, wp_switchFixup, label, addMatchedJump,
           startDeferred, resumeDeferred, emitDeferred, emitDeref, functionEnd, functionIsCtor, progress,
           noLonger, List.length_tail, Bool.false_eq_true, false_implies, and_true, true_and, implies_true,
           true_implies, le_refl, ne_eq, reduceCtorEq, not_false_eq_true, not_true_eq_false,
           Bool.not_eq_true', Bool.not_true, Bool.not_false, Decidable.not_not, decide_eq_true_eq,
           Bool.true_eq_false, false_and, and_false, not_and, not_or, imp_false] at h ⊢)
    | (refine wp_mono (classStatement_wp P r n L _ hr hn (by first | omega | (dsimp only; omega) | (simp only [List.length_tail]; omega))) ?_; intro a pe1 h;
       cases a <;> try simp only [wp_bind, wp_getToken, wp_getTokenValue, wp_ite, wp_emit, wp_retireToken, wp_pure,
           wp_getTrace, wp_expectIf, wp_expect, wp_breakBack, wp_continueBack, wp_breakPush,
           wp_continuePush, wp_pushLoop, wp_popLoop, wp_matchJumps, wp_switchFixup, label, addMatchedJump,
           startDeferred, resumeDeferred, emitDeferred, emitDeref, functionEnd, functionIsCtor, progress,
           noLonger, List.length_tail, Bool.false_eq_true, false_implies, and_true, true_and, implies_true,
           true_implies, le_refl, ne_eq, reduceCtorEq, not_false_eq_true, not_true_eq_false,
           Bool.not_eq_true', Bool.not_true, Bool.not_false, Decidable.not_not, decide_eq_true_eq,
           Bool.true_eq_false, false_and, and_false, not_and, not_or, imp_false] at h ⊢)
    | (refine wp_mono (structuredStatement_wp P r n L _ hr hn (by first | omega | (dsimp only; omega) | (simp only [List.length_tail]; omega))) ?_; intro a pe1 h;
       cases a <;> try simp only [wp_bind, wp_getToken, wp_getTokenValue, wp_ite, wp_emit, wp_retireToken, wp_pure,
           wp_getTrace, wp_expectIf, wp_expect, wp_breakBack, wp_continueBack, wp_breakPush,
           wp_continuePush, wp_pushLoop, wp_popLoop, wp_matchJumps, wp_switchFixup, label, addMatchedJump,
           startDeferred, resumeDeferred, emitDeferred, emitDeref, functionEnd, functionIsCtor, progress,
           noLonger, List.length_tail, Bool.false_eq_true, false_implies, and_true, true_and, implies_true,
           true_implies, le_refl, ne_eq, reduceCtorEq, not_false_eq_true, not_true_eq_false,
           Bool.not_eq_true', Bool.not_true, Bool.not_false, Decidable.not_not, decide_eq_true_eq,
           Bool.true_eq_false, false_and, and_false, not_and, not_or, imp_false] at h ⊢)
    | (refine wp_mono (variableDeclarationList_wp P r n L _ hr hn (by first | omega | (dsimp only; omega) | (simp only [List.length_tail]; omega))) ?_; intro a pe1 h;
       try simp only [wp_bind, wp_getToken, wp_getTokenValue, wp_ite, wp_emit, wp_retireToken, wp_pure,
           wp_getTrace, wp_expectIf, wp_expect, wp_breakBack, wp_continueBack, wp_breakPush,
           wp_continuePush, wp_pushLoop, wp_popLoop, wp_matchJumps, wp_switchFixup, label, addMatchedJump,
           startDeferred, resumeDeferred, emitDeferred, emitDeref, functionEnd, functionIsCtor, progress,
           noLonger, List.length_tail, Bool.false_eq_true, false_implies, and_true, true_and, implies_true,
           true_implies, le_refl, ne_eq, reduceCtorEq, not_false_eq_true, not_true_eq_false,
           Bool.not_eq_true', Bool.not_true, Bool.not_false, Decidable.not_not, decide_eq_true_eq,
           Bool.true_eq_false, false_and, and_false, not_and, not_or, imp_false] at h ⊢)
    | (refine wp_mono (leftHandSideExpression_wp P r n L _ hr hn (by first | omega | (dsimp only; omega) | (simp only [List.length_tail]; omega))) ?_; intro a pe1 h;
       cases a <;> try simp only [wp_bind, wp_getToken, wp_getTokenValue, wp_ite, wp_emit, wp_retireToken, wp_pure,
           wp_getTrace, wp_expectIf, wp_expect, wp_breakBack, wp_continueBack, wp_breakPush,
           wp_continuePush, wp_pushLoop, wp_popLoop, wp_matchJumps, wp_switchFixup, label, addMatchedJump,
           startDeferred, resumeDeferred, emitDeferred, emitDeref, functionEnd, functionIsCtor, progress,
           noLonger, List.length_tail, Bool.false_eq_true, false_implies, and_true, true_and, implies_true,
           true_implies, le_refl, ne_eq, reduceCtorEq, not_false_eq_true, not_true_eq_false,
           Bool.not_eq_true', Bool.not_true, Bool.not_false, Decidable.not_not, decide_eq_true_eq,
           Bool.true_eq_false, false_and, and_false, not_and, not_or, imp_false] at h ⊢)
    | (refine wp_mono (expression_wp P r n L _ _ hr hn (by first | omega | (dsimp only; omega) | (simp only [List.length_tail]; omega))) ?_; intro a pe1 h;
       cases a <;> try simp only [wp_bind, wp_getToken, wp_getTokenValue, wp_ite, wp_emit, wp_retireToken, wp_pure,
           wp_getTrace, wp_expectIf, wp_expect, wp_breakBack, wp_continueBack, wp_breakPush,
           wp_continuePush, wp_pushLoop, wp_popLoop, wp_matchJumps, wp_switchFixup, label, addMatchedJump,
           startDeferred, resumeDeferred, emitDeferred, emitDeref, functionEnd, functionIsCtor, progress,
           noLonger, List.length_tail, Bool.false_eq_true, false_implies, and_true, true_and, implies_true,
           true_implies, le_refl, ne_eq, reduceCtorEq, not_false_eq_true, not_true_eq_false,
           Bool.not_eq_true', Bool.not_true, Bool.not_false, Decidable.not_not, decide_eq_true_eq,
           Bool.true_eq_false, false_and, and_false, not_and, not_or, imp_false] at h ⊢)
    | (intro h;
       try (first
         | (have hp := pos_of_current h (by decide))
         | (have hp := pos_of_prefixOp h)
         | (have hp := pos_of_postfixOp h)
         | (rcases h with h | h <;> have hp := pos_of_current h (by decide)));
       try simp only [List.length_tail] at hp)

end M8r.ParseEngine

namespace M8r.ParseEngine

open PE

/-- The recursive members with budget `n` make progress from every state
with fewer than `n` tokens left: every recursive call is made after a token
was retired, so `n` nested calls are enough for `n` tokens. -/
theorem callees_good (P : Parser) : ∀ n, (callees P n).Good n := by
  intro n
  induction n with
  | zero =>
    exact ⟨fun _ h => absurd h (Nat.not_lt_zero _), fun _ _ h => absurd h (Nat.not_lt_zero _),
      fun _ h => absurd h (Nat.not_lt_zero _), fun _ h => absurd h (Nat.not_lt_zero _)⟩
  | succ n ih =>
    refine ⟨fun pe h => ?_, fun minPrec pe h => ?_, fun pe h => ?_, fun pe h => ?_⟩
    · exact statement_wp P (callees P n) n n pe ih (Nat.le_refl _) (by omega)
    · exact expression_wp P (callees P n) n n minPrec pe ih (Nat.le_refl _) (by omega)
    · exact arithmeticPrimary_wp P (callees P n) n n pe ih (Nat.le_refl _) (by omega)
    · exact memberExpression_wp P (callees P n) n n pe ih (Nat.le_refl _) (by omega)

theorem makesProgress_of_wp (m : PE Bool) (pe : ParseEngine) (h : wp m pe (progress pe)) :
    makesProgress m pe := by
  rw [wp_iff] at h
  exact ⟨h.1, fun pe1 h1 => (h.2 true pe1 h1).2 rfl⟩

theorem whileTrue_ends (body : PE Bool) (n : Nat) (pe : ParseEngine)
    (hbody : ∀ pe : ParseEngine, pe.tokens.length < n + 1 → wp body pe (progress pe))
    (h : pe.tokens.length ≤ n) : whileTrue body (n + 1) pe ≠ Outcome.outOfBudget := by
  have := whileTrue_wp body (n + 1) hbody (n + 1) pe (by omega) (by omega)
  rw [wp_iff] at this
  exact this.1

end M8r.ParseEngine

/-- C39: with a budget `n` that is at least the number of tokens left
(at most `n` nested recursive calls and `n` iterations of each loop), none
of `statement`, `classContentsStatement`, `expression`, `arithmeticPrimary`,
`leftHandSideExpression`, `memberExpression` and `primaryExpression` runs out
of budget, and each of them, when it returns `true`, has retired at least
one token; the loops `while (statement())` and
`while (classContentsStatement())` end. -/
theorem C39_parser_progress (P : Parser) (n : Nat) (pe : ParseEngine)
    (h : pe.tokens.length ≤ n) :
    ParseEngine.makesProgress (ParseEngine.statement P (ParseEngine.callees P n) n) pe ∧
    ParseEngine.makesProgress
      (ParseEngine.classContentsStatement P (ParseEngine.callees P n) n) pe ∧
    (∀ minPrec, ParseEngine.makesProgress
      (ParseEngine.expression P (ParseEngine.callees P n) n minPrec) pe) ∧
    ParseEngine.makesProgress (ParseEngine.arithmeticPrimary P (ParseEngine.callees P n) n) pe ∧
    ParseEngine.makesProgress
      (ParseEngine.leftHandSideExpression P (ParseEngine.callees P n) n) pe ∧
    ParseEngine.makesProgress (ParseEngine.memberExpression P (ParseEngine.callees P n) n) pe ∧
    ParseEngine.makesProgress (ParseEngine.primaryExpression (ParseEngine.callees P n) n) pe ∧
    ParseEngine.whileTrue (ParseEngine.statement P (ParseEngine.callees P n) n) (n + 1) pe
      ≠ Outcome.outOfBudget ∧
    ParseEngine.whileTrue (ParseEngine.classContentsStatement P (ParseEngine.callees P n) n)
      (n + 1) pe ≠ Outcome.outOfBudget := by
  have hg := ParseEngine.callees_good P n
  have hn : n ≤ n := Nat.le_refl n
  refine ⟨?_, ?_, fun minPrec => ?_, ?_, ?_, ?_, ?_, ?_, ?_⟩
  · exact ParseEngine.makesProgress_of_wp _ _ (ParseEngine.statement_wp P _ n n pe hg hn h)
  · exact ParseEngine.makesProgress_of_wp _ _
      (ParseEngine.classContentsStatement_wp P _ n n pe hg hn h)
  · exact ParseEngine.makesProgress_of_wp _ _
      (ParseEngine.expression_wp P _ n n minPrec pe hg hn h)
  · exact ParseEngine.makesProgress_of_wp _ _
      (ParseEngine.arithmeticPrimary_wp P _ n n pe hg hn h)
  · exact ParseEngine.makesProgress_of_wp _ _
      (ParseEngine.leftHandSideExpression_wp P _ n n pe hg hn h)
  · exact ParseEngine.makesProgress_of_wp _ _
      (ParseEngine.memberExpression_wp P _ n n pe hg hn h)
  · exact ParseEngine.makesProgress_of_wp _ _
      (ParseEngine.primaryExpression_wp _ n n pe hg hn h)
  · exact ParseEngine.whileTrue_ends _ n pe
      (fun pe1 h1 => ParseEngine.statement_wp P _ n n pe1 hg hn (by omega)) h
  · exact ParseEngine.whileTrue_ends _ n pe
      (fun pe1 h1 => ParseEngine.classContentsStatement_wp P _ n n pe1 hg hn (by omega)) h

/-- Witness of C39: the tokens `a ;` with budget 2 and the emitter in which
every instruction occupies one address. -/
theorem C39_parser_progress_witness :
    (ParseEngine.start [ParseEngine.ident "a", ParseEngine.tok Token.Semicolon]).tokens.length
        ≤ 2 ∧
    ParseEngine.makesProgress
      (ParseEngine.statement Parser.unitCode (ParseEngine.callees Parser.unitCode 2) 2)
      (ParseEngine.start [ParseEngine.ident "a", ParseEngine.tok Token.Semicolon]) ∧
    ParseEngine.whileTrue
        (ParseEngine.statement Parser.unitCode (ParseEngine.callees Parser.unitCode 2) 2) 3
        (ParseEngine.start [ParseEngine.ident "a", ParseEngine.tok Token.Semicolon])
      ≠ Outcome.outOfBudget :=
  ⟨by decide,
   (C39_parser_progress Parser.unitCode 2
      (ParseEngine.start [ParseEngine.ident "a", ParseEngine.tok Token.Semicolon])
      (by decide)).1,
   (C39_parser_progress Parser.unitCode 2
      (ParseEngine.start [ParseEngine.ident "a", ParseEngine.tok Token.Semicolon])
      (by decide)).2.2.2.2.2.2.2.1⟩

/-! ## File names -/

namespace M8r.Application

theorem isFileNameChar_eq (c : Nat) : isFileNameChar c = allowedInFileName c := by
  unfold isFileNameChar allowedInFileName isLetter isUpper isLower isDigit
  have hb : bytes "-._+" = [45, 46, 95, 43] := by decide
  rw [hb, Bool.eq_iff_iff]
  simp only [Bool.or_eq_true, Bool.and_eq_true, decide_eq_true_eq, beq_iff_eq,
    List.contains_eq_any_beq, List.any_cons, List.any_nil, Bool.or_false]
  omega

theorem cString_nil : cString [] = [] := rfl

theorem cString_cons_zero (rest : List Nat) : cString (0 :: rest) = [] := by
  simp [cString]

theorem cString_cons (c : Nat) (rest : List Nat) (h : c ≠ 0) :
    cString (c :: rest) = c :: cString rest := by
  simp [cString, h]

theorem validateFileNameLoop_ok (mem : List Nat) :
    ∀ i, i ≤ 31 →
      (validateFileNameLoop mem i = NameValidationType.Ok ↔
        (cString mem).length + i ≤ 31 ∧ ∀ c ∈ cString mem, isFileNameChar c = true) := by
  induction mem with
  | nil => intro i hi; simp [validateFileNameLoop, cString_nil, hi]
  | cons c rest ih =>
    intro i hi
    by_cases h0 : c = 0
    · subst h0
      simp [validateFileNameLoop, cString_cons_zero, hi]
    · rw [cString_cons c rest h0]
      unfold validateFileNameLoop
      rw [if_neg h0]
      by_cases h31 : i ≥ 31
      · rw [if_pos h31]
        simp only [List.length_cons, reduceCtorEq, false_iff, not_and]
        intro h; omega
      · rw [if_neg h31]
        by_cases hc : isFileNameChar c = true
        · rw [if_pos hc, ih (i + 1) (by omega)]
          simp only [List.length_cons, List.mem_cons, forall_eq_or_imp, hc, true_and]
          constructor
          · rintro ⟨h1, h2⟩; exact ⟨by omega, h2⟩
          · rintro ⟨h1, h2⟩; exact ⟨by omega, h2⟩
        · rw [if_neg hc]
          simp only [reduceCtorEq, false_iff, not_and, List.mem_cons, forall_eq_or_imp]
          intro _ h
          exact absurd h hc

theorem validateFileNameLoop_invalid (mem : List Nat) :
    ∀ i, i ≤ 31 →
      (validateFileNameLoop mem i = NameValidationType.InvalidChar ↔
        ∃ k, k < (cString mem).length ∧ k + i < 31 ∧
          isFileNameChar ((cString mem).getD k 0) = false ∧
          ∀ j, j < k → isFileNameChar ((cString mem).getD j 0) = true) := by
  induction mem with
  | nil => intro i hi; simp [validateFileNameLoop, cString_nil]
  | cons c rest ih =>
    intro i hi
    by_cases h0 : c = 0
    · subst h0
      simp [validateFileNameLoop, cString_cons_zero]
    · rw [cString_cons c rest h0]
      unfold validateFileNameLoop
      rw [if_neg h0]
      by_cases h31 : i ≥ 31
      · rw [if_pos h31]
        simp only [reduceCtorEq, false_iff, not_exists, not_and]
        intro k _ h; omega
      · rw [if_neg h31]
        by_cases hc : isFileNameChar c = true
        · rw [if_pos hc, ih (i + 1) (by omega)]
          constructor
          · rintro ⟨k, h1, h2, h3, h4⟩
            refine ⟨k + 1, by simpa using h1, by omega, by simpa using h3, ?_⟩
            intro j hj
            cases j with
            | zero => simpa using hc
            | succ j => simpa using h4 j (by omega)
          · rintro ⟨k, h1, h2, h3, h4⟩
            cases k with
            | zero => simp [hc] at h3
            | succ k =>
              refine ⟨k, by simpa using h1, by omega, by simpa using h3, ?_⟩
              intro j hj
              simpa using h4 (j + 1) (by omega)
        · rw [if_neg hc]
          simp only [true_iff]
          exact ⟨0, by simp, by omega, by simpa using hc, by intro j hj; omega⟩

theorem validateFileNameLoop_bad (mem : List Nat) :
    ∀ i, i ≤ 31 →
      (validateFileNameLoop mem i = NameValidationType.BadLength ↔
        32 ≤ (cString mem).length + i ∧
          ∀ j, j + i < 31 → isFileNameChar ((cString mem).getD j 0) = true) := by
  induction mem with
  | nil => intro i hi; simp [validateFileNameLoop, cString_nil]; omega
  | cons c rest ih =>
    intro i hi
    by_cases h0 : c = 0
    · subst h0
      simp [validateFileNameLoop, cString_cons_zero]; omega
    · rw [cString_cons c rest h0]
      unfold validateFileNameLoop
      rw [if_neg h0]
      by_cases h31 : i ≥ 31
      · rw [if_pos h31]
        simp only [true_iff, List.length_cons]
        exact ⟨by omega, by intro j hj; omega⟩
      · rw [if_neg h31]
        by_cases hc : isFileNameChar c = true
        · rw [if_pos hc, ih (i + 1) (by omega)]
          simp only [List.length_cons]
          constructor
          · rintro ⟨h1, h2⟩
            refine ⟨by omega, ?_⟩
            intro j hj
            cases j with
            | zero => simpa using hc
            | succ j => simpa using h2 j (by omega)
          · rintro ⟨h1, h2⟩
            refine ⟨by omega, ?_⟩
            intro j hj
            simpa using h2 (j + 1) (by omega)
        · rw [if_neg hc]
          simp only [reduceCtorEq, false_iff, not_and, not_forall]
          intro _
          exact ⟨0, by omega, by simpa using hc⟩

end M8r.Application

namespace M8r.Application

theorem cString_eq_nil_of_head (mem : List Nat) (h : mem.headD 0 = 0) : cString mem = [] := by
  cases mem with
  | nil => rfl
  | cons c rest =>
    simp only [List.headD_cons] at h
    subst h
    exact cString_cons_zero rest

theorem cString_length_pos_of_head (mem : List Nat) (h : ¬ mem.headD 0 = 0) :
    0 < (cString mem).length := by
  cases mem with
  | nil => simp at h
  | cons c rest =>
    simp only [List.headD_cons] at h
    rw [cString_cons c rest h]
    simp

end M8r.Application

/-- C40: `validateFileName` returns `Ok` exactly when the name has between 1
and 31 characters, all of them letters, digits or one of `-._+`; it returns
`InvalidChar` exactly when the first character outside that set is at an
index below 31 (the name is then not empty); and it returns `BadLength`
exactly when the name is the null pointer, is empty, or has 32 or more
characters of which the first 31 are all allowed. -/
theorem C40_validateFileName_characterised (name : Option (List Nat)) :
    (Application.validateFileName name = NameValidationType.Ok ↔
      1 ≤ (Application.nameChars name).length ∧ (Application.nameChars name).length ≤ 31 ∧
        ∀ c ∈ Application.nameChars name, Application.allowedInFileName c = true) ∧
    (Application.validateFileName name = NameValidationType.InvalidChar ↔
      ∃ k, k < (Application.nameChars name).length ∧ k < 31 ∧
        Application.allowedInFileName ((Application.nameChars name).getD k 0) = false ∧
        ∀ j, j < k →
          Application.allowedInFileName ((Application.nameChars name).getD j 0) = true) ∧
    (Application.validateFileName name = NameValidationType.BadLength ↔
      name = none ∨ Application.nameChars name = [] ∨
        (32 ≤ (Application.nameChars name).length ∧
          ∀ j, j < 31 →
            Application.allowedInFileName ((Application.nameChars name).getD j 0) = true)) := by
  cases name with
  | none => simp [Application.validateFileName, Application.nameChars]
  | some mem =>
    by_cases h : mem.headD 0 = 0
    · have hs := Application.cString_eq_nil_of_head mem h
      have h2 : mem.head?.getD 0 = 0 := by simpa using h
      simp [Application.validateFileName, Application.nameChars, h2, hs]
    · have hp := Application.cString_length_pos_of_head mem h
      have hne : Application.cString mem ≠ [] := by
        intro e; rw [e] at hp; simp at hp
      simp only [Application.validateFileName, Application.nameChars, if_neg h,
        ← Application.isFileNameChar_eq,
        Application.validateFileNameLoop_ok mem 0 (by omega),
        Application.validateFileNameLoop_invalid mem 0 (by omega),
        Application.validateFileNameLoop_bad mem 0 (by omega), Nat.add_zero, reduceCtorEq,
        hne, false_or]
      exact ⟨⟨fun ⟨h1, h2⟩ => ⟨hp, h1, h2⟩, fun ⟨_, h1, h2⟩ => ⟨h1, h2⟩⟩, trivial, trivial⟩
